import Mathlib

/-!
# VPR placement engine: bounding-box cache, wirelength cost and timing cache

A shallow embedding of the cost machinery of `vpr/src/place/place.cpp`: the
from-scratch and incremental bounding-box (BB) routines in their cube and
per-layer variants, the per-net wirelength cost, the channel cost factors, the
total cost, the swap assessment, the setup slack cost, the per-connection
timing cache with its delta, commit and revert routines, the parts of
`try_swap` that maintain the BB cache and the timing cache, the choice of the
BB mode, the reward of a move, the periodic recomputation of the costs, the
periodic placement save and the audits of `check_place`. A last part embeds
the simulation buffer of Odin II, `odin_ii/src/utils/atomic_buffer.h`, as one
thread sees it.

Conventions.
* C++ `int` coordinates are `Int`; ids and layer numbers are `Nat`.
* `double`/`float` costs are rationals and are computed exactly; library
  functions on floating point numbers (`std::exp`, `pow`) are parameters.
* The setup slacks, which are allocated as `+inf`, are values of `c_float`: a
  finite number, an infinity or a NaN.
* Entries of the timing arrays, which can hold the NaN `INVALID_DELAY`, are
  `Option ℚ`, `none` being the NaN.
* File-static arrays indexed by net id are functions on `Nat`.
* Assertions of the source are not part of the model unless a definition says
  so.
* An operation that is undefined in C++ (division by zero) or does not return
  (spinning on a lock that is held) gives `none`.
* Conversions to `uint8_t`, `int32_t` and `size_t` are explicit reductions
  modulo `2^8`, `2^32` and `2^64`.
-/

namespace Place

/-! ## Data model -/

/-- Modelled from the spec: the constant `SMALL_NET` (declared in `vpr_types.h`), the number of
sinks below which the brute-force bounding box is used; the spec gives `SMALL_NET = 4`. -/
def SMALL_NET : Nat := 4

/-- Bounding box record `t_bb`: used both for coordinates and for the number of pins on each
edge. -/
structure t_bb where
  xmin : Int
  xmax : Int
  ymin : Int
  ymax : Int
deriving DecidableEq, Repr

/-- Block location `t_pl_loc`. -/
structure t_pl_loc where
  x : Int
  y : Int
  sub_tile : Int
  layer : Nat
deriving DecidableEq, Repr

/-- Pin tile location `t_physical_tile_loc`. -/
structure t_physical_tile_loc where
  x : Int
  y : Int
  layer_num : Nat
deriving DecidableEq, Repr

/-- The part of `device_ctx.grid` that the placer cost code reads. -/
structure DeviceGrid where
  width : Nat
  height : Nat
  num_layers : Nat
deriving DecidableEq, Repr

/-- The part of `cluster_ctx.clb_nlist` and of the physical tile tables that the BB code reads.
`net_driver n` is `net_pin(n, 0)`, `net_sinks n` the remaining pins of the net.
`pin_width_offset b p` stands for `physical_tile_type(b)->pin_width_offset[p]` (the tile type
table is not part of the modelled sources and is constant while a swap is evaluated). -/
structure ClusteredNetlist where
  num_nets : Nat
  num_blocks : Nat
  net_driver : Nat → Nat
  net_sinks : Nat → List Nat
  net_is_ignored : Nat → Bool
  block_pins : Nat → List Nat
  pin_net : Nat → Nat
  pin_block : Nat → Nat
  pin_is_driver : Nat → Bool
  tile_pin_index : Nat → Nat
  pin_width_offset : Nat → Nat → Int
  pin_height_offset : Nat → Nat → Int

/-- All pins of a net, driver first: `clb_nlist.net_pins(net_id)`. -/
def ClusteredNetlist.net_pins (nl : ClusteredNetlist) (net_id : Nat) : List Nat :=
  nl.net_driver net_id :: nl.net_sinks net_id

/-- Block of the driver pin: `clb_nlist.net_driver_block(net_id)`. -/
def ClusteredNetlist.net_driver_block (nl : ClusteredNetlist) (net_id : Nat) : Nat :=
  nl.pin_block (nl.net_driver net_id)

/-- Tile pin index of the driver: `net_pin_to_tile_pin_index(net_id, 0)`. -/
def ClusteredNetlist.net_driver_tile_pin_index (nl : ClusteredNetlist) (net_id : Nat) : Nat :=
  nl.tile_pin_index (nl.net_driver net_id)

/-- Flags for the state of a bounding box during one swap: the characters `N`, `U`, `S`. -/
inductive BBFlag where
  | NOT_UPDATED_YET
  | UPDATED_ONCE
  | GOT_FROM_SCRATCH
deriving DecidableEq, Repr

/-- The `max(min<int>(v, dim - 2), 1)` clipping applied to every pin coordinate. -/
def clip_coord (v : Int) (dim : Nat) : Int :=
  max (min v ((dim : Int) - 2)) 1

/-- Pin x coordinate: `block_locs[bnum].loc.x + physical_tile_type(bnum)->pin_width_offset[pnum]`. -/
def pin_x (nl : ClusteredNetlist) (block_locs : Nat → t_pl_loc) (bnum pnum : Nat) : Int :=
  (block_locs bnum).x + nl.pin_width_offset bnum pnum

/-- Pin y coordinate: `block_locs[bnum].loc.y + physical_tile_type(bnum)->pin_height_offset[pnum]`. -/
def pin_y (nl : ClusteredNetlist) (block_locs : Nat → t_pl_loc) (bnum pnum : Nat) : Int :=
  (block_locs bnum).y + nl.pin_height_offset bnum pnum

/-- The four per-axis quantities of a bounding box: the two extrema and the number of pins on
each of them. -/
structure AxisBB where
  lo : Int
  hi : Int
  lo_edge : Int
  hi_edge : Int
deriving DecidableEq, Repr

/-- The x axis of a (coordinates, edge counts) pair. -/
def axis_x (coord edge : t_bb) : AxisBB :=
  { lo := coord.xmin, hi := coord.xmax, lo_edge := edge.xmin, hi_edge := edge.xmax }

/-- The y axis of a (coordinates, edge counts) pair. -/
def axis_y (coord edge : t_bb) : AxisBB :=
  { lo := coord.ymin, hi := coord.ymax, lo_edge := edge.ymin, hi_edge := edge.ymax }

/-- Coordinates of a box given by its two axes. -/
def coords_of (ax ay : AxisBB) : t_bb :=
  { xmin := ax.lo, xmax := ax.hi, ymin := ay.lo, ymax := ay.hi }

/-- Edge counts of a box given by its two axes. -/
def edges_of (ax ay : AxisBB) : t_bb :=
  { xmin := ax.lo_edge, xmax := ax.hi_edge, ymin := ay.lo_edge, ymax := ay.hi_edge }

/-! ## From-scratch bounding boxes -/

/-- One pass of the sink loop body of `get_bb_from_scratch` on one axis (the code for `x`,
place.cpp 2870-2881, and for `y`, 2883-2894, is the same up to renaming). -/
def scratch_axis_step (a : AxisBB) (x : Int) : AxisBB :=
  let lo_edge := if x = a.lo then a.lo_edge + 1 else a.lo_edge
  if x = a.hi then
    { lo := a.lo, hi := a.hi, lo_edge := lo_edge, hi_edge := a.hi_edge + 1 }
  else if x < a.lo then
    { lo := x, hi := a.hi, lo_edge := 1, hi_edge := a.hi_edge }
  else if x > a.hi then
    { lo := a.lo, hi := x, lo_edge := lo_edge, hi_edge := 1 }
  else
    { lo := a.lo, hi := a.hi, lo_edge := lo_edge, hi_edge := a.hi_edge }

/-- The local variables of `get_bb_from_scratch` while it scans the sinks. -/
structure ScratchVars where
  ax : AxisBB
  ay : AxisBB
  num_sink_pin_layer : Nat → Int

/-- The loop `for layer_num < num_layers: num_sink_pin_layer[layer_num] = 0`. -/
def reset_layer_counts (num_layers : Nat) (cnt : Nat → Int) : Nat → Int :=
  fun layer_num => if layer_num < num_layers then 0 else cnt layer_num

/-- The statement `num_sink_pin_layer[layer]++`. -/
def incr_layer_count (cnt : Nat → Int) (layer : Nat) : Nat → Int :=
  Function.update cnt layer (cnt layer + 1)

/-- Body of the sink loop of `get_bb_from_scratch`. -/
def scratch_sink_step (nl : ClusteredNetlist) (grid : DeviceGrid) (block_locs : Nat → t_pl_loc)
    (v : ScratchVars) (pin_id : Nat) : ScratchVars :=
  let bnum := nl.pin_block pin_id
  let pnum := nl.tile_pin_index pin_id
  let x := clip_coord (pin_x nl block_locs bnum pnum) grid.width
  let y := clip_coord (pin_y nl block_locs bnum pnum) grid.height
  let pin_layer := (block_locs bnum).layer
  { ax := scratch_axis_step v.ax x
    ay := scratch_axis_step v.ay y
    num_sink_pin_layer := incr_layer_count v.num_sink_pin_layer pin_layer }

/-- Result of a bounding box computation: coordinates, edge counts, per-layer sink counts. -/
structure BBResult where
  coords : t_bb
  num_on_edges : t_bb
  num_sink_pin_layer : Nat → Int

/-- Function `get_bb_from_scratch` (place.cpp 2815-2910): the bounding box of a net from the
block locations alone, with the number of pins on each edge. The last argument is the previous
content of the per-layer sink count row that the routine overwrites. -/
def get_bb_from_scratch (nl : ClusteredNetlist) (grid : DeviceGrid)
    (block_locs : Nat → t_pl_loc) (net_id : Nat) (num_sink_pin_layer : Nat → Int) : BBResult :=
  let bnum := nl.net_driver_block net_id
  let pnum := nl.net_driver_tile_pin_index net_id
  let x := clip_coord (pin_x nl block_locs bnum pnum) grid.width
  let y := clip_coord (pin_y nl block_locs bnum pnum) grid.height
  let init : ScratchVars :=
    { ax := { lo := x, hi := x, lo_edge := 1, hi_edge := 1 }
      ay := { lo := y, hi := y, lo_edge := 1, hi_edge := 1 }
      num_sink_pin_layer := reset_layer_counts grid.num_layers num_sink_pin_layer }
  let v := (nl.net_sinks net_id).foldl (scratch_sink_step nl grid block_locs) init
  { coords := coords_of v.ax v.ay
    num_on_edges := edges_of v.ax v.ay
    num_sink_pin_layer := v.num_sink_pin_layer }

/-- The `if (x < xmin) xmin = x; else if (x > xmax) xmax = x;` step of `get_non_updateable_bb`,
on one axis, as a (min, max) pair. -/
def hull_axis_step (a : Int × Int) (x : Int) : Int × Int :=
  if x < a.1 then (x, a.2) else if x > a.2 then (a.1, x) else a

/-- The local variables of `get_non_updateable_bb` while it scans the sinks. -/
structure HullVars where
  hx : Int × Int
  hy : Int × Int
  num_sink_pin_layer : Nat → Int

/-- Body of the sink loop of `get_non_updateable_bb`. -/
def hull_sink_step (nl : ClusteredNetlist) (block_locs : Nat → t_pl_loc)
    (v : HullVars) (pin_id : Nat) : HullVars :=
  let bnum := nl.pin_block pin_id
  let pnum := nl.tile_pin_index pin_id
  let x := pin_x nl block_locs bnum pnum
  let y := pin_y nl block_locs bnum pnum
  let layer := (block_locs bnum).layer
  { hx := hull_axis_step v.hx x
    hy := hull_axis_step v.hy y
    num_sink_pin_layer := incr_layer_count v.num_sink_pin_layer layer }

/-- Function `get_non_updateable_bb` (place.cpp 3159-3224): min and max over all pins, then
clipped to the inner grid. Returns the coordinates and the per-layer sink counts. -/
def get_non_updateable_bb (nl : ClusteredNetlist) (grid : DeviceGrid)
    (block_locs : Nat → t_pl_loc) (net_id : Nat) (num_sink_pin_layer : Nat → Int) :
    t_bb × (Nat → Int) :=
  let bnum := nl.net_driver_block net_id
  let pnum := nl.net_driver_tile_pin_index net_id
  let x := pin_x nl block_locs bnum pnum
  let y := pin_y nl block_locs bnum pnum
  let init : HullVars :=
    { hx := (x, x), hy := (y, y)
      num_sink_pin_layer := reset_layer_counts grid.num_layers num_sink_pin_layer }
  let v := (nl.net_sinks net_id).foldl (hull_sink_step nl block_locs) init
  ({ xmin := clip_coord v.hx.1 grid.width
     ymin := clip_coord v.hy.1 grid.height
     xmax := clip_coord v.hx.2 grid.width
     ymax := clip_coord v.hy.2 grid.height }, v.num_sink_pin_layer)

/-! ## Wirelength cost -/

/-- The table `cross_count[50]` (place.cpp 170-176): expected crossing counts by fanout. -/
def cross_count : List ℚ :=
  [1.0, 1.0, 1.0, 1.0828,
   1.1536, 1.2206, 1.2823, 1.3385, 1.3991, 1.4493, 1.4974, 1.5455, 1.5937,
   1.6418, 1.6899, 1.7304, 1.7709, 1.8114, 1.8519, 1.8924, 1.9288, 1.9652,
   2.0015, 2.0379, 2.0743, 2.1061, 2.1379, 2.1698, 2.2016, 2.2334, 2.2646,
   2.2958, 2.3271, 2.3583, 2.3895, 2.4187, 2.4479, 2.4772, 2.5064, 2.5356,
   2.5610, 2.5864, 2.6117, 2.6371, 2.6625, 2.6887, 2.7148, 2.7410, 2.7671,
   2.7933]

/-- Conversion of an `int` to `size_t` (64 bit), as happens when an `int` indexes a matrix. -/
def size_t_of_int (i : Int) : Nat :=
  (i % (2 ^ 64 : Int)).toNat

/-- Function `wirelength_crossing_count` (place.cpp 3025-3034). The index `fanout - 1` is computed
in `size_t`; a read outside the table (only for `fanout = 0`) is modelled as `0`. -/
def wirelength_crossing_count (fanout : Nat) : ℚ :=
  if fanout > 50 then
    2.7933 + 0.02616 * (((fanout - 50 : Nat) : ℚ))
  else
    cross_count.getD ((fanout + 2 ^ 64 - 1) % 2 ^ 64) 0

/-- The two file-static matrices `chanx_place_cost_fac` and `chany_place_cost_fac`, accessed as
`[high][low]`. -/
structure CostFac where
  chanx_place_cost_fac : Nat → Nat → ℚ
  chany_place_cost_fac : Nat → Nat → ℚ

/-- Function `get_net_cost` (place.cpp 3092-3116): the wirelength cost of one net from its
bounding box. -/
def get_net_cost (nl : ClusteredNetlist) (fac : CostFac) (net_id : Nat) (bbptr : t_bb) : ℚ :=
  let crossing := wirelength_crossing_count (nl.net_pins net_id).length
  let ncost := ((bbptr.xmax - bbptr.xmin + 1 : Int) : ℚ) * crossing
    * fac.chanx_place_cost_fac (size_t_of_int bbptr.ymax) (size_t_of_int (bbptr.ymin - 1))
  ncost + ((bbptr.ymax - bbptr.ymin + 1 : Int) : ℚ) * crossing
    * fac.chany_place_cost_fac (size_t_of_int bbptr.xmax) (size_t_of_int (bbptr.xmin - 1))

/-- Assignment `m[high][low] = v` on a matrix. -/
def mat_set (m : Nat → Nat → ℚ) (high low : Nat) (v : ℚ) : Nat → Nat → ℚ :=
  Function.update m high (Function.update (m high) low v)

/-- First pass of `alloc_and_load_for_fast_cost_update` for one direction (place.cpp 3900-3908):
the number of tracks between channel `low` and channel `high`, inclusive. -/
def load_chan_sums (n : Nat) (width_list : Nat → Int) (m : Nat → Nat → ℚ) : Nat → Nat → ℚ :=
  (List.range' 1 (n - 1)).foldl
    (fun m high =>
      (List.range high).foldl
        (fun m low => mat_set m high low (m (high - 1) low + (width_list high : ℚ)))
        (mat_set m high high (width_list high)))
    (mat_set m 0 0 (width_list 0))

/-- Body of the second pass (place.cpp 3925-3934) at one entry. -/
def invert_chan_entry (pow : ℚ → ℚ → ℚ) (place_cost_exp : ℚ) (m : Nat → Nat → ℚ)
    (high low : Nat) : Nat → Nat → ℚ :=
  let m1 := if m high low = 0 then mat_set m high low 1 else m
  let m2 := mat_set m1 high low ((((high - low : Nat) : ℚ) + 1) / m1 high low)
  mat_set m2 high low (pow (m2 high low) place_cost_exp)

/-- Second pass of `alloc_and_load_for_fast_cost_update` for one direction (place.cpp
3918-3935): the inverse of the average number of tracks per channel, to the power
`place_cost_exp`. -/
def invert_chan_sums (pow : ℚ → ℚ → ℚ) (place_cost_exp : ℚ) (n : Nat)
    (m : Nat → Nat → ℚ) : Nat → Nat → ℚ :=
  (List.range n).foldl
    (fun m high => (List.range (high + 1)).foldl
      (fun m low => invert_chan_entry pow place_cost_exp m high low) m)
    m

/-- Channel widths `device_ctx.chan_width`. -/
structure t_chan_width where
  x_list : Nat → Int
  y_list : Nat → Int

/-- Function `alloc_and_load_for_fast_cost_update` (place.cpp 3867-3971). `pow` is the library
function of that name; entries that the routine does not write keep their previous content. -/
def alloc_and_load_for_fast_cost_update (pow : ℚ → ℚ → ℚ) (grid : DeviceGrid)
    (chan_width : t_chan_width) (place_cost_exp : ℚ) (fac : CostFac) : CostFac :=
  { chanx_place_cost_fac :=
      invert_chan_sums pow place_cost_exp grid.height
        (load_chan_sums grid.height chan_width.x_list fac.chanx_place_cost_fac)
    chany_place_cost_fac :=
      invert_chan_sums pow place_cost_exp grid.width
        (load_chan_sums grid.width chan_width.y_list fac.chany_place_cost_fac) }

/-! ## Placer state and the incremental update -/

/-- The placement context and the file-static arrays of place.cpp that the BB code touches. -/
structure PlacerState where
  block_locs : Nat → t_pl_loc
  bb_coords : Nat → t_bb
  bb_num_on_edges : Nat → t_bb
  num_sink_pin_layer : Nat → Nat → Int
  net_cost : Nat → ℚ
  proposed_net_cost : Nat → ℚ
  bb_updated_before : Nat → BBFlag
  ts_bb_edge_new : Nat → t_bb
  ts_bb_coord_new : Nat → t_bb
  ts_layer_sink_pin_count : Nat → Nat → Int
  ts_nets_to_update : Nat → Nat

/-- The "Now do the xmin fields" part of `update_bb` (place.cpp 3367-3376, and 3440-3449 for
`y`), given the already updated max fields. -/
def update_lo_fields (curr : AxisBB) (pin_new hi hi_edge : Int) : AxisBB :=
  if pin_new < curr.lo then
    { lo := pin_new, hi := hi, lo_edge := 1, hi_edge := hi_edge }
  else if pin_new = curr.lo then
    { lo := pin_new, hi := hi, lo_edge := curr.lo_edge + 1, hi_edge := hi_edge }
  else
    { lo := curr.lo, hi := hi, lo_edge := curr.lo_edge, hi_edge := hi_edge }

/-- The "Now do the xmax fields" part of `update_bb` (place.cpp 3399-3408, and 3472-3481 for
`y`), given the already updated min fields. -/
def update_hi_fields (curr : AxisBB) (pin_new lo lo_edge : Int) : AxisBB :=
  if pin_new > curr.hi then
    { lo := lo, hi := pin_new, lo_edge := lo_edge, hi_edge := 1 }
  else if pin_new = curr.hi then
    { lo := lo, hi := pin_new, lo_edge := lo_edge, hi_edge := curr.hi_edge + 1 }
  else
    { lo := lo, hi := curr.hi, lo_edge := lo_edge, hi_edge := curr.hi_edge }

/-- One axis of the incremental update of `update_bb` (place.cpp 3347-3416 for `x`, 3420-3489
for `y`). The result `none` is the branch that calls `get_bb_from_scratch` and returns. -/
def update_axis (curr : AxisBB) (pin_old pin_new : Int) : Option AxisBB :=
  if pin_new < pin_old then
    if pin_old = curr.hi then
      if curr.hi_edge = 1 then none
      else some (update_lo_fields curr pin_new curr.hi (curr.hi_edge - 1))
    else some (update_lo_fields curr pin_new curr.hi curr.hi_edge)
  else if pin_new > pin_old then
    if pin_old = curr.lo then
      if curr.lo_edge = 1 then none
      else some (update_hi_fields curr pin_new curr.lo (curr.lo_edge - 1))
    else some (update_hi_fields curr pin_new curr.lo curr.lo_edge)
  else
    some curr

/-- The branch `get_bb_from_scratch(net_id, bb_coord_new, bb_edge_new, num_sink_pin_layer_new);
bb_updated_before[net_id] = GOT_FROM_SCRATCH; return;` of `update_bb`. -/
def update_bb_from_scratch (nl : ClusteredNetlist) (grid : DeviceGrid) (s : PlacerState)
    (net_id : Nat) : PlacerState :=
  let r := get_bb_from_scratch nl grid s.block_locs net_id (s.ts_layer_sink_pin_count net_id)
  { s with
    ts_bb_coord_new := Function.update s.ts_bb_coord_new net_id r.coords
    ts_bb_edge_new := Function.update s.ts_bb_edge_new net_id r.num_on_edges
    ts_layer_sink_pin_count := Function.update s.ts_layer_sink_pin_count net_id r.num_sink_pin_layer
    bb_updated_before := Function.update s.bb_updated_before net_id BBFlag.GOT_FROM_SCRATCH }

/-- The "Now account for the layer motion" part of `update_bb` (place.cpp 3491-3504). -/
def update_layer_counts (num_layers : Nat) (curr new_cnt : Nat → Int)
    (old_layer new_layer : Nat) (src_pin : Bool) : Nat → Int :=
  if num_layers > 1 then
    let copied : Nat → Int := fun l => if l < num_layers then curr l else new_cnt l
    if !src_pin then
      if old_layer ≠ new_layer then
        Function.update (Function.update copied old_layer (curr old_layer - 1))
          new_layer (curr new_layer + 1)
      else copied
    else copied
  else new_cnt

/-- Function `update_bb` (place.cpp 3294-3509), called with the reference arguments
`ts_bb_edge_new[net_id]`, `ts_bb_coord_new[net_id]` and `ts_layer_sink_pin_count[net_id]`, as
`update_net_bb` does. Every field of the current box is read before the field of the same name
is written, so reading the current box once at the start gives the same result as the
aliased pointers of the source. -/
def update_bb (nl : ClusteredNetlist) (grid : DeviceGrid) (s : PlacerState) (net_id : Nat)
    (pin_old_loc pin_new_loc : t_physical_tile_loc) (src_pin : Bool) : PlacerState :=
  let new_x := clip_coord pin_new_loc.x grid.width
  let new_y := clip_coord pin_new_loc.y grid.height
  let old_x := clip_coord pin_old_loc.x grid.width
  let old_y := clip_coord pin_old_loc.y grid.height
  if s.bb_updated_before net_id = BBFlag.GOT_FROM_SCRATCH then s
  else
    let not_yet := decide (s.bb_updated_before net_id = BBFlag.NOT_UPDATED_YET)
    let curr_num_sink_pin_layer :=
      if not_yet then s.num_sink_pin_layer net_id else s.ts_layer_sink_pin_count net_id
    let curr_bb_edge := if not_yet then s.bb_num_on_edges net_id else s.ts_bb_edge_new net_id
    let curr_bb_coord := if not_yet then s.bb_coords net_id else s.ts_bb_coord_new net_id
    let s1 : PlacerState :=
      if not_yet then
        { s with bb_updated_before :=
            Function.update s.bb_updated_before net_id BBFlag.UPDATED_ONCE }
      else s
    match update_axis (axis_x curr_bb_coord curr_bb_edge) old_x new_x with
    | none => update_bb_from_scratch nl grid s1 net_id
    | some ax =>
      match update_axis (axis_y curr_bb_coord curr_bb_edge) old_y new_y with
      | none => update_bb_from_scratch nl grid s1 net_id
      | some ay =>
        let s2 : PlacerState :=
          { s1 with
            ts_bb_coord_new := Function.update s1.ts_bb_coord_new net_id (coords_of ax ay)
            ts_bb_edge_new := Function.update s1.ts_bb_edge_new net_id (edges_of ax ay)
            ts_layer_sink_pin_count :=
              Function.update s1.ts_layer_sink_pin_count net_id
                (update_layer_counts grid.num_layers curr_num_sink_pin_layer
                  (s1.ts_layer_sink_pin_count net_id)
                  pin_old_loc.layer_num pin_new_loc.layer_num src_pin) }
        if s2.bb_updated_before net_id = BBFlag.NOT_UPDATED_YET then
          { s2 with bb_updated_before :=
              Function.update s2.bb_updated_before net_id BBFlag.UPDATED_ONCE }
        else s2

/-- One entry of `blocks_affected.moved_blocks`. -/
structure t_pl_moved_block where
  block_num : Nat
  old_loc : t_pl_loc
  new_loc : t_pl_loc
deriving DecidableEq, Repr

/-- Function `update_net_bb` (place.cpp 2119-2160); `mb` is `blocks_affected.moved_blocks[iblk]`
and `blk = mb.block_num`. -/
def update_net_bb (nl : ClusteredNetlist) (grid : DeviceGrid) (s : PlacerState) (net : Nat)
    (mb : t_pl_moved_block) (blk_pin : Nat) : PlacerState :=
  if (nl.net_sinks net).length < SMALL_NET then
    if s.bb_updated_before net = BBFlag.NOT_UPDATED_YET then
      let r := get_non_updateable_bb nl grid s.block_locs net (s.ts_layer_sink_pin_count net)
      { s with
        ts_bb_coord_new := Function.update s.ts_bb_coord_new net r.1
        ts_layer_sink_pin_count := Function.update s.ts_layer_sink_pin_count net r.2 }
    else s
  else
    let iblk_pin := nl.tile_pin_index blk_pin
    let src_pin := nl.pin_is_driver blk_pin
    let pin_width_offset := nl.pin_width_offset mb.block_num iblk_pin
    let pin_height_offset := nl.pin_height_offset mb.block_num iblk_pin
    let pin_old_loc : t_physical_tile_loc :=
      { x := mb.old_loc.x + pin_width_offset, y := mb.old_loc.y + pin_height_offset
        layer_num := mb.old_loc.layer }
    let pin_new_loc : t_physical_tile_loc :=
      { x := mb.new_loc.x + pin_width_offset, y := mb.new_loc.y + pin_height_offset
        layer_num := mb.new_loc.layer }
    update_bb nl grid s net pin_old_loc pin_new_loc src_pin

/-- Function `record_affected_net` (place.cpp 2100-2111). -/
def record_affected_net (s : PlacerState) (net : Nat) (num_affected_nets : Nat) :
    PlacerState × Nat :=
  if s.proposed_net_cost net < 0 then
    ({ s with
       ts_nets_to_update := Function.update s.ts_nets_to_update num_affected_nets net
       proposed_net_cost := Function.update s.proposed_net_cost net 1 },
     num_affected_nets + 1)
  else (s, num_affected_nets)

/-- Body of the pin loop of `find_affected_nets_and_update_costs` (place.cpp 2050-2075) in cube
BB mode. The call of `update_td_delta_costs` writes only timing data and is not part of this
state. -/
def affected_pin_step (nl : ClusteredNetlist) (grid : DeviceGrid) (mb : t_pl_moved_block)
    (acc : PlacerState × Nat) (blk_pin : Nat) : PlacerState × Nat :=
  let net_id := nl.pin_net blk_pin
  if nl.net_is_ignored net_id then acc
  else
    let r := record_affected_net acc.1 net_id acc.2
    (update_net_bb nl grid r.1 net_id mb blk_pin, r.2)

/-- Body of the block loop of `find_affected_nets_and_update_costs` (place.cpp 2046-2076). -/
def affected_block_step (nl : ClusteredNetlist) (grid : DeviceGrid)
    (acc : PlacerState × Nat) (mb : t_pl_moved_block) : PlacerState × Nat :=
  (nl.block_pins mb.block_num).foldl (affected_pin_step nl grid mb) acc

/-- Body of the cost loop of `find_affected_nets_and_update_costs` (place.cpp 2080-2094). -/
def proposed_cost_step (nl : ClusteredNetlist) (fac : CostFac)
    (acc : PlacerState × ℚ) (inet_affected : Nat) : PlacerState × ℚ :=
  let net_id := acc.1.ts_nets_to_update inet_affected
  let c := get_net_cost nl fac net_id (acc.1.ts_bb_coord_new net_id)
  ({ acc.1 with proposed_net_cost := Function.update acc.1.proposed_net_cost net_id c },
   acc.2 + (c - acc.1.net_cost net_id))

/-- What `find_affected_nets_and_update_costs` leaves behind: the state, `bb_delta_c` and the
returned number of affected nets. -/
structure AffectedResult where
  state : PlacerState
  bb_delta_c : ℚ
  num_affected_nets : Nat

/-- Function `find_affected_nets_and_update_costs` (place.cpp 2030-2097) in cube BB mode. -/
def find_affected_nets_and_update_costs (nl : ClusteredNetlist) (grid : DeviceGrid)
    (fac : CostFac) (moved_blocks : List t_pl_moved_block) (s : PlacerState) : AffectedResult :=
  let r1 := moved_blocks.foldl (affected_block_step nl grid) (s, 0)
  let r2 := (List.range r1.2).foldl (proposed_cost_step nl fac) (r1.1, 0)
  { state := r2.1, bb_delta_c := r2.2, num_affected_nets := r1.2 }

/-- Body of the loop of `update_move_nets` (place.cpp 1594-1621) in cube BB mode. -/
def update_move_nets_step (nl : ClusteredNetlist) (grid : DeviceGrid) (s : PlacerState)
    (inet_affected : Nat) : PlacerState :=
  let net_id := s.ts_nets_to_update inet_affected
  { s with
    bb_coords := Function.update s.bb_coords net_id (s.ts_bb_coord_new net_id)
    num_sink_pin_layer := Function.update s.num_sink_pin_layer net_id
      (fun layer_num =>
        if layer_num < grid.num_layers then s.ts_layer_sink_pin_count net_id layer_num
        else s.num_sink_pin_layer net_id layer_num)
    bb_num_on_edges :=
      if (nl.net_sinks net_id).length ≥ SMALL_NET then
        Function.update s.bb_num_on_edges net_id (s.ts_bb_edge_new net_id)
      else s.bb_num_on_edges
    net_cost := Function.update s.net_cost net_id (s.proposed_net_cost net_id)
    proposed_net_cost := Function.update s.proposed_net_cost net_id (-1)
    bb_updated_before := Function.update s.bb_updated_before net_id BBFlag.NOT_UPDATED_YET }

/-- Function `update_move_nets` (place.cpp 1588-1622) in cube BB mode. -/
def update_move_nets (nl : ClusteredNetlist) (grid : DeviceGrid) (num_nets_affected : Nat)
    (s : PlacerState) : PlacerState :=
  (List.range num_nets_affected).foldl (update_move_nets_step nl grid) s

/-- Body of the loop of `reset_move_nets` (place.cpp 1626-1631). -/
def reset_move_nets_step (s : PlacerState) (inet_affected : Nat) : PlacerState :=
  let net_id := s.ts_nets_to_update inet_affected
  { s with
    proposed_net_cost := Function.update s.proposed_net_cost net_id (-1)
    bb_updated_before := Function.update s.bb_updated_before net_id BBFlag.NOT_UPDATED_YET }

/-- Function `reset_move_nets` (place.cpp 1624-1632). -/
def reset_move_nets (num_nets_affected : Nat) (s : PlacerState) : PlacerState :=
  (List.range num_nets_affected).foldl reset_move_nets_step s

/-- Modelled from the spec: `apply_move_blocks` (move_transactions.cpp is not among the modelled
sources): "mutate block→location for every displaced block". -/
def apply_move_blocks (moved_blocks : List t_pl_moved_block) (s : PlacerState) : PlacerState :=
  { s with
    block_locs := (moved_blocks.foldl
      (fun locs mb => Function.update locs mb.block_num mb.new_loc) s.block_locs) }

/-- Modelled from the spec: `revert_move_blocks` (move_transactions.cpp is not among the modelled
sources): "restore block→location" of every displaced block. -/
def revert_move_blocks (moved_blocks : List t_pl_moved_block) (s : PlacerState) : PlacerState :=
  { s with
    block_locs := (moved_blocks.foldl
      (fun locs mb => Function.update locs mb.block_num mb.old_loc) s.block_locs) }

/-! ## Costs from scratch -/

/-- The methods of `comp_bb_cost`. -/
inductive e_cost_methods where
  | NORMAL
  | CHECK
deriving DecidableEq, Repr

/-- Body of the net loop of `comp_bb_cost` (place.cpp 2560-2581). The wirelength estimate that
the CHECK method only logs is left out. -/
def comp_bb_cost_step (nl : ClusteredNetlist) (grid : DeviceGrid) (fac : CostFac)
    (method : e_cost_methods) (acc : PlacerState × ℚ) (net_id : Nat) : PlacerState × ℚ :=
  if !nl.net_is_ignored net_id then
    let s := acc.1
    let s1 : PlacerState :=
      if (nl.net_sinks net_id).length ≥ SMALL_NET ∧ method = e_cost_methods.NORMAL then
        let r := get_bb_from_scratch nl grid s.block_locs net_id (s.num_sink_pin_layer net_id)
        { s with
          bb_coords := Function.update s.bb_coords net_id r.coords
          bb_num_on_edges := Function.update s.bb_num_on_edges net_id r.num_on_edges
          num_sink_pin_layer := Function.update s.num_sink_pin_layer net_id r.num_sink_pin_layer }
      else
        let r := get_non_updateable_bb nl grid s.block_locs net_id (s.num_sink_pin_layer net_id)
        { s with
          bb_coords := Function.update s.bb_coords net_id r.1
          num_sink_pin_layer := Function.update s.num_sink_pin_layer net_id r.2 }
    let c := get_net_cost nl fac net_id (s1.bb_coords net_id)
    ({ s1 with net_cost := Function.update s1.net_cost net_id c }, acc.2 + c)
  else acc

/-- Function `comp_bb_cost` (place.cpp 2554-2589): returns the state it leaves and the cost. -/
def comp_bb_cost (nl : ClusteredNetlist) (grid : DeviceGrid) (fac : CostFac)
    (method : e_cost_methods) (s : PlacerState) : PlacerState × ℚ :=
  (List.range nl.num_nets).foldl (comp_bb_cost_step nl grid fac method) (s, 0)

/-- Function `recompute_bb_cost` (place.cpp 2436-2453). -/
def recompute_bb_cost (nl : ClusteredNetlist) (s : PlacerState) : ℚ :=
  (List.range nl.num_nets).foldl
    (fun cost net_id => if !nl.net_is_ignored net_id then cost + s.net_cost net_id else cost) 0

/-! ## Assessing and performing a swap -/

/-- Result of a swap attempt, `e_move_result`. -/
inductive e_move_result where
  | REJECTED
  | ACCEPTED
  | ABORTED
deriving DecidableEq, Repr

/-- Result of a move proposal, `e_create_move`. -/
inductive e_create_move where
  | VALID
  | ABORT
deriving DecidableEq, Repr

/-- The placement algorithms of `t_place_algorithm`. -/
inductive e_place_algorithm where
  | BOUNDING_BOX_PLACE
  | CRITICALITY_TIMING_PLACE
  | SLACK_TIMING_PLACE
deriving DecidableEq, Repr

/-- Method `t_place_algorithm::is_timing_driven`. -/
def e_place_algorithm.is_timing_driven : e_place_algorithm → Bool
  | e_place_algorithm.BOUNDING_BOX_PLACE => false
  | _ => true

/-- Function `assess_swap` (place.cpp 2413-2434). `exp` is `std::exp`, `frand` is `vtr::frand`
acting on the state `rng` of the random number generator. -/
def assess_swap {σ : Type} (exp : ℚ → ℚ) (frand : σ → ℚ × σ) (delta_c t : ℚ) (rng : σ) :
    e_move_result × σ :=
  if delta_c ≤ 0 then (e_move_result.ACCEPTED, rng)
  else if t = 0 then (e_move_result.REJECTED, rng)
  else
    let draw := frand rng
    let fnum := draw.1
    let prob_fac := exp (-delta_c / t)
    if prob_fac > fnum then (e_move_result.ACCEPTED, draw.2)
    else (e_move_result.REJECTED, draw.2)

/-- The fields of `t_placer_costs` used by `try_swap` (NoC terms left out). -/
structure t_placer_costs where
  cost : ℚ
  bb_cost : ℚ
  timing_cost : ℚ
  bb_cost_norm : ℚ
  timing_cost_norm : ℚ
deriving DecidableEq, Repr

/-- The options and annealing state that `try_swap` reads. -/
structure SwapOpts where
  place_algorithm : e_place_algorithm
  timing_tradeoff : ℚ
  noc : Bool
  t : ℚ

/-- What `try_swap` takes from outside the BB code during one call: the proposal of the move
generator, the number in `timing_delta_c` after `find_affected_nets_and_update_costs` (the
timing arrays behind it are the matter of `find_affected_nets_and_update_td_costs`), the setup
slack cost, the NoC delta, the recomputed timing cost, the user decision for a manual move
and the state of the random number generator when `assess_swap` is reached. -/
structure SwapInputs (σ : Type) where
  create_move_outcome : e_create_move
  moved_blocks : List t_pl_moved_block
  timing_delta_c : ℚ
  setup_slack_cost : ℚ
  noc_delta_cost : ℚ
  recomputed_timing_cost : ℚ
  manual_move_outcome : Option e_move_result
  rng : σ

/-- The `delta_c` that `try_swap` hands to `assess_swap` (place.cpp 1772-1829). -/
def swap_delta_c (opts : SwapOpts) (costs : t_placer_costs)
    (bb_delta_c timing_delta_c setup_slack_cost noc_delta_cost : ℚ) : ℚ :=
  let delta_c :=
    match opts.place_algorithm with
    | e_place_algorithm.SLACK_TIMING_PLACE => setup_slack_cost * costs.timing_cost_norm
    | e_place_algorithm.CRITICALITY_TIMING_PLACE =>
      (1 - opts.timing_tradeoff) * bb_delta_c * costs.bb_cost_norm
        + opts.timing_tradeoff * timing_delta_c * costs.timing_cost_norm
    | e_place_algorithm.BOUNDING_BOX_PLACE => bb_delta_c * costs.bb_cost_norm
  if opts.noc then delta_c + noc_delta_cost else delta_c

/-- The statement `if (manual_move_enabled) move_outcome = pl_do_manual_move(...)` of `try_swap`
(place.cpp 1836-1838): for a manual move the decision of the user replaces the assessment. -/
def manual_override (manual_move_outcome : Option e_move_result) (assessed : e_move_result) :
    e_move_result :=
  match manual_move_outcome with
  | some m => m
  | none => assessed

/-- What one call of `try_swap` leaves behind. -/
structure SwapResult where
  move_outcome : e_move_result
  state : PlacerState
  costs : t_placer_costs
  bb_delta_c : ℚ

/-- Function `try_swap` (place.cpp 1650-1975) in cube BB mode, on the block locations, the BB
cache and the costs. The inverse grid map, the timing arrays, the statistics and the reward of
the move generator are not part of this state. -/
def try_swap {σ : Type} (exp : ℚ → ℚ) (frand : σ → ℚ × σ) (nl : ClusteredNetlist)
    (grid : DeviceGrid) (fac : CostFac) (opts : SwapOpts) (inp : SwapInputs σ)
    (s : PlacerState) (costs : t_placer_costs) : SwapResult :=
  match inp.create_move_outcome with
  | e_create_move.ABORT =>
    { move_outcome := e_move_result.ABORTED, state := s, costs := costs, bb_delta_c := 0 }
  | e_create_move.VALID =>
    let s1 := apply_move_blocks inp.moved_blocks s
    let r := find_affected_nets_and_update_costs nl grid fac inp.moved_blocks s1
    let bb_delta_c := r.bb_delta_c
    let timing_delta_c :=
      if opts.place_algorithm.is_timing_driven then inp.timing_delta_c else 0
    let delta_c := swap_delta_c opts costs bb_delta_c timing_delta_c inp.setup_slack_cost
      inp.noc_delta_cost
    let assessed := (assess_swap exp frand delta_c opts.t inp.rng).1
    let move_outcome := manual_override inp.manual_move_outcome assessed
    if move_outcome = e_move_result.ACCEPTED then
      let costs1 : t_placer_costs :=
        { costs with cost := costs.cost + delta_c, bb_cost := costs.bb_cost + bb_delta_c }
      let costs2 : t_placer_costs :=
        if opts.place_algorithm.is_timing_driven then
          { costs1 with timing_cost := costs1.timing_cost + timing_delta_c }
        else costs1
      { move_outcome := move_outcome
        state := update_move_nets nl grid r.num_affected_nets r.state
        costs := costs2
        bb_delta_c := bb_delta_c }
    else
      let s2 := reset_move_nets r.num_affected_nets r.state
      let s3 := revert_move_blocks inp.moved_blocks s2
      let costs1 : t_placer_costs :=
        if opts.place_algorithm = e_place_algorithm.SLACK_TIMING_PLACE then
          { costs with timing_cost := inp.recomputed_timing_cost }
        else costs
      { move_outcome := move_outcome, state := s3, costs := costs1, bb_delta_c := bb_delta_c }

/-! ## Specification-level notions used in the statements -/

/-- Unclipped x coordinate of a pin of the netlist under a placement. -/
def net_pin_x (nl : ClusteredNetlist) (block_locs : Nat → t_pl_loc) (pin_id : Nat) : Int :=
  pin_x nl block_locs (nl.pin_block pin_id) (nl.tile_pin_index pin_id)

/-- Unclipped y coordinate of a pin of the netlist under a placement. -/
def net_pin_y (nl : ClusteredNetlist) (block_locs : Nat → t_pl_loc) (pin_id : Nat) : Int :=
  pin_y nl block_locs (nl.pin_block pin_id) (nl.tile_pin_index pin_id)

/-- Layer of a pin of the netlist under a placement. -/
def net_pin_layer (nl : ClusteredNetlist) (block_locs : Nat → t_pl_loc) (pin_id : Nat) : Nat :=
  (block_locs (nl.pin_block pin_id)).layer

/-- The usual clamp of `v` to the interval `lo..hi`. -/
def clamp (v lo hi : Int) : Int :=
  if v < lo then lo else if hi < v then hi else v

/-- Clipped x coordinate of a pin, as every BB routine sees it. -/
def clipped_pin_x (nl : ClusteredNetlist) (grid : DeviceGrid) (block_locs : Nat → t_pl_loc)
    (pin_id : Nat) : Int :=
  clip_coord (net_pin_x nl block_locs pin_id) grid.width

/-- Clipped y coordinate of a pin, as every BB routine sees it. -/
def clipped_pin_y (nl : ClusteredNetlist) (grid : DeviceGrid) (block_locs : Nat → t_pl_loc)
    (pin_id : Nat) : Int :=
  clip_coord (net_pin_y nl block_locs pin_id) grid.height

/-- The axis record `a` describes the list `A` of coordinates: its extrema are the least and the
greatest element of `A` and its edge counts are their multiplicities. -/
def IsAxisBB (A : List Int) (a : AxisBB) : Prop :=
  a.lo ∈ A ∧ (∀ v ∈ A, a.lo ≤ v) ∧ a.hi ∈ A ∧ (∀ v ∈ A, v ≤ a.hi) ∧
    a.lo_edge = (A.count a.lo : Int) ∧ a.hi_edge = (A.count a.hi : Int)

/-- The box that `update_bb` starts from. -/
def update_bb_curr (s : PlacerState) (net_id : Nat) : t_bb × t_bb :=
  if s.bb_updated_before net_id = BBFlag.NOT_UPDATED_YET then
    (s.bb_coords net_id, s.bb_num_on_edges net_id)
  else (s.ts_bb_coord_new net_id, s.ts_bb_edge_new net_id)

/-- The pair `b` of coordinates and edge counts describes the pins `pins` whose clipped
coordinates are given by `fx` and `fy`. -/
def BoxIs (fx fy : Nat → Int) (pins : List Nat) (b : t_bb × t_bb) : Prop :=
  IsAxisBB (pins.map fx) (axis_x b.1 b.2) ∧ IsAxisBB (pins.map fy) (axis_y b.1 b.2)

/-! ## Notions used to state and prove the invariants of a swap -/

/-- The pins visited by the two nested loops of `find_affected_nets_and_update_costs`, in the
order of the visit, each with the moved block it belongs to. -/
def pin_seq (nl : ClusteredNetlist) : List t_pl_moved_block → List (t_pl_moved_block × Nat)
  | [] => []
  | mb :: ms => (nl.block_pins mb.block_num).map (fun p => (mb, p)) ++ pin_seq nl ms

/-- Clipped x coordinate of a pin while a swap is evaluated: the pins in `D` have been handed
to `update_net_bb` already and count at their new place, the others at their old place. -/
def staged_pin_x (nl : ClusteredNetlist) (grid : DeviceGrid) (P P' : Nat → t_pl_loc)
    (D : List Nat) (q : Nat) : Int :=
  if q ∈ D then clipped_pin_x nl grid P' q else clipped_pin_x nl grid P q

/-- Clipped y coordinate of a pin while a swap is evaluated, see `staged_pin_x`. -/
def staged_pin_y (nl : ClusteredNetlist) (grid : DeviceGrid) (P P' : Nat → t_pl_loc)
    (D : List Nat) (q : Nat) : Int :=
  if q ∈ D then clipped_pin_y nl grid P' q else clipped_pin_y nl grid P q

/-- Invariant of the pin loop of `find_affected_nets_and_update_costs` for one net `n`, after
the pins `D` have been visited: `P` is the placement before the swap, `P'` the proposed one,
`c0`, `e0` the committed box of the net. -/
def NetInv (nl : ClusteredNetlist) (grid : DeviceGrid) (P P' : Nat → t_pl_loc) (c0 e0 : t_bb)
    (D : List Nat) (acc : PlacerState × Nat) (n : Nat) : Prop :=
  acc.1.block_locs = P' ∧ acc.1.bb_coords n = c0 ∧ acc.1.bb_num_on_edges n = e0 ∧
  ((∃ p ∈ D, nl.pin_net p = n) →
    (∃ i, i < acc.2 ∧ acc.1.ts_nets_to_update i = n) ∧ 0 ≤ acc.1.proposed_net_cost n ∧
    (SMALL_NET ≤ (nl.net_sinks n).length →
      (acc.1.bb_updated_before n = BBFlag.UPDATED_ONCE ∧
        BoxIs (staged_pin_x nl grid P P' D) (staged_pin_y nl grid P P' D) (nl.net_pins n)
          (acc.1.ts_bb_coord_new n, acc.1.ts_bb_edge_new n)) ∨
      (acc.1.bb_updated_before n = BBFlag.GOT_FROM_SCRATCH ∧
        BoxIs (clipped_pin_x nl grid P') (clipped_pin_y nl grid P') (nl.net_pins n)
          (acc.1.ts_bb_coord_new n, acc.1.ts_bb_edge_new n))) ∧
    ((nl.net_sinks n).length < SMALL_NET →
      acc.1.bb_updated_before n = BBFlag.NOT_UPDATED_YET ∧
      ∀ c, acc.1.ts_bb_coord_new n = (get_non_updateable_bb nl grid P' n c).1)) ∧
  ((¬ ∃ p ∈ D, nl.pin_net p = n) →
    (∀ i, i < acc.2 → acc.1.ts_nets_to_update i ≠ n) ∧ acc.1.proposed_net_cost n < 0 ∧
    acc.1.bb_updated_before n = BBFlag.NOT_UPDATED_YET)

/-- The cube-BB invariant: every non-ignored net with at least `SMALL_NET` sinks has committed
`bb_coords` and `bb_num_on_edges` equal to what `get_bb_from_scratch` computes from
`block_locs`, and every smaller non-ignored net has `bb_coords` equal to
`get_non_updateable_bb`. -/
def bb_cache_valid (nl : ClusteredNetlist) (grid : DeviceGrid) (s : PlacerState) : Prop :=
  ∀ net_id, net_id < nl.num_nets → nl.net_is_ignored net_id = false →
    (SMALL_NET ≤ (nl.net_sinks net_id).length →
      s.bb_coords net_id = (get_bb_from_scratch nl grid s.block_locs net_id
          (s.num_sink_pin_layer net_id)).coords ∧
      s.bb_num_on_edges net_id = (get_bb_from_scratch nl grid s.block_locs net_id
          (s.num_sink_pin_layer net_id)).num_on_edges) ∧
    ((nl.net_sinks net_id).length < SMALL_NET →
      s.bb_coords net_id = (get_non_updateable_bb nl grid s.block_locs net_id
          (s.num_sink_pin_layer net_id)).1)

/-- The per-swap scratch is empty, as it is between two swaps: every net has the flag
`NOT_UPDATED_YET` and a negative `proposed_net_cost`. -/
def swap_scratch_empty (nl : ClusteredNetlist) (s : PlacerState) : Prop :=
  ∀ net_id, net_id < nl.num_nets →
    s.bb_updated_before net_id = BBFlag.NOT_UPDATED_YET ∧ s.proposed_net_cost net_id < 0

/-- The netlist tables agree with each other: the pins of a net are distinct and know their
net and block, the pins of a block are distinct and know their block and net. -/
def netlist_consistent (nl : ClusteredNetlist) : Prop :=
  (∀ net_id, net_id < nl.num_nets →
    (nl.net_pins net_id).Nodup ∧
    ∀ pin ∈ nl.net_pins net_id, nl.pin_net pin = net_id ∧ pin ∈ nl.block_pins (nl.pin_block pin)
      ∧ nl.pin_block pin < nl.num_blocks) ∧
  (∀ blk, blk < nl.num_blocks →
    (nl.block_pins blk).Nodup ∧
    ∀ pin ∈ nl.block_pins blk, nl.pin_block pin = blk ∧ nl.pin_net pin < nl.num_nets ∧
      pin ∈ nl.net_pins (nl.pin_net pin))

/-- The proposed move lists distinct blocks of the netlist, each with its present location as
`old_loc`. -/
def valid_move (nl : ClusteredNetlist) (s : PlacerState) (moved_blocks : List t_pl_moved_block) :
    Prop :=
  (moved_blocks.map (fun mb => mb.block_num)).Nodup ∧
  ∀ mb ∈ moved_blocks, mb.block_num < nl.num_blocks ∧ mb.old_loc = s.block_locs mb.block_num

/-! ## A concrete swap: the collapsing extremum scenario

One net with six pins at `x = 3, 3, 5, 5, 7, 7` (all at `y = 1`), one pin per block, on a
`10 x 10` grid. The swap moves the two blocks at `x = 7` to `x = 4` and to `x = 2`. -/

/-- Location `(x, y)` on layer 0, sub-tile 0. -/
def ex_loc (x y : Int) : t_pl_loc :=
  { x := x, y := y, sub_tile := 0, layer := 0 }

/-- The example netlist: net 0 with driver pin 0 and sink pins 1..5, pin `p` on block `p`. -/
def ex_nl : ClusteredNetlist :=
  { num_nets := 1
    num_blocks := 6
    net_driver := fun _ => 0
    net_sinks := fun n => if n = 0 then [1, 2, 3, 4, 5] else []
    net_is_ignored := fun _ => false
    block_pins := fun b => [b]
    pin_net := fun _ => 0
    pin_block := fun p => p
    pin_is_driver := fun p => decide (p = 0)
    tile_pin_index := fun _ => 0
    pin_width_offset := fun _ _ => 0
    pin_height_offset := fun _ _ => 0 }

/-- The example grid. -/
def ex_grid : DeviceGrid :=
  { width := 10, height := 10, num_layers := 1 }

/-- The example channel factors: all equal to one. -/
def ex_fac : CostFac :=
  { chanx_place_cost_fac := fun _ _ => 1, chany_place_cost_fac := fun _ _ => 1 }

/-- The example placement: blocks 0..5 at `x = 3, 3, 5, 5, 7, 7`, `y = 1`. -/
def ex_block_locs (b : Nat) : t_pl_loc :=
  match b with
  | 0 => ex_loc 3 1
  | 1 => ex_loc 3 1
  | 2 => ex_loc 5 1
  | 3 => ex_loc 5 1
  | 4 => ex_loc 7 1
  | 5 => ex_loc 7 1
  | _ => ex_loc 1 1

/-- The example state between two swaps, with the BB cache of the example placement. -/
def ex_state : PlacerState :=
  { block_locs := ex_block_locs
    bb_coords := fun _ => { xmin := 3, xmax := 7, ymin := 1, ymax := 1 }
    bb_num_on_edges := fun _ => { xmin := 2, xmax := 2, ymin := 6, ymax := 6 }
    num_sink_pin_layer := fun _ layer => if layer = 0 then 5 else 0
    net_cost := fun _ => 7.3236
    proposed_net_cost := fun _ => -1
    bb_updated_before := fun _ => BBFlag.NOT_UPDATED_YET
    ts_bb_edge_new := fun _ => { xmin := 0, xmax := 0, ymin := 0, ymax := 0 }
    ts_bb_coord_new := fun _ => { xmin := 0, xmax := 0, ymin := 0, ymax := 0 }
    ts_layer_sink_pin_count := fun _ _ => -1
    ts_nets_to_update := fun _ => 0 }

/-- The example move: block 4 from `x = 7` to `x = 4`, block 5 from `x = 7` to `x = 2`. -/
def ex_moves : List t_pl_moved_block :=
  [{ block_num := 4, old_loc := ex_loc 7 1, new_loc := ex_loc 4 1 },
   { block_num := 5, old_loc := ex_loc 7 1, new_loc := ex_loc 2 1 }]

/-- The example costs. -/
def ex_costs : t_placer_costs :=
  { cost := 1, bb_cost := 7.3236, timing_cost := 0, bb_cost_norm := 1 / 7.3236,
    timing_cost_norm := 0 }

/-- The example options: bounding-box placement at temperature zero. -/
def ex_opts : SwapOpts :=
  { place_algorithm := e_place_algorithm.BOUNDING_BOX_PLACE, timing_tradeoff := 0, noc := false,
    t := 0 }

/-- The example inputs of `try_swap`. -/
def ex_inputs : SwapInputs Unit :=
  { create_move_outcome := e_create_move.VALID
    moved_blocks := ex_moves
    timing_delta_c := 0
    setup_slack_cost := 0
    noc_delta_cost := 0
    recomputed_timing_cost := 0
    manual_move_outcome := none
    rng := () }

/-- The example random number generator: always draws zero. -/
def ex_frand (_ : Unit) : ℚ × Unit := (0, ())

/-- The example exponential (not consulted at temperature zero). -/
def ex_exp (_ : ℚ) : ℚ := 1

/-- The sum that `recompute_bb_cost` forms, for an arbitrary cost array and number of nets. -/
def bb_cost_sum (is_ignored : Nat → Bool) (f : Nat → ℚ) (num : Nat) : ℚ :=
  (List.range num).foldl
    (fun cost net_id => if !is_ignored net_id then cost + f net_id else cost) 0

/-- Invariant of the list `ts_nets_to_update[0..num)`: its entries are distinct non-ignored nets
of the netlist, each flagged by a non-negative `proposed_net_cost`. -/
def AffectedListInv (nl : ClusteredNetlist) (acc : PlacerState × Nat) : Prop :=
  (∀ i, i < acc.2 → 0 ≤ acc.1.proposed_net_cost (acc.1.ts_nets_to_update i) ∧
    acc.1.ts_nets_to_update i < nl.num_nets ∧
    nl.net_is_ignored (acc.1.ts_nets_to_update i) = false) ∧
  (∀ i j, i < acc.2 → j < acc.2 →
    acc.1.ts_nets_to_update i = acc.1.ts_nets_to_update j → i = j)

/-- Example channel widths: horizontal channels of width 2, 0, 4, 0, ... and vertical channels
of width zero. -/
def ex_chan_width : t_chan_width :=
  { x_list := fun i => if i = 0 then 2 else if i = 2 then 4 else 0
    y_list := fun _ => 0 }

/-- Example power function: the square (`place_cost_exp = 2`). -/
def ex_pow (b _e : ℚ) : ℚ := b * b

/-- Invariant of the pin loop of `find_affected_nets_and_update_costs` on the flags of one net
`n`: while its `proposed_net_cost` is negative the net has not been touched, and once it is
not negative the net is in the list `ts_nets_to_update[0..num)`. -/
def FlagInv (acc : PlacerState × Nat) (n : Nat) : Prop :=
  (acc.1.proposed_net_cost n < 0 → acc.1.bb_updated_before n = BBFlag.NOT_UPDATED_YET) ∧
  (0 ≤ acc.1.proposed_net_cost n → ∃ i, i < acc.2 ∧ acc.1.ts_nets_to_update i = n)

/-! ## The total cost -/

/-- Function `get_total_cost` (place.cpp 2336-2353). `noc_cost` is the value that
`calculate_noc_cost(costs->noc_cost_terms, costs->noc_cost_norm_factors, noc_opts)` returns. -/
def get_total_cost (costs : t_placer_costs) (placer_opts : SwapOpts) (noc_cost : ℚ) : ℚ :=
  let total_cost : ℚ :=
    if placer_opts.place_algorithm = e_place_algorithm.BOUNDING_BOX_PLACE then
      costs.bb_cost * costs.bb_cost_norm
    else if placer_opts.place_algorithm.is_timing_driven then
      (1 - placer_opts.timing_tradeoff) * (costs.bb_cost * costs.bb_cost_norm)
        + placer_opts.timing_tradeoff * (costs.timing_cost * costs.timing_cost_norm)
    else 0
  if placer_opts.noc then total_cost + noc_cost else total_cost

/-! ## A concrete swap that is rejected -/

/-- A move of the example that enlarges the box: block 4 from `x = 7` to `x = 8`. -/
def ex_reject_moves : List t_pl_moved_block :=
  [{ block_num := 4, old_loc := ex_loc 7 1, new_loc := ex_loc 8 1 }]

/-- The inputs of `try_swap` for the enlarging move. -/
def ex_reject_inputs : SwapInputs Unit :=
  { create_move_outcome := e_create_move.VALID
    moved_blocks := ex_reject_moves
    timing_delta_c := 0
    setup_slack_cost := 0
    noc_delta_cost := 0
    recomputed_timing_cost := 0
    manual_move_outcome := none
    rng := () }

/-! ## The setup slack cost -/

/-- A C++ `float` as `analyze_setup_slack_cost` handles it: a finite number, kept exact, one of
the two infinities, or a NaN. The array `connection_setup_slack` is allocated with
`std::numeric_limits<float>::infinity()` (place.cpp 2671-2672). -/
inductive c_float where
  | finite (v : ℚ)
  | pos_inf
  | neg_inf
  | nan
deriving DecidableEq

/-- Floating point `a - b`: the difference of two equal infinities is a NaN. -/
def c_float.sub : c_float → c_float → c_float
  | c_float.finite a, c_float.finite b => c_float.finite (a - b)
  | c_float.finite _, c_float.pos_inf => c_float.neg_inf
  | c_float.finite _, c_float.neg_inf => c_float.pos_inf
  | c_float.pos_inf, c_float.finite _ => c_float.pos_inf
  | c_float.pos_inf, c_float.neg_inf => c_float.pos_inf
  | c_float.neg_inf, c_float.finite _ => c_float.neg_inf
  | c_float.neg_inf, c_float.pos_inf => c_float.neg_inf
  | c_float.pos_inf, c_float.pos_inf => c_float.nan
  | c_float.neg_inf, c_float.neg_inf => c_float.nan
  | c_float.nan, _ => c_float.nan
  | _, c_float.nan => c_float.nan

/-- Floating point `a < b`: false when an operand is a NaN. -/
def c_float.lt : c_float → c_float → Bool
  | c_float.finite a, c_float.finite b => decide (a < b)
  | c_float.finite _, c_float.pos_inf => true
  | c_float.neg_inf, c_float.finite _ => true
  | c_float.neg_inf, c_float.pos_inf => true
  | _, _ => false

/-- Floating point `a != 0`: true for an infinity and for a NaN. -/
def c_float.ne_zero : c_float → Bool
  | c_float.finite a => decide (a ≠ 0)
  | _ => true

/-- The value is a NaN. -/
def c_float.is_nan : c_float → Bool
  | c_float.nan => true
  | _ => false

/-- The ascending sort `std::sort(begin, end)` of a vector of `float` without a NaN: the order
is that of `<`, in which `b` may follow `a` when `b < a` is false. -/
def sort_floats (v : List c_float) : List c_float :=
  v.insertionSort (fun a b => c_float.lt b a = false)

/-- Function `analyze_setup_slack_cost` (place.cpp 2373-2411). `clb_pins_modified` is
`setup_slacks->pins_with_modified_setup_slack()`, `connection_setup_slack` the committed slacks
of the placer timing context, `setup_slack` the method `PlacerSetupSlacks::setup_slack` and
`pin_net_index` the netlist method of that name. `std::sort` needs a strict weak order, which
`<` is not on a vector that holds a NaN: the behaviour is then undefined, `none`. -/
def analyze_setup_slack_cost (nl : ClusteredNetlist) (pin_net_index : Nat → Nat)
    (connection_setup_slack setup_slack : Nat → Nat → c_float) (clb_pins_modified : List Nat) :
    Option c_float :=
  let original_setup_slacks := clb_pins_modified.map
    (fun clb_pin => connection_setup_slack (nl.pin_net clb_pin) (pin_net_index clb_pin))
  let proposed_setup_slacks := clb_pins_modified.map
    (fun clb_pin => setup_slack (nl.pin_net clb_pin) (pin_net_index clb_pin))
  if original_setup_slacks.any c_float.is_nan || proposed_setup_slacks.any c_float.is_nan then
    none
  else
    let original_sorted := sort_floats original_setup_slacks
    let proposed_sorted := sort_floats proposed_setup_slacks
    match (List.range original_sorted.length).find?
        (fun idiff => ((original_sorted.getD idiff (c_float.finite 0)).sub
          (proposed_sorted.getD idiff (c_float.finite 0))).ne_zero) with
    | some idiff => some ((original_sorted.getD idiff (c_float.finite 0)).sub
        (proposed_sorted.getD idiff (c_float.finite 0)))
    | none => some (c_float.finite 1)

/-- The computation of `analyze_setup_slack_cost` on finite slacks, as rationals: what the
function returns when no slack is an infinity or a NaN (`analyze_setup_slack_cost_finite`). -/
def setup_slack_cost_exact (nl : ClusteredNetlist) (pin_net_index : Nat → Nat)
    (connection_setup_slack setup_slack : Nat → Nat → ℚ) (clb_pins_modified : List Nat) : ℚ :=
  let original_setup_slacks := clb_pins_modified.map
    (fun clb_pin => connection_setup_slack (nl.pin_net clb_pin) (pin_net_index clb_pin))
  let proposed_setup_slacks := clb_pins_modified.map
    (fun clb_pin => setup_slack (nl.pin_net clb_pin) (pin_net_index clb_pin))
  let original_sorted := original_setup_slacks.insertionSort (· ≤ ·)
  let proposed_sorted := proposed_setup_slacks.insertionSort (· ≤ ·)
  match (List.range original_sorted.length).find?
      (fun idiff => decide (original_sorted.getD idiff 0 - proposed_sorted.getD idiff 0 ≠ 0)) with
  | some idiff => original_sorted.getD idiff 0 - proposed_sorted.getD idiff 0
  | none => 1

/-- The slacks of the example for the equal infinite slacks: every connection holds `+inf`, the
value with which `connection_setup_slack` is allocated. -/
def ex_inf_slack (_net _ipin : Nat) : c_float := c_float.pos_inf

/-- Slacks for the example netlist: `+inf` at pin 1 and the finite slack 2 elsewhere. -/
def ex_mixed_slack (_net ipin : Nat) : c_float :=
  if ipin = 1 then c_float.pos_inf else c_float.finite 2

/-! ## The per-connection timing cache

The arrays `connection_delay`, `proposed_connection_delay`, `connection_timing_cost` and
`proposed_connection_timing_cost` of the placer timing context hold floating point numbers that
can be the sentinel `INVALID_DELAY`, a quiet NaN. Such a value is an `Option ℚ` here, `none`
being the NaN: arithmetic with a NaN gives a NaN and `==` with a NaN is false. -/

/-- The constant `INVALID_DELAY` (place.cpp 117), a quiet NaN. -/
def INVALID_DELAY : Option ℚ := none

/-- Floating point `a + b` on numbers that may be NaN. -/
def nan_add (a b : Option ℚ) : Option ℚ :=
  match a, b with
  | some x, some y => some (x + y)
  | _, _ => none

/-- Floating point `a - b` on numbers that may be NaN. -/
def nan_sub (a b : Option ℚ) : Option ℚ :=
  match a, b with
  | some x, some y => some (x - y)
  | _, _ => none

/-- Floating point `a == b` on numbers that may be NaN. -/
def nan_eq (a b : Option ℚ) : Bool :=
  match a, b with
  | some x, some y => decide (x = y)
  | _, _ => false

/-- Assignment `m[net][ipin] = v` on a per-connection array. -/
def td_set (m : Nat → Nat → Option ℚ) (net ipin : Nat) (v : Option ℚ) : Nat → Nat → Option ℚ :=
  Function.update m net (Function.update (m net) ipin v)

/-- What the timing cost code of place.cpp takes from outside: the netlist method
`pin_net_index`, the criticalities `PlacerCriticalities::criticality(net, ipin)`, which stay
as they are while a swap is evaluated, the routine `comp_td_single_connection_delay(delay_model,
net, ipin)`, which reads the block locations, and the pair `comp_td_connection_delays`,
`comp_td_costs` that recomputes the committed arrays from the block locations. -/
structure TimingEnv where
  pin_net_index : Nat → Nat
  criticality : Nat → Nat → ℚ
  comp_td_single_connection_delay : (Nat → t_pl_loc) → Nat → Nat → ℚ
  comp_td_connection_delays_and_costs : (Nat → t_pl_loc) →
    (Nat → Nat → Option ℚ) × (Nat → Nat → Option ℚ)

/-- The per-connection arrays of the placer timing context, the list
`blocks_affected.affected_pins` and the accumulator `delta_timing_cost` of
`update_td_delta_costs` (the variable `timing_delta_c` of `try_swap`). -/
structure TimingState where
  connection_delay : Nat → Nat → Option ℚ
  proposed_connection_delay : Nat → Nat → Option ℚ
  connection_timing_cost : Nat → Nat → Option ℚ
  proposed_connection_timing_cost : Nat → Nat → Option ℚ
  affected_pins : List Nat
  delta_timing_cost : Option ℚ

/-- The statements that the two branches of `update_td_delta_costs` share (place.cpp 2252-2268
and 2279-2294): recompute the delay of the connection `(net, ipin)`; if it differs from the
committed delay, stage the delay and the timing cost, add the change of the cost to
`delta_timing_cost` and push `sink_pin` on `affected_pins`. -/
def update_td_connection (env : TimingEnv) (block_locs : Nat → t_pl_loc) (net : Nat)
    (st : TimingState) (ipin sink_pin : Nat) : TimingState :=
  let temp_delay := env.comp_td_single_connection_delay block_locs net ipin
  if nan_eq (some temp_delay) (st.connection_delay net ipin) then st
  else
    let proposed_cost : Option ℚ := some (env.criticality net ipin * temp_delay)
    { st with
      proposed_connection_delay := td_set st.proposed_connection_delay net ipin (some temp_delay)
      proposed_connection_timing_cost :=
        td_set st.proposed_connection_timing_cost net ipin proposed_cost
      delta_timing_cost :=
        nan_add st.delta_timing_cost (nan_sub proposed_cost (st.connection_timing_cost net ipin))
      affected_pins := st.affected_pins ++ [sink_pin] }

/-- Function `driven_by_moved_block` (place.cpp 2531-2544). -/
def driven_by_moved_block (nl : ClusteredNetlist) (net : Nat)
    (moved_blocks : List t_pl_moved_block) : Bool :=
  moved_blocks.any (fun mb => decide (nl.net_driver_block net = mb.block_num))

/-- Pin `ipin` of a net: `clb_nlist.net_pin(net, ipin)`. -/
def ClusteredNetlist.net_pin (nl : ClusteredNetlist) (net ipin : Nat) : Nat :=
  (nl.net_pins net).getD ipin 0

/-- Function `update_td_delta_costs` (place.cpp 2234-2297). `block_locs` are the proposed
block locations, which `comp_td_single_connection_delay` reads. -/
def update_td_delta_costs (env : TimingEnv) (nl : ClusteredNetlist)
    (block_locs : Nat → t_pl_loc) (moved_blocks : List t_pl_moved_block) (net pin : Nat)
    (st : TimingState) : TimingState :=
  if nl.pin_is_driver pin then
    (List.range' 1 ((nl.net_pins net).length - 1)).foldl
      (fun acc ipin => update_td_connection env block_locs net acc ipin (nl.net_pin net ipin)) st
  else
    if !driven_by_moved_block nl net moved_blocks then
      update_td_connection env block_locs net st (env.pin_net_index pin) pin
    else st

/-- The timing part of the body of the pin loop of `find_affected_nets_and_update_costs`
(place.cpp 2050-2075); the BB part is `affected_pin_step`. The two parts share only the block
locations, which neither writes. -/
def affected_pin_step_td (env : TimingEnv) (nl : ClusteredNetlist)
    (place_algorithm : e_place_algorithm) (block_locs : Nat → t_pl_loc)
    (moved_blocks : List t_pl_moved_block) (st : TimingState) (blk_pin : Nat) : TimingState :=
  let net_id := nl.pin_net blk_pin
  if nl.net_is_ignored net_id then st
  else if place_algorithm.is_timing_driven then
    update_td_delta_costs env nl block_locs moved_blocks net_id blk_pin st
  else st

/-- The timing part of `find_affected_nets_and_update_costs` (place.cpp 2030-2097): the two
nested loops over the moved blocks and their pins. -/
def find_affected_nets_and_update_td_costs (env : TimingEnv) (nl : ClusteredNetlist)
    (place_algorithm : e_place_algorithm) (block_locs : Nat → t_pl_loc)
    (moved_blocks : List t_pl_moved_block) (st : TimingState) : TimingState :=
  moved_blocks.foldl
    (fun acc mb => (nl.block_pins mb.block_num).foldl
      (affected_pin_step_td env nl place_algorithm block_locs moved_blocks) acc) st

/-- Body of the loop of `commit_td_cost` (place.cpp 2473-2482). -/
def commit_td_cost_step (env : TimingEnv) (nl : ClusteredNetlist) (st : TimingState)
    (pin_id : Nat) : TimingState :=
  let net_id := nl.pin_net pin_id
  let ipin := env.pin_net_index pin_id
  { st with
    connection_delay :=
      td_set st.connection_delay net_id ipin (st.proposed_connection_delay net_id ipin)
    proposed_connection_delay := td_set st.proposed_connection_delay net_id ipin INVALID_DELAY
    connection_timing_cost :=
      td_set st.connection_timing_cost net_id ipin (st.proposed_connection_timing_cost net_id ipin)
    proposed_connection_timing_cost :=
      td_set st.proposed_connection_timing_cost net_id ipin INVALID_DELAY }

/-- Function `commit_td_cost` (place.cpp 2462-2483). -/
def commit_td_cost (env : TimingEnv) (nl : ClusteredNetlist) (st : TimingState) : TimingState :=
  st.affected_pins.foldl (commit_td_cost_step env nl) st

/-- Body of the loop of `revert_td_cost` (place.cpp 2500-2505). -/
def revert_td_cost_step (env : TimingEnv) (nl : ClusteredNetlist) (st : TimingState)
    (pin : Nat) : TimingState :=
  let net := nl.pin_net pin
  let ipin := env.pin_net_index pin
  { st with
    proposed_connection_delay := td_set st.proposed_connection_delay net ipin INVALID_DELAY
    proposed_connection_timing_cost :=
      td_set st.proposed_connection_timing_cost net ipin INVALID_DELAY }

/-- Function `revert_td_cost` (place.cpp 2487-2507). The first argument tells whether the
macro `VTR_ASSERT_SAFE_ENABLED` is defined in the build: without it the body of the function
is `static_cast<void>(blocks_affected);`. -/
def revert_td_cost (vtr_assert_safe_enabled : Bool) (env : TimingEnv) (nl : ClusteredNetlist)
    (st : TimingState) : TimingState :=
  if !vtr_assert_safe_enabled then st
  else st.affected_pins.foldl (revert_td_cost_step env nl) st

/-- The timing side of `try_swap` (place.cpp 1650-1975): what one call does to the
per-connection timing cache. The outcome is the one `try_swap` arrives at, `inp.timing_delta_c`
standing for the number in `timing_delta_c`. For a rejected move of the slack algorithm the
committed arrays are recomputed from the reverted block locations. The call `clear_move_blocks`
that ends `try_swap` is not applied, so that the result still shows the `affected_pins` of the
swap. -/
def try_swap_td {σ : Type} (vtr_assert_safe_enabled : Bool) (env : TimingEnv)
    (exp : ℚ → ℚ) (frand : σ → ℚ × σ) (nl : ClusteredNetlist) (grid : DeviceGrid)
    (fac : CostFac) (opts : SwapOpts) (inp : SwapInputs σ) (s : PlacerState)
    (costs : t_placer_costs) (st : TimingState) : TimingState :=
  match inp.create_move_outcome with
  | e_create_move.ABORT => st
  | e_create_move.VALID =>
    let s1 := apply_move_blocks inp.moved_blocks s
    let st1 := find_affected_nets_and_update_td_costs env nl opts.place_algorithm s1.block_locs
      inp.moved_blocks { st with delta_timing_cost := some 0 }
    let st2 :=
      if opts.place_algorithm = e_place_algorithm.SLACK_TIMING_PLACE then
        commit_td_cost env nl st1
      else st1
    let move_outcome := (try_swap exp frand nl grid fac opts inp s costs).move_outcome
    if move_outcome = e_move_result.ACCEPTED then
      if opts.place_algorithm = e_place_algorithm.CRITICALITY_TIMING_PLACE then
        commit_td_cost env nl st2
      else st2
    else
      let st3 : TimingState :=
        if opts.place_algorithm = e_place_algorithm.SLACK_TIMING_PLACE then
          { st2 with
            connection_delay := (env.comp_td_connection_delays_and_costs
              (revert_move_blocks inp.moved_blocks s1).block_locs).1
            connection_timing_cost := (env.comp_td_connection_delays_and_costs
              (revert_move_blocks inp.moved_blocks s1).block_locs).2 }
        else st2
      if opts.place_algorithm = e_place_algorithm.CRITICALITY_TIMING_PLACE then
        revert_td_cost vtr_assert_safe_enabled env nl st3
      else st3

/-! ## A concrete timing-driven swap that is rejected -/

/-- Example delay model on the example netlist (pin `p` of net 0 sits on block `p`): the
horizontal distance between the sink and the driver. -/
def ex_delay (block_locs : Nat → t_pl_loc) (_net ipin : Nat) : ℚ :=
  ((((block_locs ipin).x - (block_locs 0).x).natAbs : Nat) : ℚ)

/-- Example timing environment: pin `p` is pin number `p` of net 0 and every criticality is
one. -/
def ex_env : TimingEnv :=
  { pin_net_index := fun p => p
    criticality := fun _ _ => 1
    comp_td_single_connection_delay := ex_delay
    comp_td_connection_delays_and_costs := fun block_locs =>
      (fun net ipin => some (ex_delay block_locs net ipin),
       fun net ipin => some (ex_delay block_locs net ipin)) }

/-- Example timing cache between two swaps: committed delays and costs of the example
placement, the shadow entries invalid, no affected pin. -/
def ex_td_state : TimingState :=
  { connection_delay := fun net ipin => some (ex_delay ex_block_locs net ipin)
    proposed_connection_delay := fun _ _ => INVALID_DELAY
    connection_timing_cost := fun net ipin => some (ex_delay ex_block_locs net ipin)
    proposed_connection_timing_cost := fun _ _ => INVALID_DELAY
    affected_pins := []
    delta_timing_cost := some 0 }

/-- Example options: criticality driven placement at temperature zero. -/
def ex_td_opts : SwapOpts :=
  { place_algorithm := e_place_algorithm.CRITICALITY_TIMING_PLACE, timing_tradeoff := 1 / 2,
    noc := false, t := 0 }

/-- Example costs of the timing driven swap: the sinks are `0, 2, 2, 4, 4` away from the
driver. -/
def ex_td_costs : t_placer_costs :=
  { cost := 1, bb_cost := 7.3236, timing_cost := 12, bb_cost_norm := 1 / 7.3236,
    timing_cost_norm := 1 / 12 }

/-- The inputs of `try_swap` for the enlarging move in the timing driven example: the move
takes block 4 one column away from the driver, `timing_delta_c = 1`. -/
def ex_td_inputs : SwapInputs Unit :=
  { create_move_outcome := e_create_move.VALID
    moved_blocks := ex_reject_moves
    timing_delta_c := 1
    setup_slack_cost := 0
    noc_delta_cost := 0
    recomputed_timing_cost := 0
    manual_move_outcome := none
    rng := () }

/-! ## Notions used to state the properties of the timing delta -/

/-- The connections that one call of `update_td_delta_costs` for the pin `pin` of the net `net`
recomputes, each as the pair of its pin index in the net and its sink pin: every sink
connection of the net when `pin` is the driver, the connection of `pin` itself when `pin` is a
sink and no moved block drives the net, none otherwise. -/
def td_candidates (env : TimingEnv) (nl : ClusteredNetlist)
    (moved_blocks : List t_pl_moved_block) (net pin : Nat) : List (Nat × Nat) :=
  if nl.pin_is_driver pin then
    (List.range' 1 ((nl.net_pins net).length - 1)).map (fun ipin => (ipin, nl.net_pin net ipin))
  else if !driven_by_moved_block nl net moved_blocks then [(env.pin_net_index pin, pin)]
  else []

/-- The recomputed delay of the connection `(net, ipin)` differs from its committed delay. -/
def td_delay_changed (env : TimingEnv) (block_locs : Nat → t_pl_loc)
    (connection_delay : Nat → Nat → Option ℚ) (net ipin : Nat) : Bool :=
  !nan_eq (some (env.comp_td_single_connection_delay block_locs net ipin))
    (connection_delay net ipin)

/-- The change of the timing cost of the connection `(net, ipin)`: criticality times recomputed
delay, minus the committed timing cost. -/
def td_cost_change (env : TimingEnv) (block_locs : Nat → t_pl_loc)
    (connection_timing_cost : Nat → Nat → Option ℚ) (net ipin : Nat) : Option ℚ :=
  nan_sub (some (env.criticality net ipin
      * env.comp_td_single_connection_delay block_locs net ipin))
    (connection_timing_cost net ipin)

/-- The connections that the visit of the pin `blk_pin` of a moved block appends to
`affected_pins` in `find_affected_nets_and_update_costs`, each as the pair of its pin index in
the net of `blk_pin` and its sink pin: none for an ignored net or an algorithm that is not
timing driven, else the recomputed connections whose delay has changed. -/
def td_visit_appended (env : TimingEnv) (nl : ClusteredNetlist)
    (place_algorithm : e_place_algorithm) (block_locs : Nat → t_pl_loc)
    (moved_blocks : List t_pl_moved_block) (connection_delay : Nat → Nat → Option ℚ)
    (blk_pin : Nat) : List (Nat × Nat) :=
  if nl.net_is_ignored (nl.pin_net blk_pin) then []
  else if place_algorithm.is_timing_driven then
    (td_candidates env nl moved_blocks (nl.pin_net blk_pin) blk_pin).filter
      (fun c => td_delay_changed env block_locs connection_delay (nl.pin_net blk_pin) c.1)
  else []

/-- The netlist tables that the timing code reads agree with each other: `pin_net_index` is
the position of a pin in its net, and the driver pins on the blocks are the pins number 0 of
their nets. -/
def netlist_td_consistent (nl : ClusteredNetlist) (env : TimingEnv) : Prop :=
  (∀ net_id, net_id < nl.num_nets → ∀ ipin, ipin < (nl.net_pins net_id).length →
    env.pin_net_index (nl.net_pin net_id ipin) = ipin) ∧
  (∀ blk, blk < nl.num_blocks → ∀ pin ∈ nl.block_pins blk,
    (nl.pin_is_driver pin = true ↔ pin = nl.net_driver (nl.pin_net pin)))

/-- A move of the example that displaces the driver block and a sink block of net 0: block 0
from `x = 3` to `x = 4` and block 4 from `x = 7` to `x = 8`. -/
def ex_td_moves : List t_pl_moved_block :=
  [{ block_num := 0, old_loc := ex_loc 3 1, new_loc := ex_loc 4 1 },
   { block_num := 4, old_loc := ex_loc 7 1, new_loc := ex_loc 8 1 }]

/-- The connections of the netlist: the pairs of a net and the index `ipin >= 1` of one of its
sink pins. -/
def td_connections (nl : ClusteredNetlist) : List (Nat × Nat) :=
  (List.range nl.num_nets).flatMap
    (fun net => (List.range' 1 ((nl.net_pins net).length - 1)).map (fun ipin => (net, ipin)))

/-- The sum of a per-connection array over all connections of the netlist. -/
def td_cost_sum (nl : ClusteredNetlist) (cost : Nat → Nat → Option ℚ) : Option ℚ :=
  ((td_connections nl).map (fun c => cost c.1 c.2)).foldl nan_add (some 0)

/-! ## Notions used to state and prove the consistency of the per-layer sink counts -/

/-- The number of sinks of a net that sit on a layer under a placement. -/
def sink_layer_count (nl : ClusteredNetlist) (block_locs : Nat → t_pl_loc)
    (net_id layer : Nat) : Int :=
  (((nl.net_sinks net_id).filter
    (fun p => decide (net_pin_layer nl block_locs p = layer))).length : Int)

/-- The committed per-layer sink counts are right: for every non-ignored net and every layer of
the device, `num_sink_pin_layer` is the number of sinks of the net on that layer. -/
def layer_counts_valid (nl : ClusteredNetlist) (grid : DeviceGrid) (s : PlacerState) : Prop :=
  ∀ net_id, net_id < nl.num_nets → nl.net_is_ignored net_id = false →
    ∀ layer, layer < grid.num_layers →
      s.num_sink_pin_layer net_id layer = sink_layer_count nl s.block_locs net_id layer

/-- The pin directions agree with the nets: a pin of a block is a driver exactly when it is
pin number 0 of its net. -/
def netlist_drivers_consistent (nl : ClusteredNetlist) : Prop :=
  ∀ blk, blk < nl.num_blocks → ∀ pin ∈ nl.block_pins blk,
    (nl.pin_is_driver pin = true ↔ pin = nl.net_driver (nl.pin_net pin))

/-- Layer of a pin while a swap is evaluated: the pins in `D` have been handed to
`update_net_bb` already and count at their new place, the others at their old place. -/
def staged_pin_layer (nl : ClusteredNetlist) (P P' : Nat → t_pl_loc) (D : List Nat)
    (q : Nat) : Nat :=
  if q ∈ D then net_pin_layer nl P' q else net_pin_layer nl P q

/-- The number of sinks of a net on a layer while a swap is evaluated, see
`staged_pin_layer`. -/
def staged_layer_count (nl : ClusteredNetlist) (P P' : Nat → t_pl_loc) (D : List Nat)
    (net_id layer : Nat) : Int :=
  (((nl.net_sinks net_id).filter
    (fun q => decide (staged_pin_layer nl P P' D q = layer))).length : Int)

/-- Invariant of the pin loop of `find_affected_nets_and_update_costs` on the per-layer sink
counts of one net `n`, after the pins `D` have been visited: `P` is the placement before the
swap, `P'` the proposed one, `cnt0` the committed counts of the net. -/
def LayerInv (nl : ClusteredNetlist) (grid : DeviceGrid) (P P' : Nat → t_pl_loc)
    (cnt0 : Nat → Int) (D : List Nat) (acc : PlacerState × Nat) (n : Nat) : Prop :=
  acc.1.block_locs = P' ∧ acc.1.num_sink_pin_layer n = cnt0 ∧
  ((∃ p ∈ D, nl.pin_net p = n) →
    (∃ i, i < acc.2 ∧ acc.1.ts_nets_to_update i = n) ∧ 0 ≤ acc.1.proposed_net_cost n ∧
    (SMALL_NET ≤ (nl.net_sinks n).length →
      (acc.1.bb_updated_before n = BBFlag.UPDATED_ONCE ∧
        ∀ l, l < grid.num_layers →
          acc.1.ts_layer_sink_pin_count n l = staged_layer_count nl P P' D n l) ∨
      (acc.1.bb_updated_before n = BBFlag.GOT_FROM_SCRATCH ∧
        ∀ l, l < grid.num_layers →
          acc.1.ts_layer_sink_pin_count n l = sink_layer_count nl P' n l)) ∧
    ((nl.net_sinks n).length < SMALL_NET →
      acc.1.bb_updated_before n = BBFlag.NOT_UPDATED_YET ∧
      ∀ l, l < grid.num_layers →
        acc.1.ts_layer_sink_pin_count n l = sink_layer_count nl P' n l)) ∧
  ((¬ ∃ p ∈ D, nl.pin_net p = n) →
    (∀ i, i < acc.2 → acc.1.ts_nets_to_update i ≠ n) ∧ acc.1.proposed_net_cost n < 0 ∧
    acc.1.bb_updated_before n = BBFlag.NOT_UPDATED_YET)

/-! ## Two concrete swaps of one block: on one layer and across two layers -/

/-- The move of block 4 of the example from `x = 7` to `x = 4` on layer 0. -/
def ex_single_inputs : SwapInputs Unit :=
  { create_move_outcome := e_create_move.VALID
    moved_blocks := ex_moves.take 1
    timing_delta_c := 0
    setup_slack_cost := 0
    noc_delta_cost := 0
    recomputed_timing_cost := 0
    manual_move_outcome := none
    rng := () }

/-- The example grid with a second layer. -/
def ex_grid2 : DeviceGrid :=
  { width := 10, height := 10, num_layers := 2 }

/-- The move of block 4 of the example from `x = 7` on layer 0 to `x = 4` on layer 1. -/
def ex_layer_moves : List t_pl_moved_block :=
  [{ block_num := 4, old_loc := ex_loc 7 1,
     new_loc := { x := 4, y := 1, sub_tile := 0, layer := 1 } }]

/-- The inputs of `try_swap` for the move to layer 1. -/
def ex_layer_inputs : SwapInputs Unit :=
  { create_move_outcome := e_create_move.VALID
    moved_blocks := ex_layer_moves
    timing_delta_c := 0
    setup_slack_cost := 0
    noc_delta_cost := 0
    recomputed_timing_cost := 0
    manual_move_outcome := none
    rng := () }

/-! ## Per-layer bounding boxes -/

/-- Record `t_2D_bb` as place.cpp uses it: the four extrema (or the four edge counts) of the
box of a net on one layer, and the number of that layer. -/
structure t_2D_bb where
  xmin : Int
  xmax : Int
  ymin : Int
  ymax : Int
  layer_num : Int
deriving DecidableEq, Repr

/-- The state of `PlacerState` together with the arrays of the per-layer bounding boxes:
`layer_bb_coords` and `layer_bb_num_on_edges` of the move context and the file-static
`layer_ts_bb_edge_new` and `layer_ts_bb_coord_new`. The inner index is the layer; only entries
below `num_layers` exist in the source. -/
structure LayerPlacerState extends PlacerState where
  layer_bb_coords : Nat → Nat → t_2D_bb
  layer_bb_num_on_edges : Nat → Nat → t_2D_bb
  layer_ts_bb_edge_new : Nat → Nat → t_2D_bb
  layer_ts_bb_coord_new : Nat → Nat → t_2D_bb

/-- The x axis of a per-layer (coordinates, edge counts) pair. -/
def axis2_x (coord edge : t_2D_bb) : AxisBB :=
  { lo := coord.xmin, hi := coord.xmax, lo_edge := edge.xmin, hi_edge := edge.xmax }

/-- The y axis of a per-layer (coordinates, edge counts) pair. -/
def axis2_y (coord edge : t_2D_bb) : AxisBB :=
  { lo := coord.ymin, hi := coord.ymax, lo_edge := edge.ymin, hi_edge := edge.ymax }

/-- The local vectors of `get_layer_bb_from_scratch` while it scans the sinks, one axis record
per layer. -/
structure LayerScratchVars where
  ax : Nat → AxisBB
  ay : Nat → AxisBB
  num_sink_pin_layer : Nat → Int

/-- Body of the sink loop of `get_layer_bb_from_scratch` (place.cpp 2959-3005): the code for one
axis is that of `get_bb_from_scratch`, applied to the entries of the layer of the sink. -/
def layer_scratch_sink_step (nl : ClusteredNetlist) (grid : DeviceGrid)
    (block_locs : Nat → t_pl_loc) (v : LayerScratchVars) (pin_id : Nat) : LayerScratchVars :=
  let bnum := nl.pin_block pin_id
  let pnum := nl.tile_pin_index pin_id
  let layer := (block_locs bnum).layer
  let x := clip_coord (pin_x nl block_locs bnum pnum) grid.width
  let y := clip_coord (pin_y nl block_locs bnum pnum) grid.height
  { ax := Function.update v.ax layer (scratch_axis_step (v.ax layer) x)
    ay := Function.update v.ay layer (scratch_axis_step (v.ay layer) y)
    num_sink_pin_layer := incr_layer_count v.num_sink_pin_layer layer }

/-- Result of `get_layer_bb_from_scratch`: the three arrays it writes. -/
structure LayerBBResult where
  num_on_edges : Nat → t_2D_bb
  coords : Nat → t_2D_bb
  layer_pin_sink_count : Nat → Int

/-- Function `get_layer_bb_from_scratch` (place.cpp 2916-3023): on every layer the box starts
at the driver with one pin on each edge, and every sink extends the box of its own layer. The
last three arguments are the previous contents of the arrays that the routine overwrites below
`num_layers`. The assertion `layer < num_layers` on the layer of a sink is not part of the
model. -/
def get_layer_bb_from_scratch (nl : ClusteredNetlist) (grid : DeviceGrid)
    (block_locs : Nat → t_pl_loc) (net_id : Nat) (num_on_edges coords : Nat → t_2D_bb)
    (layer_pin_sink_count : Nat → Int) : LayerBBResult :=
  let bnum := nl.net_driver_block net_id
  let pnum_src := nl.net_driver_tile_pin_index net_id
  let x_src := clip_coord (pin_x nl block_locs bnum pnum_src) grid.width
  let y_src := clip_coord (pin_y nl block_locs bnum pnum_src) grid.height
  let init : LayerScratchVars :=
    { ax := fun _ => { lo := x_src, hi := x_src, lo_edge := 1, hi_edge := 1 }
      ay := fun _ => { lo := y_src, hi := y_src, lo_edge := 1, hi_edge := 1 }
      num_sink_pin_layer := fun _ => 0 }
  let v := (nl.net_sinks net_id).foldl (layer_scratch_sink_step nl grid block_locs) init
  { layer_pin_sink_count := fun layer_num =>
      if layer_num < grid.num_layers then v.num_sink_pin_layer layer_num
      else layer_pin_sink_count layer_num
    coords := fun layer_num =>
      if layer_num < grid.num_layers then
        { xmin := (v.ax layer_num).lo, xmax := (v.ax layer_num).hi
          ymin := (v.ay layer_num).lo, ymax := (v.ay layer_num).hi, layer_num := layer_num }
      else coords layer_num
    num_on_edges := fun layer_num =>
      if layer_num < grid.num_layers then
        { xmin := (v.ax layer_num).lo_edge, xmax := (v.ax layer_num).hi_edge
          ymin := (v.ay layer_num).lo_edge, ymax := (v.ay layer_num).hi_edge
          layer_num := layer_num }
      else num_on_edges layer_num }

/-- Function `update_bb_pin_sink_count` (place.cpp 3788-3802). The assertion on the count of
the old layer is not part of the model. -/
def update_bb_pin_sink_count (num_layers : Nat) (pin_old_loc pin_new_loc : t_physical_tile_loc)
    (curr_layer_pin_sink_count bb_pin_sink_count_new : Nat → Int) (is_output_pin : Bool) :
    Nat → Int :=
  let copied : Nat → Int := fun layer_num =>
    if layer_num < num_layers then curr_layer_pin_sink_count layer_num
    else bb_pin_sink_count_new layer_num
  if !is_output_pin then
    let c1 := Function.update copied pin_old_loc.layer_num (copied pin_old_loc.layer_num - 1)
    Function.update c1 pin_new_loc.layer_num (c1 pin_new_loc.layer_num + 1)
  else copied

/-- Function `update_bb_edge` (place.cpp 3804-3823) without its side effect: `none` is the
branch that recomputes the net from scratch, otherwise the result is the new number of blocks
on the edge and the new edge coordinate. -/
def update_bb_edge (old_num_block_on_edge old_edge_coord : Int) : Option (Int × Int) :=
  if old_num_block_on_edge = 1 then none
  else some (old_num_block_on_edge - 1, old_edge_coord)

/-- The side effect of the first branch of `update_bb_edge`: `get_layer_bb_from_scratch` on the
three scratch arrays of the net, and the flag `GOT_FROM_SCRATCH`. -/
def update_bb_edge_from_scratch (nl : ClusteredNetlist) (grid : DeviceGrid)
    (s : LayerPlacerState) (net_id : Nat) : LayerPlacerState :=
  let r := get_layer_bb_from_scratch nl grid s.block_locs net_id (s.layer_ts_bb_edge_new net_id)
    (s.layer_ts_bb_coord_new net_id) (s.ts_layer_sink_pin_count net_id)
  { s with
    layer_ts_bb_edge_new := Function.update s.layer_ts_bb_edge_new net_id r.num_on_edges
    layer_ts_bb_coord_new := Function.update s.layer_ts_bb_coord_new net_id r.coords
    ts_layer_sink_pin_count :=
      Function.update s.ts_layer_sink_pin_count net_id r.layer_pin_sink_count
    bb_updated_before := Function.update s.bb_updated_before net_id BBFlag.GOT_FROM_SCRATCH }

/-- One axis of `update_bb_same_layer` (place.cpp 3618-3663 for `x`, 3665-3710 for `y`): `curr`
is the axis of the current box and `new` the axis of the box being written. The result `none`
is the branch in which `update_bb_edge` recomputes the net from scratch and the routine
returns. -/
def same_layer_axis (curr new : AxisBB) (pin_old pin_new : Int) : Option AxisBB :=
  if pin_new < pin_old then
    let r : Option AxisBB :=
      if pin_old = curr.hi then
        (update_bb_edge curr.hi_edge curr.hi).map (fun p => { new with hi_edge := p.1, hi := p.2 })
      else some new
    r.map (fun n =>
      if pin_new < curr.lo then { n with lo_edge := 1, lo := pin_new }
      else if pin_new = curr.lo then { n with lo_edge := curr.lo_edge + 1, lo := curr.lo }
      else n)
  else if pin_new > pin_old then
    let r : Option AxisBB :=
      if pin_old = curr.lo then
        (update_bb_edge curr.lo_edge curr.lo).map (fun p => { new with lo_edge := p.1, lo := p.2 })
      else some new
    r.map (fun n =>
      if pin_new > curr.hi then { n with hi_edge := 1, hi := pin_new }
      else if pin_new = curr.hi then { n with hi_edge := curr.hi_edge + 1, hi := curr.hi }
      else n)
  else some new

/-- Writing the x fields of the scratch box of layer `layer_num` of a net. -/
def write_axis_x (s : LayerPlacerState) (net_id layer_num : Nat) (a : AxisBB) :
    LayerPlacerState :=
  { s with
    layer_ts_bb_coord_new := Function.update s.layer_ts_bb_coord_new net_id
      (Function.update (s.layer_ts_bb_coord_new net_id) layer_num
        { s.layer_ts_bb_coord_new net_id layer_num with xmin := a.lo, xmax := a.hi })
    layer_ts_bb_edge_new := Function.update s.layer_ts_bb_edge_new net_id
      (Function.update (s.layer_ts_bb_edge_new net_id) layer_num
        { s.layer_ts_bb_edge_new net_id layer_num with xmin := a.lo_edge, xmax := a.hi_edge }) }

/-- Writing the y fields of the scratch box of layer `layer_num` of a net. -/
def write_axis_y (s : LayerPlacerState) (net_id layer_num : Nat) (a : AxisBB) :
    LayerPlacerState :=
  { s with
    layer_ts_bb_coord_new := Function.update s.layer_ts_bb_coord_new net_id
      (Function.update (s.layer_ts_bb_coord_new net_id) layer_num
        { s.layer_ts_bb_coord_new net_id layer_num with ymin := a.lo, ymax := a.hi })
    layer_ts_bb_edge_new := Function.update s.layer_ts_bb_edge_new net_id
      (Function.update (s.layer_ts_bb_edge_new net_id) layer_num
        { s.layer_ts_bb_edge_new net_id layer_num with ymin := a.lo_edge, ymax := a.hi_edge }) }

/-- Function `update_bb_same_layer` (place.cpp 3601-3711), called on the scratch arrays of the
net. `curr_bb_edge` and `curr_bb_coord` are the current boxes; every field of them is read
before the scratch field of the same name is written, so that passing their value gives the
same result also when the source passes the scratch arrays themselves. -/
def update_bb_same_layer (nl : ClusteredNetlist) (grid : DeviceGrid) (s : LayerPlacerState)
    (net_id : Nat) (pin_old_loc pin_new_loc : t_physical_tile_loc)
    (curr_bb_edge curr_bb_coord : Nat → t_2D_bb) : LayerPlacerState :=
  let layer_num := pin_old_loc.layer_num
  match same_layer_axis (axis2_x (curr_bb_coord layer_num) (curr_bb_edge layer_num))
      (axis2_x (s.layer_ts_bb_coord_new net_id layer_num)
        (s.layer_ts_bb_edge_new net_id layer_num)) pin_old_loc.x pin_new_loc.x with
  | none => update_bb_edge_from_scratch nl grid s net_id
  | some ax =>
    let s1 := write_axis_x s net_id layer_num ax
    match same_layer_axis (axis2_y (curr_bb_coord layer_num) (curr_bb_edge layer_num))
        (axis2_y (s1.layer_ts_bb_coord_new net_id layer_num)
          (s1.layer_ts_bb_edge_new net_id layer_num)) pin_old_loc.y pin_new_loc.y with
    | none => update_bb_edge_from_scratch nl grid s1 net_id
    | some ay => write_axis_y s1 net_id layer_num ay

/-- One axis of the first part of `update_bb_layer_changed` (place.cpp 3729-3753 for `x`,
3755-3779 for `y`): the pin leaves the box of its old layer. The result `none` is the branch in
which `update_bb_edge` recomputes the net from scratch and the routine returns. -/
def layer_changed_axis (curr new : AxisBB) (pin_old : Int) : Option AxisBB :=
  if pin_old = curr.hi then
    (update_bb_edge curr.hi_edge curr.hi).map (fun p => { new with hi_edge := p.1, hi := p.2 })
  else if pin_old = curr.lo then
    (update_bb_edge curr.lo_edge curr.lo).map (fun p => { new with lo_edge := p.1, lo := p.2 })
  else some new

/-- One axis of `add_block_to_bb` (place.cpp 3833-3845 for `x`, 3847-3859 for `y`): `old` is
the axis of the box before the pin is added and `new` the axis of the box being written. -/
def add_block_to_bb_axis (old new : AxisBB) (pin_new : Int) : AxisBB :=
  let n1 : AxisBB :=
    if pin_new > old.hi then { new with hi_edge := 1, hi := pin_new }
    else if pin_new = old.hi then { new with hi_edge := old.hi_edge + 1 }
    else new
  if pin_new < old.lo then { n1 with lo_edge := 1, lo := pin_new }
  else if pin_new = old.lo then { n1 with lo_edge := old.lo_edge + 1 }
  else n1

/-- Function `add_block_to_bb` (place.cpp 3825-3860), called on the scratch box of layer
`layer_num` of a net. -/
def add_block_to_bb (s : LayerPlacerState) (net_id layer_num : Nat)
    (new_pin_loc : t_physical_tile_loc) (bb_edge_old bb_coord_old : t_2D_bb) :
    LayerPlacerState :=
  let s1 := write_axis_x s net_id layer_num
    (add_block_to_bb_axis (axis2_x bb_coord_old bb_edge_old)
      (axis2_x (s.layer_ts_bb_coord_new net_id layer_num)
        (s.layer_ts_bb_edge_new net_id layer_num)) new_pin_loc.x)
  write_axis_y s1 net_id layer_num
    (add_block_to_bb_axis (axis2_y bb_coord_old bb_edge_old)
      (axis2_y (s1.layer_ts_bb_coord_new net_id layer_num)
        (s1.layer_ts_bb_edge_new net_id layer_num)) new_pin_loc.y)

/-- Function `update_bb_layer_changed` (place.cpp 3713-3786), called on the scratch arrays of
the net: the pin is taken out of the box of its old layer and added to the box of its new
layer. -/
def update_bb_layer_changed (nl : ClusteredNetlist) (grid : DeviceGrid) (s : LayerPlacerState)
    (net_id : Nat) (pin_old_loc pin_new_loc : t_physical_tile_loc)
    (curr_bb_edge curr_bb_coord : Nat → t_2D_bb) : LayerPlacerState :=
  let old_layer_num := pin_old_loc.layer_num
  let new_layer_num := pin_new_loc.layer_num
  match layer_changed_axis (axis2_x (curr_bb_coord old_layer_num) (curr_bb_edge old_layer_num))
      (axis2_x (s.layer_ts_bb_coord_new net_id old_layer_num)
        (s.layer_ts_bb_edge_new net_id old_layer_num)) pin_old_loc.x with
  | none => update_bb_edge_from_scratch nl grid s net_id
  | some ax =>
    let s1 := write_axis_x s net_id old_layer_num ax
    match layer_changed_axis
        (axis2_y (curr_bb_coord old_layer_num) (curr_bb_edge old_layer_num))
        (axis2_y (s1.layer_ts_bb_coord_new net_id old_layer_num)
          (s1.layer_ts_bb_edge_new net_id old_layer_num)) pin_old_loc.y with
    | none => update_bb_edge_from_scratch nl grid s1 net_id
    | some ay =>
      add_block_to_bb (write_axis_y s1 net_id old_layer_num ay) net_id new_layer_num
        pin_new_loc (curr_bb_edge new_layer_num) (curr_bb_coord new_layer_num)

/-- Function `update_layer_bb` (place.cpp 3511-3599), called with the reference arguments
`layer_ts_bb_edge_new[net_id]`, `layer_ts_bb_coord_new[net_id]` and
`ts_layer_sink_pin_count[net_id]`, as `update_net_layer_bb` does. -/
def update_layer_bb (nl : ClusteredNetlist) (grid : DeviceGrid) (s : LayerPlacerState)
    (net_id : Nat) (pin_old_loc pin_new_loc : t_physical_tile_loc) (is_output_pin : Bool) :
    LayerPlacerState :=
  let pin_new : t_physical_tile_loc :=
    { x := clip_coord pin_new_loc.x grid.width, y := clip_coord pin_new_loc.y grid.height
      layer_num := pin_new_loc.layer_num }
  let pin_old : t_physical_tile_loc :=
    { x := clip_coord pin_old_loc.x grid.width, y := clip_coord pin_old_loc.y grid.height
      layer_num := pin_old_loc.layer_num }
  if s.bb_updated_before net_id = BBFlag.GOT_FROM_SCRATCH then s
  else
    let not_yet := decide (s.bb_updated_before net_id = BBFlag.NOT_UPDATED_YET)
    let curr_layer_pin_sink_count :=
      if not_yet then s.num_sink_pin_layer net_id else s.ts_layer_sink_pin_count net_id
    let curr_bb_edge :=
      if not_yet then s.layer_bb_num_on_edges net_id else s.layer_ts_bb_edge_new net_id
    let curr_bb_coord :=
      if not_yet then s.layer_bb_coords net_id else s.layer_ts_bb_coord_new net_id
    let s1 : LayerPlacerState :=
      if not_yet then
        { s with bb_updated_before :=
            Function.update s.bb_updated_before net_id BBFlag.UPDATED_ONCE }
      else s
    let s2 : LayerPlacerState :=
      { s1 with
        ts_layer_sink_pin_count := Function.update s1.ts_layer_sink_pin_count net_id
          (update_bb_pin_sink_count grid.num_layers pin_old pin_new curr_layer_pin_sink_count
            (s1.ts_layer_sink_pin_count net_id) is_output_pin)
        layer_ts_bb_edge_new := Function.update s1.layer_ts_bb_edge_new net_id curr_bb_edge
        layer_ts_bb_coord_new := Function.update s1.layer_ts_bb_coord_new net_id curr_bb_coord }
    let s3 : LayerPlacerState :=
      if pin_old.layer_num ≠ pin_new.layer_num then
        update_bb_layer_changed nl grid s2 net_id pin_old pin_new curr_bb_edge curr_bb_coord
      else
        update_bb_same_layer nl grid s2 net_id pin_old pin_new curr_bb_edge curr_bb_coord
    if s3.bb_updated_before net_id = BBFlag.NOT_UPDATED_YET then
      { s3 with bb_updated_before :=
          Function.update s3.bb_updated_before net_id BBFlag.UPDATED_ONCE }
    else s3

/-! ## Notions used to state the properties of the per-layer boxes -/

/-- The pins that the box of a net on a layer describes under a placement: the driver of the
net and the sinks that sit on the layer. -/
def layer_pins (nl : ClusteredNetlist) (block_locs : Nat → t_pl_loc) (net_id layer : Nat) :
    List Nat :=
  nl.net_driver net_id ::
    (nl.net_sinks net_id).filter (fun p => decide (net_pin_layer nl block_locs p = layer))

/-- The per-layer pair of coordinates `c` and edge counts `e` describes the pins `pins` whose
clipped coordinates are given by `fx` and `fy`. -/
def Box2Is (fx fy : Nat → Int) (pins : List Nat) (c e : t_2D_bb) : Prop :=
  IsAxisBB (pins.map fx) (axis2_x c e) ∧ IsAxisBB (pins.map fy) (axis2_y c e)

/-! ## Concrete per-layer updates on two layers -/

/-- An unused scratch entry. -/
def ex_zero_2D_bb : t_2D_bb :=
  { xmin := 0, xmax := 0, ymin := 0, ymax := 0, layer_num := 0 }

/-- The state in which `update_layer_bb` is called for net 0 of the example netlist on the
two-layer grid: the per-layer cache is the one `get_layer_bb_from_scratch` computes on the
placement `P` before the move, the blocks are at `Q` (the move has been applied), and the
scratch of the swap is empty. -/
def ex_layer_state (P Q : Nat → t_pl_loc) : LayerPlacerState :=
  let r := get_layer_bb_from_scratch ex_nl ex_grid2 P 0 (fun _ => ex_zero_2D_bb)
    (fun _ => ex_zero_2D_bb) (fun _ => 0)
  { toPlacerState :=
      { ex_state with
        block_locs := Q
        num_sink_pin_layer := fun _ => r.layer_pin_sink_count }
    layer_bb_coords := fun _ => r.coords
    layer_bb_num_on_edges := fun _ => r.num_on_edges
    layer_ts_bb_edge_new := fun _ _ => ex_zero_2D_bb
    layer_ts_bb_coord_new := fun _ _ => ex_zero_2D_bb }

/-- The example placement after block 4 has moved from `x = 7` to `x = 4` on layer 0. -/
def ex_locs_same_layer : Nat → t_pl_loc :=
  Function.update ex_block_locs 4 (ex_loc 4 1)

/-- The example placement after block 4 has moved from `x = 7` on layer 0 to `x = 4` on
layer 1. -/
def ex_locs_layer_changed : Nat → t_pl_loc :=
  Function.update ex_block_locs 4 { x := 4, y := 1, sub_tile := 0, layer := 1 }

/-- A placement of the example netlist on two layers: the driver (block 0) at `(4, 4)` and the
sinks of blocks 1 and 2 at `(3, 3)` and `(5, 5)` on layer 0, the sinks of blocks 3, 4 and 5 at
`(6, 6)`, `(7, 7)` and `(8, 8)` on layer 1. -/
def ex_two_layer_locs (b : Nat) : t_pl_loc :=
  match b with
  | 0 => { x := 4, y := 4, sub_tile := 0, layer := 0 }
  | 1 => { x := 3, y := 3, sub_tile := 0, layer := 0 }
  | 2 => { x := 5, y := 5, sub_tile := 0, layer := 0 }
  | 3 => { x := 6, y := 6, sub_tile := 0, layer := 1 }
  | 4 => { x := 7, y := 7, sub_tile := 0, layer := 1 }
  | 5 => { x := 8, y := 8, sub_tile := 0, layer := 1 }
  | _ => { x := 1, y := 1, sub_tile := 0, layer := 0 }

/-- The two-layer placement after the driver block has moved from `(4, 4)` to `(5, 4)` on
layer 0. -/
def ex_locs_driver_moved : Nat → t_pl_loc :=
  Function.update ex_two_layer_locs 0 { x := 5, y := 4, sub_tile := 0, layer := 0 }

/-! ## The per-layer wirelength cost from scratch -/

/-- The local vectors of `get_non_updateable_layer_bb` while it scans the sinks: one (min, max)
pair per axis and layer. -/
structure LayerHullVars where
  hx : Nat → Int × Int
  hy : Nat → Int × Int
  num_sink_layer : Nat → Int

/-- Body of the sink loop of `get_non_updateable_layer_bb` (place.cpp 3255-3276). -/
def layer_hull_sink_step (nl : ClusteredNetlist) (block_locs : Nat → t_pl_loc)
    (v : LayerHullVars) (pin_id : Nat) : LayerHullVars :=
  let bnum := nl.pin_block pin_id
  let pnum := nl.tile_pin_index pin_id
  let x := pin_x nl block_locs bnum pnum
  let y := pin_y nl block_locs bnum pnum
  let layer_num := (block_locs bnum).layer
  { hx := Function.update v.hx layer_num (hull_axis_step (v.hx layer_num) x)
    hy := Function.update v.hy layer_num (hull_axis_step (v.hy layer_num) y)
    num_sink_layer := incr_layer_count v.num_sink_layer layer_num }

/-- Function `get_non_updateable_layer_bb` (place.cpp 3226-3292): on every layer the min and
max over the driver and the sinks of the layer, then clipped to the inner grid. Returns the
coordinates and the per-layer sink counts; the last two arguments are the previous contents of
the arrays that the routine overwrites below `num_layers`. -/
def get_non_updateable_layer_bb (nl : ClusteredNetlist) (grid : DeviceGrid)
    (block_locs : Nat → t_pl_loc) (net_id : Nat) (bb_coord_new : Nat → t_2D_bb)
    (num_sink_layer : Nat → Int) : (Nat → t_2D_bb) × (Nat → Int) :=
  let bnum := nl.net_driver_block net_id
  let pnum := nl.net_driver_tile_pin_index net_id
  let src_x := pin_x nl block_locs bnum pnum
  let src_y := pin_y nl block_locs bnum pnum
  let init : LayerHullVars :=
    { hx := fun _ => (src_x, src_x), hy := fun _ => (src_y, src_y)
      num_sink_layer := reset_layer_counts grid.num_layers num_sink_layer }
  let v := (nl.net_sinks net_id).foldl (layer_hull_sink_step nl block_locs) init
  (fun layer_num =>
    if layer_num < grid.num_layers then
      { layer_num := layer_num
        xmin := clip_coord (v.hx layer_num).1 grid.width
        ymin := clip_coord (v.hy layer_num).1 grid.height
        xmax := clip_coord (v.hx layer_num).2 grid.width
        ymax := clip_coord (v.hy layer_num).2 grid.height }
    else bb_coord_new layer_num, v.num_sink_layer)

/-- Function `get_net_layer_cost` (place.cpp 3118-3150): the wirelength cost of one net from its
per-layer boxes; a layer without sinks costs nothing. The assertion that no count is `OPEN` is
not part of the model. -/
def get_net_layer_cost (grid : DeviceGrid) (fac : CostFac) (bbptr : Nat → t_2D_bb)
    (layer_pin_sink_count : Nat → Int) : ℚ :=
  (List.range grid.num_layers).foldl
    (fun ncost layer_num =>
      if layer_pin_sink_count layer_num = 0 then ncost
      else
        let crossing :=
          wirelength_crossing_count (size_t_of_int (layer_pin_sink_count layer_num + 1))
        let b := bbptr layer_num
        let ncost1 := ncost + ((b.xmax - b.xmin + 1 : Int) : ℚ) * crossing
          * fac.chanx_place_cost_fac (size_t_of_int b.ymax) (size_t_of_int (b.ymin - 1))
        ncost1 + ((b.ymax - b.ymin + 1 : Int) : ℚ) * crossing
          * fac.chany_place_cost_fac (size_t_of_int b.xmax) (size_t_of_int (b.xmin - 1)))
    0

/-- Body of the net loop of `comp_layer_bb_cost` (place.cpp 2596-2621). The wirelength estimate
that the CHECK method only logs is left out. -/
def comp_layer_bb_cost_step (nl : ClusteredNetlist) (grid : DeviceGrid) (fac : CostFac)
    (method : e_cost_methods) (acc : LayerPlacerState × ℚ) (net_id : Nat) :
    LayerPlacerState × ℚ :=
  if !nl.net_is_ignored net_id then
    let s := acc.1
    let s1 : LayerPlacerState :=
      if (nl.net_sinks net_id).length ≥ SMALL_NET ∧ method = e_cost_methods.NORMAL then
        let r := get_layer_bb_from_scratch nl grid s.block_locs net_id
          (s.layer_bb_num_on_edges net_id) (s.layer_bb_coords net_id)
          (s.num_sink_pin_layer net_id)
        { s with
          layer_bb_num_on_edges := Function.update s.layer_bb_num_on_edges net_id r.num_on_edges
          layer_bb_coords := Function.update s.layer_bb_coords net_id r.coords
          num_sink_pin_layer :=
            Function.update s.num_sink_pin_layer net_id r.layer_pin_sink_count }
      else
        let r := get_non_updateable_layer_bb nl grid s.block_locs net_id
          (s.layer_bb_coords net_id) (s.num_sink_pin_layer net_id)
        { s with
          layer_bb_coords := Function.update s.layer_bb_coords net_id r.1
          num_sink_pin_layer := Function.update s.num_sink_pin_layer net_id r.2 }
    let c := get_net_layer_cost grid fac (s1.layer_bb_coords net_id)
      (s1.num_sink_pin_layer net_id)
    ({ s1 with net_cost := Function.update s1.net_cost net_id c }, acc.2 + c)
  else acc

/-- Function `comp_layer_bb_cost` (place.cpp 2591-2631): returns the state it leaves and the
cost. -/
def comp_layer_bb_cost (nl : ClusteredNetlist) (grid : DeviceGrid) (fac : CostFac)
    (method : e_cost_methods) (s : LayerPlacerState) : LayerPlacerState × ℚ :=
  (List.range nl.num_nets).foldl (comp_layer_bb_cost_step nl grid fac method) (s, 0)

/-! ## The bounding-box mode -/

/-- The values of `e_place_bounding_box_mode` that `is_cube_bb` distinguishes. -/
inductive e_place_bounding_box_mode where
  | AUTO_BB
  | CUBE_BB
  | PER_LAYER_BB
deriving DecidableEq, Repr

/-- Function `is_cube_bb` (place.cpp 1977-2006). The function
`inter_layer_connections_limited_to_opin`, which analyses the RR graph, is a parameter. The
result `none` is the failure of the assertion `number_layers > 1`. -/
def is_cube_bb {RRGraphView : Type} (grid : DeviceGrid)
    (inter_layer_connections_limited_to_opin : RRGraphView → Bool)
    (place_bb_mode : e_place_bounding_box_mode) (rr_graph : RRGraphView) : Option Bool :=
  let number_layers : Int := grid.num_layers
  if number_layers = 1 then some true
  else if number_layers > 1 then
    match place_bb_mode with
    | e_place_bounding_box_mode.AUTO_BB =>
      if inter_layer_connections_limited_to_opin rr_graph then some false else some true
    | e_place_bounding_box_mode.CUBE_BB => some true
    | e_place_bounding_box_mode.PER_LAYER_BB => some false
  else none

/-! ## The reward of a move -/

/-- The values of `e_reward_function` that `calculate_reward_and_process_outcome` names. -/
inductive e_reward_function where
  | BASIC
  | NON_PENALIZING_BASIC
  | RUNTIME_AWARE
  | WL_BIASED_RUNTIME_AWARE
deriving DecidableEq, Repr

/-- The fields of `MoveOutcomeStats` that the reward reads. -/
structure MoveOutcomeStats where
  delta_cost_norm : ℚ
  delta_bb_cost_norm : ℚ
  delta_timing_cost_norm : ℚ

/-- Function `calculate_reward_and_process_outcome` (place.cpp 4405-4439). The last argument is
the function-static `reward_fun`, empty before the first call; `string_to_reward` and the
rounding `to_float` of a double to a float are parameters. The result is the static variable
after the call and the arguments of the call of `move_generator.process_outcome`. -/
def calculate_reward_and_process_outcome (string_to_reward : String → e_reward_function)
    (to_float : ℚ → ℚ) (place_reward_fun : String) (move_outcome_stats : MoveOutcomeStats)
    (delta_c : ℚ) (timing_bb_factor : ℚ) (reward_fun : Option e_reward_function) :
    Option e_reward_function × Option (ℚ × e_reward_function) :=
  let rf : e_reward_function :=
    match reward_fun with
    | some r => r
    | none => string_to_reward place_reward_fun
  let call : Option (ℚ × e_reward_function) :=
    match rf with
    | e_reward_function.BASIC => some (-1 * delta_c, rf)
    | e_reward_function.NON_PENALIZING_BASIC =>
      if delta_c < 0 then some (-1 * delta_c, rf) else some (0, rf)
    | e_reward_function.RUNTIME_AWARE =>
      if delta_c < 0 then some (-1 * delta_c, rf) else some (0, rf)
    | e_reward_function.WL_BIASED_RUNTIME_AWARE =>
      if delta_c < 0 then
        some (to_float (-1 * (move_outcome_stats.delta_cost_norm
          + (0.5 - timing_bb_factor) * move_outcome_stats.delta_timing_cost_norm
          + timing_bb_factor * move_outcome_stats.delta_bb_cost_norm)), rf)
      else some (0, rf)
  (some rf, call)

/-! ## The periodic recomputation of the costs -/

/-- The macro `MAX_MOVES_BEFORE_RECOMPUTE` (place.cpp 98). -/
def MAX_MOVES_BEFORE_RECOMPUTE : Int := 500000

/-- The end of the body of the inner loop (place.cpp 1395-1402): the counter is incremented and,
when it exceeds the limit, `recompute_costs_from_scratch` is called and the counter is reset.
Returns whether the call is made and the counter after the iteration. -/
def inner_loop_recompute_step (moves_since_cost_recompute : Int) : Bool × Int :=
  let m := moves_since_cost_recompute + 1
  if m > MAX_MOVES_BEFORE_RECOMPUTE then (true, 0) else (false, m)

/-- The loop of `placement_inner_loop` (place.cpp 1341-1420) as far as the counter
`moves_since_cost_recompute` goes: `move_lim` iterations, one move each. Returns the values of
`inner_iter` in whose iteration `recompute_costs_from_scratch` is called, and the counter after
the loop. -/
def placement_inner_loop (move_lim : Nat) (moves_since_cost_recompute : Int) :
    List Nat × Int :=
  (List.range move_lim).foldl
    (fun acc inner_iter =>
      let r := inner_loop_recompute_step acc.2
      (if r.1 then acc.1 ++ [inner_iter] else acc.1, r.2))
    ([], moves_since_cost_recompute)

/-! ## The placement audits of `check_place` -/

/-- The macro `ERROR_TOL` (place.cpp 93). -/
def ERROR_TOL : ℚ := 0.01

/-- A `ClusterBlockId` as the grid stores it: a block of the netlist or one of the two special
ids `EMPTY_BLOCK_ID` and `INVALID_BLOCK_ID`. -/
inductive ClusterBlockId where
  | EMPTY_BLOCK_ID
  | INVALID_BLOCK_ID
  | blk (bnum : Nat)
deriving DecidableEq, Repr

/-- A location whose four components are C++ `int`s, as the grid is asked about it. A stored
block location has a layer that is a `Nat`; a location computed from an offset need not. -/
structure t_pl_pos where
  x : Int
  y : Int
  sub_tile : Int
  layer : Int
deriving DecidableEq, Repr

/-- The stored location of a block as a position. -/
def t_pl_loc.pos (loc : t_pl_loc) : t_pl_pos :=
  { x := loc.x, y := loc.y, sub_tile := loc.sub_tile, layer := loc.layer }

/-- Offset `t_pl_offset` of a macro member from the head of the macro. -/
structure t_pl_offset where
  x : Int
  y : Int
  sub_tile : Int
  layer : Int
deriving DecidableEq, Repr

/-- Modelled from the spec: `loc + offset`, the operator `+` of `t_pl_loc` and `t_pl_offset`
(declared in `vpr_types.h`), taken componentwise. -/
def t_pl_loc.add (loc : t_pl_loc) (offset : t_pl_offset) : t_pl_pos :=
  { x := loc.x + offset.x, y := loc.y + offset.y, sub_tile := loc.sub_tile + offset.sub_tile
    layer := loc.layer + offset.layer }

/-- The part of `place_ctx.grid_blocks` that the audits read. -/
structure GridBlocks where
  block_at_location : t_pl_pos → ClusterBlockId
  get_usage : t_physical_tile_loc → Int

/-- The tables of tile and block types that `check_block_placement_consistency` reads; a
physical tile type and a logical block type are identified by a number. -/
structure TileTypes where
  get_physical_type : t_physical_tile_loc → Nat
  capacity : Nat → Int
  physical_tile_type : Nat → Nat
  block_type : Nat → Nat
  is_sub_tile_compatible : Nat → Nat → Int → Bool

/-- The local variables of `check_block_placement_consistency`. -/
structure BlockCheckVars where
  error : Int
  bdone : Nat → Int

/-- Body of the loop over the sub-tiles `k` of one tile (place.cpp 4077-4112); the second
component of the accumulator is `usage_check`. -/
def check_sub_tile_step (tt : TileTypes) (grid_blocks : GridBlocks)
    (block_locs : Nat → t_pl_loc) (layer_num i j : Nat) (acc : BlockCheckVars × Int) (k : Nat) :
    BlockCheckVars × Int :=
  match grid_blocks.block_at_location { x := i, y := j, sub_tile := k, layer := layer_num } with
  | ClusterBlockId.EMPTY_BLOCK_ID => acc
  | ClusterBlockId.INVALID_BLOCK_ID => acc
  | ClusterBlockId.blk bnum =>
    let physical_tile := tt.get_physical_type { x := i, y := j, layer_num := layer_num }
    let logical_block := tt.block_type bnum
    let error1 :=
      if tt.physical_tile_type bnum ≠ physical_tile then acc.1.error + 1 else acc.1.error
    let loc := block_locs bnum
    let error2 :=
      if loc.x ≠ (i : Int) ∨ loc.y ≠ (j : Int) ∨ loc.layer ≠ layer_num
          ∨ (!tt.is_sub_tile_compatible physical_tile logical_block loc.sub_tile) = true then
        error1 + 1
      else error1
    ({ error := error2, bdone := Function.update acc.1.bdone bnum (acc.1.bdone bnum + 1) },
      acc.2 + 1)

/-- Body of the loop over the tiles (place.cpp 4065-4123). -/
def check_tile_step (tt : TileTypes) (grid_blocks : GridBlocks) (block_locs : Nat → t_pl_loc)
    (layer_num i j : Nat) (acc : BlockCheckVars) : BlockCheckVars :=
  let tile_loc : t_physical_tile_loc := { x := i, y := j, layer_num := layer_num }
  let type := tt.get_physical_type tile_loc
  let error0 :=
    if grid_blocks.get_usage tile_loc > tt.capacity type then acc.error + 1 else acc.error
  let r := (List.range (tt.capacity type).toNat).foldl
    (check_sub_tile_step tt grid_blocks block_locs layer_num i j)
    ({ acc with error := error0 }, 0)
  { r.1 with
    error := if r.2 ≠ grid_blocks.get_usage tile_loc then r.1.error + 1 else r.1.error }

/-- Function `check_block_placement_consistency` (place.cpp 4053-4134): the number of errors
found. The blocks of the netlist are `0 .. num_blocks - 1`; `bdone` is indexed by any block
number that the grid holds. -/
def check_block_placement_consistency (nl : ClusteredNetlist) (grid : DeviceGrid)
    (tt : TileTypes) (grid_blocks : GridBlocks) (block_locs : Nat → t_pl_loc) : Int :=
  let v := (List.range grid.num_layers).foldl
    (fun acc layer_num => (List.range grid.width).foldl
      (fun acc i => (List.range grid.height).foldl
        (fun acc j => check_tile_step tt grid_blocks block_locs layer_num i j acc) acc) acc)
    { error := 0, bdone := fun _ => 0 }
  (List.range nl.num_blocks).foldl
    (fun error blk_id => if v.bdone blk_id ≠ 1 then error + 1 else error) v.error

/-- A member of a placement macro: `t_pl_macro_member`. -/
structure t_pl_macro_member where
  blk_index : Nat
  offset : t_pl_offset
deriving DecidableEq, Repr

/-- A placement macro: `t_pl_macro`. -/
structure t_pl_macro where
  members : List t_pl_macro_member
deriving DecidableEq, Repr

/-- Body of the loop over the members of one macro (place.cpp 4149-4170). -/
def check_macro_member_step (grid_blocks : GridBlocks) (block_locs : Nat → t_pl_loc)
    (head_iblk : Nat) (error : Int) (member : t_pl_macro_member) : Int :=
  let member_iblk := member.blk_index
  let member_pos := (block_locs head_iblk).add member.offset
  let error1 := if (block_locs member_iblk).pos ≠ member_pos then error + 1 else error
  if grid_blocks.block_at_location member_pos ≠ ClusterBlockId.blk member_iblk then error1 + 1
  else error1

/-- Function `check_macro_placement_consistency` (place.cpp 4136-4173): the number of errors
found. The head of a macro is its member 0 (a macro has at least one member). -/
def check_macro_placement_consistency (pl_macros : List t_pl_macro) (grid_blocks : GridBlocks)
    (block_locs : Nat → t_pl_loc) : Int :=
  pl_macros.foldl
    (fun error mac =>
      let head_iblk := (mac.members.map (fun m => m.blk_index)).headD 0
      mac.members.foldl (check_macro_member_step grid_blocks block_locs head_iblk) error)
    0

/-- Function `check_placement_consistency` (place.cpp 4048-4051). -/
def check_placement_consistency (nl : ClusteredNetlist) (grid : DeviceGrid) (tt : TileTypes)
    (grid_blocks : GridBlocks) (pl_macros : List t_pl_macro) (block_locs : Nat → t_pl_loc) :
    Int :=
  check_block_placement_consistency nl grid tt grid_blocks block_locs
    + check_macro_placement_consistency pl_macros grid_blocks block_locs

/-- Function `check_placement_costs` (place.cpp 4008-4046): the number of errors found.
`cube_bb` is the flag of the placement context; `timing_cost_check` is the value that
`comp_td_costs` computes. -/
def check_placement_costs (nl : ClusteredNetlist) (grid : DeviceGrid) (fac : CostFac)
    (cube_bb : Bool) (place_algorithm : e_place_algorithm) (timing_cost_check : ℚ)
    (costs : t_placer_costs) (s : LayerPlacerState) : Int :=
  let bb_cost_check : ℚ :=
    if cube_bb then (comp_bb_cost nl grid fac e_cost_methods.CHECK s.toPlacerState).2
    else (comp_layer_bb_cost nl grid fac e_cost_methods.CHECK s).2
  let error : Int :=
    if |bb_cost_check - costs.bb_cost| > costs.bb_cost * ERROR_TOL then 1 else 0
  if place_algorithm.is_timing_driven then
    if |timing_cost_check - costs.timing_cost| > costs.timing_cost * ERROR_TOL then error + 1
    else error
  else error

/-- What `check_place` reads besides the placer state and the costs: the netlist, the device,
the cost factors, the grid, the macros, the options, and the results of the routines that are
not part of place.cpp: the cost that `comp_td_costs` computes and the numbers of errors that
`check_placement_floorplanning` and `check_noc_placement_costs` count. -/
structure CheckPlaceEnv where
  nl : ClusteredNetlist
  grid : DeviceGrid
  fac : CostFac
  tt : TileTypes
  grid_blocks : GridBlocks
  pl_macros : List t_pl_macro
  cube_bb : Bool
  place_algorithm : e_place_algorithm
  noc : Bool
  timing_cost_check : ℚ
  check_placement_floorplanning : Nat
  check_noc_placement_costs : t_placer_costs → Nat

/-- The sum `error` that `check_place` forms (place.cpp 3985-3994). -/
def check_place_error (env : CheckPlaceEnv) (costs : t_placer_costs) (s : LayerPlacerState) :
    Int :=
  let error := check_placement_consistency env.nl env.grid env.tt env.grid_blocks env.pl_macros
    s.block_locs
  let error := error + check_placement_costs env.nl env.grid env.fac env.cube_bb
    env.place_algorithm env.timing_cost_check costs s
  let error := error + (env.check_placement_floorplanning : Int)
  if env.noc then error + (env.check_noc_placement_costs costs : Int) else error

/-- Function `check_place` (place.cpp 3973-4006): succeeds when no error was found and ends in
`VPR_ERROR` with the number of errors otherwise. -/
def check_place (env : CheckPlaceEnv) (costs : t_placer_costs) (s : LayerPlacerState) :
    Except Int Unit :=
  if check_place_error env costs s = 0 then Except.ok ()
  else Except.error (check_place_error env costs s)

/-! ## A concrete placement for the audits -/

/-- A legal placement of the six blocks of the example netlist on tiles of capacity two: blocks
0 and 1 in the tile `(3, 1)`, blocks 2 and 3 in `(5, 1)`, blocks 4 and 5 in `(7, 1)`, the even
block in sub-tile 0 and the odd block in sub-tile 1. -/
def ex_audit_locs (b : Nat) : t_pl_loc :=
  match b with
  | 0 => { x := 3, y := 1, sub_tile := 0, layer := 0 }
  | 1 => { x := 3, y := 1, sub_tile := 1, layer := 0 }
  | 2 => { x := 5, y := 1, sub_tile := 0, layer := 0 }
  | 3 => { x := 5, y := 1, sub_tile := 1, layer := 0 }
  | 4 => { x := 7, y := 1, sub_tile := 0, layer := 0 }
  | 5 => { x := 7, y := 1, sub_tile := 1, layer := 0 }
  | _ => { x := 1, y := 1, sub_tile := 0, layer := 0 }

/-- The grid of the example placement: the inverse of `ex_audit_locs`, with two blocks in each
of the three occupied tiles. -/
def ex_grid_blocks : GridBlocks :=
  { block_at_location := fun pos =>
      if pos.layer = 0 ∧ pos.y = 1 ∧ (pos.sub_tile = 0 ∨ pos.sub_tile = 1) then
        if pos.x = 3 then ClusterBlockId.blk pos.sub_tile.toNat
        else if pos.x = 5 then ClusterBlockId.blk (2 + pos.sub_tile.toNat)
        else if pos.x = 7 then ClusterBlockId.blk (4 + pos.sub_tile.toNat)
        else ClusterBlockId.EMPTY_BLOCK_ID
      else ClusterBlockId.EMPTY_BLOCK_ID
    get_usage := fun tile_loc =>
      if tile_loc.layer_num = 0 ∧ tile_loc.y = 1
          ∧ (tile_loc.x = 3 ∨ tile_loc.x = 5 ∨ tile_loc.x = 7) then 2
      else 0 }

/-- The tile types of the example: one tile type of capacity two for every tile and one block
type, which fits both sub-tiles. -/
def ex_tile_types : TileTypes :=
  { get_physical_type := fun _ => 0
    capacity := fun _ => 2
    physical_tile_type := fun _ => 0
    block_type := fun _ => 0
    is_sub_tile_compatible := fun _ _ _ => true }

/-- The example placement with the stored sub-tiles of blocks 0 and 1 exchanged, while the grid
still holds block 0 in sub-tile 0 and block 1 in sub-tile 1 of the tile `(3, 1)`. -/
def ex_audit_swapped_locs : Nat → t_pl_loc :=
  Function.update
    (Function.update ex_audit_locs 0 { x := 3, y := 1, sub_tile := 1, layer := 0 })
    1 { x := 3, y := 1, sub_tile := 0, layer := 0 }

/-- One macro in the example: block 2 is the head and block 3 sits one sub-tile further. -/
def ex_pl_macros : List t_pl_macro :=
  [{ members := [{ blk_index := 2, offset := { x := 0, y := 0, sub_tile := 0, layer := 0 } },
                 { blk_index := 3, offset := { x := 0, y := 0, sub_tile := 1, layer := 0 } }] }]

/-- The placer state of the example placement, with the cache of the example state. -/
def ex_audit_state : LayerPlacerState :=
  { toPlacerState := { ex_state with block_locs := ex_audit_locs }
    layer_bb_coords := fun _ _ => ex_zero_2D_bb
    layer_bb_num_on_edges := fun _ _ => ex_zero_2D_bb
    layer_ts_bb_edge_new := fun _ _ => ex_zero_2D_bb
    layer_ts_bb_coord_new := fun _ _ => ex_zero_2D_bb }

/-- The environment of `check_place` in the example: cube bounding boxes, bounding-box
placement, no NoC, no floorplanning error. -/
def ex_check_env : CheckPlaceEnv :=
  { nl := ex_nl
    grid := ex_grid
    fac := ex_fac
    tt := ex_tile_types
    grid_blocks := ex_grid_blocks
    pl_macros := ex_pl_macros
    cube_bb := true
    place_algorithm := e_place_algorithm.BOUNDING_BOX_PLACE
    noc := false
    timing_cost_check := 0
    check_placement_floorplanning := 0
    check_noc_placement_costs := fun _ => 0 }

/-- The example state with the cost of net 0 changed by `+5%`. -/
def ex_corrupted_state : LayerPlacerState :=
  { ex_audit_state with
    net_cost := Function.update ex_audit_state.net_cost 0 (ex_audit_state.net_cost 0 * 1.05) }

/-! ## Notions used to state and prove the properties of the audits -/

/-- The sub-tiles of the tile `(i, j)` of a layer that the block audit visits:
`0 .. capacity - 1`. -/
def tile_sub_tiles (tt : TileTypes) (layer_num i j : Nat) : List Nat :=
  List.range (tt.capacity (tt.get_physical_type { x := i, y := j, layer_num := layer_num })).toNat

/-- The tiles that the block audit visits, as `(layer_num, i, j)`, in the order of the visit. -/
def grid_tiles (grid : DeviceGrid) : List (Nat × Nat × Nat) :=
  (List.range grid.num_layers).flatMap (fun layer_num =>
    (List.range grid.width).flatMap (fun i =>
      (List.range grid.height).map (fun j => (layer_num, i, j))))

/-- Whether the grid holds a block in sub-tile `k` of a tile. -/
def sub_tile_occupied (grid_blocks : GridBlocks) (layer_num i j k : Nat) : Bool :=
  match grid_blocks.block_at_location { x := i, y := j, sub_tile := k, layer := layer_num } with
  | ClusterBlockId.blk _ => true
  | _ => false

/-- The number of visited sub-tiles of a tile in which the grid holds a block. -/
def occupied_sub_tiles (tt : TileTypes) (grid_blocks : GridBlocks) (layer_num i j : Nat) : Nat :=
  ((tile_sub_tiles tt layer_num i j).filter (sub_tile_occupied grid_blocks layer_num i j)).length

/-- The number of visited sub-tiles of a tile in which the grid holds the block `b`. -/
def tile_occurrences (tt : TileTypes) (grid_blocks : GridBlocks) (layer_num i j b : Nat) : Nat :=
  ((tile_sub_tiles tt layer_num i j).filter (fun k : Nat =>
    decide (grid_blocks.block_at_location
      { x := i, y := j, sub_tile := (k : Int), layer := layer_num }
        = ClusterBlockId.blk b))).length

/-- The number of visited positions of the grid that hold the block `b`. -/
def grid_occurrences (grid : DeviceGrid) (tt : TileTypes) (grid_blocks : GridBlocks) (b : Nat) :
    Nat :=
  ((grid_tiles grid).map (fun t => tile_occurrences tt grid_blocks t.1 t.2.1 t.2.2 b)).sum

/-- The number of errors that the block audit counts at one sub-tile. -/
def sub_tile_errors (tt : TileTypes) (grid_blocks : GridBlocks) (block_locs : Nat → t_pl_loc)
    (layer_num i j k : Nat) : Nat :=
  match grid_blocks.block_at_location { x := i, y := j, sub_tile := k, layer := layer_num } with
  | ClusterBlockId.blk bnum =>
    (if tt.physical_tile_type bnum
        ≠ tt.get_physical_type { x := i, y := j, layer_num := layer_num } then 1 else 0)
    + (if (block_locs bnum).x ≠ (i : Int) ∨ (block_locs bnum).y ≠ (j : Int)
          ∨ (block_locs bnum).layer ≠ layer_num
          ∨ (!tt.is_sub_tile_compatible
              (tt.get_physical_type { x := i, y := j, layer_num := layer_num })
              (tt.block_type bnum) (block_locs bnum).sub_tile) = true then 1 else 0)
  | _ => 0

/-- The number of errors that the block audit counts at one tile. -/
def tile_errors (tt : TileTypes) (grid_blocks : GridBlocks) (block_locs : Nat → t_pl_loc)
    (layer_num i j : Nat) : Nat :=
  (if grid_blocks.get_usage { x := i, y := j, layer_num := layer_num }
      > tt.capacity (tt.get_physical_type { x := i, y := j, layer_num := layer_num })
    then 1 else 0)
  + ((tile_sub_tiles tt layer_num i j).map
      (sub_tile_errors tt grid_blocks block_locs layer_num i j)).sum
  + (if (occupied_sub_tiles tt grid_blocks layer_num i j : Int)
      ≠ grid_blocks.get_usage { x := i, y := j, layer_num := layer_num } then 1 else 0)

/-- The number of errors that the macro audit counts at one member of a macro. -/
def macro_member_errors (grid_blocks : GridBlocks) (block_locs : Nat → t_pl_loc)
    (head_iblk : Nat) (member : t_pl_macro_member) : Nat :=
  (if (block_locs member.blk_index).pos ≠ (block_locs head_iblk).add member.offset
    then 1 else 0)
  + (if grid_blocks.block_at_location ((block_locs head_iblk).add member.offset)
      ≠ ClusterBlockId.blk member.blk_index then 1 else 0)

/-- The head of a macro: the block of its member 0. -/
def macro_head (mac : t_pl_macro) : Nat :=
  (mac.members.map (fun m => m.blk_index)).headD 0

/-! ## The periodic placement save of `placement_inner_loop` -/

/-- Division of C++ on `int`, truncating; it is undefined for a zero divisor: `none`. -/
def int_div (a b : Int) : Option Int :=
  if b = 0 then none else some (Int.tdiv a b)

/-- Remainder of C++ on `int`; it is undefined for a zero divisor: `none`. -/
def int_mod (a b : Int) : Option Int :=
  if b = 0 then none else some (Int.tmod a b)

/-- The condition of the periodic save in `placement_inner_loop` (place.cpp 1404-1408),
`placement_saves_per_temperature >= 1 && inner_iter > 0 && (inner_iter + 1) % (move_lim /
placement_saves_per_temperature) == 0`, evaluated from left to right with short circuit. The
result is `none` when the evaluation divides by zero. -/
def placement_save_test (move_lim placement_saves_per_temperature inner_iter : Int) :
    Option Bool :=
  if placement_saves_per_temperature ≥ 1 then
    if inner_iter > 0 then
      (int_div move_lim placement_saves_per_temperature).bind fun d =>
        (int_mod (inner_iter + 1) d).map fun r => decide (r = 0)
    else some false
  else some false

/-- The loop of `placement_inner_loop` (place.cpp 1341-1417) as far as the periodic save goes:
the values of `inner_iter` in whose iteration the placement is saved, or `none` when an
iteration divides by zero. -/
def placement_inner_loop_saves (move_lim : Nat) (placement_saves_per_temperature : Int) :
    Option (List Nat) :=
  (List.range move_lim).foldl
    (fun acc (inner_iter : Nat) =>
      acc.bind fun saved =>
        (placement_save_test (move_lim : Int) placement_saves_per_temperature
            (inner_iter : Int)).map
          fun t => if t then saved ++ [inner_iter] else saved)
    (some [])

/-! ## The simulation buffer of Odin II (atomic_buffer.h) -/

/-- The macro `BUFFER_SIZE` (atomic_buffer.h 37). -/
def BUFFER_SIZE : Nat := 12

/-- The macro `CONCURENCY_LIMIT` (atomic_buffer.h 38). -/
def CONCURENCY_LIMIT : Nat := BUFFER_SIZE - 1

/-- Conversion of an integer to `uint8_t`, as happens when a cycle or a value is passed to
`get_bits` and `set_bits`. -/
def to_uint8 (v : Int) : Nat :=
  (v % 256).toNat

/-- Conversion of an integer to `int32_t` (two's complement), as happens when a cycle is stored
in the member `cycle`. -/
def to_int32 (v : Int) : Int :=
  (v + 2 ^ 31) % 2 ^ 32 - 2 ^ 31

/-- The struct `BitFields` (atomic_buffer.h 40-45): four fields of two bits each. -/
structure BitFields where
  i0 : Nat
  i1 : Nat
  i2 : Nat
  i3 : Nat
deriving DecidableEq, Repr

/-- The members of the class `atomic_buffer` (atomic_buffer.h 49-51). `lock` is the content of
the `std::atomic<bool>` as one thread sees it. -/
structure atomic_buffer where
  bits : Nat → BitFields
  lock : Bool
  cycle : Int

/-- Method `lock_it` (atomic_buffer.h 53-58). `lock.exchange(true)` returns the previous
content; when the lock is held already and no other thread runs, the loop does not end:
`none`. -/
def atomic_buffer.lock_it (b : atomic_buffer) : Option atomic_buffer :=
  if b.lock then none else some { b with lock := true }

/-- Method `unlock_it` (atomic_buffer.h 60-63). -/
def atomic_buffer.unlock_it (b : atomic_buffer) : atomic_buffer :=
  { b with lock := false }

/-- Method `get_bits` (atomic_buffer.h 65-81). The argument is a `uint8_t`. -/
def atomic_buffer.get_bits (b : atomic_buffer) (index : Nat) : Nat :=
  let modindex := index % BUFFER_SIZE
  let address := modindex / 4
  let bit_index := modindex % 4
  match bit_index with
  | 0 => (b.bits address).i0
  | 1 => (b.bits address).i1
  | 2 => (b.bits address).i2
  | 3 => (b.bits address).i3
  | _ => 3

/-- Method `set_bits` (atomic_buffer.h 83-106). Both arguments are `uint8_t`. -/
def atomic_buffer.set_bits (b : atomic_buffer) (index value : Nat) : atomic_buffer :=
  let modindex := index % BUFFER_SIZE
  let address := modindex / 4
  let bit_index := modindex % 4
  let value := value % 4
  match bit_index with
  | 0 => { b with bits := Function.update b.bits address { b.bits address with i0 := value } }
  | 1 => { b with bits := Function.update b.bits address { b.bits address with i1 := value } }
  | 2 => { b with bits := Function.update b.bits address { b.bits address with i2 := value } }
  | 3 => { b with bits := Function.update b.bits address { b.bits address with i3 := value } }
  | _ => b

/-- Method `init_all_values` (atomic_buffer.h 124-128). -/
def atomic_buffer.init_all_values (b : atomic_buffer) (value : Int) : atomic_buffer :=
  (List.range BUFFER_SIZE).foldl
    (fun b (i : Nat) => b.set_bits (to_uint8 (i : Int)) (to_uint8 value))
    { b with lock := false }

/-- The constructor of `atomic_buffer` (atomic_buffer.h 109-113). The fields start as zero;
the twelve slots are then all written. -/
def atomic_buffer.construct (value_in : Int) : atomic_buffer :=
  atomic_buffer.init_all_values
    { bits := fun _ => { i0 := 0, i1 := 0, i2 := 0, i3 := 0 }, lock := false, cycle := -1 }
    value_in

/-- Method `lock_free_get_cycle` (atomic_buffer.h 130-132). -/
def atomic_buffer.lock_free_get_cycle (b : atomic_buffer) : Int :=
  b.cycle

/-- Method `lock_free_update_cycle` (atomic_buffer.h 134-137): the test `cycle_in >
this->cycle` is commented out. The argument is an `int64_t`, the member an `int32_t`. -/
def atomic_buffer.lock_free_update_cycle (b : atomic_buffer) (cycle_in : Int) : atomic_buffer :=
  { b with cycle := to_int32 cycle_in }

/-- Method `lock_free_get_value` (atomic_buffer.h 139-141). A two-bit field holds a value of
0..3, which `data_t` represents as it is. -/
def atomic_buffer.lock_free_get_value (b : atomic_buffer) (cycle_in : Int) : Int :=
  (b.get_bits (to_uint8 cycle_in) : Int)

/-- Method `lock_free_update_value` (atomic_buffer.h 143-148). -/
def atomic_buffer.lock_free_update_value (b : atomic_buffer) (value_in cycle_in : Int) :
    atomic_buffer :=
  if cycle_in > b.cycle then
    (b.set_bits (to_uint8 cycle_in) (to_uint8 value_in)).lock_free_update_cycle cycle_in
  else b

/-- Method `get_cycle` (atomic_buffer.h 150-155): the returned value and the buffer after the
call. -/
def atomic_buffer.get_cycle (b : atomic_buffer) : Option (Int × atomic_buffer) :=
  b.lock_it.map fun b1 => (b1.lock_free_get_cycle, b1.unlock_it)

/-- Method `get_value` (atomic_buffer.h 157-162): the returned value and the buffer after the
call. -/
def atomic_buffer.get_value (b : atomic_buffer) (cycle_in : Int) :
    Option (Int × atomic_buffer) :=
  b.lock_it.map fun b1 => (b1.lock_free_get_value cycle_in, b1.unlock_it)

/-- Method `update_value` (atomic_buffer.h 164-168). -/
def atomic_buffer.update_value (b : atomic_buffer) (value_in cycle_in : Int) :
    Option atomic_buffer :=
  b.lock_it.map fun b1 => (b1.lock_free_update_value value_in cycle_in).unlock_it

/-- A sequence of `update_value` calls, each with its value and its cycle. -/
def atomic_buffer.update_values (b : atomic_buffer) :
    List (Int × Int) → Option atomic_buffer
  | [] => some b
  | c :: cs => (b.update_value c.1 c.2).bind fun b1 => atomic_buffer.update_values b1 cs

/-! ## Notions used to state the bounds of the cost lookups and the order of the flags -/

/-- Position of a flag in the order `NOT_UPDATED_YET`, `UPDATED_ONCE`, `GOT_FROM_SCRATCH`. -/
def BBFlag.rank : BBFlag → Nat
  | BBFlag.NOT_UPDATED_YET => 0
  | BBFlag.UPDATED_ONCE => 1
  | BBFlag.GOT_FROM_SCRATCH => 2

/-- A cube box lies in the inner grid: `1 <= xmin <= xmax <= W - 2` and
`1 <= ymin <= ymax <= H - 2`. -/
def bb_in_grid (grid : DeviceGrid) (b : t_bb) : Prop :=
  1 ≤ b.xmin ∧ b.xmin ≤ b.xmax ∧ b.xmax ≤ (grid.width : Int) - 2 ∧
  1 ≤ b.ymin ∧ b.ymin ≤ b.ymax ∧ b.ymax ≤ (grid.height : Int) - 2

/-- A per-layer box lies in the inner grid, see `bb_in_grid`. -/
def layer_bb_in_grid (grid : DeviceGrid) (b : t_2D_bb) : Prop :=
  1 ≤ b.xmin ∧ b.xmin ≤ b.xmax ∧ b.xmax ≤ (grid.width : Int) - 2 ∧
  1 ≤ b.ymin ∧ b.ymin ≤ b.ymax ∧ b.ymax ≤ (grid.height : Int) - 2

/-- The channel widths are not negative. -/
def chan_width_nonneg (chan_width : t_chan_width) : Prop :=
  ∀ i, 0 ≤ chan_width.x_list i ∧ 0 ≤ chan_width.y_list i

/-- Invariant of the pin loop of `find_affected_nets_and_update_costs` on the boxes of one net
`n`: the committed box lies in the inner grid, a net with a negative `proposed_net_cost` has
the flag `NOT_UPDATED_YET`, and the scratch box of a net with a non-negative
`proposed_net_cost` lies in the inner grid. -/
def GridInv (grid : DeviceGrid) (acc : PlacerState × Nat) (n : Nat) : Prop :=
  bb_in_grid grid (acc.1.bb_coords n) ∧
  (acc.1.proposed_net_cost n < 0 → acc.1.bb_updated_before n = BBFlag.NOT_UPDATED_YET) ∧
  (0 ≤ acc.1.proposed_net_cost n → bb_in_grid grid (acc.1.ts_bb_coord_new n))

/-- The net `n` is in the list `ts_nets_to_update[0..num)` that `record_affected_net` fills. -/
def net_recorded (acc : PlacerState × Nat) (n : Nat) : Prop :=
  ∃ i, i < acc.2 ∧ acc.1.ts_nets_to_update i = n

/-! ## Notions used to state the exchange of two blocks -/

/-- The entries of `blocks_affected.moved_blocks` for the exchange of the blocks `A` and `B`
under the placement `P`: each block moves to the location of the other. -/
def exchange_moves (P : Nat → t_pl_loc) (A B : Nat) : List t_pl_moved_block :=
  [{ block_num := A, old_loc := P A, new_loc := P B },
   { block_num := B, old_loc := P B, new_loc := P A }]

/-- The net `n` runs between the blocks `A` and `B`: it has fewer than `SMALL_NET` sinks, all
its pins lie on `A` or `B`, at least one on each, and all its pin offsets are zero. -/
def net_between (nl : ClusteredNetlist) (A B n : Nat) : Prop :=
  (nl.net_sinks n).length < SMALL_NET ∧
  (∀ q ∈ nl.net_pins n, nl.pin_block q = A ∨ nl.pin_block q = B) ∧
  (∃ q ∈ nl.net_pins n, nl.pin_block q = A) ∧
  (∃ q ∈ nl.net_pins n, nl.pin_block q = B) ∧
  (∀ q ∈ nl.net_pins n,
    nl.pin_width_offset (nl.pin_block q) (nl.tile_pin_index q) = 0 ∧
    nl.pin_height_offset (nl.pin_block q) (nl.tile_pin_index q) = 0)

/-- The committed net costs are those of the committed boxes: for every non-ignored net,
`net_cost` is `get_net_cost` of `bb_coords`, as `comp_bb_cost` and `update_move_nets` leave
it. -/
def net_costs_valid (nl : ClusteredNetlist) (fac : CostFac) (s : PlacerState) : Prop :=
  ∀ net_id, net_id < nl.num_nets → nl.net_is_ignored net_id = false →
    s.net_cost net_id = get_net_cost nl fac net_id (s.bb_coords net_id)

/-- An example netlist of two blocks and two nets between them: net 0 from pin 0 on block 0 to
pin 1 on block 1, net 1 from pin 2 on block 1 to pin 3 on block 0. -/
def ex_pair_nl : ClusteredNetlist :=
  { num_nets := 2
    num_blocks := 2
    net_driver := fun n => if n = 0 then 0 else 2
    net_sinks := fun n => if n = 0 then [1] else if n = 1 then [3] else []
    net_is_ignored := fun _ => false
    block_pins := fun b => if b = 0 then [0, 3] else if b = 1 then [1, 2] else []
    pin_net := fun p => if p = 0 ∨ p = 1 then 0 else 1
    pin_block := fun p => if p = 0 ∨ p = 3 then 0 else 1
    pin_is_driver := fun p => decide (p = 0 ∨ p = 2)
    tile_pin_index := fun _ => 0
    pin_width_offset := fun _ _ => 0
    pin_height_offset := fun _ _ => 0 }

/-- The placement of the two blocks: block 0 at `(2, 3)`, block 1 at `(5, 6)`. -/
def ex_pair_locs (b : Nat) : t_pl_loc :=
  if b = 0 then ex_loc 2 3 else ex_loc 5 6

/-- The state between two swaps for the two blocks, with the BB cache and the net costs of the
placement. -/
def ex_pair_state : PlacerState :=
  { block_locs := ex_pair_locs
    bb_coords := fun _ => { xmin := 2, xmax := 5, ymin := 3, ymax := 6 }
    bb_num_on_edges := fun _ => { xmin := 1, xmax := 1, ymin := 1, ymax := 1 }
    num_sink_pin_layer := fun _ layer => if layer = 0 then 1 else 0
    net_cost := fun n =>
      get_net_cost ex_pair_nl ex_fac n { xmin := 2, xmax := 5, ymin := 3, ymax := 6 }
    proposed_net_cost := fun _ => -1
    bb_updated_before := fun _ => BBFlag.NOT_UPDATED_YET
    ts_bb_edge_new := fun _ => { xmin := 0, xmax := 0, ymin := 0, ymax := 0 }
    ts_bb_coord_new := fun _ => { xmin := 0, xmax := 0, ymin := 0, ymax := 0 }
    ts_layer_sink_pin_count := fun _ _ => -1
    ts_nets_to_update := fun _ => 0 }

/-- The inputs of `try_swap` for the exchange of the two blocks. -/
def ex_pair_inputs : SwapInputs Unit :=
  { create_move_outcome := e_create_move.VALID
    moved_blocks := exchange_moves ex_pair_locs 0 1
    timing_delta_c := 0
    setup_slack_cost := 0
    noc_delta_cost := 0
    recomputed_timing_cost := 0
    manual_move_outcome := none
    rng := () }

/-- Options for the exchange: bounding-box placement at temperature 5. -/
def ex_pair_opts : SwapOpts :=
  { place_algorithm := e_place_algorithm.BOUNDING_BOX_PLACE, timing_tradeoff := 0, noc := false,
    t := 5 }

/-- The per-layer boxes and sink counts of the example net when all five sinks are on layer 0
of the two-layer grid. -/
def ex_single_layer_boxes (_layer_num : Nat) : t_2D_bb :=
  { xmin := 3, xmax := 7, ymin := 1, ymax := 1, layer_num := 0 }

/-- The per-layer sink counts of the example net on the two-layer grid: five sinks on layer
0. -/
def ex_single_layer_counts (layer_num : Nat) : Int :=
  if layer_num = 0 then 5 else 0

/-! ## Auxiliary facts on one axis -/

theorem count_eq_zero_of_lt_all (A : List Int) (x : Int) (h : ∀ v ∈ A, x < v) : A.count x = 0 := by
  apply List.count_eq_zero_of_not_mem
  intro hx
  exact lt_irrefl _ (h x hx)

theorem count_eq_zero_of_gt_all (A : List Int) (x : Int) (h : ∀ v ∈ A, v < x) : A.count x = 0 := by
  apply List.count_eq_zero_of_not_mem
  intro hx
  exact lt_irrefl _ (h x hx)

theorem isAxisBB_perm {A B : List Int} (h : A.Perm B) (a : AxisBB) :
    IsAxisBB A a ↔ IsAxisBB B a := by
  unfold IsAxisBB
  simp only [h.mem_iff, h.count_eq]

theorem isAxisBB_unique {A : List Int} {a b : AxisBB} (ha : IsAxisBB A a) (hb : IsAxisBB A b) :
    a = b := by
  obtain ⟨a1, a2, a3, a4, a5, a6⟩ := ha
  obtain ⟨b1, b2, b3, b4, b5, b6⟩ := hb
  have hlo : a.lo = b.lo := le_antisymm (a2 _ b1) (b2 _ a1)
  have hhi : a.hi = b.hi := le_antisymm (b4 _ a3) (a4 _ b3)
  cases a; cases b
  simp only at hlo hhi a5 a6 b5 b6
  subst hlo hhi
  simp [a5, a6, b5, b6]

theorem count_cons_int (x v : Int) (A : List Int) :
    ((List.count v (x :: A) : Nat) : Int) = (List.count v A : Int) + (if v = x then 1 else 0) := by
  rw [List.count_cons]
  by_cases h : v = x
  · subst h; simp
  · have : ¬ (x = v) := fun e => h e.symm
    simp [h, this]

theorem isAxisBB_step {A : List Int} {a : AxisBB} (h : IsAxisBB A a) (x : Int) :
    IsAxisBB (x :: A) (scratch_axis_step a x) := by
  obtain ⟨h1, h2, h3, h4, h5, h6⟩ := h
  have hlohi : a.lo ≤ a.hi := h2 _ h3
  have c1 : x < a.lo → (A.count x : Int) = 0 := fun hx => by
    rw [count_eq_zero_of_lt_all A x (fun v hv => lt_of_lt_of_le hx (h2 v hv))]; rfl
  have c2 : a.hi < x → (A.count x : Int) = 0 := fun hx => by
    rw [count_eq_zero_of_gt_all A x (fun v hv => lt_of_le_of_lt (h4 v hv) hx)]; rfl
  unfold scratch_axis_step IsAxisBB
  split_ifs with e1 e2 e3 e4 e5 e6 e7 <;> dsimp only <;>
    refine ⟨?_, ?_, ?_, ?_, ?_, ?_⟩ <;>
    first
      | exact List.mem_cons_self _ _
      | exact List.mem_cons_of_mem _ h1
      | exact List.mem_cons_of_mem _ h3
      | (intro v hv
         rcases List.mem_cons.1 hv with rfl | hv
         · omega
         · have := h2 v hv
           have := h4 v hv
           omega)
      | (rw [count_cons_int]
         split_ifs <;> omega)

theorem isAxisBB_singleton (d : Int) : IsAxisBB [d] { lo := d, hi := d, lo_edge := 1, hi_edge := 1 } := by
  simp [IsAxisBB]

theorem isAxisBB_foldl (l : List Int) : ∀ (A : List Int) (a : AxisBB), IsAxisBB A a →
    IsAxisBB (l.reverse ++ A) (l.foldl scratch_axis_step a) := by
  induction l with
  | nil => intro A a h; simpa using h
  | cons x l ih =>
    intro A a h
    have := ih (x :: A) _ (isAxisBB_step h x)
    simpa using this

theorem isAxisBB_scratch (d : Int) (l : List Int) :
    IsAxisBB (d :: l) (l.foldl scratch_axis_step { lo := d, hi := d, lo_edge := 1, hi_edge := 1 }) := by
  have h := isAxisBB_foldl l [d] _ (isAxisBB_singleton d)
  refine (isAxisBB_perm ?_ _).1 h
  have : (l.reverse ++ [d]).Perm (d :: l) := by
    have h1 : (l.reverse ++ [d]).Perm ([d] ++ l.reverse) := List.perm_append_comm
    exact h1.trans (List.Perm.cons d (List.reverse_perm l))
  exact this

theorem mem_of_count_ne_zero (R : List Int) (v : Int) (h : (R.count v : Int) ≠ 0) : v ∈ R := by
  by_contra hv
  exact h (by rw [List.count_eq_zero_of_not_mem hv]; rfl)

theorem count_zero_of_not_mem (R : List Int) (v : Int) (h : v ∉ R) : (R.count v : Int) = 0 := by
  rw [List.count_eq_zero_of_not_mem h]; rfl

theorem lo_after_move_left {R : List Int} {curr : AxisBB} {pin_old pin_new hi hi_edge : Int}
    (h1 : curr.lo ∈ pin_old :: R) (h2 : ∀ v ∈ pin_old :: R, curr.lo ≤ v)
    (h5 : curr.lo_edge = ((pin_old :: R).count curr.lo : Int)) (hlt : pin_new < pin_old) :
    (update_lo_fields curr pin_new hi hi_edge).lo ∈ pin_new :: R ∧
    (∀ v ∈ pin_new :: R, (update_lo_fields curr pin_new hi hi_edge).lo ≤ v) ∧
    (update_lo_fields curr pin_new hi hi_edge).lo_edge
      = ((pin_new :: R).count (update_lo_fields curr pin_new hi hi_edge).lo : Int) ∧
    (update_lo_fields curr pin_new hi hi_edge).hi = hi ∧
    (update_lo_fields curr pin_new hi hi_edge).hi_edge = hi_edge := by
  rw [count_cons_int] at h5
  have b1 : curr.lo ≤ pin_old := h2 _ (List.mem_cons_self _ _)
  have r2 : ∀ v ∈ R, curr.lo ≤ v := fun v hv => h2 v (List.mem_cons_of_mem _ hv)
  unfold update_lo_fields
  split_ifs with e1 e2
  · have c : (R.count pin_new : Int) = 0 :=
      count_zero_of_not_mem R _ (fun hm => by have := r2 _ hm; omega)
    refine ⟨List.mem_cons_self _ _, ?_, ?_, rfl, rfl⟩
    · intro v hv
      rcases List.mem_cons.1 hv with rfl | hv
      · exact le_refl _
      · have := r2 v hv
        dsimp only; omega
    · dsimp only; rw [count_cons_int]; simp [c]
  · refine ⟨List.mem_cons_self _ _, ?_, ?_, rfl, rfl⟩
    · intro v hv
      rcases List.mem_cons.1 hv with rfl | hv
      · exact le_refl _
      · have := r2 v hv
        dsimp only; omega
    · dsimp only; rw [count_cons_int]
      have : ¬ (curr.lo = pin_old) := by omega
      rw [if_neg this] at h5
      rw [e2]; simp [h5]
  · have hne : curr.lo ≠ pin_old := by omega
    have m : curr.lo ∈ R := by
      rcases List.mem_cons.1 h1 with e | m
      · exact absurd e hne
      · exact m
    refine ⟨List.mem_cons_of_mem _ m, ?_, ?_, rfl, rfl⟩
    · intro v hv
      rcases List.mem_cons.1 hv with rfl | hv
      · dsimp only; omega
      · exact r2 v hv
    · dsimp only; rw [count_cons_int]
      have : ¬ (curr.lo = pin_new) := fun e => e2 e.symm
      rw [if_neg hne] at h5
      rw [if_neg this]; simp [h5]

theorem hi_after_move_left {R : List Int} {curr : AxisBB} {pin_old pin_new : Int}
    (h3 : curr.hi ∈ pin_old :: R) (h4 : ∀ v ∈ pin_old :: R, v ≤ curr.hi)
    (h6 : curr.hi_edge = ((pin_old :: R).count curr.hi : Int)) (hlt : pin_new < pin_old)
    (hne : ¬ (pin_old = curr.hi ∧ curr.hi_edge = 1)) :
    curr.hi ∈ pin_new :: R ∧ (∀ v ∈ pin_new :: R, v ≤ curr.hi) ∧
    (if pin_old = curr.hi then curr.hi_edge - 1 else curr.hi_edge)
      = ((pin_new :: R).count curr.hi : Int) := by
  rw [count_cons_int] at h6
  have b2 : pin_old ≤ curr.hi := h4 _ (List.mem_cons_self _ _)
  have r4 : ∀ v ∈ R, v ≤ curr.hi := fun v hv => h4 v (List.mem_cons_of_mem _ hv)
  have hn : ¬ (curr.hi = pin_new) := by omega
  have m : curr.hi ∈ R := by
    by_cases e : curr.hi = pin_old
    · rw [if_pos e] at h6
      apply mem_of_count_ne_zero
      intro h0
      exact hne ⟨e.symm, by rw [h6, h0]; rfl⟩
    · rcases List.mem_cons.1 h3 with e3 | m
      · exact absurd e3 e
      · exact m
  refine ⟨List.mem_cons_of_mem _ m, ?_, ?_⟩
  · intro v hv
    rcases List.mem_cons.1 hv with rfl | hv
    · omega
    · exact r4 v hv
  · rw [count_cons_int, if_neg hn]
    by_cases e : pin_old = curr.hi
    · rw [if_pos e, h6, if_pos e.symm]; simp
    · have e3 : ¬ (curr.hi = pin_old) := fun h => e h.symm
      rw [if_neg e, h6, if_neg e3]

theorem hi_after_move_right {R : List Int} {curr : AxisBB} {pin_old pin_new lo lo_edge : Int}
    (h3 : curr.hi ∈ pin_old :: R) (h4 : ∀ v ∈ pin_old :: R, v ≤ curr.hi)
    (h6 : curr.hi_edge = ((pin_old :: R).count curr.hi : Int)) (hlt : pin_old < pin_new) :
    (update_hi_fields curr pin_new lo lo_edge).hi ∈ pin_new :: R ∧
    (∀ v ∈ pin_new :: R, v ≤ (update_hi_fields curr pin_new lo lo_edge).hi) ∧
    (update_hi_fields curr pin_new lo lo_edge).hi_edge
      = ((pin_new :: R).count (update_hi_fields curr pin_new lo lo_edge).hi : Int) ∧
    (update_hi_fields curr pin_new lo lo_edge).lo = lo ∧
    (update_hi_fields curr pin_new lo lo_edge).lo_edge = lo_edge := by
  rw [count_cons_int] at h6
  have b1 : pin_old ≤ curr.hi := h4 _ (List.mem_cons_self _ _)
  have r4 : ∀ v ∈ R, v ≤ curr.hi := fun v hv => h4 v (List.mem_cons_of_mem _ hv)
  unfold update_hi_fields
  split_ifs with e1 e2
  · have c : (R.count pin_new : Int) = 0 :=
      count_zero_of_not_mem R _ (fun hm => by have := r4 _ hm; omega)
    refine ⟨List.mem_cons_self _ _, ?_, ?_, rfl, rfl⟩
    · intro v hv
      rcases List.mem_cons.1 hv with rfl | hv
      · exact le_refl _
      · have := r4 v hv
        dsimp only; omega
    · dsimp only; rw [count_cons_int]; simp [c]
  · refine ⟨List.mem_cons_self _ _, ?_, ?_, rfl, rfl⟩
    · intro v hv
      rcases List.mem_cons.1 hv with rfl | hv
      · exact le_refl _
      · have := r4 v hv
        dsimp only; omega
    · dsimp only; rw [count_cons_int]
      have : ¬ (curr.hi = pin_old) := by omega
      rw [if_neg this] at h6
      rw [e2]; simp [h6]
  · have hne : curr.hi ≠ pin_old := by omega
    have m : curr.hi ∈ R := by
      rcases List.mem_cons.1 h3 with e | m
      · exact absurd e hne
      · exact m
    refine ⟨List.mem_cons_of_mem _ m, ?_, ?_, rfl, rfl⟩
    · intro v hv
      rcases List.mem_cons.1 hv with rfl | hv
      · dsimp only; omega
      · exact r4 v hv
    · dsimp only; rw [count_cons_int]
      have : ¬ (curr.hi = pin_new) := fun e => e2 e.symm
      rw [if_neg hne] at h6
      rw [if_neg this]; simp [h6]

theorem lo_after_move_right {R : List Int} {curr : AxisBB} {pin_old pin_new : Int}
    (h1 : curr.lo ∈ pin_old :: R) (h2 : ∀ v ∈ pin_old :: R, curr.lo ≤ v)
    (h5 : curr.lo_edge = ((pin_old :: R).count curr.lo : Int)) (hlt : pin_old < pin_new)
    (hne : ¬ (pin_old = curr.lo ∧ curr.lo_edge = 1)) :
    curr.lo ∈ pin_new :: R ∧ (∀ v ∈ pin_new :: R, curr.lo ≤ v) ∧
    (if pin_old = curr.lo then curr.lo_edge - 1 else curr.lo_edge)
      = ((pin_new :: R).count curr.lo : Int) := by
  rw [count_cons_int] at h5
  have b2 : curr.lo ≤ pin_old := h2 _ (List.mem_cons_self _ _)
  have r2 : ∀ v ∈ R, curr.lo ≤ v := fun v hv => h2 v (List.mem_cons_of_mem _ hv)
  have hn : ¬ (curr.lo = pin_new) := by omega
  have m : curr.lo ∈ R := by
    by_cases e : curr.lo = pin_old
    · rw [if_pos e] at h5
      apply mem_of_count_ne_zero
      intro h0
      exact hne ⟨e.symm, by rw [h5, h0]; rfl⟩
    · rcases List.mem_cons.1 h1 with e3 | m
      · exact absurd e3 e
      · exact m
  refine ⟨List.mem_cons_of_mem _ m, ?_, ?_⟩
  · intro v hv
    rcases List.mem_cons.1 hv with rfl | hv
    · omega
    · exact r2 v hv
  · rw [count_cons_int, if_neg hn]
    by_cases e : pin_old = curr.lo
    · rw [if_pos e, h5, if_pos e.symm]; simp
    · have e3 : ¬ (curr.lo = pin_old) := fun h => e h.symm
      rw [if_neg e, h5, if_neg e3]

theorem isAxisBB_update {R : List Int} {curr a : AxisBB} {pin_old pin_new : Int}
    (h : IsAxisBB (pin_old :: R) curr) (hu : update_axis curr pin_old pin_new = some a) :
    IsAxisBB (pin_new :: R) a := by
  obtain ⟨h1, h2, h3, h4, h5, h6⟩ := h
  unfold update_axis at hu
  by_cases hl : pin_new < pin_old
  · rw [if_pos hl] at hu
    by_cases e : pin_old = curr.hi
    · rw [if_pos e] at hu
      by_cases e1 : curr.hi_edge = 1
      · rw [if_pos e1] at hu; exact absurd hu (by simp)
      · rw [if_neg e1] at hu
        have hu2 := Option.some.inj hu
        subst hu2
        obtain ⟨q1, q2, q3⟩ := hi_after_move_left h3 h4 h6 hl (fun hh => e1 hh.2)
        obtain ⟨p1, p2, p3, p4, p5⟩ :=
          @lo_after_move_left R curr pin_old pin_new curr.hi (curr.hi_edge - 1) h1 h2 h5 hl
        rw [if_pos e] at q3
        refine ⟨p1, p2, ?_, ?_, p3, ?_⟩
        · rw [p4]; exact q1
        · rw [p4]; exact q2
        · rw [p4, p5]; exact q3
    · rw [if_neg e] at hu
      have hu2 := Option.some.inj hu
      subst hu2
      obtain ⟨q1, q2, q3⟩ := hi_after_move_left h3 h4 h6 hl (fun hh => e hh.1)
      obtain ⟨p1, p2, p3, p4, p5⟩ :=
        @lo_after_move_left R curr pin_old pin_new curr.hi curr.hi_edge h1 h2 h5 hl
      rw [if_neg e] at q3
      refine ⟨p1, p2, ?_, ?_, p3, ?_⟩
      · rw [p4]; exact q1
      · rw [p4]; exact q2
      · rw [p4, p5]; exact q3
  · rw [if_neg hl] at hu
    by_cases hg : pin_new > pin_old
    · rw [if_pos hg] at hu
      by_cases e : pin_old = curr.lo
      · rw [if_pos e] at hu
        by_cases e1 : curr.lo_edge = 1
        · rw [if_pos e1] at hu; exact absurd hu (by simp)
        · rw [if_neg e1] at hu
          have hu2 := Option.some.inj hu
          subst hu2
          obtain ⟨q1, q2, q3⟩ := lo_after_move_right h1 h2 h5 hg (fun hh => e1 hh.2)
          obtain ⟨p1, p2, p3, p4, p5⟩ :=
            @hi_after_move_right R curr pin_old pin_new curr.lo (curr.lo_edge - 1) h3 h4 h6 hg
          rw [if_pos e] at q3
          refine ⟨?_, ?_, p1, p2, ?_, p3⟩
          · rw [p4]; exact q1
          · rw [p4]; exact q2
          · rw [p4, p5]; exact q3
      · rw [if_neg e] at hu
        have hu2 := Option.some.inj hu
        subst hu2
        obtain ⟨q1, q2, q3⟩ := lo_after_move_right h1 h2 h5 hg (fun hh => e hh.1)
        obtain ⟨p1, p2, p3, p4, p5⟩ :=
          @hi_after_move_right R curr pin_old pin_new curr.lo curr.lo_edge h3 h4 h6 hg
        rw [if_neg e] at q3
        refine ⟨?_, ?_, p1, p2, ?_, p3⟩
        · rw [p4]; exact q1
        · rw [p4]; exact q2
        · rw [p4, p5]; exact q3
    · rw [if_neg hg] at hu
      have hu2 := Option.some.inj hu
      subst hu2
      have : pin_new = pin_old := by omega
      subst this
      exact ⟨h1, h2, h3, h4, h5, h6⟩

/-! ## The from-scratch routines as folds over coordinate lists -/

theorem scratch_fold_ax (nl : ClusteredNetlist) (grid : DeviceGrid) (L : Nat → t_pl_loc)
    (sinks : List Nat) : ∀ v : ScratchVars,
    (sinks.foldl (scratch_sink_step nl grid L) v).ax
      = (sinks.map (clipped_pin_x nl grid L)).foldl scratch_axis_step v.ax := by
  induction sinks with
  | nil => intro v; rfl
  | cons p ps ih => intro v; simp only [List.foldl_cons, List.map_cons]; rw [ih]; rfl

theorem scratch_fold_ay (nl : ClusteredNetlist) (grid : DeviceGrid) (L : Nat → t_pl_loc)
    (sinks : List Nat) : ∀ v : ScratchVars,
    (sinks.foldl (scratch_sink_step nl grid L) v).ay
      = (sinks.map (clipped_pin_y nl grid L)).foldl scratch_axis_step v.ay := by
  induction sinks with
  | nil => intro v; rfl
  | cons p ps ih => intro v; simp only [List.foldl_cons, List.map_cons]; rw [ih]; rfl

theorem scratch_fold_layers (nl : ClusteredNetlist) (grid : DeviceGrid) (L : Nat → t_pl_loc)
    (sinks : List Nat) (l : Nat) : ∀ v : ScratchVars,
    (sinks.foldl (scratch_sink_step nl grid L) v).num_sink_pin_layer l
      = v.num_sink_pin_layer l
        + ((sinks.filter (fun p => decide (net_pin_layer nl L p = l))).length : Int) := by
  induction sinks with
  | nil => intro v; simp
  | cons p ps ih =>
    intro v
    simp only [List.foldl_cons]
    rw [ih]
    simp only [scratch_sink_step, incr_layer_count, List.filter_cons, net_pin_layer]
    by_cases h : (L (nl.pin_block p)).layer = l
    · subst h
      simp
      ring
    · have h2 : l ≠ (L (nl.pin_block p)).layer := fun e => h e.symm
      simp [h, Function.update_noteq h2]

/-- The x axis of the box of `get_bb_from_scratch` describes the clipped x coordinates of the
pins of the net. -/
theorem scratch_isAxisBB_x (nl : ClusteredNetlist) (grid : DeviceGrid) (L : Nat → t_pl_loc)
    (net_id : Nat) (cnt : Nat → Int) :
    IsAxisBB ((nl.net_pins net_id).map (clipped_pin_x nl grid L))
      (axis_x (get_bb_from_scratch nl grid L net_id cnt).coords
        (get_bb_from_scratch nl grid L net_id cnt).num_on_edges) := by
  have h := isAxisBB_scratch (clipped_pin_x nl grid L (nl.net_driver net_id))
    ((nl.net_sinks net_id).map (clipped_pin_x nl grid L))
  simp only [get_bb_from_scratch, axis_x, coords_of, edges_of, scratch_fold_ax,
    ClusteredNetlist.net_pins, List.map_cons]
  exact h

theorem scratch_isAxisBB_y (nl : ClusteredNetlist) (grid : DeviceGrid) (L : Nat → t_pl_loc)
    (net_id : Nat) (cnt : Nat → Int) :
    IsAxisBB ((nl.net_pins net_id).map (clipped_pin_y nl grid L))
      (axis_y (get_bb_from_scratch nl grid L net_id cnt).coords
        (get_bb_from_scratch nl grid L net_id cnt).num_on_edges) := by
  have h := isAxisBB_scratch (clipped_pin_y nl grid L (nl.net_driver net_id))
    ((nl.net_sinks net_id).map (clipped_pin_y nl grid L))
  simp only [get_bb_from_scratch, axis_y, coords_of, edges_of, scratch_fold_ay,
    ClusteredNetlist.net_pins, List.map_cons]
  exact h

theorem count_map_eq_filter_length (f : Nat → Int) (l : List Nat) (v : Int) :
    ((l.map f).count v : Int) = ((l.filter (fun p => decide (f p = v))).length : Int) := by
  induction l with
  | nil => simp
  | cons p ps ih =>
    rw [List.map_cons, count_cons_int, ih, List.filter_cons]
    by_cases h : f p = v
    · subst h
      simp
    · have h2 : ¬ (v = f p) := fun e => h e.symm
      simp [h, h2]


/-! ## The brute-force bounding box -/

/-- The pair `a` holds the least and the greatest element of `A`. -/
theorem hull_step_spec {A : List Int} {a : Int × Int}
    (h : a.1 ∈ A ∧ (∀ v ∈ A, a.1 ≤ v) ∧ a.2 ∈ A ∧ (∀ v ∈ A, v ≤ a.2)) (x : Int) :
    (hull_axis_step a x).1 ∈ x :: A ∧ (∀ v ∈ x :: A, (hull_axis_step a x).1 ≤ v) ∧
    (hull_axis_step a x).2 ∈ x :: A ∧ (∀ v ∈ x :: A, v ≤ (hull_axis_step a x).2) := by
  obtain ⟨h1, h2, h3, h4⟩ := h
  have hlohi : a.1 ≤ a.2 := h2 _ h3
  unfold hull_axis_step
  split_ifs with e1 e2 <;>
    refine ⟨?_, ?_, ?_, ?_⟩ <;>
    first
      | exact List.mem_cons_self _ _
      | exact List.mem_cons_of_mem _ h1
      | exact List.mem_cons_of_mem _ h3
      | (intro v hv
         rcases List.mem_cons.1 hv with rfl | hv
         · omega
         · have := h2 v hv
           have := h4 v hv
           omega)

theorem hull_foldl_spec (l : List Int) : ∀ (A : List Int) (a : Int × Int),
    (a.1 ∈ A ∧ (∀ v ∈ A, a.1 ≤ v) ∧ a.2 ∈ A ∧ (∀ v ∈ A, v ≤ a.2)) →
    ((l.foldl hull_axis_step a).1 ∈ l.reverse ++ A ∧
      (∀ v ∈ l.reverse ++ A, (l.foldl hull_axis_step a).1 ≤ v) ∧
      (l.foldl hull_axis_step a).2 ∈ l.reverse ++ A ∧
      (∀ v ∈ l.reverse ++ A, v ≤ (l.foldl hull_axis_step a).2)) := by
  induction l with
  | nil => intro A a h; simpa using h
  | cons x l ih =>
    intro A a h
    have := ih (x :: A) _ (hull_step_spec h x)
    simpa using this

theorem hull_scratch_spec (d : Int) (l : List Int) :
    (l.foldl hull_axis_step (d, d)).1 ∈ d :: l ∧
    (∀ v ∈ d :: l, (l.foldl hull_axis_step (d, d)).1 ≤ v) ∧
    (l.foldl hull_axis_step (d, d)).2 ∈ d :: l ∧
    (∀ v ∈ d :: l, v ≤ (l.foldl hull_axis_step (d, d)).2) := by
  have h := hull_foldl_spec l [d] (d, d) (by simp)
  have e : ∀ v, v ∈ l.reverse ++ [d] ↔ v ∈ d :: l := by
    intro v; simp [or_comm]
  simpa only [e] using h

theorem hull_fold_hx (nl : ClusteredNetlist) (L : Nat → t_pl_loc)
    (sinks : List Nat) : ∀ v : HullVars,
    (sinks.foldl (hull_sink_step nl L) v).hx
      = (sinks.map (net_pin_x nl L)).foldl hull_axis_step v.hx := by
  induction sinks with
  | nil => intro v; rfl
  | cons p ps ih => intro v; simp only [List.foldl_cons, List.map_cons]; rw [ih]; rfl

theorem hull_fold_hy (nl : ClusteredNetlist) (L : Nat → t_pl_loc)
    (sinks : List Nat) : ∀ v : HullVars,
    (sinks.foldl (hull_sink_step nl L) v).hy
      = (sinks.map (net_pin_y nl L)).foldl hull_axis_step v.hy := by
  induction sinks with
  | nil => intro v; rfl
  | cons p ps ih => intro v; simp only [List.foldl_cons, List.map_cons]; rw [ih]; rfl

theorem hull_fold_layers (nl : ClusteredNetlist) (L : Nat → t_pl_loc)
    (sinks : List Nat) (l : Nat) : ∀ v : HullVars,
    (sinks.foldl (hull_sink_step nl L) v).num_sink_pin_layer l
      = v.num_sink_pin_layer l
        + ((sinks.filter (fun p => decide (net_pin_layer nl L p = l))).length : Int) := by
  induction sinks with
  | nil => intro v; simp
  | cons p ps ih =>
    intro v
    simp only [List.foldl_cons]
    rw [ih]
    simp only [hull_sink_step, incr_layer_count, List.filter_cons, net_pin_layer]
    by_cases h : (L (nl.pin_block p)).layer = l
    · subst h
      simp
      ring
    · have h2 : l ≠ (L (nl.pin_block p)).layer := fun e => h e.symm
      simp [h, Function.update_noteq h2]

theorem clip_coord_eq_clamp (v : Int) (dim : Nat) (h : 3 ≤ dim) :
    clip_coord v dim = clamp v 1 ((dim : Int) - 2) := by
  unfold clip_coord clamp
  split_ifs <;> omega

theorem clip_coord_mono {a b : Int} (h : a ≤ b) (dim : Nat) :
    clip_coord a dim ≤ clip_coord b dim := by
  unfold clip_coord
  omega

/-- C3. On a grid with `W >= 3` and `H >= 3`, `get_non_updateable_bb` returns the least and the
greatest x (resp. y) coordinate over the driver and all sinks of the net, each clamped to
`1..W-2` (resp. `1..H-2`), and sets the sink count of every layer to the number of sinks on that
layer. -/
theorem get_non_updateable_bb_clipped_hull (nl : ClusteredNetlist) (grid : DeviceGrid)
    (block_locs : Nat → t_pl_loc) (net_id : Nat) (cnt : Nat → Int)
    (hW : 3 ≤ grid.width) (hH : 3 ≤ grid.height) :
    ∃ pxmin pxmax pymin pymax : Int,
      (pxmin ∈ (nl.net_pins net_id).map (net_pin_x nl block_locs) ∧
        ∀ v ∈ (nl.net_pins net_id).map (net_pin_x nl block_locs), pxmin ≤ v) ∧
      (pxmax ∈ (nl.net_pins net_id).map (net_pin_x nl block_locs) ∧
        ∀ v ∈ (nl.net_pins net_id).map (net_pin_x nl block_locs), v ≤ pxmax) ∧
      (pymin ∈ (nl.net_pins net_id).map (net_pin_y nl block_locs) ∧
        ∀ v ∈ (nl.net_pins net_id).map (net_pin_y nl block_locs), pymin ≤ v) ∧
      (pymax ∈ (nl.net_pins net_id).map (net_pin_y nl block_locs) ∧
        ∀ v ∈ (nl.net_pins net_id).map (net_pin_y nl block_locs), v ≤ pymax) ∧
      (get_non_updateable_bb nl grid block_locs net_id cnt).1
        = { xmin := clamp pxmin 1 ((grid.width : Int) - 2)
            xmax := clamp pxmax 1 ((grid.width : Int) - 2)
            ymin := clamp pymin 1 ((grid.height : Int) - 2)
            ymax := clamp pymax 1 ((grid.height : Int) - 2) } ∧
      ∀ layer, layer < grid.num_layers →
        (get_non_updateable_bb nl grid block_locs net_id cnt).2 layer
          = (((nl.net_sinks net_id).filter
              (fun p => decide (net_pin_layer nl block_locs p = layer))).length : Int) := by
  have hx := hull_scratch_spec (net_pin_x nl block_locs (nl.net_driver net_id))
    ((nl.net_sinks net_id).map (net_pin_x nl block_locs))
  have hy := hull_scratch_spec (net_pin_y nl block_locs (nl.net_driver net_id))
    ((nl.net_sinks net_id).map (net_pin_y nl block_locs))
  refine ⟨_, _, _, _, ⟨hx.1, hx.2.1⟩, ⟨hx.2.2.1, hx.2.2.2⟩, ⟨hy.1, hy.2.1⟩,
    ⟨hy.2.2.1, hy.2.2.2⟩, ?_, ?_⟩
  · simp only [get_non_updateable_bb, hull_fold_hx, hull_fold_hy,
      clip_coord_eq_clamp _ _ hW, clip_coord_eq_clamp _ _ hH]
    rfl
  · intro layer hl
    simp only [get_non_updateable_bb, hull_fold_layers, reset_layer_counts, if_pos hl, zero_add]

/-- C4. Each of the four edge counts returned by `get_bb_from_scratch` is the number of pins of
the net (driver and sinks) whose clipped coordinate equals the corresponding extremum of the
returned box, and every edge count is at least 1. -/
theorem get_bb_from_scratch_edge_counts (nl : ClusteredNetlist) (grid : DeviceGrid)
    (block_locs : Nat → t_pl_loc) (net_id : Nat) (cnt : Nat → Int) :
    (get_bb_from_scratch nl grid block_locs net_id cnt).num_on_edges.xmin
      = (((nl.net_pins net_id).filter (fun p => decide (clipped_pin_x nl grid block_locs p
          = (get_bb_from_scratch nl grid block_locs net_id cnt).coords.xmin))).length : Int) ∧
    (get_bb_from_scratch nl grid block_locs net_id cnt).num_on_edges.xmax
      = (((nl.net_pins net_id).filter (fun p => decide (clipped_pin_x nl grid block_locs p
          = (get_bb_from_scratch nl grid block_locs net_id cnt).coords.xmax))).length : Int) ∧
    (get_bb_from_scratch nl grid block_locs net_id cnt).num_on_edges.ymin
      = (((nl.net_pins net_id).filter (fun p => decide (clipped_pin_y nl grid block_locs p
          = (get_bb_from_scratch nl grid block_locs net_id cnt).coords.ymin))).length : Int) ∧
    (get_bb_from_scratch nl grid block_locs net_id cnt).num_on_edges.ymax
      = (((nl.net_pins net_id).filter (fun p => decide (clipped_pin_y nl grid block_locs p
          = (get_bb_from_scratch nl grid block_locs net_id cnt).coords.ymax))).length : Int) ∧
    1 ≤ (get_bb_from_scratch nl grid block_locs net_id cnt).num_on_edges.xmin ∧
    1 ≤ (get_bb_from_scratch nl grid block_locs net_id cnt).num_on_edges.xmax ∧
    1 ≤ (get_bb_from_scratch nl grid block_locs net_id cnt).num_on_edges.ymin ∧
    1 ≤ (get_bb_from_scratch nl grid block_locs net_id cnt).num_on_edges.ymax := by
  obtain ⟨x1, _, x3, _, x5, x6⟩ := scratch_isAxisBB_x nl grid block_locs net_id cnt
  obtain ⟨y1, _, y3, _, y5, y6⟩ := scratch_isAxisBB_y nl grid block_locs net_id cnt
  simp only [axis_x, axis_y] at x1 x3 x5 x6 y1 y3 y5 y6
  have p1 := List.count_pos_iff.2 x1
  have p2 := List.count_pos_iff.2 x3
  have p3 := List.count_pos_iff.2 y1
  have p4 := List.count_pos_iff.2 y3
  rw [count_map_eq_filter_length] at x5 x6 y5 y6
  refine ⟨x5, x6, y5, y6, ?_, ?_, ?_, ?_⟩
  · rw [x5, ← count_map_eq_filter_length]; omega
  · rw [x6, ← count_map_eq_filter_length]; omega
  · rw [y5, ← count_map_eq_filter_length]; omega
  · rw [y6, ← count_map_eq_filter_length]; omega

/-! ## Agreement of the two from-scratch routines -/

theorem map_clipped_pin_x (nl : ClusteredNetlist) (grid : DeviceGrid) (L : Nat → t_pl_loc)
    (l : List Nat) :
    l.map (clipped_pin_x nl grid L)
      = (l.map (net_pin_x nl L)).map (fun v => clip_coord v grid.width) := by
  rw [List.map_map]; rfl

theorem map_clipped_pin_y (nl : ClusteredNetlist) (grid : DeviceGrid) (L : Nat → t_pl_loc)
    (l : List Nat) :
    l.map (clipped_pin_y nl grid L)
      = (l.map (net_pin_y nl L)).map (fun v => clip_coord v grid.height) := by
  rw [List.map_map]; rfl

/-- Clipping after taking the extrema gives the extrema of the clipped list. -/
theorem clip_extrema {A : List Int} {a : AxisBB} {mn mx : Int} (dim : Nat)
    (h : IsAxisBB (A.map (fun v => clip_coord v dim)) a)
    (h1 : mn ∈ A) (h2 : ∀ v ∈ A, mn ≤ v) (h3 : mx ∈ A) (h4 : ∀ v ∈ A, v ≤ mx) :
    a.lo = clip_coord mn dim ∧ a.hi = clip_coord mx dim := by
  obtain ⟨a1, a2, a3, a4, _, _⟩ := h
  constructor
  · apply le_antisymm
    · exact a2 _ (List.mem_map.2 ⟨mn, h1, rfl⟩)
    · obtain ⟨w, hw, e⟩ := List.mem_map.1 a1
      rw [← e]
      exact clip_coord_mono (h2 w hw) dim
  · apply le_antisymm
    · obtain ⟨w, hw, e⟩ := List.mem_map.1 a3
      rw [← e]
      exact clip_coord_mono (h4 w hw) dim
    · exact a4 _ (List.mem_map.2 ⟨mx, h3, rfl⟩)

theorem scratch_coords_eq_non_updateable (nl : ClusteredNetlist) (grid : DeviceGrid)
    (L : Nat → t_pl_loc) (net_id : Nat) (c1 c2 : Nat → Int) :
    (get_bb_from_scratch nl grid L net_id c1).coords
      = (get_non_updateable_bb nl grid L net_id c2).1 := by
  have sx := scratch_isAxisBB_x nl grid L net_id c1
  have sy := scratch_isAxisBB_y nl grid L net_id c1
  rw [map_clipped_pin_x] at sx
  rw [map_clipped_pin_y] at sy
  have hx := hull_scratch_spec (net_pin_x nl L (nl.net_driver net_id))
    ((nl.net_sinks net_id).map (net_pin_x nl L))
  have hy := hull_scratch_spec (net_pin_y nl L (nl.net_driver net_id))
    ((nl.net_sinks net_id).map (net_pin_y nl L))
  have ex := clip_extrema grid.width sx hx.1 hx.2.1 hx.2.2.1 hx.2.2.2
  have ey := clip_extrema grid.height sy hy.1 hy.2.1 hy.2.2.1 hy.2.2.2
  simp only [axis_x, axis_y] at ex ey
  have e : ∀ b : t_bb, b = { xmin := b.xmin, xmax := b.xmax, ymin := b.ymin, ymax := b.ymax } :=
    fun b => rfl
  rw [e (get_bb_from_scratch nl grid L net_id c1).coords, ex.1, ex.2, ey.1, ey.2]
  simp only [get_non_updateable_bb, hull_fold_hx, hull_fold_hy]
  rfl

theorem scratch_layers_eq_non_updateable (nl : ClusteredNetlist) (grid : DeviceGrid)
    (L : Nat → t_pl_loc) (net_id : Nat) (c : Nat → Int) :
    (get_bb_from_scratch nl grid L net_id c).num_sink_pin_layer
      = (get_non_updateable_bb nl grid L net_id c).2 := by
  funext l
  simp only [get_bb_from_scratch, get_non_updateable_bb, scratch_fold_layers, hull_fold_layers]

/-- The two methods of `comp_bb_cost` keep their accumulators equal on everything except the
edge counts. -/
theorem comp_bb_cost_step_agree (nl : ClusteredNetlist) (grid : DeviceGrid) (fac : CostFac)
    (a b : PlacerState × ℚ) (net_id : Nat)
    (h : a.1.block_locs = b.1.block_locs ∧ a.1.bb_coords = b.1.bb_coords ∧
      a.1.num_sink_pin_layer = b.1.num_sink_pin_layer ∧ a.1.net_cost = b.1.net_cost ∧
      a.2 = b.2) :
    (comp_bb_cost_step nl grid fac e_cost_methods.CHECK a net_id).1.block_locs
        = (comp_bb_cost_step nl grid fac e_cost_methods.NORMAL b net_id).1.block_locs ∧
    (comp_bb_cost_step nl grid fac e_cost_methods.CHECK a net_id).1.bb_coords
        = (comp_bb_cost_step nl grid fac e_cost_methods.NORMAL b net_id).1.bb_coords ∧
    (comp_bb_cost_step nl grid fac e_cost_methods.CHECK a net_id).1.num_sink_pin_layer
        = (comp_bb_cost_step nl grid fac e_cost_methods.NORMAL b net_id).1.num_sink_pin_layer ∧
    (comp_bb_cost_step nl grid fac e_cost_methods.CHECK a net_id).1.net_cost
        = (comp_bb_cost_step nl grid fac e_cost_methods.NORMAL b net_id).1.net_cost ∧
    (comp_bb_cost_step nl grid fac e_cost_methods.CHECK a net_id).2
        = (comp_bb_cost_step nl grid fac e_cost_methods.NORMAL b net_id).2 := by
  obtain ⟨h1, h2, h3, h4, h5⟩ := h
  unfold comp_bb_cost_step
  by_cases hi : nl.net_is_ignored net_id = true
  · simp only [hi, Bool.not_true, Bool.false_eq_true, if_false]
    exact ⟨h1, h2, h3, h4, h5⟩
  · have hi2 : nl.net_is_ignored net_id = false := by simpa using hi
    simp only [hi2, Bool.not_false, if_true]
    by_cases hs : (nl.net_sinks net_id).length ≥ SMALL_NET
    · simp only [hs, true_and, reduceCtorEq, if_false, if_true, and_false, Function.update_same]
      rw [h1, h2, h3, h4, h5,
        scratch_coords_eq_non_updateable nl grid b.1.block_locs net_id
          (b.1.num_sink_pin_layer net_id) (b.1.num_sink_pin_layer net_id),
        scratch_layers_eq_non_updateable]
      exact ⟨rfl, rfl, rfl, rfl, rfl⟩
    · simp only [hs, false_and, if_false, Function.update_same]
      rw [h1, h2, h3, h4, h5]
      exact ⟨rfl, rfl, rfl, rfl, rfl⟩

theorem comp_bb_cost_foldl_agree (nl : ClusteredNetlist) (grid : DeviceGrid) (fac : CostFac)
    (nets : List Nat) : ∀ (a b : PlacerState × ℚ),
    (a.1.block_locs = b.1.block_locs ∧ a.1.bb_coords = b.1.bb_coords ∧
      a.1.num_sink_pin_layer = b.1.num_sink_pin_layer ∧ a.1.net_cost = b.1.net_cost ∧
      a.2 = b.2) →
    ((nets.foldl (comp_bb_cost_step nl grid fac e_cost_methods.CHECK) a).1.bb_coords
        = (nets.foldl (comp_bb_cost_step nl grid fac e_cost_methods.NORMAL) b).1.bb_coords ∧
     (nets.foldl (comp_bb_cost_step nl grid fac e_cost_methods.CHECK) a).1.net_cost
        = (nets.foldl (comp_bb_cost_step nl grid fac e_cost_methods.NORMAL) b).1.net_cost ∧
     (nets.foldl (comp_bb_cost_step nl grid fac e_cost_methods.CHECK) a).2
        = (nets.foldl (comp_bb_cost_step nl grid fac e_cost_methods.NORMAL) b).2) := by
  induction nets with
  | nil => intro a b h; exact ⟨h.2.1, h.2.2.2.1, h.2.2.2.2⟩
  | cons n ns ih =>
    intro a b h
    simp only [List.foldl_cons]
    exact ih _ _ (comp_bb_cost_step_agree nl grid fac a b n h)

/-- C5. For every placement, `comp_bb_cost(CHECK)` and `comp_bb_cost(NORMAL)` return the same
cost and leave the same `bb_coords` and `net_cost` for every net, because the coordinates of
`get_bb_from_scratch` and of `get_non_updateable_bb` are the same. -/
theorem comp_bb_cost_check_eq_normal (nl : ClusteredNetlist) (grid : DeviceGrid)
    (fac : CostFac) (s : PlacerState) :
    (comp_bb_cost nl grid fac e_cost_methods.CHECK s).2
        = (comp_bb_cost nl grid fac e_cost_methods.NORMAL s).2 ∧
    (∀ net_id, (comp_bb_cost nl grid fac e_cost_methods.CHECK s).1.bb_coords net_id
        = (comp_bb_cost nl grid fac e_cost_methods.NORMAL s).1.bb_coords net_id) ∧
    (∀ net_id, (comp_bb_cost nl grid fac e_cost_methods.CHECK s).1.net_cost net_id
        = (comp_bb_cost nl grid fac e_cost_methods.NORMAL s).1.net_cost net_id) ∧
    (∀ net_id c1 c2, (get_bb_from_scratch nl grid s.block_locs net_id c1).coords
        = (get_non_updateable_bb nl grid s.block_locs net_id c2).1) := by
  have h := comp_bb_cost_foldl_agree nl grid fac (List.range nl.num_nets) (s, 0) (s, 0)
    ⟨rfl, rfl, rfl, rfl, rfl⟩
  refine ⟨h.2.2, ?_, ?_, ?_⟩
  · intro n; exact congrFun h.1 n
  · intro n; exact congrFun h.2.1 n
  · intro n c1 c2; exact scratch_coords_eq_non_updateable nl grid s.block_locs n c1 c2

/-! ## The incremental update -/

/-- What `update_bb` leaves untouched. -/
theorem update_bb_frame (nl : ClusteredNetlist) (grid : DeviceGrid) (s : PlacerState)
    (net_id : Nat) (pin_old_loc pin_new_loc : t_physical_tile_loc) (src_pin : Bool) :
    (update_bb nl grid s net_id pin_old_loc pin_new_loc src_pin).block_locs = s.block_locs ∧
    (update_bb nl grid s net_id pin_old_loc pin_new_loc src_pin).bb_coords = s.bb_coords ∧
    (update_bb nl grid s net_id pin_old_loc pin_new_loc src_pin).bb_num_on_edges
      = s.bb_num_on_edges ∧
    (update_bb nl grid s net_id pin_old_loc pin_new_loc src_pin).num_sink_pin_layer
      = s.num_sink_pin_layer ∧
    (update_bb nl grid s net_id pin_old_loc pin_new_loc src_pin).net_cost = s.net_cost ∧
    (update_bb nl grid s net_id pin_old_loc pin_new_loc src_pin).proposed_net_cost
      = s.proposed_net_cost ∧
    (update_bb nl grid s net_id pin_old_loc pin_new_loc src_pin).ts_nets_to_update
      = s.ts_nets_to_update := by
  unfold update_bb update_bb_from_scratch
  dsimp only
  split_ifs <;> (try split) <;> (try split) <;>
    exact ⟨rfl, rfl, rfl, rfl, rfl, rfl, rfl⟩

/-- Entries of other nets are not touched by `update_bb`. -/
theorem update_bb_other (nl : ClusteredNetlist) (grid : DeviceGrid) (s : PlacerState)
    (net_id : Nat) (pin_old_loc pin_new_loc : t_physical_tile_loc) (src_pin : Bool)
    (n : Nat) (hn : n ≠ net_id) :
    (update_bb nl grid s net_id pin_old_loc pin_new_loc src_pin).ts_bb_coord_new n
      = s.ts_bb_coord_new n ∧
    (update_bb nl grid s net_id pin_old_loc pin_new_loc src_pin).ts_bb_edge_new n
      = s.ts_bb_edge_new n ∧
    (update_bb nl grid s net_id pin_old_loc pin_new_loc src_pin).ts_layer_sink_pin_count n
      = s.ts_layer_sink_pin_count n ∧
    (update_bb nl grid s net_id pin_old_loc pin_new_loc src_pin).bb_updated_before n
      = s.bb_updated_before n := by
  unfold update_bb update_bb_from_scratch
  dsimp only
  split_ifs <;> (try split) <;> (try split) <;>
    simp [Function.update_noteq hn]

/-- A call of `update_bb` on a net that was got from scratch changes nothing. -/
theorem update_bb_got_from_scratch (nl : ClusteredNetlist) (grid : DeviceGrid) (s : PlacerState)
    (net_id : Nat) (pin_old_loc pin_new_loc : t_physical_tile_loc) (src_pin : Bool)
    (h : s.bb_updated_before net_id = BBFlag.GOT_FROM_SCRATCH) :
    update_bb nl grid s net_id pin_old_loc pin_new_loc src_pin = s := by
  unfold update_bb
  simp [h]

/-- The two ways in which `update_bb` ends when the net was not got from scratch before. -/
theorem update_bb_cases (nl : ClusteredNetlist) (grid : DeviceGrid) (s : PlacerState)
    (net_id : Nat) (pin_old_loc pin_new_loc : t_physical_tile_loc) (src_pin : Bool)
    (h : s.bb_updated_before net_id ≠ BBFlag.GOT_FROM_SCRATCH) :
    (∃ ax ay,
      update_axis (axis_x (update_bb_curr s net_id).1 (update_bb_curr s net_id).2)
        (clip_coord pin_old_loc.x grid.width) (clip_coord pin_new_loc.x grid.width) = some ax ∧
      update_axis (axis_y (update_bb_curr s net_id).1 (update_bb_curr s net_id).2)
        (clip_coord pin_old_loc.y grid.height) (clip_coord pin_new_loc.y grid.height) = some ay ∧
      (update_bb nl grid s net_id pin_old_loc pin_new_loc src_pin).ts_bb_coord_new net_id
        = coords_of ax ay ∧
      (update_bb nl grid s net_id pin_old_loc pin_new_loc src_pin).ts_bb_edge_new net_id
        = edges_of ax ay ∧
      (update_bb nl grid s net_id pin_old_loc pin_new_loc src_pin).bb_updated_before net_id
        = BBFlag.UPDATED_ONCE) ∨
    ((update_bb nl grid s net_id pin_old_loc pin_new_loc src_pin).ts_bb_coord_new net_id
        = (get_bb_from_scratch nl grid s.block_locs net_id
            (s.ts_layer_sink_pin_count net_id)).coords ∧
      (update_bb nl grid s net_id pin_old_loc pin_new_loc src_pin).ts_bb_edge_new net_id
        = (get_bb_from_scratch nl grid s.block_locs net_id
            (s.ts_layer_sink_pin_count net_id)).num_on_edges ∧
      (update_bb nl grid s net_id pin_old_loc pin_new_loc src_pin).bb_updated_before net_id
        = BBFlag.GOT_FROM_SCRATCH) := by
  unfold update_bb update_bb_from_scratch update_bb_curr
  simp only [if_neg h]
  by_cases hN : s.bb_updated_before net_id = BBFlag.NOT_UPDATED_YET
  · simp only [hN, decide_True, if_true]
    cases hx : update_axis (axis_x (s.bb_coords net_id) (s.bb_num_on_edges net_id))
        (clip_coord pin_old_loc.x grid.width) (clip_coord pin_new_loc.x grid.width) with
    | none => right; simp
    | some ax =>
      cases hy : update_axis (axis_y (s.bb_coords net_id) (s.bb_num_on_edges net_id))
          (clip_coord pin_old_loc.y grid.height) (clip_coord pin_new_loc.y grid.height) with
      | none => right; simp
      | some ay => left; exact ⟨ax, ay, rfl, rfl, by simp⟩
  · have hU : s.bb_updated_before net_id = BBFlag.UPDATED_ONCE := by
      cases hf : s.bb_updated_before net_id with
      | NOT_UPDATED_YET => exact absurd hf hN
      | UPDATED_ONCE => rfl
      | GOT_FROM_SCRATCH => exact absurd hf h
    simp only [hN, decide_False, Bool.false_eq_true, if_false]
    cases hx : update_axis (axis_x (s.ts_bb_coord_new net_id) (s.ts_bb_edge_new net_id))
        (clip_coord pin_old_loc.x grid.width) (clip_coord pin_new_loc.x grid.width) with
    | none => right; simp
    | some ax =>
      cases hy : update_axis (axis_y (s.ts_bb_coord_new net_id) (s.ts_bb_edge_new net_id))
          (clip_coord pin_old_loc.y grid.height) (clip_coord pin_new_loc.y grid.height) with
      | none => right; simp
      | some ay => left; exact ⟨ax, ay, rfl, rfl, by simp [hU]⟩


theorem t_bb_pair_ext {b c : t_bb × t_bb} (hx : axis_x b.1 b.2 = axis_x c.1 c.2)
    (hy : axis_y b.1 b.2 = axis_y c.1 c.2) : b = c := by
  obtain ⟨⟨a1, a2, a3, a4⟩, ⟨a5, a6, a7, a8⟩⟩ := b
  obtain ⟨⟨c1, c2, c3, c4⟩, ⟨c5, c6, c7, c8⟩⟩ := c
  simp only [axis_x, axis_y, AxisBB.mk.injEq] at hx hy
  obtain ⟨h1, h2, h3, h4⟩ := hx
  obtain ⟨h5, h6, h7, h8⟩ := hy
  subst h1 h2 h3 h4 h5 h6 h7 h8
  rfl

theorem boxIs_unique {fx fy : Nat → Int} {pins : List Nat} {b c : t_bb × t_bb}
    (hb : BoxIs fx fy pins b) (hc : BoxIs fx fy pins c) : b = c :=
  t_bb_pair_ext (isAxisBB_unique hb.1 hc.1) (isAxisBB_unique hb.2 hc.2)

theorem boxIs_congr {fx fy gx gy : Nat → Int} {pins : List Nat} {b : t_bb × t_bb}
    (h : ∀ q ∈ pins, fx q = gx q ∧ fy q = gy q) (hb : BoxIs fx fy pins b) :
    BoxIs gx gy pins b := by
  have ex : pins.map fx = pins.map gx := List.map_congr_left (fun q hq => (h q hq).1)
  have ey : pins.map fy = pins.map gy := List.map_congr_left (fun q hq => (h q hq).2)
  unfold BoxIs at hb ⊢
  rw [← ex, ← ey]
  exact hb

theorem scratch_boxIs (nl : ClusteredNetlist) (grid : DeviceGrid) (L : Nat → t_pl_loc)
    (net_id : Nat) (cnt : Nat → Int) :
    BoxIs (clipped_pin_x nl grid L) (clipped_pin_y nl grid L) (nl.net_pins net_id)
      ((get_bb_from_scratch nl grid L net_id cnt).coords,
       (get_bb_from_scratch nl grid L net_id cnt).num_on_edges) :=
  ⟨scratch_isAxisBB_x nl grid L net_id cnt, scratch_isAxisBB_y nl grid L net_id cnt⟩

/-- Replacing the coordinate of one pin of a duplicate-free pin list. -/
theorem isAxisBB_replace {pins : List Nat} {f g : Nat → Int} {pin : Nat}
    (hmem : pin ∈ pins) (hnd : pins.Nodup) (hfg : ∀ q ∈ pins, q ≠ pin → f q = g q)
    {curr a : AxisBB} (h : IsAxisBB (pins.map f) curr)
    (hu : update_axis curr (f pin) (g pin) = some a) : IsAxisBB (pins.map g) a := by
  have hp : pins.Perm (pin :: pins.erase pin) := List.perm_cons_erase hmem
  have h1 : (pins.map f).Perm (f pin :: (pins.erase pin).map f) := by
    simpa using hp.map f
  have h2 : (pins.map g).Perm (g pin :: (pins.erase pin).map g) := by
    simpa using hp.map g
  have h3 : (pins.erase pin).map g = (pins.erase pin).map f := by
    apply List.map_congr_left
    intro q hq
    have hq1 : q ∈ pins := List.mem_of_mem_erase hq
    have hq2 : q ≠ pin := fun e => by
      subst e
      exact (List.Nodup.not_mem_erase hnd) hq
    exact (hfg q hq1 hq2).symm
  rw [isAxisBB_perm h2, h3]
  exact isAxisBB_update ((isAxisBB_perm h1 _).1 h) hu

theorem boxIs_update {pins : List Nat} {fx fy gx gy : Nat → Int} {pin : Nat}
    (hmem : pin ∈ pins) (hnd : pins.Nodup)
    (hfg : ∀ q ∈ pins, q ≠ pin → fx q = gx q ∧ fy q = gy q)
    {curr : t_bb × t_bb} {ax ay : AxisBB} (h : BoxIs fx fy pins curr)
    (hx : update_axis (axis_x curr.1 curr.2) (fx pin) (gx pin) = some ax)
    (hy : update_axis (axis_y curr.1 curr.2) (fy pin) (gy pin) = some ay) :
    BoxIs gx gy pins (coords_of ax ay, edges_of ax ay) := by
  constructor
  · have := isAxisBB_replace hmem hnd (fun q hq hne => (hfg q hq hne).1) h.1 hx
    simpa [axis_x, coords_of, edges_of] using this
  · have := isAxisBB_replace hmem hnd (fun q hq hne => (hfg q hq hne).2) h.2 hy
    simpa [axis_y, coords_of, edges_of] using this

/-- The result of `update_bb` on a net whose current box describes the pin coordinates
`fx`, `fy`, when one pin moves and the placement in force gives the coordinates `gx`, `gy`:
either the net is flagged `UPDATED_ONCE` and the scratch box describes `gx`, `gy`, or it is
flagged `GOT_FROM_SCRATCH` and holds the from-scratch box of the placement in force. -/
theorem update_bb_boxIs (nl : ClusteredNetlist) (grid : DeviceGrid) (s : PlacerState)
    (net_id pin : Nat) (pin_old_loc pin_new_loc : t_physical_tile_loc) (src_pin : Bool)
    (fx fy gx gy : Nat → Int)
    (h : s.bb_updated_before net_id ≠ BBFlag.GOT_FROM_SCRATCH)
    (hmem : pin ∈ nl.net_pins net_id) (hnd : (nl.net_pins net_id).Nodup)
    (hfg : ∀ q ∈ nl.net_pins net_id, q ≠ pin → fx q = gx q ∧ fy q = gy q)
    (hox : clip_coord pin_old_loc.x grid.width = fx pin)
    (hoy : clip_coord pin_old_loc.y grid.height = fy pin)
    (hnx : clip_coord pin_new_loc.x grid.width = gx pin)
    (hny : clip_coord pin_new_loc.y grid.height = gy pin)
    (hcurr : BoxIs fx fy (nl.net_pins net_id) (update_bb_curr s net_id)) :
    ((update_bb nl grid s net_id pin_old_loc pin_new_loc src_pin).bb_updated_before net_id
        = BBFlag.UPDATED_ONCE ∧
      BoxIs gx gy (nl.net_pins net_id)
        ((update_bb nl grid s net_id pin_old_loc pin_new_loc src_pin).ts_bb_coord_new net_id,
         (update_bb nl grid s net_id pin_old_loc pin_new_loc src_pin).ts_bb_edge_new net_id)) ∨
    ((update_bb nl grid s net_id pin_old_loc pin_new_loc src_pin).bb_updated_before net_id
        = BBFlag.GOT_FROM_SCRATCH ∧
      BoxIs (clipped_pin_x nl grid s.block_locs) (clipped_pin_y nl grid s.block_locs)
        (nl.net_pins net_id)
        ((update_bb nl grid s net_id pin_old_loc pin_new_loc src_pin).ts_bb_coord_new net_id,
         (update_bb nl grid s net_id pin_old_loc pin_new_loc src_pin).ts_bb_edge_new net_id)) := by
  rcases update_bb_cases nl grid s net_id pin_old_loc pin_new_loc src_pin h with
    ⟨ax, ay, hx, hy, e1, e2, e3⟩ | ⟨e1, e2, e3⟩
  · left
    rw [hox, hnx] at hx
    rw [hoy, hny] at hy
    refine ⟨e3, ?_⟩
    rw [e1, e2]
    exact boxIs_update hmem hnd hfg hcurr hx hy
  · right
    refine ⟨e3, ?_⟩
    rw [e1, e2]
    exact scratch_boxIs nl grid s.block_locs net_id _

theorem boxIs_scratch_eq (nl : ClusteredNetlist) (grid : DeviceGrid) (L : Nat → t_pl_loc)
    (net_id : Nat) (cnt : Nat → Int) {b : t_bb × t_bb}
    (h : BoxIs (clipped_pin_x nl grid L) (clipped_pin_y nl grid L) (nl.net_pins net_id) b) :
    b.1 = (get_bb_from_scratch nl grid L net_id cnt).coords ∧
    b.2 = (get_bb_from_scratch nl grid L net_id cnt).num_on_edges := by
  have := boxIs_unique h (scratch_boxIs nl grid L net_id cnt)
  rw [this]
  exact ⟨rfl, rfl⟩

/-- C2. Single-pin incremental update agrees with from-scratch: if the cached coordinates and
edge counts of a net are those of `get_bb_from_scratch` on the placement `P`, its flag is
`NOT_UPDATED_YET`, and the placement in force differs from `P` on the net only in the position
of one pin `pin` of the net, then after `update_bb` with the old and the new position of that
pin the scratch pair of the net holds the coordinates and the edge counts that
`get_bb_from_scratch` computes on the placement in force. -/
theorem update_bb_single_pin_eq_from_scratch (nl : ClusteredNetlist) (grid : DeviceGrid)
    (s : PlacerState) (P : Nat → t_pl_loc) (net_id pin : Nat) (old_layer new_layer : Nat)
    (src_pin : Bool) (c0 c1 : Nat → Int)
    (hmem : pin ∈ nl.net_pins net_id) (hnd : (nl.net_pins net_id).Nodup)
    (hothers : ∀ q ∈ nl.net_pins net_id, q ≠ pin →
      net_pin_x nl P q = net_pin_x nl s.block_locs q ∧
      net_pin_y nl P q = net_pin_y nl s.block_locs q)
    (hcoords : s.bb_coords net_id = (get_bb_from_scratch nl grid P net_id c0).coords)
    (hedges : s.bb_num_on_edges net_id = (get_bb_from_scratch nl grid P net_id c0).num_on_edges)
    (hflag : s.bb_updated_before net_id = BBFlag.NOT_UPDATED_YET) :
    (update_bb nl grid s net_id
        { x := net_pin_x nl P pin, y := net_pin_y nl P pin, layer_num := old_layer }
        { x := net_pin_x nl s.block_locs pin, y := net_pin_y nl s.block_locs pin,
          layer_num := new_layer } src_pin).ts_bb_coord_new net_id
      = (get_bb_from_scratch nl grid s.block_locs net_id c1).coords ∧
    (update_bb nl grid s net_id
        { x := net_pin_x nl P pin, y := net_pin_y nl P pin, layer_num := old_layer }
        { x := net_pin_x nl s.block_locs pin, y := net_pin_y nl s.block_locs pin,
          layer_num := new_layer } src_pin).ts_bb_edge_new net_id
      = (get_bb_from_scratch nl grid s.block_locs net_id c1).num_on_edges := by
  have hne : s.bb_updated_before net_id ≠ BBFlag.GOT_FROM_SCRATCH := by
    rw [hflag]; exact fun e => by cases e
  have hcurr : BoxIs (clipped_pin_x nl grid P) (clipped_pin_y nl grid P) (nl.net_pins net_id)
      (update_bb_curr s net_id) := by
    unfold update_bb_curr
    rw [if_pos hflag, hcoords, hedges]
    exact scratch_boxIs nl grid P net_id c0
  have hfg : ∀ q ∈ nl.net_pins net_id, q ≠ pin →
      clipped_pin_x nl grid P q = clipped_pin_x nl grid s.block_locs q ∧
      clipped_pin_y nl grid P q = clipped_pin_y nl grid s.block_locs q := by
    intro q hq hqne
    unfold clipped_pin_x clipped_pin_y
    rw [(hothers q hq hqne).1, (hothers q hq hqne).2]
    exact ⟨rfl, rfl⟩
  rcases update_bb_boxIs nl grid s net_id pin
      { x := net_pin_x nl P pin, y := net_pin_y nl P pin, layer_num := old_layer }
      { x := net_pin_x nl s.block_locs pin, y := net_pin_y nl s.block_locs pin,
        layer_num := new_layer } src_pin
      (clipped_pin_x nl grid P) (clipped_pin_y nl grid P)
      (clipped_pin_x nl grid s.block_locs) (clipped_pin_y nl grid s.block_locs)
      hne hmem hnd hfg rfl rfl rfl rfl hcurr with ⟨_, hb⟩ | ⟨_, hb⟩
  · exact boxIs_scratch_eq nl grid s.block_locs net_id c1 hb
  · exact boxIs_scratch_eq nl grid s.block_locs net_id c1 hb

/-! ## One pin of a moved block -/

theorem update_net_bb_frame (nl : ClusteredNetlist) (grid : DeviceGrid) (s : PlacerState)
    (net : Nat) (mb : t_pl_moved_block) (blk_pin : Nat) :
    (update_net_bb nl grid s net mb blk_pin).block_locs = s.block_locs ∧
    (update_net_bb nl grid s net mb blk_pin).bb_coords = s.bb_coords ∧
    (update_net_bb nl grid s net mb blk_pin).bb_num_on_edges = s.bb_num_on_edges ∧
    (update_net_bb nl grid s net mb blk_pin).num_sink_pin_layer = s.num_sink_pin_layer ∧
    (update_net_bb nl grid s net mb blk_pin).net_cost = s.net_cost ∧
    (update_net_bb nl grid s net mb blk_pin).proposed_net_cost = s.proposed_net_cost ∧
    (update_net_bb nl grid s net mb blk_pin).ts_nets_to_update = s.ts_nets_to_update := by
  unfold update_net_bb
  split_ifs
  · exact ⟨rfl, rfl, rfl, rfl, rfl, rfl, rfl⟩
  · exact ⟨rfl, rfl, rfl, rfl, rfl, rfl, rfl⟩
  · exact update_bb_frame nl grid s net _ _ _

theorem update_net_bb_other (nl : ClusteredNetlist) (grid : DeviceGrid) (s : PlacerState)
    (net : Nat) (mb : t_pl_moved_block) (blk_pin : Nat) (n : Nat) (hn : n ≠ net) :
    (update_net_bb nl grid s net mb blk_pin).ts_bb_coord_new n = s.ts_bb_coord_new n ∧
    (update_net_bb nl grid s net mb blk_pin).ts_bb_edge_new n = s.ts_bb_edge_new n ∧
    (update_net_bb nl grid s net mb blk_pin).ts_layer_sink_pin_count n
      = s.ts_layer_sink_pin_count n ∧
    (update_net_bb nl grid s net mb blk_pin).bb_updated_before n = s.bb_updated_before n := by
  unfold update_net_bb
  split_ifs
  · simp [Function.update_noteq hn]
  · exact ⟨rfl, rfl, rfl, rfl⟩
  · exact update_bb_other nl grid s net _ _ _ n hn

theorem record_affected_net_frame (s : PlacerState) (net num : Nat) :
    (record_affected_net s net num).1.block_locs = s.block_locs ∧
    (record_affected_net s net num).1.bb_coords = s.bb_coords ∧
    (record_affected_net s net num).1.bb_num_on_edges = s.bb_num_on_edges ∧
    (record_affected_net s net num).1.num_sink_pin_layer = s.num_sink_pin_layer ∧
    (record_affected_net s net num).1.net_cost = s.net_cost ∧
    (record_affected_net s net num).1.bb_updated_before = s.bb_updated_before ∧
    (record_affected_net s net num).1.ts_bb_coord_new = s.ts_bb_coord_new ∧
    (record_affected_net s net num).1.ts_bb_edge_new = s.ts_bb_edge_new ∧
    (record_affected_net s net num).1.ts_layer_sink_pin_count = s.ts_layer_sink_pin_count := by
  unfold record_affected_net
  split_ifs <;> exact ⟨rfl, rfl, rfl, rfl, rfl, rfl, rfl, rfl, rfl⟩

/-- After `record_affected_net` the net is in the list and its proposed cost is not negative;
the entries of the list below the old count are kept, and a net that is not in the list yet is
appended exactly when its proposed cost is negative. -/
theorem record_affected_net_spec (s : PlacerState) (net num : Nat) :
    num ≤ (record_affected_net s net num).2 ∧
    (∀ i, i < num → (record_affected_net s net num).1.ts_nets_to_update i
      = s.ts_nets_to_update i) ∧
    (∀ i, num ≤ i → i < (record_affected_net s net num).2 →
      (record_affected_net s net num).1.ts_nets_to_update i = net) ∧
    0 ≤ (record_affected_net s net num).1.proposed_net_cost net ∧
    (∀ n, n ≠ net → (record_affected_net s net num).1.proposed_net_cost n
      = s.proposed_net_cost n) ∧
    (s.proposed_net_cost net < 0 →
      (record_affected_net s net num).2 = num + 1) ∧
    (0 ≤ s.proposed_net_cost net →
      (record_affected_net s net num).2 = num) := by
  unfold record_affected_net
  by_cases h : s.proposed_net_cost net < 0
  · rw [if_pos h]
    refine ⟨Nat.le_succ _, ?_, ?_, ?_, ?_, ?_, ?_⟩
    · intro i hi
      exact Function.update_noteq (Nat.ne_of_lt hi) _ _
    · intro i h1 h2
      have : i = num := by omega
      subst this
      exact Function.update_same _ _ _
    · simp
    · intro n hn
      exact Function.update_noteq hn _ _
    · intro _; rfl
    · intro h0; exact absurd h (not_lt.2 h0)
  · rw [if_neg h]
    refine ⟨le_refl _, fun _ _ => rfl, ?_, not_lt.1 h, fun _ _ => rfl, ?_, fun _ => rfl⟩
    · intro i h1 h2; omega
    · intro h0; exact absurd h0 h


theorem non_updateable_coords_indep (nl : ClusteredNetlist) (grid : DeviceGrid)
    (L : Nat → t_pl_loc) (net_id : Nat) (c c' : Nat → Int) :
    (get_non_updateable_bb nl grid L net_id c).1 = (get_non_updateable_bb nl grid L net_id c').1 := by
  rw [← scratch_coords_eq_non_updateable nl grid L net_id c c,
    ← scratch_coords_eq_non_updateable nl grid L net_id c c']

theorem staged_eq_of_not_mem (nl : ClusteredNetlist) (grid : DeviceGrid) (P P' : Nat → t_pl_loc)
    (D : List Nat) (q : Nat) (h : q ∉ D) :
    staged_pin_x nl grid P P' D q = clipped_pin_x nl grid P q ∧
    staged_pin_y nl grid P P' D q = clipped_pin_y nl grid P q := by
  unfold staged_pin_x staged_pin_y
  rw [if_neg h, if_neg h]
  exact ⟨rfl, rfl⟩

theorem staged_eq_of_mem (nl : ClusteredNetlist) (grid : DeviceGrid) (P P' : Nat → t_pl_loc)
    (D : List Nat) (q : Nat) (h : q ∈ D) :
    staged_pin_x nl grid P P' D q = clipped_pin_x nl grid P' q ∧
    staged_pin_y nl grid P P' D q = clipped_pin_y nl grid P' q := by
  unfold staged_pin_x staged_pin_y
  rw [if_pos h, if_pos h]
  exact ⟨rfl, rfl⟩

theorem staged_append_of_ne (nl : ClusteredNetlist) (grid : DeviceGrid) (P P' : Nat → t_pl_loc)
    (D : List Nat) (p q : Nat) (h : q ≠ p) :
    staged_pin_x nl grid P P' D q = staged_pin_x nl grid P P' (D ++ [p]) q ∧
    staged_pin_y nl grid P P' D q = staged_pin_y nl grid P P' (D ++ [p]) q := by
  have e : q ∈ D ++ [p] ↔ q ∈ D := by simp [h]
  unfold staged_pin_x staged_pin_y
  simp only [e]
  exact ⟨trivial, trivial⟩

/-- The invariant of a net is kept when the state changes only in entries of other nets and
the visited pin belongs to another net. -/
theorem netInv_transfer (nl : ClusteredNetlist) (grid : DeviceGrid) (P P' : Nat → t_pl_loc)
    (c0 e0 : t_bb) (D : List Nat) (acc acc' : PlacerState × Nat) (n p : Nat)
    (hpins : ∀ q ∈ nl.net_pins n, nl.pin_net q = n)
    (hp : nl.pin_net p ≠ n)
    (h : NetInv nl grid P P' c0 e0 D acc n)
    (f1 : acc'.1.block_locs = acc.1.block_locs)
    (f2 : acc'.1.bb_coords n = acc.1.bb_coords n)
    (f3 : acc'.1.bb_num_on_edges n = acc.1.bb_num_on_edges n)
    (f4 : acc'.1.proposed_net_cost n = acc.1.proposed_net_cost n)
    (f5 : acc'.1.bb_updated_before n = acc.1.bb_updated_before n)
    (f6 : acc'.1.ts_bb_coord_new n = acc.1.ts_bb_coord_new n)
    (f7 : acc'.1.ts_bb_edge_new n = acc.1.ts_bb_edge_new n)
    (f8 : acc.2 ≤ acc'.2)
    (f9 : ∀ i, i < acc.2 → acc'.1.ts_nets_to_update i = acc.1.ts_nets_to_update i)
    (f10 : ∀ i, acc.2 ≤ i → i < acc'.2 → acc'.1.ts_nets_to_update i ≠ n) :
    NetInv nl grid P P' c0 e0 (D ++ [p]) acc' n := by
  obtain ⟨h1, h2, h3, h4, h5⟩ := h
  have hex : (∃ q ∈ D ++ [p], nl.pin_net q = n) ↔ (∃ q ∈ D, nl.pin_net q = n) := by
    constructor
    · rintro ⟨q, hq, e⟩
      rcases List.mem_append.1 hq with hq | hq
      · exact ⟨q, hq, e⟩
      · have : q = p := by simpa using hq
        subst this
        exact absurd e hp
    · rintro ⟨q, hq, e⟩
      exact ⟨q, List.mem_append_left _ hq, e⟩
  have hst : ∀ q ∈ nl.net_pins n,
      staged_pin_x nl grid P P' D q = staged_pin_x nl grid P P' (D ++ [p]) q ∧
      staged_pin_y nl grid P P' D q = staged_pin_y nl grid P P' (D ++ [p]) q := by
    intro q hq
    apply staged_append_of_ne
    intro e
    subst e
    exact hp (hpins q hq)
  refine ⟨by rw [f1, h1], by rw [f2, h2], by rw [f3, h3], ?_, ?_⟩
  · intro hx
    obtain ⟨⟨i, hi, hti⟩, g2, g3, g4⟩ := h4 (hex.1 hx)
    refine ⟨⟨i, lt_of_lt_of_le hi f8, by rw [f9 i hi, hti]⟩, by rw [f4]; exact g2, ?_, ?_⟩
    · intro hl
      rw [f5, f6, f7]
      rcases g3 hl with ⟨gU, gB⟩ | ⟨gS, gB⟩
      · exact Or.inl ⟨gU, boxIs_congr hst gB⟩
      · exact Or.inr ⟨gS, gB⟩
    · intro hl
      rw [f5, f6]
      exact g4 hl
  · intro hx
    obtain ⟨g1, g2, g3⟩ := h5 (fun hh => hx (hex.2 hh))
    refine ⟨?_, by rw [f4]; exact g2, by rw [f5]; exact g3⟩
    intro i hi
    by_cases hlt : i < acc.2
    · rw [f9 i hlt]; exact g1 i hlt
    · exact f10 i (not_lt.1 hlt) hi


/-- The step of the pin loop on a pin of another net keeps the invariant of net `n`. -/
theorem affected_pin_step_other (nl : ClusteredNetlist) (grid : DeviceGrid)
    (P P' : Nat → t_pl_loc) (c0 e0 : t_bb) (D : List Nat) (acc : PlacerState × Nat)
    (n p : Nat) (mb : t_pl_moved_block)
    (hpins : ∀ q ∈ nl.net_pins n, nl.pin_net q = n)
    (hp : nl.pin_net p ≠ n)
    (h : NetInv nl grid P P' c0 e0 D acc n) :
    NetInv nl grid P P' c0 e0 (D ++ [p]) (affected_pin_step nl grid mb acc p) n := by
  unfold affected_pin_step
  by_cases hi : nl.net_is_ignored (nl.pin_net p) = true
  · simp only [hi, if_true]
    exact netInv_transfer nl grid P P' c0 e0 D acc acc n p hpins hp h rfl rfl rfl rfl rfl rfl rfl
      (le_refl _) (fun _ _ => rfl) (fun i h1 h2 => by omega)
  · simp only [hi, Bool.false_eq_true, if_false]
    have hne : n ≠ nl.pin_net p := fun e => hp e.symm
    obtain ⟨u1, u2, u3, _, _, u6, u7⟩ := update_net_bb_frame nl grid
      (record_affected_net acc.1 (nl.pin_net p) acc.2).1 (nl.pin_net p) mb p
    obtain ⟨o1, o2, _, o4⟩ := update_net_bb_other nl grid
      (record_affected_net acc.1 (nl.pin_net p) acc.2).1 (nl.pin_net p) mb p n hne
    obtain ⟨r1, r2, r3, _, _, r6, r7, r8, _⟩ :=
      record_affected_net_frame acc.1 (nl.pin_net p) acc.2
    obtain ⟨q1, q2, q3, _, q5, _, _⟩ := record_affected_net_spec acc.1 (nl.pin_net p) acc.2
    refine netInv_transfer nl grid P P' c0 e0 D acc _ n p hpins hp h ?_ ?_ ?_ ?_ ?_ ?_ ?_ ?_ ?_ ?_
    · show (update_net_bb nl grid _ _ mb p).block_locs = _
      rw [u1, r1]
    · show (update_net_bb nl grid _ _ mb p).bb_coords n = _
      rw [u2, r2]
    · show (update_net_bb nl grid _ _ mb p).bb_num_on_edges n = _
      rw [u3, r3]
    · show (update_net_bb nl grid _ _ mb p).proposed_net_cost n = _
      rw [u6, q5 n hne]
    · show (update_net_bb nl grid _ _ mb p).bb_updated_before n = _
      rw [o4, r6]
    · show (update_net_bb nl grid _ _ mb p).ts_bb_coord_new n = _
      rw [o1, r7]
    · show (update_net_bb nl grid _ _ mb p).ts_bb_edge_new n = _
      rw [o2, r8]
    · exact q1
    · intro i hi2
      show (update_net_bb nl grid _ _ mb p).ts_nets_to_update i = _
      rw [u7, q2 i hi2]
    · intro i h1 h2
      show (update_net_bb nl grid _ _ mb p).ts_nets_to_update i ≠ n
      rw [u7, q3 i h1 h2]
      exact hp


theorem moved_pin_coords (nl : ClusteredNetlist) (grid : DeviceGrid) (P P' : Nat → t_pl_loc)
    (D : List Nat) (p : Nat) (mb : t_pl_moved_block)
    (hold : mb.old_loc = P mb.block_num) (hnew : P' mb.block_num = mb.new_loc)
    (hblk : nl.pin_block p = mb.block_num) (hpD : p ∉ D) :
    clip_coord (mb.old_loc.x + nl.pin_width_offset mb.block_num (nl.tile_pin_index p)) grid.width
      = staged_pin_x nl grid P P' D p ∧
    clip_coord (mb.old_loc.y + nl.pin_height_offset mb.block_num (nl.tile_pin_index p))
        grid.height
      = staged_pin_y nl grid P P' D p ∧
    clip_coord (mb.new_loc.x + nl.pin_width_offset mb.block_num (nl.tile_pin_index p)) grid.width
      = staged_pin_x nl grid P P' (D ++ [p]) p ∧
    clip_coord (mb.new_loc.y + nl.pin_height_offset mb.block_num (nl.tile_pin_index p))
        grid.height
      = staged_pin_y nl grid P P' (D ++ [p]) p := by
  have hm : p ∈ D ++ [p] := List.mem_append_right _ (List.mem_singleton_self p)
  unfold staged_pin_x staged_pin_y
  rw [if_neg hpD, if_neg hpD, if_pos hm, if_pos hm]
  unfold clipped_pin_x clipped_pin_y net_pin_x net_pin_y pin_x pin_y
  rw [hblk, hold, hnew]
  exact ⟨rfl, rfl, rfl, rfl⟩

theorem update_net_bb_large (nl : ClusteredNetlist) (grid : DeviceGrid) (s : PlacerState)
    (n p : Nat) (mb : t_pl_moved_block) (fx fy gx gy : Nat → Int)
    (hl : SMALL_NET ≤ (nl.net_sinks n).length)
    (h : s.bb_updated_before n ≠ BBFlag.GOT_FROM_SCRATCH)
    (hmem : p ∈ nl.net_pins n) (hnd : (nl.net_pins n).Nodup)
    (hfg : ∀ q ∈ nl.net_pins n, q ≠ p → fx q = gx q ∧ fy q = gy q)
    (hox : clip_coord (mb.old_loc.x + nl.pin_width_offset mb.block_num (nl.tile_pin_index p))
      grid.width = fx p)
    (hoy : clip_coord (mb.old_loc.y + nl.pin_height_offset mb.block_num (nl.tile_pin_index p))
      grid.height = fy p)
    (hnx : clip_coord (mb.new_loc.x + nl.pin_width_offset mb.block_num (nl.tile_pin_index p))
      grid.width = gx p)
    (hny : clip_coord (mb.new_loc.y + nl.pin_height_offset mb.block_num (nl.tile_pin_index p))
      grid.height = gy p)
    (hcurr : BoxIs fx fy (nl.net_pins n) (update_bb_curr s n)) :
    ((update_net_bb nl grid s n mb p).bb_updated_before n = BBFlag.UPDATED_ONCE ∧
      BoxIs gx gy (nl.net_pins n)
        ((update_net_bb nl grid s n mb p).ts_bb_coord_new n,
         (update_net_bb nl grid s n mb p).ts_bb_edge_new n)) ∨
    ((update_net_bb nl grid s n mb p).bb_updated_before n = BBFlag.GOT_FROM_SCRATCH ∧
      BoxIs (clipped_pin_x nl grid s.block_locs) (clipped_pin_y nl grid s.block_locs)
        (nl.net_pins n)
        ((update_net_bb nl grid s n mb p).ts_bb_coord_new n,
         (update_net_bb nl grid s n mb p).ts_bb_edge_new n)) := by
  have hnl : ¬ (nl.net_sinks n).length < SMALL_NET := not_lt.2 hl
  have e : update_net_bb nl grid s n mb p = update_bb nl grid s n
      { x := mb.old_loc.x + nl.pin_width_offset mb.block_num (nl.tile_pin_index p)
        y := mb.old_loc.y + nl.pin_height_offset mb.block_num (nl.tile_pin_index p)
        layer_num := mb.old_loc.layer }
      { x := mb.new_loc.x + nl.pin_width_offset mb.block_num (nl.tile_pin_index p)
        y := mb.new_loc.y + nl.pin_height_offset mb.block_num (nl.tile_pin_index p)
        layer_num := mb.new_loc.layer } (nl.pin_is_driver p) := by
    unfold update_net_bb
    rw [if_neg hnl]
  rw [e]
  exact update_bb_boxIs nl grid s n p _ _ _ fx fy gx gy h hmem hnd hfg hox hoy hnx hny hcurr

theorem update_net_bb_large_scratch (nl : ClusteredNetlist) (grid : DeviceGrid)
    (s : PlacerState) (n p : Nat) (mb : t_pl_moved_block)
    (hl : SMALL_NET ≤ (nl.net_sinks n).length)
    (h : s.bb_updated_before n = BBFlag.GOT_FROM_SCRATCH) :
    update_net_bb nl grid s n mb p = s := by
  have hnl : ¬ (nl.net_sinks n).length < SMALL_NET := not_lt.2 hl
  unfold update_net_bb
  rw [if_neg hnl]
  exact update_bb_got_from_scratch nl grid s n _ _ _ h

theorem update_net_bb_small (nl : ClusteredNetlist) (grid : DeviceGrid)
    (s : PlacerState) (n p : Nat) (mb : t_pl_moved_block)
    (hs : (nl.net_sinks n).length < SMALL_NET)
    (h : s.bb_updated_before n = BBFlag.NOT_UPDATED_YET) :
    (update_net_bb nl grid s n mb p).bb_updated_before n = BBFlag.NOT_UPDATED_YET ∧
    (update_net_bb nl grid s n mb p).ts_bb_coord_new n
      = (get_non_updateable_bb nl grid s.block_locs n (s.ts_layer_sink_pin_count n)).1 := by
  unfold update_net_bb
  rw [if_pos hs, if_pos h]
  exact ⟨h, Function.update_same _ _ _⟩

/-- The step of the pin loop on a pin of net `n` keeps the invariant of net `n`. -/
theorem affected_pin_step_own (nl : ClusteredNetlist) (grid : DeviceGrid)
    (P P' : Nat → t_pl_loc) (c0 e0 : t_bb) (D : List Nat) (acc : PlacerState × Nat)
    (n p : Nat) (mb : t_pl_moved_block)
    (hign : nl.net_is_ignored n = false)
    (hnd : (nl.net_pins n).Nodup)
    (hpins : ∀ q ∈ nl.net_pins n, nl.pin_net q = n)
    (hcommitted : SMALL_NET ≤ (nl.net_sinks n).length →
      BoxIs (clipped_pin_x nl grid P) (clipped_pin_y nl grid P) (nl.net_pins n) (c0, e0))
    (hold : mb.old_loc = P mb.block_num) (hnew : P' mb.block_num = mb.new_loc)
    (hblk : nl.pin_block p = mb.block_num) (hpin : p ∈ nl.net_pins n)
    (hpD : p ∉ D) (hn : nl.pin_net p = n)
    (h : NetInv nl grid P P' c0 e0 D acc n) :
    NetInv nl grid P P' c0 e0 (D ++ [p]) (affected_pin_step nl grid mb acc p) n := by
  have hstep : affected_pin_step nl grid mb acc p
      = (update_net_bb nl grid (record_affected_net acc.1 n acc.2).1 n mb p,
         (record_affected_net acc.1 n acc.2).2) := by
    unfold affected_pin_step
    simp only [hn, hign, Bool.false_eq_true, if_false]
  rw [hstep]
  generalize hr : record_affected_net acc.1 n acc.2 = r
  obtain ⟨h1, h2, h3, h4, h5⟩ := h
  obtain ⟨u1, u2, u3, _, _, u6, u7⟩ := update_net_bb_frame nl grid r.1 n mb p
  obtain ⟨r1, r2, r3, _, _, r6, r7, r8, _⟩ := record_affected_net_frame acc.1 n acc.2
  obtain ⟨q1, q2, q3, q4, _, q6, q7⟩ := record_affected_net_spec acc.1 n acc.2
  rw [hr] at r1 r2 r3 r6 r7 r8 q1 q2 q3 q4 q6 q7
  have hnow : ∃ q ∈ D ++ [p], nl.pin_net q = n :=
    ⟨p, List.mem_append_right _ (List.mem_singleton_self p), hn⟩
  obtain ⟨m1, m2, m3, m4⟩ := moved_pin_coords nl grid P P' D p mb hold hnew hblk hpD
  have hfg : ∀ q ∈ nl.net_pins n, q ≠ p →
      staged_pin_x nl grid P P' D q = staged_pin_x nl grid P P' (D ++ [p]) q ∧
      staged_pin_y nl grid P P' D q = staged_pin_y nl grid P P' (D ++ [p]) q :=
    fun q _ hq => staged_append_of_ne nl grid P P' D p q hq
  have hbl : r.1.block_locs = P' := by rw [r1, h1]
  refine ⟨by rw [u1, r1, h1], by rw [u2, r2, h2], by rw [u3, r3, h3], ?_,
    fun hx => absurd hnow hx⟩
  intro _
  refine ⟨?_, by rw [u6]; exact q4, ?_, ?_⟩
  · -- the net is in the list
    by_cases prev : ∃ q ∈ D, nl.pin_net q = n
    · obtain ⟨⟨i, hi, hti⟩, _⟩ := h4 prev
      exact ⟨i, lt_of_lt_of_le hi q1, by rw [u7, q2 i hi, hti]⟩
    · obtain ⟨_, g2, _⟩ := h5 prev
      have e := q6 g2
      exact ⟨acc.2, by rw [e]; exact Nat.lt_succ_self _,
        by rw [u7]; exact q3 acc.2 (le_refl _) (by rw [e]; exact Nat.lt_succ_self _)⟩
  · -- large nets
    intro hl
    by_cases prev : ∃ q ∈ D, nl.pin_net q = n
    · rcases (h4 prev).2.2.1 hl with ⟨gU, gB⟩ | ⟨gS, gB⟩
      · have fU : r.1.bb_updated_before n = BBFlag.UPDATED_ONCE := by rw [r6]; exact gU
        have hne : r.1.bb_updated_before n ≠ BBFlag.GOT_FROM_SCRATCH := by
          rw [fU]; exact fun e => by cases e
        have hcurr : BoxIs (staged_pin_x nl grid P P' D) (staged_pin_y nl grid P P' D)
            (nl.net_pins n) (update_bb_curr r.1 n) := by
          unfold update_bb_curr
          rw [fU, if_neg (fun e => by cases e), r7, r8]
          exact gB
        have := update_net_bb_large nl grid r.1 n p mb _ _ _ _ hl hne hpin hnd hfg
          m1 m2 m3 m4 hcurr
        rw [hbl] at this
        exact this
      · have fS : r.1.bb_updated_before n = BBFlag.GOT_FROM_SCRATCH := by rw [r6]; exact gS
        rw [update_net_bb_large_scratch nl grid r.1 n p mb hl fS, r7, r8]
        exact Or.inr ⟨fS, gB⟩
    · obtain ⟨_, _, g3⟩ := h5 prev
      have fN : r.1.bb_updated_before n = BBFlag.NOT_UPDATED_YET := by rw [r6]; exact g3
      have hne : r.1.bb_updated_before n ≠ BBFlag.GOT_FROM_SCRATCH := by
        rw [fN]; exact fun e => by cases e
      have hcurr : BoxIs (staged_pin_x nl grid P P' D) (staged_pin_y nl grid P P' D)
          (nl.net_pins n) (update_bb_curr r.1 n) := by
        unfold update_bb_curr
        rw [if_pos fN, r2, r3, h2, h3]
        refine boxIs_congr ?_ (hcommitted hl)
        intro q hq
        have hqD : q ∉ D := fun hqD => prev ⟨q, hqD, hpins q hq⟩
        obtain ⟨a, b⟩ := staged_eq_of_not_mem nl grid P P' D q hqD
        exact ⟨a.symm, b.symm⟩
      have := update_net_bb_large nl grid r.1 n p mb _ _ _ _ hl hne hpin hnd hfg
        m1 m2 m3 m4 hcurr
      rw [hbl] at this
      exact this
  · -- small nets
    intro hs
    have fN : r.1.bb_updated_before n = BBFlag.NOT_UPDATED_YET := by
      rw [r6]
      by_cases prev : ∃ q ∈ D, nl.pin_net q = n
      · exact ((h4 prev).2.2.2 hs).1
      · exact (h5 prev).2.2
    obtain ⟨k1, k2⟩ := update_net_bb_small nl grid r.1 n p mb hs fN
    refine ⟨k1, ?_⟩
    intro c
    rw [k2, hbl]
    exact non_updateable_coords_indep nl grid P' n _ c

/-! ## The pin loop of `find_affected_nets_and_update_costs` -/

theorem affected_blocks_foldl_eq (nl : ClusteredNetlist) (grid : DeviceGrid)
    (moves : List t_pl_moved_block) : ∀ acc : PlacerState × Nat,
    moves.foldl (affected_block_step nl grid) acc
      = (pin_seq nl moves).foldl (fun a mp => affected_pin_step nl grid mp.1 a mp.2) acc := by
  induction moves with
  | nil => intro acc; rfl
  | cons mb ms ih =>
    intro acc
    simp only [List.foldl_cons, pin_seq, List.foldl_append, List.foldl_map]
    rw [ih]
    rfl

theorem affected_fold_netInv (nl : ClusteredNetlist) (grid : DeviceGrid)
    (P P' : Nat → t_pl_loc) (c0 e0 : t_bb) (n : Nat)
    (hign : nl.net_is_ignored n = false)
    (hnd : (nl.net_pins n).Nodup)
    (hpins : ∀ q ∈ nl.net_pins n, nl.pin_net q = n)
    (hcommitted : SMALL_NET ≤ (nl.net_sinks n).length →
      BoxIs (clipped_pin_x nl grid P) (clipped_pin_y nl grid P) (nl.net_pins n) (c0, e0))
    (todo : List (t_pl_moved_block × Nat)) :
    ∀ (D : List Nat) (acc : PlacerState × Nat),
    (∀ mp ∈ todo, mp.1.old_loc = P mp.1.block_num ∧ P' mp.1.block_num = mp.1.new_loc ∧
      nl.pin_block mp.2 = mp.1.block_num ∧ mp.2 ∈ nl.net_pins (nl.pin_net mp.2)) →
    (D ++ todo.map Prod.snd).Nodup →
    NetInv nl grid P P' c0 e0 D acc n →
    NetInv nl grid P P' c0 e0 (D ++ todo.map Prod.snd)
      (todo.foldl (fun a mp => affected_pin_step nl grid mp.1 a mp.2) acc) n := by
  induction todo with
  | nil => intro D acc _ _ h; simpa using h
  | cons mp rest ih =>
    intro D acc hall hnodup h
    obtain ⟨hold, hnew, hblk, hpin⟩ := hall mp (List.mem_cons_self _ _)
    have hpD : mp.2 ∉ D := by
      intro hm
      have := List.nodup_append.1 hnodup
      exact this.2.2 hm (by simp)
    have hstep : NetInv nl grid P P' c0 e0 (D ++ [mp.2])
        (affected_pin_step nl grid mp.1 acc mp.2) n := by
      by_cases hn : nl.pin_net mp.2 = n
      · exact affected_pin_step_own nl grid P P' c0 e0 D acc n mp.2 mp.1 hign hnd hpins
          hcommitted hold hnew hblk (by rw [← hn]; exact hpin) hpD hn h
      · exact affected_pin_step_other nl grid P P' c0 e0 D acc n mp.2 mp.1 hpins hn h
    have hnodup2 : ((D ++ [mp.2]) ++ rest.map Prod.snd).Nodup := by
      simpa using hnodup
    have := ih (D ++ [mp.2]) _ (fun x hx => hall x (List.mem_cons_of_mem _ hx)) hnodup2 hstep
    simpa using this

/-! ## The visited pins and the proposed placement -/

theorem mem_pin_seq (nl : ClusteredNetlist) (moves : List t_pl_moved_block)
    (mp : t_pl_moved_block × Nat) :
    mp ∈ pin_seq nl moves ↔ mp.1 ∈ moves ∧ mp.2 ∈ nl.block_pins mp.1.block_num := by
  induction moves with
  | nil => simp [pin_seq]
  | cons mb ms ih =>
    simp only [pin_seq, List.mem_append, List.mem_map, List.mem_cons, ih]
    constructor
    · rintro (⟨p, hp, rfl⟩ | ⟨h1, h2⟩)
      · exact ⟨Or.inl rfl, hp⟩
      · exact ⟨Or.inr h1, h2⟩
    · rintro ⟨h1 | h1, h2⟩
      · left
        refine ⟨mp.2, ?_, ?_⟩
        · rw [h1] at h2; exact h2
        · rw [← h1]
      · exact Or.inr ⟨h1, h2⟩

theorem map_snd_pin_seq_cons (nl : ClusteredNetlist) (mb : t_pl_moved_block)
    (ms : List t_pl_moved_block) :
    (pin_seq nl (mb :: ms)).map Prod.snd
      = nl.block_pins mb.block_num ++ (pin_seq nl ms).map Prod.snd := by
  simp only [pin_seq, List.map_append, List.map_map]
  congr 1
  exact List.map_id _

theorem nodup_pin_seq (nl : ClusteredNetlist) (moves : List t_pl_moved_block)
    (hnd : (moves.map (fun mb => mb.block_num)).Nodup)
    (hblk : ∀ mb ∈ moves, (nl.block_pins mb.block_num).Nodup ∧
      ∀ p ∈ nl.block_pins mb.block_num, nl.pin_block p = mb.block_num) :
    ((pin_seq nl moves).map Prod.snd).Nodup := by
  induction moves with
  | nil => simp [pin_seq]
  | cons mb ms ih =>
    rw [map_snd_pin_seq_cons]
    rw [List.map_cons, List.nodup_cons] at hnd
    refine List.nodup_append.2 ⟨(hblk mb (List.mem_cons_self _ _)).1,
      ih hnd.2 (fun m hm => hblk m (List.mem_cons_of_mem _ hm)), ?_⟩
    intro p hp1 hp2
    obtain ⟨mp, hmp, e⟩ := List.mem_map.1 hp2
    obtain ⟨hm1, hm2⟩ := (mem_pin_seq nl ms mp).1 hmp
    rw [e] at hm2
    have e1 := (hblk mb (List.mem_cons_self _ _)).2 p hp1
    have e2 := (hblk mp.1 (List.mem_cons_of_mem _ hm1)).2 p hm2
    apply hnd.1
    rw [← e1, e2]
    exact List.mem_map.2 ⟨mp.1, hm1, rfl⟩

theorem foldl_update_not_mem (moves : List t_pl_moved_block)
    (f : t_pl_moved_block → t_pl_loc) : ∀ (L : Nat → t_pl_loc) (b : Nat),
    b ∉ moves.map (fun mb => mb.block_num) →
    moves.foldl (fun locs mb => Function.update locs mb.block_num (f mb)) L b = L b := by
  induction moves with
  | nil => intro L b _; rfl
  | cons mb ms ih =>
    intro L b hb
    rw [List.map_cons, List.mem_cons, not_or] at hb
    rw [List.foldl_cons, ih _ b hb.2]
    exact Function.update_noteq hb.1 _ _

theorem foldl_update_mem (moves : List t_pl_moved_block)
    (f : t_pl_moved_block → t_pl_loc) : ∀ (L : Nat → t_pl_loc) (mb : t_pl_moved_block),
    (moves.map (fun m => m.block_num)).Nodup → mb ∈ moves →
    moves.foldl (fun locs m => Function.update locs m.block_num (f m)) L mb.block_num
      = f mb := by
  induction moves with
  | nil => intro L mb _ h; exact absurd h (List.not_mem_nil _)
  | cons m ms ih =>
    intro L mb hnd hmem
    rw [List.map_cons, List.nodup_cons] at hnd
    rw [List.foldl_cons]
    rcases List.mem_cons.1 hmem with e | hm
    · subst e
      rw [foldl_update_not_mem ms f _ _ hnd.1]
      exact Function.update_same _ _ _
    · exact ih _ mb hnd.2 hm


/-! ## The cost loop and the commit loop -/

theorem proposed_cost_fold_frame (nl : ClusteredNetlist) (fac : CostFac) (l : List Nat) :
    ∀ acc : PlacerState × ℚ,
    (l.foldl (proposed_cost_step nl fac) acc).1.block_locs = acc.1.block_locs ∧
    (l.foldl (proposed_cost_step nl fac) acc).1.bb_coords = acc.1.bb_coords ∧
    (l.foldl (proposed_cost_step nl fac) acc).1.bb_num_on_edges = acc.1.bb_num_on_edges ∧
    (l.foldl (proposed_cost_step nl fac) acc).1.num_sink_pin_layer = acc.1.num_sink_pin_layer ∧
    (l.foldl (proposed_cost_step nl fac) acc).1.net_cost = acc.1.net_cost ∧
    (l.foldl (proposed_cost_step nl fac) acc).1.bb_updated_before = acc.1.bb_updated_before ∧
    (l.foldl (proposed_cost_step nl fac) acc).1.ts_bb_coord_new = acc.1.ts_bb_coord_new ∧
    (l.foldl (proposed_cost_step nl fac) acc).1.ts_bb_edge_new = acc.1.ts_bb_edge_new ∧
    (l.foldl (proposed_cost_step nl fac) acc).1.ts_layer_sink_pin_count
      = acc.1.ts_layer_sink_pin_count ∧
    (l.foldl (proposed_cost_step nl fac) acc).1.ts_nets_to_update = acc.1.ts_nets_to_update := by
  induction l with
  | nil => intro acc; exact ⟨rfl, rfl, rfl, rfl, rfl, rfl, rfl, rfl, rfl, rfl⟩
  | cons i l ih =>
    intro acc
    rw [List.foldl_cons]
    exact ih (proposed_cost_step nl fac acc i)

theorem update_move_nets_step_frame (nl : ClusteredNetlist) (grid : DeviceGrid)
    (s : PlacerState) (i : Nat) :
    (update_move_nets_step nl grid s i).block_locs = s.block_locs ∧
    (update_move_nets_step nl grid s i).ts_nets_to_update = s.ts_nets_to_update ∧
    (update_move_nets_step nl grid s i).ts_bb_coord_new = s.ts_bb_coord_new ∧
    (update_move_nets_step nl grid s i).ts_bb_edge_new = s.ts_bb_edge_new ∧
    (update_move_nets_step nl grid s i).ts_layer_sink_pin_count = s.ts_layer_sink_pin_count :=
  ⟨rfl, rfl, rfl, rfl, rfl⟩

/-- After `k` rounds of the loop of `update_move_nets`, the nets among the first `k` entries
of the list hold their scratch box, the other nets their previous box. -/
theorem update_move_nets_fold (nl : ClusteredNetlist) (grid : DeviceGrid) (s : PlacerState)
    (k : Nat) :
    (update_move_nets nl grid k s).block_locs = s.block_locs ∧
    (update_move_nets nl grid k s).ts_nets_to_update = s.ts_nets_to_update ∧
    (update_move_nets nl grid k s).ts_bb_coord_new = s.ts_bb_coord_new ∧
    (update_move_nets nl grid k s).ts_bb_edge_new = s.ts_bb_edge_new ∧
    ∀ n,
      ((∃ i, i < k ∧ s.ts_nets_to_update i = n) →
        (update_move_nets nl grid k s).bb_coords n = s.ts_bb_coord_new n ∧
        (SMALL_NET ≤ (nl.net_sinks n).length →
          (update_move_nets nl grid k s).bb_num_on_edges n = s.ts_bb_edge_new n)) ∧
      ((¬ ∃ i, i < k ∧ s.ts_nets_to_update i = n) →
        (update_move_nets nl grid k s).bb_coords n = s.bb_coords n ∧
        (update_move_nets nl grid k s).bb_num_on_edges n = s.bb_num_on_edges n) := by
  induction k with
  | zero =>
    refine ⟨rfl, rfl, rfl, rfl, fun n => ⟨?_, fun _ => ⟨rfl, rfl⟩⟩⟩
    rintro ⟨i, hi, _⟩
    exact absurd hi (Nat.not_lt_zero _)
  | succ k ih =>
    obtain ⟨i1, i2, i3, i4, i5⟩ := ih
    have e : update_move_nets nl grid (k + 1) s
        = update_move_nets_step nl grid (update_move_nets nl grid k s) k := by
      unfold update_move_nets
      rw [List.range_succ, List.foldl_append]
      rfl
    rw [e]
    generalize update_move_nets nl grid k s = t at i1 i2 i3 i4 i5 ⊢
    refine ⟨i1, i2, i3, i4, ?_⟩
    intro n
    by_cases hk : s.ts_nets_to_update k = n
    · have hk2 : t.ts_nets_to_update k = n := by rw [i2]; exact hk
      constructor
      · intro _
        unfold update_move_nets_step
        dsimp only
        rw [hk2, i3, i4]
        refine ⟨Function.update_same _ _ _, ?_⟩
        intro hl
        rw [if_pos hl]
        exact Function.update_same _ _ _
      · intro hx
        exact absurd ⟨k, Nat.lt_succ_self _, hk⟩ hx
    · have hne : n ≠ t.ts_nets_to_update k := by rw [i2]; exact fun e => hk e.symm
      have hc : (update_move_nets_step nl grid t k).bb_coords n = t.bb_coords n := by
        unfold update_move_nets_step
        exact Function.update_noteq hne _ _
      have he : (update_move_nets_step nl grid t k).bb_num_on_edges n = t.bb_num_on_edges n := by
        unfold update_move_nets_step
        dsimp only
        split_ifs
        · exact Function.update_noteq hne _ _
        · rfl
      rw [hc, he]
      have hiff : (∃ i, i < k + 1 ∧ s.ts_nets_to_update i = n)
          ↔ (∃ i, i < k ∧ s.ts_nets_to_update i = n) := by
        constructor
        · rintro ⟨i, hi, e⟩
          have : i ≠ k := fun e2 => hk (e2 ▸ e)
          exact ⟨i, by omega, e⟩
        · rintro ⟨i, hi, e⟩
          exact ⟨i, by omega, e⟩
      rw [hiff]
      exact i5 n

/-! ## An accepted swap keeps the cube-BB invariant -/

theorem clipped_eq_of_block_loc_eq (nl : ClusteredNetlist) (grid : DeviceGrid)
    (P P' : Nat → t_pl_loc) (q : Nat) (h : P' (nl.pin_block q) = P (nl.pin_block q)) :
    clipped_pin_x nl grid P q = clipped_pin_x nl grid P' q ∧
    clipped_pin_y nl grid P q = clipped_pin_y nl grid P' q := by
  unfold clipped_pin_x clipped_pin_y net_pin_x net_pin_y pin_x pin_y
  rw [h]
  exact ⟨rfl, rfl⟩

/-- The state after the two loops of `find_affected_nets_and_update_costs` and the commit by
`update_move_nets`, started from a state with empty scratch and a valid BB cache on the
placement before the move, has a valid BB cache on the proposed placement. -/
theorem commit_after_find_affected_valid (nl : ClusteredNetlist) (grid : DeviceGrid)
    (fac : CostFac) (moves : List t_pl_moved_block) (s : PlacerState)
    (hnl : netlist_consistent nl) (hmove : valid_move nl s moves)
    (hempty : swap_scratch_empty nl s) (hinv : bb_cache_valid nl grid s) :
    bb_cache_valid nl grid
      (update_move_nets nl grid
        (find_affected_nets_and_update_costs nl grid fac moves
          (apply_move_blocks moves s)).num_affected_nets
        (find_affected_nets_and_update_costs nl grid fac moves
          (apply_move_blocks moves s)).state) := by
  intro n hn hign
  obtain ⟨hnets, hblocks⟩ := hnl
  obtain ⟨hmnd, hmv⟩ := hmove
  obtain ⟨hnd, hnpins⟩ := hnets n hn
  -- the two placements
  generalize hP : s.block_locs = P at *
  have hQdef : (apply_move_blocks moves s).block_locs
      = moves.foldl (fun locs mb => Function.update locs mb.block_num mb.new_loc) P := by
    unfold apply_move_blocks
    rw [hP]
  generalize hP' : (apply_move_blocks moves s).block_locs = P' at *
  have hQmem : ∀ mb ∈ moves, P' mb.block_num = mb.new_loc := by
    intro mb hmb
    rw [hQdef]
    exact foldl_update_mem moves (fun m => m.new_loc) P mb hmnd hmb
  have hQnot : ∀ b, b ∉ moves.map (fun mb => mb.block_num) → P' b = P b := by
    intro b hb
    rw [hQdef]
    exact foldl_update_not_mem moves (fun m => m.new_loc) P b hb
  -- the visited pins
  have hall : ∀ mp ∈ pin_seq nl moves, mp.1.old_loc = P mp.1.block_num ∧
      P' mp.1.block_num = mp.1.new_loc ∧ nl.pin_block mp.2 = mp.1.block_num ∧
      mp.2 ∈ nl.net_pins (nl.pin_net mp.2) := by
    intro mp hmp
    obtain ⟨h1, h2⟩ := (mem_pin_seq nl moves mp).1 hmp
    obtain ⟨hb, ho⟩ := hmv mp.1 h1
    obtain ⟨_, hbp⟩ := hblocks mp.1.block_num hb
    exact ⟨ho, hQmem mp.1 h1, (hbp mp.2 h2).1, (hbp mp.2 h2).2.2⟩
  have hseqnd : ((pin_seq nl moves).map Prod.snd).Nodup :=
    nodup_pin_seq nl moves hmnd (fun mb hmb =>
      ⟨(hblocks mb.block_num (hmv mb hmb).1).1,
       fun p hp => ((hblocks mb.block_num (hmv mb hmb).1).2 p hp).1⟩)
  -- pins of the net that were not visited sit on blocks that did not move
  have hunmoved : ∀ q ∈ nl.net_pins n, q ∉ (pin_seq nl moves).map Prod.snd →
      P' (nl.pin_block q) = P (nl.pin_block q) := by
    intro q hq hqD
    apply hQnot
    intro hb
    obtain ⟨mb, hmb, e⟩ := List.mem_map.1 hb
    apply hqD
    refine List.mem_map.2 ⟨(mb, q), (mem_pin_seq nl moves (mb, q)).2 ⟨hmb, ?_⟩, rfl⟩
    show q ∈ nl.block_pins mb.block_num
    rw [e]
    exact (hnpins q hq).2.1
  -- the committed box before the move
  have hcommitted : SMALL_NET ≤ (nl.net_sinks n).length →
      BoxIs (clipped_pin_x nl grid P) (clipped_pin_y nl grid P) (nl.net_pins n)
        (s.bb_coords n, s.bb_num_on_edges n) := by
    intro hl
    obtain ⟨e1, e2⟩ := (hinv n hn hign).1 hl
    rw [hP] at e1 e2
    rw [e1, e2]
    exact scratch_boxIs nl grid P n _
  -- the invariant of the pin loop
  have hinit : NetInv nl grid P P' (s.bb_coords n) (s.bb_num_on_edges n) []
      (apply_move_blocks moves s, 0) n := by
    refine ⟨hP', rfl, rfl, ?_, ?_⟩
    · rintro ⟨p, hp, _⟩
      exact absurd hp (List.not_mem_nil _)
    · intro _
      refine ⟨fun i hi => absurd hi (Nat.not_lt_zero _), (hempty n hn).2, (hempty n hn).1⟩
  have hloop := affected_fold_netInv nl grid P P' (s.bb_coords n) (s.bb_num_on_edges n) n hign
    hnd (fun q hq => (hnpins q hq).1) hcommitted (pin_seq nl moves) []
    (apply_move_blocks moves s, 0) hall (by simpa using hseqnd) hinit
  rw [List.nil_append, ← affected_blocks_foldl_eq] at hloop
  -- the result of find_affected_nets_and_update_costs
  unfold find_affected_nets_and_update_costs
  dsimp only
  generalize hr1 : moves.foldl (affected_block_step nl grid) (apply_move_blocks moves s, 0)
    = r1 at *
  obtain ⟨f1, f2, f3, _, _, _, f7, f8, _, f10⟩ :=
    proposed_cost_fold_frame nl fac (List.range r1.2) (r1.1, 0)
  generalize ((List.range r1.2).foldl (proposed_cost_step nl fac) (r1.1, 0)).1 = t at *
  simp only at f1 f2 f3 f7 f8 f10
  obtain ⟨u1, _, _, _, u5⟩ := update_move_nets_fold nl grid t r1.2
  obtain ⟨g1, g2, g3, g4, g5⟩ := hloop
  obtain ⟨ua, ub⟩ := u5 n
  have hbl : (update_move_nets nl grid r1.2 t).block_locs = P' := by rw [u1, f1, g1]
  rw [hbl]
  by_cases haff : ∃ p ∈ (pin_seq nl moves).map Prod.snd, nl.pin_net p = n
  · obtain ⟨⟨i, hi, hti⟩, _, k3, k4⟩ := g4 haff
    obtain ⟨c1, c2⟩ := ua ⟨i, hi, by rw [f10]; exact hti⟩
    constructor
    · intro hl
      rw [c1, c2 hl, f7, f8]
      have hbox : BoxIs (clipped_pin_x nl grid P') (clipped_pin_y nl grid P') (nl.net_pins n)
          (r1.1.ts_bb_coord_new n, r1.1.ts_bb_edge_new n) := by
        rcases k3 hl with ⟨_, hb⟩ | ⟨_, hb⟩
        · refine boxIs_congr ?_ hb
          intro q hq
          by_cases hqD : q ∈ (pin_seq nl moves).map Prod.snd
          · exact staged_eq_of_mem nl grid P P' _ q hqD
          · obtain ⟨a, b⟩ := staged_eq_of_not_mem nl grid P P' _ q hqD
            obtain ⟨c, d⟩ := clipped_eq_of_block_loc_eq nl grid P P' q (hunmoved q hq hqD)
            exact ⟨a.trans c, b.trans d⟩
        · exact hb
      exact boxIs_scratch_eq nl grid P' n _ hbox
    · intro hs
      rw [c1, f7]
      exact (k4 hs).2 _
  · obtain ⟨k1, _, _⟩ := g5 haff
    have hnot : ¬ ∃ i, i < r1.2 ∧ t.ts_nets_to_update i = n := by
      rintro ⟨i, hi, e⟩
      rw [f10] at e
      exact k1 i hi e
    obtain ⟨c1, c2⟩ := ub hnot
    have hsame : ∀ q ∈ nl.net_pins n,
        clipped_pin_x nl grid P q = clipped_pin_x nl grid P' q ∧
        clipped_pin_y nl grid P q = clipped_pin_y nl grid P' q := by
      intro q hq
      apply clipped_eq_of_block_loc_eq
      apply hunmoved q hq
      intro hqD
      exact haff ⟨q, hqD, (hnpins q hq).1⟩
    have hscr : ∀ c c' : Nat → Int,
        (get_bb_from_scratch nl grid P n c).coords = (get_bb_from_scratch nl grid P' n c').coords
        ∧ (get_bb_from_scratch nl grid P n c).num_on_edges
          = (get_bb_from_scratch nl grid P' n c').num_on_edges := by
      intro c c'
      exact boxIs_scratch_eq nl grid P' n c' (boxIs_congr hsame (scratch_boxIs nl grid P n c))
    constructor
    · intro hl
      rw [c1, c2, f2, f3, g2, g3]
      obtain ⟨e1, e2⟩ := (hinv n hn hign).1 hl
      rw [hP] at e1 e2
      rw [e1, e2]
      exact hscr _ _
    · intro hs
      have e3 := (hinv n hn hign).2 hs
      rw [hP] at e3
      rw [c1, f2, g2, e3,
        ← scratch_coords_eq_non_updateable nl grid P n (s.num_sink_pin_layer n),
        ← scratch_coords_eq_non_updateable nl grid P' n (s.num_sink_pin_layer n)]
      exact (hscr _ _).1

/-! ## Delta consistency of the wirelength cost -/

theorem bb_cost_sum_succ (ign : Nat → Bool) (f : Nat → ℚ) (N : Nat) :
    bb_cost_sum ign f (N + 1)
      = if !ign N then bb_cost_sum ign f N + f N else bb_cost_sum ign f N := by
  unfold bb_cost_sum
  rw [List.range_succ, List.foldl_append]
  rfl

theorem bb_cost_sum_update_ge (ign : Nat → Bool) (f : Nat → ℚ) (n : Nat) (v : ℚ) (N : Nat)
    (h : N ≤ n) : bb_cost_sum ign (Function.update f n v) N = bb_cost_sum ign f N := by
  induction N with
  | zero => rfl
  | succ N ih =>
    rw [bb_cost_sum_succ, bb_cost_sum_succ, ih (by omega),
      Function.update_noteq (by omega : N ≠ n)]

theorem bb_cost_sum_update (ign : Nat → Bool) (f : Nat → ℚ) (n : Nat) (v : ℚ) (N : Nat)
    (h : n < N) (hi : ign n = false) :
    bb_cost_sum ign (Function.update f n v) N = bb_cost_sum ign f N + (v - f n) := by
  induction N with
  | zero => exact absurd h (Nat.not_lt_zero _)
  | succ N ih =>
    rw [bb_cost_sum_succ, bb_cost_sum_succ]
    by_cases e : n = N
    · subst e
      rw [bb_cost_sum_update_ge ign f n v n (le_refl _), Function.update_same]
      simp only [hi, Bool.not_false, if_true]
      ring
    · have hlt : n < N := by omega
      rw [ih hlt, Function.update_noteq (fun e2 => e e2.symm)]
      split_ifs
      · ring
      · rfl

theorem recompute_bb_cost_eq (nl : ClusteredNetlist) (s : PlacerState) :
    recompute_bb_cost nl s = bb_cost_sum nl.net_is_ignored s.net_cost nl.num_nets := rfl


theorem affected_pin_step_listInv (nl : ClusteredNetlist) (grid : DeviceGrid)
    (mb : t_pl_moved_block) (acc : PlacerState × Nat) (p : Nat)
    (hnet : nl.pin_net p < nl.num_nets) (h : AffectedListInv nl acc) :
    AffectedListInv nl (affected_pin_step nl grid mb acc p) ∧
    (affected_pin_step nl grid mb acc p).1.net_cost = acc.1.net_cost := by
  by_cases hi : nl.net_is_ignored (nl.pin_net p) = true
  · have hstep : affected_pin_step nl grid mb acc p = acc := by
      unfold affected_pin_step
      simp only [hi, if_true]
    rw [hstep]
    exact ⟨h, rfl⟩
  · have hstep : affected_pin_step nl grid mb acc p
        = (update_net_bb nl grid (record_affected_net acc.1 (nl.pin_net p) acc.2).1
            (nl.pin_net p) mb p, (record_affected_net acc.1 (nl.pin_net p) acc.2).2) := by
      unfold affected_pin_step
      simp only [hi, Bool.false_eq_true, if_false]
    rw [hstep]
    have hi2 : nl.net_is_ignored (nl.pin_net p) = false := by simpa using hi
    obtain ⟨_, _, _, _, u5, u6, u7⟩ := update_net_bb_frame nl grid
      (record_affected_net acc.1 (nl.pin_net p) acc.2).1 (nl.pin_net p) mb p
    obtain ⟨_, _, _, _, r5, _⟩ := record_affected_net_frame acc.1 (nl.pin_net p) acc.2
    obtain ⟨q1, q2, q3, q4, q5, q6, q7⟩ := record_affected_net_spec acc.1 (nl.pin_net p) acc.2
    generalize record_affected_net acc.1 (nl.pin_net p) acc.2 = r at *
    obtain ⟨h1, h2⟩ := h
    refine ⟨⟨?_, ?_⟩, by rw [u5, r5]⟩
    · intro i hi3
      show 0 ≤ (update_net_bb nl grid r.1 (nl.pin_net p) mb p).proposed_net_cost
          ((update_net_bb nl grid r.1 (nl.pin_net p) mb p).ts_nets_to_update i) ∧ _
      rw [u6, u7]
      by_cases hlt : i < acc.2
      · rw [q2 i hlt]
        obtain ⟨a, b, c⟩ := h1 i hlt
        refine ⟨?_, b, c⟩
        by_cases e : acc.1.ts_nets_to_update i = nl.pin_net p
        · rw [e]; exact q4
        · rw [q5 _ e]; exact a
      · rw [q3 i (not_lt.1 hlt) hi3]
        exact ⟨q4, hnet, hi2⟩
    · intro i j hi3 hj3 e
      show i = j
      have e' : r.1.ts_nets_to_update i = r.1.ts_nets_to_update j := by
        have := e
        simp only [u7] at this
        exact this
      by_cases hneg : acc.1.proposed_net_cost (nl.pin_net p) < 0
      · have hnum := q6 hneg
        have hfresh : ∀ k, k < acc.2 → acc.1.ts_nets_to_update k ≠ nl.pin_net p := by
          intro k hk ek
          have := (h1 k hk).1
          rw [ek] at this
          exact absurd hneg (not_lt.2 this)
        by_cases hlt : i < acc.2
        · by_cases hlt2 : j < acc.2
          · rw [q2 i hlt, q2 j hlt2] at e'
            exact h2 i j hlt hlt2 e'
          · rw [q2 i hlt, q3 j (not_lt.1 hlt2) hj3] at e'
            exact absurd e' (hfresh i hlt)
        · by_cases hlt2 : j < acc.2
          · rw [q3 i (not_lt.1 hlt) hi3, q2 j hlt2] at e'
            exact absurd e'.symm (hfresh j hlt2)
          · have : (r.2 : Nat) = acc.2 + 1 := hnum
            have hi4 : i < acc.2 + 1 := by rw [← this]; exact hi3
            have hj4 : j < acc.2 + 1 := by rw [← this]; exact hj3
            omega
      · have hnum := q7 (not_lt.1 hneg)
        have hi4 : i < acc.2 := by rw [← hnum]; exact hi3
        have hj4 : j < acc.2 := by rw [← hnum]; exact hj3
        rw [q2 i hi4, q2 j hj4] at e'
        exact h2 i j hi4 hj4 e'

theorem affected_fold_listInv (nl : ClusteredNetlist) (grid : DeviceGrid)
    (todo : List (t_pl_moved_block × Nat)) : ∀ acc : PlacerState × Nat,
    (∀ mp ∈ todo, nl.pin_net mp.2 < nl.num_nets) → AffectedListInv nl acc →
    AffectedListInv nl (todo.foldl (fun a mp => affected_pin_step nl grid mp.1 a mp.2) acc) ∧
    (todo.foldl (fun a mp => affected_pin_step nl grid mp.1 a mp.2) acc).1.net_cost
      = acc.1.net_cost := by
  induction todo with
  | nil => intro acc _ h; exact ⟨h, rfl⟩
  | cons mp rest ih =>
    intro acc hall h
    rw [List.foldl_cons]
    obtain ⟨a, b⟩ := affected_pin_step_listInv nl grid mp.1 acc mp.2
      (hall mp (List.mem_cons_self _ _)) h
    obtain ⟨c, d⟩ := ih _ (fun x hx => hall x (List.mem_cons_of_mem _ hx)) a
    exact ⟨c, d.trans b⟩


/-- The cost loop adds up, over the listed nets, the new cost of the scratch box minus the
committed cost, and stores the new cost as proposed cost. -/
theorem proposed_cost_fold_delta (nl : ClusteredNetlist) (fac : CostFac) (s : PlacerState)
    (q0 : ℚ) (k : Nat) :
    ((List.range k).foldl (proposed_cost_step nl fac) (s, q0)).2
      = q0 + ∑ i in Finset.range k,
          (get_net_cost nl fac (s.ts_nets_to_update i)
              (s.ts_bb_coord_new (s.ts_nets_to_update i))
            - s.net_cost (s.ts_nets_to_update i)) ∧
    ∀ i, i < k →
      ((List.range k).foldl (proposed_cost_step nl fac) (s, q0)).1.proposed_net_cost
          (s.ts_nets_to_update i)
        = get_net_cost nl fac (s.ts_nets_to_update i)
            (s.ts_bb_coord_new (s.ts_nets_to_update i)) := by
  induction k with
  | zero =>
    refine ⟨by simp, ?_⟩
    intro i hi
    exact absurd hi (Nat.not_lt_zero _)
  | succ k ih =>
    obtain ⟨i1, i2⟩ := ih
    obtain ⟨_, _, _, _, f5, _, f7, _, _, f10⟩ :=
      proposed_cost_fold_frame nl fac (List.range k) (s, q0)
    rw [List.range_succ, List.foldl_append]
    generalize (List.range k).foldl (proposed_cost_step nl fac) (s, q0) = r at *
    simp only at f5 f7 f10
    simp only [List.foldl_cons, List.foldl_nil, proposed_cost_step]
    rw [f5, f7, f10]
    refine ⟨?_, ?_⟩
    · rw [i1, Finset.sum_range_succ]
      ring
    · intro i hi
      by_cases e : s.ts_nets_to_update i = s.ts_nets_to_update k
      · rw [e]
        exact Function.update_same _ _ _
      · rw [Function.update_noteq e]
        have : i ≠ k := fun e2 => e (by rw [e2])
        exact i2 i (by omega)

/-- The commit loop moves the proposed cost of every listed net into `net_cost`; with distinct
listed nets the sum of `recompute_bb_cost` grows by the proposed minus the committed costs. -/
theorem update_move_nets_cost (nl : ClusteredNetlist) (grid : DeviceGrid) (t : PlacerState)
    (num : Nat)
    (hvalid : ∀ i, i < num → t.ts_nets_to_update i < nl.num_nets ∧
      nl.net_is_ignored (t.ts_nets_to_update i) = false)
    (hdist : ∀ i j, i < num → j < num → t.ts_nets_to_update i = t.ts_nets_to_update j → i = j)
    (k : Nat) (hk : k ≤ num) :
    recompute_bb_cost nl (update_move_nets nl grid k t)
      = recompute_bb_cost nl t + ∑ i in Finset.range k,
          (t.proposed_net_cost (t.ts_nets_to_update i) - t.net_cost (t.ts_nets_to_update i)) ∧
    (∀ i, k ≤ i → i < num →
      (update_move_nets nl grid k t).proposed_net_cost (t.ts_nets_to_update i)
        = t.proposed_net_cost (t.ts_nets_to_update i) ∧
      (update_move_nets nl grid k t).net_cost (t.ts_nets_to_update i)
        = t.net_cost (t.ts_nets_to_update i)) := by
  induction k with
  | zero =>
    refine ⟨?_, fun i _ _ => ⟨rfl, rfl⟩⟩
    simp [update_move_nets]
  | succ k ih =>
    obtain ⟨i1, i2⟩ := ih (by omega)
    obtain ⟨_, u2, _, _, _⟩ := update_move_nets_fold nl grid t k
    have e : update_move_nets nl grid (k + 1) t
        = update_move_nets_step nl grid (update_move_nets nl grid k t) k := by
      unfold update_move_nets
      rw [List.range_succ, List.foldl_append]
      rfl
    rw [e]
    generalize update_move_nets nl grid k t = u at *
    have hkn : k < num := by omega
    obtain ⟨p1, p2⟩ := i2 k (le_refl _) hkn
    obtain ⟨v1, v2⟩ := hvalid k hkn
    have hu : recompute_bb_cost nl (update_move_nets_step nl grid u k)
        = recompute_bb_cost nl u
          + (u.proposed_net_cost (t.ts_nets_to_update k) - u.net_cost (t.ts_nets_to_update k)) := by
      rw [recompute_bb_cost_eq, recompute_bb_cost_eq]
      unfold update_move_nets_step
      dsimp only
      rw [u2]
      exact bb_cost_sum_update nl.net_is_ignored u.net_cost _ _ nl.num_nets v1 v2
    refine ⟨?_, ?_⟩
    · rw [hu, i1, p1, p2, Finset.sum_range_succ]
      ring
    · intro i hi1 hi2
      have hne : t.ts_nets_to_update i ≠ t.ts_nets_to_update k := by
        intro e2
        have := hdist i k hi2 hkn e2
        omega
      obtain ⟨a, b⟩ := i2 i (by omega) hi2
      unfold update_move_nets_step
      dsimp only
      rw [u2, Function.update_noteq hne, Function.update_noteq hne]
      exact ⟨a, b⟩


/-- The shape of the result of an accepted `try_swap`. -/
theorem try_swap_accepted {σ : Type} (exp : ℚ → ℚ) (frand : σ → ℚ × σ) (nl : ClusteredNetlist)
    (grid : DeviceGrid) (fac : CostFac) (opts : SwapOpts) (inp : SwapInputs σ)
    (s : PlacerState) (costs : t_placer_costs)
    (hacc : (try_swap exp frand nl grid fac opts inp s costs).move_outcome
      = e_move_result.ACCEPTED) :
    (try_swap exp frand nl grid fac opts inp s costs).state
      = update_move_nets nl grid
          (find_affected_nets_and_update_costs nl grid fac inp.moved_blocks
            (apply_move_blocks inp.moved_blocks s)).num_affected_nets
          (find_affected_nets_and_update_costs nl grid fac inp.moved_blocks
            (apply_move_blocks inp.moved_blocks s)).state ∧
    (try_swap exp frand nl grid fac opts inp s costs).bb_delta_c
      = (find_affected_nets_and_update_costs nl grid fac inp.moved_blocks
          (apply_move_blocks inp.moved_blocks s)).bb_delta_c ∧
    (try_swap exp frand nl grid fac opts inp s costs).costs.bb_cost
      = costs.bb_cost + (find_affected_nets_and_update_costs nl grid fac inp.moved_blocks
          (apply_move_blocks inp.moved_blocks s)).bb_delta_c := by
  unfold try_swap at hacc ⊢
  cases hc : inp.create_move_outcome with
  | ABORT =>
    rw [hc] at hacc
    exact absurd hacc (by simp)
  | VALID =>
    rw [hc] at hacc
    dsimp only at hacc ⊢
    generalize manual_override _ _ = mo at hacc ⊢
    by_cases h : mo = e_move_result.ACCEPTED
    · rw [if_pos h]
      refine ⟨rfl, rfl, ?_⟩
      dsimp only
      split_ifs <;> rfl
    · rw [if_neg h] at hacc
      exact absurd hacc h


theorem update_move_nets_net_cost_other (nl : ClusteredNetlist) (grid : DeviceGrid)
    (s : PlacerState) (k n : Nat) (h : ¬ ∃ i, i < k ∧ s.ts_nets_to_update i = n) :
    (update_move_nets nl grid k s).net_cost n = s.net_cost n := by
  induction k with
  | zero => rfl
  | succ k ih =>
    obtain ⟨_, u2, _, _, _⟩ := update_move_nets_fold nl grid s k
    have e : update_move_nets nl grid (k + 1) s
        = update_move_nets_step nl grid (update_move_nets nl grid k s) k := by
      unfold update_move_nets
      rw [List.range_succ, List.foldl_append]
      rfl
    have h1 : ¬ ∃ i, i < k ∧ s.ts_nets_to_update i = n := by
      rintro ⟨i, hi, e2⟩
      exact h ⟨i, by omega, e2⟩
    have h2 : n ≠ s.ts_nets_to_update k := fun e2 => h ⟨k, Nat.lt_succ_self _, e2.symm⟩
    rw [e]
    unfold update_move_nets_step
    dsimp only
    rw [u2, Function.update_noteq h2]
    exact ih h1

/-- The sum of `net_cost` over the non-ignored nets after the commit of a move equals the sum
before the move plus the `bb_delta_c` of `find_affected_nets_and_update_costs`. -/
theorem find_affected_commit_cost (nl : ClusteredNetlist) (grid : DeviceGrid) (fac : CostFac)
    (moves : List t_pl_moved_block) (s : PlacerState)
    (hnl : netlist_consistent nl) (hmove : valid_move nl s moves) :
    recompute_bb_cost nl
        (update_move_nets nl grid
          (find_affected_nets_and_update_costs nl grid fac moves
            (apply_move_blocks moves s)).num_affected_nets
          (find_affected_nets_and_update_costs nl grid fac moves
            (apply_move_blocks moves s)).state)
      = recompute_bb_cost nl s
        + (find_affected_nets_and_update_costs nl grid fac moves
            (apply_move_blocks moves s)).bb_delta_c := by
  obtain ⟨_, hblocks⟩ := hnl
  obtain ⟨_, hmv⟩ := hmove
  have hall : ∀ mp ∈ pin_seq nl moves, nl.pin_net mp.2 < nl.num_nets := by
    intro mp hmp
    obtain ⟨h1, h2⟩ := (mem_pin_seq nl moves mp).1 hmp
    exact ((hblocks mp.1.block_num (hmv mp.1 h1).1).2 mp.2 h2).2.1
  have hinit : AffectedListInv nl (apply_move_blocks moves s, 0) :=
    ⟨fun i hi => absurd hi (Nat.not_lt_zero _), fun i _ hi => absurd hi (Nat.not_lt_zero _)⟩
  obtain ⟨⟨l1, l2⟩, hnc⟩ := affected_fold_listInv nl grid (pin_seq nl moves)
    (apply_move_blocks moves s, 0) hall hinit
  rw [← affected_blocks_foldl_eq] at l1 l2 hnc
  unfold find_affected_nets_and_update_costs
  dsimp only
  generalize moves.foldl (affected_block_step nl grid) (apply_move_blocks moves s, 0)
    = r1 at *
  obtain ⟨d1, d2⟩ := proposed_cost_fold_delta nl fac r1.1 0 r1.2
  obtain ⟨_, _, _, _, f5, _, _, _, _, f10⟩ :=
    proposed_cost_fold_frame nl fac (List.range r1.2) (r1.1, 0)
  generalize (List.range r1.2).foldl (proposed_cost_step nl fac) (r1.1, 0) = r2 at *
  simp only at f5 f10
  have hvalid : ∀ i, i < r1.2 → r2.1.ts_nets_to_update i < nl.num_nets ∧
      nl.net_is_ignored (r2.1.ts_nets_to_update i) = false := by
    intro i hi
    rw [f10]
    exact (l1 i hi).2
  have hdist : ∀ i j, i < r1.2 → j < r1.2 →
      r2.1.ts_nets_to_update i = r2.1.ts_nets_to_update j → i = j := by
    intro i j hi hj e
    rw [f10] at e
    exact l2 i j hi hj e
  obtain ⟨c1, _⟩ := update_move_nets_cost nl grid r2.1 r1.2 hvalid hdist r1.2 (le_refl _)
  rw [c1, d1, zero_add]
  have e0 : recompute_bb_cost nl r2.1 = recompute_bb_cost nl s := by
    rw [recompute_bb_cost_eq, recompute_bb_cost_eq, f5, hnc]
    rfl
  rw [e0]
  congr 1
  apply Finset.sum_congr rfl
  intro i hi
  have hi2 : i < r1.2 := Finset.mem_range.1 hi
  rw [f10, f5, d2 i hi2]

theorem find_affected_net_cost (nl : ClusteredNetlist) (grid : DeviceGrid) (fac : CostFac)
    (moves : List t_pl_moved_block) (s : PlacerState)
    (hnl : netlist_consistent nl) (hmove : valid_move nl s moves) :
    (find_affected_nets_and_update_costs nl grid fac moves
      (apply_move_blocks moves s)).state.net_cost = s.net_cost := by
  obtain ⟨_, hblocks⟩ := hnl
  obtain ⟨_, hmv⟩ := hmove
  have hall : ∀ mp ∈ pin_seq nl moves, nl.pin_net mp.2 < nl.num_nets := by
    intro mp hmp
    obtain ⟨h1, h2⟩ := (mem_pin_seq nl moves mp).1 hmp
    exact ((hblocks mp.1.block_num (hmv mp.1 h1).1).2 mp.2 h2).2.1
  have hinit : AffectedListInv nl (apply_move_blocks moves s, 0) :=
    ⟨fun i hi => absurd hi (Nat.not_lt_zero _), fun i _ hi => absurd hi (Nat.not_lt_zero _)⟩
  obtain ⟨_, hnc⟩ := affected_fold_listInv nl grid (pin_seq nl moves)
    (apply_move_blocks moves s, 0) hall hinit
  rw [← affected_blocks_foldl_eq] at hnc
  unfold find_affected_nets_and_update_costs
  dsimp only
  obtain ⟨_, _, _, _, f5, _⟩ := proposed_cost_fold_frame nl fac
    (List.range (moves.foldl (affected_block_step nl grid) (apply_move_blocks moves s, 0)).2)
    ((moves.foldl (affected_block_step nl grid) (apply_move_blocks moves s, 0)).1, 0)
  rw [f5]
  exact hnc

/-- C6. Delta consistency of the wirelength cost: for every accepted swap the sum of `net_cost`
over all non-ignored nets after `update_move_nets` minus that sum before the swap is exactly
the `bb_delta_c` computed by `find_affected_nets_and_update_costs`; the nets outside the list of
affected nets keep their `net_cost`; and if `costs.bb_cost` equalled `recompute_bb_cost()`
before the swap it does so after it. -/
theorem try_swap_bb_delta_consistent {σ : Type} (exp : ℚ → ℚ) (frand : σ → ℚ × σ)
    (nl : ClusteredNetlist) (grid : DeviceGrid) (fac : CostFac) (opts : SwapOpts)
    (inp : SwapInputs σ) (s : PlacerState) (costs : t_placer_costs)
    (hnl : netlist_consistent nl) (hmove : valid_move nl s inp.moved_blocks)
    (hacc : (try_swap exp frand nl grid fac opts inp s costs).move_outcome
      = e_move_result.ACCEPTED) :
    recompute_bb_cost nl (try_swap exp frand nl grid fac opts inp s costs).state
        - recompute_bb_cost nl s
      = (find_affected_nets_and_update_costs nl grid fac inp.moved_blocks
          (apply_move_blocks inp.moved_blocks s)).bb_delta_c ∧
    (∀ n, (¬ ∃ i, i < (find_affected_nets_and_update_costs nl grid fac inp.moved_blocks
          (apply_move_blocks inp.moved_blocks s)).num_affected_nets ∧
        (find_affected_nets_and_update_costs nl grid fac inp.moved_blocks
          (apply_move_blocks inp.moved_blocks s)).state.ts_nets_to_update i = n) →
      (try_swap exp frand nl grid fac opts inp s costs).state.net_cost n = s.net_cost n) ∧
    (costs.bb_cost = recompute_bb_cost nl s →
      (try_swap exp frand nl grid fac opts inp s costs).costs.bb_cost
        = recompute_bb_cost nl (try_swap exp frand nl grid fac opts inp s costs).state) := by
  obtain ⟨e1, _, e3⟩ := try_swap_accepted exp frand nl grid fac opts inp s costs hacc
  have hc := find_affected_commit_cost nl grid fac inp.moved_blocks s hnl hmove
  rw [e1, e3, hc]
  refine ⟨by ring, ?_, ?_⟩
  · intro n hn
    rw [update_move_nets_net_cost_other nl grid _ _ n hn,
      find_affected_net_cost nl grid fac inp.moved_blocks s hnl hmove]
  · intro h
    rw [h]

/-! ## The collapsing extremum scenario, evaluated -/

theorem ex_netlist_consistent : netlist_consistent ex_nl := by
  unfold netlist_consistent; decide

theorem ex_valid_move : valid_move ex_nl ex_state ex_moves := by
  unfold valid_move; decide

theorem ex_bb_cache_valid : bb_cache_valid ex_nl ex_grid ex_state := by
  unfold bb_cache_valid; decide

theorem ex_swap_scratch_empty : swap_scratch_empty ex_nl ex_state := by
  intro n _
  exact ⟨rfl, by norm_num [ex_state]⟩

theorem ex_crossing : wirelength_crossing_count 6 = 1.2206 := by
  unfold wirelength_crossing_count cross_count
  norm_num

theorem ex_first_loop :
    ((ex_moves.foldl (affected_block_step ex_nl ex_grid)
        (apply_move_blocks ex_moves ex_state, 0)).2 = 1) ∧
    ((ex_moves.foldl (affected_block_step ex_nl ex_grid)
        (apply_move_blocks ex_moves ex_state, 0)).1.ts_nets_to_update 0 = 0) ∧
    ((ex_moves.foldl (affected_block_step ex_nl ex_grid)
        (apply_move_blocks ex_moves ex_state, 0)).1.ts_bb_coord_new 0
      = { xmin := 2, xmax := 5, ymin := 1, ymax := 1 }) ∧
    ((ex_moves.foldl (affected_block_step ex_nl ex_grid)
        (apply_move_blocks ex_moves ex_state, 0)).1.ts_bb_edge_new 0
      = { xmin := 1, xmax := 2, ymin := 6, ymax := 6 }) ∧
    ((ex_moves.foldl (affected_block_step ex_nl ex_grid)
        (apply_move_blocks ex_moves ex_state, 0)).1.bb_updated_before 0
      = BBFlag.GOT_FROM_SCRATCH) := by
  decide

theorem ex_bb_delta_c :
    (find_affected_nets_and_update_costs ex_nl ex_grid ex_fac ex_moves
      (apply_move_blocks ex_moves ex_state)).bb_delta_c = -1.2206 := by
  obtain ⟨h1, h2, h3, _, _⟩ := ex_first_loop
  have hn := find_affected_net_cost ex_nl ex_grid ex_fac ex_moves ex_state
    ex_netlist_consistent ex_valid_move
  unfold find_affected_nets_and_update_costs at hn ⊢
  dsimp only at hn ⊢
  obtain ⟨_, _, _, _, f5, _⟩ := proposed_cost_fold_frame ex_nl ex_fac
    (List.range (ex_moves.foldl (affected_block_step ex_nl ex_grid)
      (apply_move_blocks ex_moves ex_state, 0)).2)
    ((ex_moves.foldl (affected_block_step ex_nl ex_grid)
      (apply_move_blocks ex_moves ex_state, 0)).1, 0)
  rw [f5] at hn
  simp only at hn
  rw [(proposed_cost_fold_delta ex_nl ex_fac _ 0 _).1, h1, Finset.sum_range_one, h2, h3, hn]
  have hp : (ex_nl.net_pins 0).length = 6 := by decide
  unfold get_net_cost
  rw [hp, ex_crossing]
  norm_num [ex_state, ex_fac]

theorem ex_try_swap_accepted :
    (try_swap ex_exp ex_frand ex_nl ex_grid ex_fac ex_opts ex_inputs ex_state
      ex_costs).move_outcome = e_move_result.ACCEPTED := by
  have hb := ex_bb_delta_c
  unfold try_swap
  simp only [ex_inputs] at hb ⊢
  rw [hb]
  norm_num [ex_opts, ex_costs, swap_delta_c, assess_swap, manual_override,
    e_place_algorithm.is_timing_driven]


/-- The outcome of the collapsing extremum scenario: after the accepted swap the net has
`xmax = 5` with two pins on it and `xmin = 2` with one pin on it. -/
theorem ex_collapsing_extremum :
    (try_swap ex_exp ex_frand ex_nl ex_grid ex_fac ex_opts ex_inputs ex_state
      ex_costs).state.bb_coords 0 = { xmin := 2, xmax := 5, ymin := 1, ymax := 1 } ∧
    (try_swap ex_exp ex_frand ex_nl ex_grid ex_fac ex_opts ex_inputs ex_state
      ex_costs).state.bb_num_on_edges 0 = { xmin := 1, xmax := 2, ymin := 6, ymax := 6 } := by
  rw [(try_swap_accepted ex_exp ex_frand ex_nl ex_grid ex_fac ex_opts ex_inputs ex_state
    ex_costs ex_try_swap_accepted).1]
  decide

/-- Witness of C6: in the collapsing extremum scenario the sum of the net costs changes by the
computed `bb_delta_c`, and `bb_cost` stays equal to the recomputed cost. -/
theorem try_swap_bb_delta_consistent_witness :
    recompute_bb_cost ex_nl (try_swap ex_exp ex_frand ex_nl ex_grid ex_fac ex_opts ex_inputs
        ex_state ex_costs).state - recompute_bb_cost ex_nl ex_state
      = (find_affected_nets_and_update_costs ex_nl ex_grid ex_fac ex_inputs.moved_blocks
          (apply_move_blocks ex_inputs.moved_blocks ex_state)).bb_delta_c ∧
    (ex_costs.bb_cost = recompute_bb_cost ex_nl ex_state →
      (try_swap ex_exp ex_frand ex_nl ex_grid ex_fac ex_opts ex_inputs ex_state
        ex_costs).costs.bb_cost
        = recompute_bb_cost ex_nl (try_swap ex_exp ex_frand ex_nl ex_grid ex_fac ex_opts
            ex_inputs ex_state ex_costs).state) :=
  ⟨(try_swap_bb_delta_consistent ex_exp ex_frand ex_nl ex_grid ex_fac ex_opts ex_inputs
      ex_state ex_costs ex_netlist_consistent ex_valid_move ex_try_swap_accepted).1,
   (try_swap_bb_delta_consistent ex_exp ex_frand ex_nl ex_grid ex_fac ex_opts ex_inputs
      ex_state ex_costs ex_netlist_consistent ex_valid_move ex_try_swap_accepted).2.2⟩

/-- Witness of C3: the brute-force box of the example net on the example placement. -/
theorem get_non_updateable_bb_clipped_hull_witness :
    3 ≤ ex_grid.width ∧ 3 ≤ ex_grid.height ∧
    ∃ pxmin pxmax pymin pymax : Int,
      (pxmin ∈ (ex_nl.net_pins 0).map (net_pin_x ex_nl ex_block_locs) ∧
        ∀ v ∈ (ex_nl.net_pins 0).map (net_pin_x ex_nl ex_block_locs), pxmin ≤ v) ∧
      (pxmax ∈ (ex_nl.net_pins 0).map (net_pin_x ex_nl ex_block_locs) ∧
        ∀ v ∈ (ex_nl.net_pins 0).map (net_pin_x ex_nl ex_block_locs), v ≤ pxmax) ∧
      (pymin ∈ (ex_nl.net_pins 0).map (net_pin_y ex_nl ex_block_locs) ∧
        ∀ v ∈ (ex_nl.net_pins 0).map (net_pin_y ex_nl ex_block_locs), pymin ≤ v) ∧
      (pymax ∈ (ex_nl.net_pins 0).map (net_pin_y ex_nl ex_block_locs) ∧
        ∀ v ∈ (ex_nl.net_pins 0).map (net_pin_y ex_nl ex_block_locs), v ≤ pymax) ∧
      (get_non_updateable_bb ex_nl ex_grid ex_block_locs 0 (fun _ => 0)).1
        = { xmin := clamp pxmin 1 ((ex_grid.width : Int) - 2)
            xmax := clamp pxmax 1 ((ex_grid.width : Int) - 2)
            ymin := clamp pymin 1 ((ex_grid.height : Int) - 2)
            ymax := clamp pymax 1 ((ex_grid.height : Int) - 2) } ∧
      ∀ layer, layer < ex_grid.num_layers →
        (get_non_updateable_bb ex_nl ex_grid ex_block_locs 0 (fun _ => 0)).2 layer
          = (((ex_nl.net_sinks 0).filter
              (fun p => decide (net_pin_layer ex_nl ex_block_locs p = layer))).length : Int) :=
  ⟨by decide, by decide,
    get_non_updateable_bb_clipped_hull ex_nl ex_grid ex_block_locs 0 (fun _ => 0)
      (by decide) (by decide)⟩

/-- The example state after block 4 alone has moved from `x = 7` to `x = 4`, before the cache
is updated. -/
theorem update_bb_single_pin_eq_from_scratch_witness :
    (update_bb ex_nl ex_grid (apply_move_blocks (ex_moves.take 1) ex_state) 0
        { x := net_pin_x ex_nl ex_block_locs 4, y := net_pin_y ex_nl ex_block_locs 4,
          layer_num := 0 }
        { x := net_pin_x ex_nl (apply_move_blocks (ex_moves.take 1) ex_state).block_locs 4,
          y := net_pin_y ex_nl (apply_move_blocks (ex_moves.take 1) ex_state).block_locs 4,
          layer_num := 0 } false).ts_bb_coord_new 0
      = (get_bb_from_scratch ex_nl ex_grid
          (apply_move_blocks (ex_moves.take 1) ex_state).block_locs 0 (fun _ => 0)).coords ∧
    (update_bb ex_nl ex_grid (apply_move_blocks (ex_moves.take 1) ex_state) 0
        { x := net_pin_x ex_nl ex_block_locs 4, y := net_pin_y ex_nl ex_block_locs 4,
          layer_num := 0 }
        { x := net_pin_x ex_nl (apply_move_blocks (ex_moves.take 1) ex_state).block_locs 4,
          y := net_pin_y ex_nl (apply_move_blocks (ex_moves.take 1) ex_state).block_locs 4,
          layer_num := 0 } false).ts_bb_edge_new 0
      = (get_bb_from_scratch ex_nl ex_grid
          (apply_move_blocks (ex_moves.take 1) ex_state).block_locs 0
          (fun _ => 0)).num_on_edges :=
  update_bb_single_pin_eq_from_scratch ex_nl ex_grid
    (apply_move_blocks (ex_moves.take 1) ex_state) ex_block_locs 0 4 0 0 false
    (fun _ => 0) (fun _ => 0) (by decide) (by decide) (by decide) (by decide) (by decide)
    (by decide)

/-! ## Acceptance rule, net cost and crossing count -/

/-- C7. Acceptance rule: `assess_swap` returns `ACCEPTED` whenever `delta_c <= 0` (for any
`t`), returns `REJECTED` whenever `t = 0` and `delta_c > 0`, and otherwise returns `ACCEPTED`
exactly when `exp(-delta_c / t)` is greater than the draw of `frand` (and `REJECTED` if it is
not); the state of the random number generator is advanced by one draw in that last case and
left alone in the first two. -/
theorem assess_swap_rule {σ : Type} (exp : ℚ → ℚ) (frand : σ → ℚ × σ) (delta_c t : ℚ)
    (rng : σ) :
    (delta_c ≤ 0 → assess_swap exp frand delta_c t rng = (e_move_result.ACCEPTED, rng)) ∧
    (0 < delta_c → t = 0 →
      assess_swap exp frand delta_c t rng = (e_move_result.REJECTED, rng)) ∧
    (0 < delta_c → t ≠ 0 →
      (assess_swap exp frand delta_c t rng).2 = (frand rng).2 ∧
      ((assess_swap exp frand delta_c t rng).1 = e_move_result.ACCEPTED
        ↔ exp (-delta_c / t) > (frand rng).1) ∧
      ((assess_swap exp frand delta_c t rng).1 = e_move_result.REJECTED
        ↔ ¬ exp (-delta_c / t) > (frand rng).1)) := by
  refine ⟨?_, ?_, ?_⟩
  · intro h
    unfold assess_swap
    rw [if_pos h]
  · intro h ht
    unfold assess_swap
    rw [if_neg (not_le.2 h), if_pos ht]
  · intro h ht
    unfold assess_swap
    rw [if_neg (not_le.2 h), if_neg ht]
    dsimp only
    by_cases hp : exp (-delta_c / t) > (frand rng).1
    · rw [if_pos hp]
      exact ⟨rfl, ⟨fun _ => hp, fun _ => rfl⟩, ⟨fun e => (by cases e), fun e => absurd hp e⟩⟩
    · rw [if_neg hp]
      exact ⟨rfl, ⟨fun e => (by cases e), fun e => absurd e hp⟩, ⟨fun _ => hp, fun _ => rfl⟩⟩

theorem size_t_of_int_of_nonneg (i : Int) (h0 : 0 ≤ i) (h1 : i < 2 ^ 64) :
    size_t_of_int i = i.toNat := by
  unfold size_t_of_int
  rw [Int.emod_eq_of_lt h0 h1]

/-- C8. Per-net wirelength cost: for every net (it has `p >= 1` pins, the driver included) and
box, `get_net_cost` returns `(xmax - xmin + 1) * crossing(p) * chanx_place_cost_fac[ymax][ymin - 1]
+ (ymax - ymin + 1) * crossing(p) * chany_place_cost_fac[xmax][xmin - 1]`, the matrix indices
being those numbers themselves when the box lies in `1 <= min`, `0 <= max` (below `2^64`); and a
2-pin net with box `x` in `1..2`, `y = 1` costs
`2 * 1 * chanx_fac[1][0] + 1 * 1 * chany_fac[2][0]`. -/
theorem get_net_cost_formula (nl : ClusteredNetlist) (fac : CostFac) (net_id : Nat)
    (bbptr : t_bb) :
    1 ≤ (nl.net_pins net_id).length ∧
    get_net_cost nl fac net_id bbptr
      = ((bbptr.xmax - bbptr.xmin + 1 : Int) : ℚ)
          * wirelength_crossing_count (nl.net_pins net_id).length
          * fac.chanx_place_cost_fac (size_t_of_int bbptr.ymax) (size_t_of_int (bbptr.ymin - 1))
        + ((bbptr.ymax - bbptr.ymin + 1 : Int) : ℚ)
          * wirelength_crossing_count (nl.net_pins net_id).length
          * fac.chany_place_cost_fac (size_t_of_int bbptr.xmax) (size_t_of_int (bbptr.xmin - 1)) ∧
    (1 ≤ bbptr.xmin → 1 ≤ bbptr.ymin → 0 ≤ bbptr.xmax → 0 ≤ bbptr.ymax →
      bbptr.xmin < 2 ^ 64 → bbptr.ymin < 2 ^ 64 → bbptr.xmax < 2 ^ 64 → bbptr.ymax < 2 ^ 64 →
      get_net_cost nl fac net_id bbptr
        = ((bbptr.xmax - bbptr.xmin + 1 : Int) : ℚ)
            * wirelength_crossing_count (nl.net_pins net_id).length
            * fac.chanx_place_cost_fac bbptr.ymax.toNat (bbptr.ymin - 1).toNat
          + ((bbptr.ymax - bbptr.ymin + 1 : Int) : ℚ)
            * wirelength_crossing_count (nl.net_pins net_id).length
            * fac.chany_place_cost_fac bbptr.xmax.toNat (bbptr.xmin - 1).toNat) ∧
    ((nl.net_pins net_id).length = 2 →
      get_net_cost nl fac net_id { xmin := 1, xmax := 2, ymin := 1, ymax := 1 }
        = 2 * 1 * fac.chanx_place_cost_fac 1 0 + 1 * 1 * fac.chany_place_cost_fac 2 0) := by
  refine ⟨?_, rfl, ?_, ?_⟩
  · simp [ClusteredNetlist.net_pins]
  · intro h1 h2 h3 h4 h5 h6 h7 h8
    unfold get_net_cost
    dsimp only
    rw [size_t_of_int_of_nonneg bbptr.ymax h4 h8,
      size_t_of_int_of_nonneg (bbptr.ymin - 1) (by omega) (by omega),
      size_t_of_int_of_nonneg bbptr.xmax h3 h7,
      size_t_of_int_of_nonneg (bbptr.xmin - 1) (by omega) (by omega)]
  · intro hp
    have hc : wirelength_crossing_count 2 = 1 := by
      unfold wirelength_crossing_count cross_count
      norm_num
    unfold get_net_cost
    rw [hp, hc]
    have e1 : size_t_of_int 1 = 1 := by decide
    have e2 : size_t_of_int (1 - 1) = 0 := by decide
    have e3 : size_t_of_int 2 = 2 := by decide
    dsimp only
    rw [e1, e2, e3]
    norm_num

theorem cross_count_length : cross_count.length = 50 := by
  unfold cross_count
  rfl

/-- C10. Crossing count: the table `cross_count` has 50 entries; for every fanout `n` with
`1 <= n <= 50`, `wirelength_crossing_count(n)` is entry `n - 1` of the table, and for every
`n > 50` it is `2.7933 + 0.02616 * (n - 50)`. -/
theorem wirelength_crossing_count_spec :
    cross_count.length = 50 ∧
    (∀ n : Nat, 1 ≤ n → n ≤ 50 →
      cross_count.get? (n - 1) = some (wirelength_crossing_count n)) ∧
    (∀ n : Nat, 50 < n →
      wirelength_crossing_count n = 2.7933 + 0.02616 * ((n : ℚ) - 50)) := by
  refine ⟨cross_count_length, ?_, ?_⟩
  · intro n h1 h2
    have hidx : (n + 2 ^ 64 - 1) % 2 ^ 64 = n - 1 := by omega
    have hlt : n - 1 < cross_count.length := by rw [cross_count_length]; omega
    unfold wirelength_crossing_count
    rw [if_neg (by omega), hidx, List.getD_eq_getElem _ _ hlt, List.get?_eq_getElem? ,
      List.getElem?_eq_getElem hlt]
  · intro n h
    unfold wirelength_crossing_count
    rw [if_pos h, Nat.cast_sub (le_of_lt h)]
    norm_num

/-! ## The channel cost factors -/

theorem mat_set_same (m : Nat → Nat → ℚ) (high low : Nat) (v : ℚ) :
    mat_set m high low v high low = v := by
  unfold mat_set
  rw [Function.update_same, Function.update_same]

theorem mat_set_row_ne (m : Nat → Nat → ℚ) (high low : Nat) (v : ℚ) (h : Nat)
    (hne : h ≠ high) : mat_set m high low v h = m h := by
  unfold mat_set
  rw [Function.update_noteq hne]

theorem mat_set_col_ne (m : Nat → Nat → ℚ) (high low : Nat) (v : ℚ) (l : Nat)
    (hne : l ≠ low) : mat_set m high low v high l = m high l := by
  unfold mat_set
  rw [Function.update_same, Function.update_noteq hne]

/-- Filling row `high` of the track sums from row `high - 1`. -/
theorem row_fill_spec (w : Nat → Int) (m : Nat → Nat → ℚ) (high : Nat) (hpos : 1 ≤ high)
    (k : Nat) (hk : k ≤ high) :
    (∀ h, h ≠ high →
      (List.range k).foldl
        (fun m low => mat_set m high low (m (high - 1) low + (w high : ℚ)))
        (mat_set m high high (w high)) h = m h) ∧
    (∀ low, low < k →
      (List.range k).foldl
        (fun m low => mat_set m high low (m (high - 1) low + (w high : ℚ)))
        (mat_set m high high (w high)) high low = m (high - 1) low + (w high : ℚ)) ∧
    (List.range k).foldl
        (fun m low => mat_set m high low (m (high - 1) low + (w high : ℚ)))
        (mat_set m high high (w high)) high high = (w high : ℚ) := by
  induction k with
  | zero =>
    refine ⟨fun h hne => mat_set_row_ne _ _ _ _ _ hne, fun low hl => absurd hl (Nat.not_lt_zero _),
      mat_set_same _ _ _ _⟩
  | succ k ih =>
    obtain ⟨i1, i2, i3⟩ := ih (by omega)
    rw [List.range_succ, List.foldl_append]
    generalize (List.range k).foldl
        (fun m low => mat_set m high low (m (high - 1) low + (w high : ℚ)))
        (mat_set m high high (w high)) = mk at *
    simp only [List.foldl_cons, List.foldl_nil]
    have hprev : mk (high - 1) = m (high - 1) := i1 _ (by omega)
    refine ⟨?_, ?_, ?_⟩
    · intro h hne
      rw [mat_set_row_ne _ _ _ _ _ hne]
      exact i1 h hne
    · intro low hl
      by_cases e : low = k
      · subst e
        rw [mat_set_same, hprev]
      · rw [mat_set_col_ne _ _ _ _ _ e]
        exact i2 low (by omega)
    · rw [mat_set_col_ne _ _ _ _ _ (by omega : high ≠ k)]
      exact i3

/-- After the first pass the entry `[high][low]` is the sum of the widths of the channels
`low..high`. -/
theorem load_chan_sums_upto (w : Nat → Int) (m : Nat → Nat → ℚ) (k : Nat) :
    ∀ high low, low ≤ high → high ≤ k →
      (List.range' 1 k).foldl
        (fun m high =>
          (List.range high).foldl
            (fun m low => mat_set m high low (m (high - 1) low + (w high : ℚ)))
            (mat_set m high high (w high)))
        (mat_set m 0 0 (w 0)) high low
      = ∑ i in Finset.Icc low high, (w i : ℚ) := by
  induction k with
  | zero =>
    intro high low h1 h2
    have e1 : high = 0 := by omega
    have e2 : low = 0 := by omega
    subst e1 e2
    simp [mat_set_same]
  | succ k ih =>
    intro high low h1 h2
    rw [List.range'_1_concat, List.foldl_append]
    generalize (List.range' 1 k).foldl
        (fun m high =>
          (List.range high).foldl
            (fun m low => mat_set m high low (m (high - 1) low + (w high : ℚ)))
            (mat_set m high high (w high)))
        (mat_set m 0 0 (w 0)) = mk at *
    simp only [List.foldl_cons, List.foldl_nil]
    obtain ⟨r1, r2, r3⟩ := row_fill_spec w mk (1 + k) (by omega) (1 + k) (le_refl _)
    by_cases e : high = 1 + k
    · subst e
      by_cases e2 : low = 1 + k
      · subst e2
        rw [r3]
        simp
      · have hl : low < 1 + k := by omega
        rw [r2 low hl]
        have e3 : 1 + k - 1 = k := by omega
        rw [e3, ih k low (by omega) (le_refl _)]
        have e4 : 1 + k = k + 1 := by omega
        rw [e4, Finset.sum_Icc_succ_top (by omega)]
    · rw [r1 high e]
      exact ih high low h1 (by omega)

theorem load_chan_sums_spec (n : Nat) (w : Nat → Int) (m : Nat → Nat → ℚ)
    (high low : Nat) (h1 : low ≤ high) (h2 : high < n) :
    load_chan_sums n w m high low = ∑ i in Finset.Icc low high, (w i : ℚ) := by
  unfold load_chan_sums
  exact load_chan_sums_upto w m (n - 1) high low h1 (by omega)


/-- The body of the second pass rewrites the one entry it is called for. -/
theorem invert_chan_entry_spec (pow : ℚ → ℚ → ℚ) (e : ℚ) (m : Nat → Nat → ℚ)
    (high low : Nat) :
    invert_chan_entry pow e m high low high low
      = pow ((((high - low : Nat) : ℚ) + 1) / (if m high low = 0 then 1 else m high low)) e ∧
    (∀ h, h ≠ high → invert_chan_entry pow e m high low h = m h) ∧
    (∀ l, l ≠ low → invert_chan_entry pow e m high low high l = m high l) := by
  unfold invert_chan_entry
  refine ⟨?_, ?_, ?_⟩
  · rw [mat_set_same, mat_set_same]
    by_cases h0 : m high low = 0
    · rw [if_pos h0, if_pos h0, mat_set_same]
    · rw [if_neg h0, if_neg h0]
  · intro h hne
    rw [mat_set_row_ne _ _ _ _ _ hne, mat_set_row_ne _ _ _ _ _ hne]
    split_ifs
    · exact mat_set_row_ne _ _ _ _ _ hne
    · rfl
  · intro l hne
    rw [mat_set_col_ne _ _ _ _ _ hne, mat_set_col_ne _ _ _ _ _ hne]
    split_ifs
    · exact mat_set_col_ne _ _ _ _ _ hne
    · rfl

theorem invert_row_spec (pow : ℚ → ℚ → ℚ) (e : ℚ) (m : Nat → Nat → ℚ) (high k : Nat) :
    (∀ h, h ≠ high →
      (List.range k).foldl (fun m low => invert_chan_entry pow e m high low) m h = m h) ∧
    (∀ l, k ≤ l →
      (List.range k).foldl (fun m low => invert_chan_entry pow e m high low) m high l
        = m high l) ∧
    (∀ l, l < k →
      (List.range k).foldl (fun m low => invert_chan_entry pow e m high low) m high l
        = pow ((((high - l : Nat) : ℚ) + 1) / (if m high l = 0 then 1 else m high l)) e) := by
  induction k with
  | zero =>
    exact ⟨fun _ _ => rfl, fun _ _ => rfl, fun l hl => absurd hl (Nat.not_lt_zero _)⟩
  | succ k ih =>
    obtain ⟨i1, i2, i3⟩ := ih
    rw [List.range_succ, List.foldl_append]
    generalize (List.range k).foldl (fun m low => invert_chan_entry pow e m high low) m
      = mk at *
    simp only [List.foldl_cons, List.foldl_nil]
    obtain ⟨s1, s2, s3⟩ := invert_chan_entry_spec pow e mk high k
    refine ⟨?_, ?_, ?_⟩
    · intro h hne
      rw [s2 h hne]
      exact i1 h hne
    · intro l hl
      rw [s3 l (by omega)]
      exact i2 l (by omega)
    · intro l hl
      by_cases e2 : l = k
      · subst e2
        rw [s1, i2 l (le_refl _)]
      · rw [s3 l e2]
        exact i3 l (by omega)

theorem invert_chan_sums_upto (pow : ℚ → ℚ → ℚ) (e : ℚ) (m : Nat → Nat → ℚ) (k : Nat) :
    (∀ h, k ≤ h →
      (List.range k).foldl
        (fun m high => (List.range (high + 1)).foldl
          (fun m low => invert_chan_entry pow e m high low) m) m h = m h) ∧
    (∀ high low, high < k → low ≤ high →
      (List.range k).foldl
        (fun m high => (List.range (high + 1)).foldl
          (fun m low => invert_chan_entry pow e m high low) m) m high low
        = pow ((((high - low : Nat) : ℚ) + 1)
            / (if m high low = 0 then 1 else m high low)) e) := by
  induction k with
  | zero =>
    exact ⟨fun _ _ => rfl, fun high low h => absurd h (Nat.not_lt_zero _)⟩
  | succ k ih =>
    obtain ⟨i1, i2⟩ := ih
    rw [List.range_succ, List.foldl_append]
    generalize (List.range k).foldl
        (fun m high => (List.range (high + 1)).foldl
          (fun m low => invert_chan_entry pow e m high low) m) m = mk at *
    simp only [List.foldl_cons, List.foldl_nil]
    obtain ⟨r1, _, r3⟩ := invert_row_spec pow e mk k (k + 1)
    refine ⟨?_, ?_⟩
    · intro h hk
      rw [r1 h (by omega)]
      exact i1 h (by omega)
    · intro high low h1 h2
      by_cases e2 : high = k
      · subst e2
        rw [r3 low (by omega), i1 high (le_refl _)]
      · rw [r1 high e2]
        exact i2 high low (by omega) h2

theorem invert_chan_sums_spec (pow : ℚ → ℚ → ℚ) (e : ℚ) (n : Nat) (m : Nat → Nat → ℚ)
    (high low : Nat) (h1 : low ≤ high) (h2 : high < n) :
    invert_chan_sums pow e n m high low
      = pow ((((high - low : Nat) : ℚ) + 1) / (if m high low = 0 then 1 else m high low)) e := by
  unfold invert_chan_sums
  exact (invert_chan_sums_upto pow e m n).2 high low h2 h1

/-- One direction of `alloc_and_load_for_fast_cost_update`: both passes on one matrix. -/
theorem channel_factor_entry (pow : ℚ → ℚ → ℚ) (e : ℚ) (n : Nat) (w : Nat → Int)
    (m : Nat → Nat → ℚ) (high low : Nat) (h1 : low ≤ high) (h2 : high < n) :
    invert_chan_sums pow e n (load_chan_sums n w m) high low
      = pow (((high : ℚ) - (low : ℚ) + 1)
          / (if (∑ i in Finset.Icc low high, (w i : ℚ)) = 0 then 1
             else ∑ i in Finset.Icc low high, (w i : ℚ))) e := by
  have hc : (((high - low : Nat) : ℚ)) = (high : ℚ) - (low : ℚ) := Nat.cast_sub h1
  rw [invert_chan_sums_spec pow e n _ high low h1 h2, load_chan_sums_spec n w _ high low h1 h2,
    hc]

/-- C9. Channel-cost factors: after `alloc_and_load_for_fast_cost_update`, for all
`0 <= low <= high < grid.height`, `chanx_place_cost_fac[high][low]` is
`((high - low + 1) / S)^place_cost_exp` where `S` is the sum of `chan_width.x_list[i]` for `i`
in `low..high`, with `S` replaced by 1 when that sum is 0; and likewise
`chany_place_cost_fac` over `grid.width` and `chan_width.y_list`. -/
theorem channel_cost_factors (pow : ℚ → ℚ → ℚ) (grid : DeviceGrid) (chan_width : t_chan_width)
    (place_cost_exp : ℚ) (fac : CostFac) (high low : Nat) (hlow : low ≤ high) :
    (high < grid.height →
      (alloc_and_load_for_fast_cost_update pow grid chan_width place_cost_exp
          fac).chanx_place_cost_fac high low
        = pow (((high : ℚ) - (low : ℚ) + 1)
            / (if (∑ i in Finset.Icc low high, (chan_width.x_list i : ℚ)) = 0 then 1
               else ∑ i in Finset.Icc low high, (chan_width.x_list i : ℚ))) place_cost_exp) ∧
    (high < grid.width →
      (alloc_and_load_for_fast_cost_update pow grid chan_width place_cost_exp
          fac).chany_place_cost_fac high low
        = pow (((high : ℚ) - (low : ℚ) + 1)
            / (if (∑ i in Finset.Icc low high, (chan_width.y_list i : ℚ)) = 0 then 1
               else ∑ i in Finset.Icc low high, (chan_width.y_list i : ℚ))) place_cost_exp) :=
  ⟨fun hh => channel_factor_entry pow place_cost_exp grid.height chan_width.x_list _ high low
      hlow hh,
   fun hh => channel_factor_entry pow place_cost_exp grid.width chan_width.y_list _ high low
      hlow hh⟩

/-- Witness of C9: the entries `[2][1]` of both matrices on the example grid. -/
theorem channel_cost_factors_witness :
    (1 : Nat) ≤ 2 ∧ 2 < ex_grid.height ∧ 2 < ex_grid.width ∧
    (alloc_and_load_for_fast_cost_update ex_pow ex_grid ex_chan_width 2
        ex_fac).chanx_place_cost_fac 2 1
      = ex_pow ((((2 : Nat) : ℚ) - ((1 : Nat) : ℚ) + 1)
          / (if (∑ i in Finset.Icc 1 2, (ex_chan_width.x_list i : ℚ)) = 0 then 1
             else ∑ i in Finset.Icc 1 2, (ex_chan_width.x_list i : ℚ))) 2 ∧
    (alloc_and_load_for_fast_cost_update ex_pow ex_grid ex_chan_width 2
        ex_fac).chany_place_cost_fac 2 1
      = ex_pow ((((2 : Nat) : ℚ) - ((1 : Nat) : ℚ) + 1)
          / (if (∑ i in Finset.Icc 1 2, (ex_chan_width.y_list i : ℚ)) = 0 then 1
             else ∑ i in Finset.Icc 1 2, (ex_chan_width.y_list i : ℚ))) 2 :=
  ⟨by decide, by decide, by decide,
    (channel_cost_factors ex_pow ex_grid ex_chan_width 2 ex_fac 2 1 (by decide)).1 (by decide),
    (channel_cost_factors ex_pow ex_grid ex_chan_width 2 ex_fac 2 1 (by decide)).2 (by decide)⟩

/-- The example entries evaluated: channels 1..2 have 4 horizontal tracks, so the factor is
`(2 / 4)^2`; the vertical channels have no tracks, their sum is replaced by 1 and the factor is
`(2 / 1)^2`. -/
theorem ex_channel_cost_factors :
    (alloc_and_load_for_fast_cost_update ex_pow ex_grid ex_chan_width 2
        ex_fac).chanx_place_cost_fac 2 1 = 1 / 4 ∧
    (alloc_and_load_for_fast_cost_update ex_pow ex_grid ex_chan_width 2
        ex_fac).chany_place_cost_fac 2 1 = 4 := by
  have h1 : ∑ i in Finset.Icc 1 2, (ex_chan_width.x_list i : ℚ) = 4 := by
    rw [show Finset.Icc 1 2 = {1, 2} from rfl]
    simp [ex_chan_width]
  have h2 : ∑ i in Finset.Icc 1 2, (ex_chan_width.y_list i : ℚ) = 0 := by
    simp [ex_chan_width]
  have e1 := channel_factor_entry ex_pow 2 ex_grid.height ex_chan_width.x_list
    ex_fac.chanx_place_cost_fac 2 1 (by decide) (by decide)
  have e2 := channel_factor_entry ex_pow 2 ex_grid.width ex_chan_width.y_list
    ex_fac.chany_place_cost_fac 2 1 (by decide) (by decide)
  rw [h1] at e1
  rw [h2] at e2
  unfold alloc_and_load_for_fast_cost_update
  dsimp only
  rw [e1, e2]
  norm_num [ex_pow]

/-! ## The scratch is empty again after the commit -/

/-- The step of the pin loop leaves the flag and the proposed cost of a net alone when the
visited pin belongs to another net or to an ignored net. -/
theorem affected_pin_step_flag_other (nl : ClusteredNetlist) (grid : DeviceGrid)
    (mb : t_pl_moved_block) (acc : PlacerState × Nat) (p n : Nat)
    (h : nl.pin_net p ≠ n ∨ nl.net_is_ignored (nl.pin_net p) = true) :
    (affected_pin_step nl grid mb acc p).1.bb_updated_before n = acc.1.bb_updated_before n ∧
    (affected_pin_step nl grid mb acc p).1.proposed_net_cost n = acc.1.proposed_net_cost n := by
  by_cases hi : nl.net_is_ignored (nl.pin_net p) = true
  · have hstep : affected_pin_step nl grid mb acc p = acc := by
      unfold affected_pin_step
      simp only [hi, if_true]
    rw [hstep]
    exact ⟨rfl, rfl⟩
  · have hne : n ≠ nl.pin_net p := by
      rcases h with h | h
      · exact fun e => h e.symm
      · exact absurd h hi
    have hstep : affected_pin_step nl grid mb acc p
        = (update_net_bb nl grid (record_affected_net acc.1 (nl.pin_net p) acc.2).1
            (nl.pin_net p) mb p, (record_affected_net acc.1 (nl.pin_net p) acc.2).2) := by
      unfold affected_pin_step
      simp only [hi, Bool.false_eq_true, if_false]
    rw [hstep]
    obtain ⟨_, _, _, _, _, u6, _⟩ := update_net_bb_frame nl grid
      (record_affected_net acc.1 (nl.pin_net p) acc.2).1 (nl.pin_net p) mb p
    obtain ⟨_, _, _, o4⟩ := update_net_bb_other nl grid
      (record_affected_net acc.1 (nl.pin_net p) acc.2).1 (nl.pin_net p) mb p n hne
    obtain ⟨_, _, _, _, _, r6, _⟩ := record_affected_net_frame acc.1 (nl.pin_net p) acc.2
    obtain ⟨_, _, _, _, q5, _, _⟩ := record_affected_net_spec acc.1 (nl.pin_net p) acc.2
    exact ⟨by rw [o4, r6], by rw [u6, q5 n hne]⟩

theorem affected_fold_flag_ignored (nl : ClusteredNetlist) (grid : DeviceGrid) (n : Nat)
    (hign : nl.net_is_ignored n = true) (todo : List (t_pl_moved_block × Nat)) :
    ∀ acc : PlacerState × Nat,
    (todo.foldl (fun a mp => affected_pin_step nl grid mp.1 a mp.2) acc).1.bb_updated_before n
      = acc.1.bb_updated_before n ∧
    (todo.foldl (fun a mp => affected_pin_step nl grid mp.1 a mp.2) acc).1.proposed_net_cost n
      = acc.1.proposed_net_cost n := by
  induction todo with
  | nil => intro acc; exact ⟨rfl, rfl⟩
  | cons mp rest ih =>
    intro acc
    rw [List.foldl_cons]
    obtain ⟨a, b⟩ := ih (affected_pin_step nl grid mp.1 acc mp.2)
    have hor : nl.pin_net mp.2 ≠ n ∨ nl.net_is_ignored (nl.pin_net mp.2) = true := by
      by_cases e : nl.pin_net mp.2 = n
      · right; rw [e]; exact hign
      · left; exact e
    obtain ⟨c, d⟩ := affected_pin_step_flag_other nl grid mp.1 acc mp.2 n hor
    exact ⟨a.trans c, b.trans d⟩

/-- The cost loop changes the proposed cost of the listed nets only. -/
theorem proposed_cost_fold_other (nl : ClusteredNetlist) (fac : CostFac) (s : PlacerState)
    (q0 : ℚ) (k n : Nat) (h : ¬ ∃ i, i < k ∧ s.ts_nets_to_update i = n) :
    ((List.range k).foldl (proposed_cost_step nl fac) (s, q0)).1.proposed_net_cost n
      = s.proposed_net_cost n := by
  induction k with
  | zero => rfl
  | succ k ih =>
    obtain ⟨_, _, _, _, _, _, _, _, _, f10⟩ :=
      proposed_cost_fold_frame nl fac (List.range k) (s, q0)
    have h1 : ¬ ∃ i, i < k ∧ s.ts_nets_to_update i = n := by
      rintro ⟨i, hi, e⟩
      exact h ⟨i, by omega, e⟩
    have h2 : n ≠ s.ts_nets_to_update k := fun e => h ⟨k, Nat.lt_succ_self _, e.symm⟩
    rw [List.range_succ, List.foldl_append]
    generalize (List.range k).foldl (proposed_cost_step nl fac) (s, q0) = r at *
    simp only at f10
    simp only [List.foldl_cons, List.foldl_nil, proposed_cost_step]
    rw [f10, Function.update_noteq h2]
    exact ih h1

/-- The commit loop resets the flag and the proposed cost of the listed nets and leaves those
of the other nets alone. -/
theorem update_move_nets_flags (nl : ClusteredNetlist) (grid : DeviceGrid) (s : PlacerState)
    (k n : Nat) :
    ((∃ i, i < k ∧ s.ts_nets_to_update i = n) →
      (update_move_nets nl grid k s).bb_updated_before n = BBFlag.NOT_UPDATED_YET ∧
      (update_move_nets nl grid k s).proposed_net_cost n = -1) ∧
    ((¬ ∃ i, i < k ∧ s.ts_nets_to_update i = n) →
      (update_move_nets nl grid k s).bb_updated_before n = s.bb_updated_before n ∧
      (update_move_nets nl grid k s).proposed_net_cost n = s.proposed_net_cost n) := by
  induction k with
  | zero =>
    refine ⟨?_, fun _ => ⟨rfl, rfl⟩⟩
    rintro ⟨i, hi, _⟩
    exact absurd hi (Nat.not_lt_zero _)
  | succ k ih =>
    obtain ⟨i1, i2⟩ := ih
    obtain ⟨_, u2, _, _, _⟩ := update_move_nets_fold nl grid s k
    have e : update_move_nets nl grid (k + 1) s
        = update_move_nets_step nl grid (update_move_nets nl grid k s) k := by
      unfold update_move_nets
      rw [List.range_succ, List.foldl_append]
      rfl
    rw [e]
    generalize update_move_nets nl grid k s = t at *
    by_cases hk : s.ts_nets_to_update k = n
    · have hk2 : t.ts_nets_to_update k = n := by rw [u2]; exact hk
      refine ⟨fun _ => ?_, fun hx => absurd ⟨k, Nat.lt_succ_self _, hk⟩ hx⟩
      unfold update_move_nets_step
      dsimp only
      rw [hk2]
      exact ⟨Function.update_same _ _ _, Function.update_same _ _ _⟩
    · have hne : n ≠ t.ts_nets_to_update k := by rw [u2]; exact fun e2 => hk e2.symm
      have hf : (update_move_nets_step nl grid t k).bb_updated_before n
          = t.bb_updated_before n := by
        unfold update_move_nets_step
        exact Function.update_noteq hne _ _
      have hp : (update_move_nets_step nl grid t k).proposed_net_cost n
          = t.proposed_net_cost n := by
        unfold update_move_nets_step
        exact Function.update_noteq hne _ _
      rw [hf, hp]
      have hiff : (∃ i, i < k + 1 ∧ s.ts_nets_to_update i = n)
          ↔ (∃ i, i < k ∧ s.ts_nets_to_update i = n) := by
        constructor
        · rintro ⟨i, hi, e2⟩
          have : i ≠ k := fun e3 => hk (e3 ▸ e2)
          exact ⟨i, by omega, e2⟩
        · rintro ⟨i, hi, e2⟩
          exact ⟨i, by omega, e2⟩
      rw [hiff]
      exact ⟨i1, i2⟩

theorem affected_pin_step_flagInv (nl : ClusteredNetlist) (grid : DeviceGrid)
    (mb : t_pl_moved_block) (acc : PlacerState × Nat) (p n : Nat) (h : FlagInv acc n) :
    FlagInv (affected_pin_step nl grid mb acc p) n := by
  by_cases hi : nl.net_is_ignored (nl.pin_net p) = true
  · have hstep : affected_pin_step nl grid mb acc p = acc := by
      unfold affected_pin_step
      simp only [hi, if_true]
    rw [hstep]
    exact h
  · have hstep : affected_pin_step nl grid mb acc p
        = (update_net_bb nl grid (record_affected_net acc.1 (nl.pin_net p) acc.2).1
            (nl.pin_net p) mb p, (record_affected_net acc.1 (nl.pin_net p) acc.2).2) := by
      unfold affected_pin_step
      simp only [hi, Bool.false_eq_true, if_false]
    obtain ⟨_, _, _, _, _, u6, u7⟩ := update_net_bb_frame nl grid
      (record_affected_net acc.1 (nl.pin_net p) acc.2).1 (nl.pin_net p) mb p
    obtain ⟨q1, q2, q3, q4, q5, q6, _⟩ := record_affected_net_spec acc.1 (nl.pin_net p) acc.2
    obtain ⟨h1, h2⟩ := h
    by_cases hn : nl.pin_net p = n
    · rw [hstep]
      have hq4 : 0 ≤ (record_affected_net acc.1 (nl.pin_net p) acc.2).1.proposed_net_cost n := by
        have := q4
        rw [hn] at this ⊢
        exact this
      refine ⟨fun hneg => ?_, fun _ => ?_⟩
      · have hneg2 : (update_net_bb nl grid (record_affected_net acc.1 (nl.pin_net p) acc.2).1
            (nl.pin_net p) mb p).proposed_net_cost n < 0 := hneg
        rw [u6] at hneg2
        exact absurd hneg2 (not_lt.2 hq4)
      · show ∃ i, i < (record_affected_net acc.1 (nl.pin_net p) acc.2).2 ∧
          (update_net_bb nl grid (record_affected_net acc.1 (nl.pin_net p) acc.2).1
            (nl.pin_net p) mb p).ts_nets_to_update i = n
        rw [u7]
        by_cases hneg : acc.1.proposed_net_cost n < 0
        · have e := q6 (by rw [hn]; exact hneg)
          refine ⟨acc.2, by rw [e]; exact Nat.lt_succ_self _, ?_⟩
          rw [q3 acc.2 (le_refl _) (by rw [e]; exact Nat.lt_succ_self _)]
          exact hn
        · obtain ⟨i, hi2, e⟩ := h2 (not_lt.1 hneg)
          exact ⟨i, lt_of_lt_of_le hi2 q1, by rw [q2 i hi2]; exact e⟩
    · obtain ⟨a, b⟩ := affected_pin_step_flag_other nl grid mb acc p n (Or.inl hn)
      refine ⟨fun hneg => ?_, fun hpos => ?_⟩
      · rw [a]
        rw [b] at hneg
        exact h1 hneg
      · rw [b] at hpos
        obtain ⟨i, hi2, e⟩ := h2 hpos
        rw [hstep]
        refine ⟨i, lt_of_lt_of_le hi2 q1, ?_⟩
        show (update_net_bb nl grid (record_affected_net acc.1 (nl.pin_net p) acc.2).1
            (nl.pin_net p) mb p).ts_nets_to_update i = n
        rw [u7, q2 i hi2]
        exact e

theorem affected_fold_flagInv (nl : ClusteredNetlist) (grid : DeviceGrid) (n : Nat)
    (todo : List (t_pl_moved_block × Nat)) : ∀ acc : PlacerState × Nat, FlagInv acc n →
    FlagInv (todo.foldl (fun a mp => affected_pin_step nl grid mp.1 a mp.2) acc) n := by
  induction todo with
  | nil => intro acc h; exact h
  | cons mp rest ih =>
    intro acc h
    rw [List.foldl_cons]
    exact ih _ (affected_pin_step_flagInv nl grid mp.1 acc mp.2 n h)

/-- After the two loops of `find_affected_nets_and_update_costs` and the commit by
`update_move_nets`, started from an empty scratch, the scratch is empty again. -/
theorem commit_after_find_affected_empty (nl : ClusteredNetlist) (grid : DeviceGrid)
    (fac : CostFac) (moves : List t_pl_moved_block) (s : PlacerState)
    (hempty : swap_scratch_empty nl s) :
    swap_scratch_empty nl
      (update_move_nets nl grid
        (find_affected_nets_and_update_costs nl grid fac moves
          (apply_move_blocks moves s)).num_affected_nets
        (find_affected_nets_and_update_costs nl grid fac moves
          (apply_move_blocks moves s)).state) := by
  intro n hn
  obtain ⟨e1, e2⟩ := hempty n hn
  have hinit : FlagInv (apply_move_blocks moves s, 0) n :=
    ⟨fun _ => e1, fun h => absurd e2 (not_lt.2 h)⟩
  have hloop := affected_fold_flagInv nl grid n (pin_seq nl moves)
    (apply_move_blocks moves s, 0) hinit
  rw [← affected_blocks_foldl_eq] at hloop
  unfold find_affected_nets_and_update_costs
  dsimp only
  generalize moves.foldl (affected_block_step nl grid) (apply_move_blocks moves s, 0)
    = r1 at *
  obtain ⟨_, _, _, _, _, f6, _, _, _, f10⟩ :=
    proposed_cost_fold_frame nl fac (List.range r1.2) (r1.1, 0)
  have fo := proposed_cost_fold_other nl fac r1.1 0 r1.2 n
  generalize (List.range r1.2).foldl (proposed_cost_step nl fac) (r1.1, 0) = r2 at *
  simp only at f6 f10
  obtain ⟨ua, ub⟩ := update_move_nets_flags nl grid r2.1 r1.2 n
  obtain ⟨g1, g2⟩ := hloop
  by_cases hin : ∃ i, i < r1.2 ∧ r2.1.ts_nets_to_update i = n
  · obtain ⟨a, b⟩ := ua hin
    exact ⟨a, by rw [b]; norm_num⟩
  · obtain ⟨a, b⟩ := ub hin
    have hin1 : ¬ ∃ i, i < r1.2 ∧ r1.1.ts_nets_to_update i = n := by
      rw [f10] at hin
      exact hin
    have hneg : r1.1.proposed_net_cost n < 0 := by
      by_contra hc
      exact hin1 (g2 (not_lt.1 hc))
    rw [a, b, f6, fo hin1]
    exact ⟨g1 hneg, hneg⟩

/-! ## The cube-BB invariant across an accepted swap -/

/-- C1. The cube-BB invariant is kept by an accepted swap: if the netlist tables are
consistent, the proposed move lists distinct blocks with their present locations, the per-swap
scratch is empty as it is between two swaps, and before `try_swap` every non-ignored net with at
least `SMALL_NET` sinks has committed `bb_coords` and `bb_num_on_edges` equal to what
`get_bb_from_scratch` computes from `block_locs` (and every smaller non-ignored net has
`bb_coords` equal to `get_non_updateable_bb`), then after `try_swap` returns `ACCEPTED` the same
holds with respect to the new `block_locs`, for any number of displaced blocks and of moved pins
per net; and the per-swap scratch is empty again, so that the next swap starts from such a
state. -/
theorem try_swap_accepted_keeps_bb_cache {σ : Type} (exp : ℚ → ℚ) (frand : σ → ℚ × σ)
    (nl : ClusteredNetlist) (grid : DeviceGrid) (fac : CostFac) (opts : SwapOpts)
    (inp : SwapInputs σ) (s : PlacerState) (costs : t_placer_costs)
    (hnl : netlist_consistent nl) (hmove : valid_move nl s inp.moved_blocks)
    (hempty : swap_scratch_empty nl s) (hinv : bb_cache_valid nl grid s)
    (hacc : (try_swap exp frand nl grid fac opts inp s costs).move_outcome
      = e_move_result.ACCEPTED) :
    bb_cache_valid nl grid (try_swap exp frand nl grid fac opts inp s costs).state ∧
    swap_scratch_empty nl (try_swap exp frand nl grid fac opts inp s costs).state := by
  rw [(try_swap_accepted exp frand nl grid fac opts inp s costs hacc).1]
  exact ⟨commit_after_find_affected_valid nl grid fac inp.moved_blocks s hnl hmove hempty hinv,
    commit_after_find_affected_empty nl grid fac inp.moved_blocks s hempty⟩

/-- Witness of C1: the collapsing extremum scenario satisfies the hypotheses, and the cache is
valid and the scratch empty after the accepted swap. -/
theorem try_swap_accepted_keeps_bb_cache_witness :
    netlist_consistent ex_nl ∧ valid_move ex_nl ex_state ex_inputs.moved_blocks ∧
    swap_scratch_empty ex_nl ex_state ∧ bb_cache_valid ex_nl ex_grid ex_state ∧
    (try_swap ex_exp ex_frand ex_nl ex_grid ex_fac ex_opts ex_inputs ex_state
      ex_costs).move_outcome = e_move_result.ACCEPTED ∧
    bb_cache_valid ex_nl ex_grid
      (try_swap ex_exp ex_frand ex_nl ex_grid ex_fac ex_opts ex_inputs ex_state ex_costs).state ∧
    swap_scratch_empty ex_nl
      (try_swap ex_exp ex_frand ex_nl ex_grid ex_fac ex_opts ex_inputs ex_state ex_costs).state :=
  ⟨ex_netlist_consistent, ex_valid_move, ex_swap_scratch_empty, ex_bb_cache_valid,
    ex_try_swap_accepted,
    try_swap_accepted_keeps_bb_cache ex_exp ex_frand ex_nl ex_grid ex_fac ex_opts ex_inputs
      ex_state ex_costs ex_netlist_consistent ex_valid_move ex_swap_scratch_empty
      ex_bb_cache_valid ex_try_swap_accepted⟩

/-! ## The rejected swap, evaluated -/

theorem ex_reject_first_loop :
    ((ex_reject_moves.foldl (affected_block_step ex_nl ex_grid)
        (apply_move_blocks ex_reject_moves ex_state, 0)).2 = 1) ∧
    ((ex_reject_moves.foldl (affected_block_step ex_nl ex_grid)
        (apply_move_blocks ex_reject_moves ex_state, 0)).1.ts_nets_to_update 0 = 0) ∧
    ((ex_reject_moves.foldl (affected_block_step ex_nl ex_grid)
        (apply_move_blocks ex_reject_moves ex_state, 0)).1.ts_bb_coord_new 0
      = { xmin := 3, xmax := 8, ymin := 1, ymax := 1 }) := by
  decide

theorem ex_reject_valid_move : valid_move ex_nl ex_state ex_reject_moves := by
  unfold valid_move; decide

theorem ex_reject_bb_delta_c :
    (find_affected_nets_and_update_costs ex_nl ex_grid ex_fac ex_reject_moves
      (apply_move_blocks ex_reject_moves ex_state)).bb_delta_c = 1.2206 := by
  obtain ⟨h1, h2, h3⟩ := ex_reject_first_loop
  have hn := find_affected_net_cost ex_nl ex_grid ex_fac ex_reject_moves ex_state
    ex_netlist_consistent ex_reject_valid_move
  unfold find_affected_nets_and_update_costs at hn ⊢
  dsimp only at hn ⊢
  obtain ⟨_, _, _, _, f5, _⟩ := proposed_cost_fold_frame ex_nl ex_fac
    (List.range (ex_reject_moves.foldl (affected_block_step ex_nl ex_grid)
      (apply_move_blocks ex_reject_moves ex_state, 0)).2)
    ((ex_reject_moves.foldl (affected_block_step ex_nl ex_grid)
      (apply_move_blocks ex_reject_moves ex_state, 0)).1, 0)
  rw [f5] at hn
  simp only at hn
  rw [(proposed_cost_fold_delta ex_nl ex_fac _ 0 _).1, h1, Finset.sum_range_one, h2, h3, hn]
  have hp : (ex_nl.net_pins 0).length = 6 := by decide
  unfold get_net_cost
  rw [hp, ex_crossing]
  norm_num [ex_state, ex_fac]

theorem ex_try_swap_rejected :
    (try_swap ex_exp ex_frand ex_nl ex_grid ex_fac ex_opts ex_reject_inputs ex_state
      ex_costs).move_outcome = e_move_result.REJECTED := by
  have hb := ex_reject_bb_delta_c
  unfold try_swap
  simp only [ex_reject_inputs] at hb ⊢
  rw [hb]
  norm_num [ex_opts, ex_costs, swap_delta_c, assess_swap, manual_override,
    e_place_algorithm.is_timing_driven]
  rw [if_neg (by decide)]
/-! ## Total cost and the delta of a swap -/

/-- C11. Total cost: with NoC disabled, `get_total_cost` returns `bb_cost * bb_cost_norm` when
`place_algorithm` is `BOUNDING_BOX_PLACE`, and `(1 - timing_tradeoff) * bb_cost * bb_cost_norm +
timing_tradeoff * timing_cost * timing_cost_norm` when the algorithm is timing driven; with NoC
enabled the NoC cost term is added to that value. -/
theorem get_total_cost_spec (costs : t_placer_costs) (placer_opts : SwapOpts) (noc_cost : ℚ) :
    (placer_opts.noc = false →
      placer_opts.place_algorithm = e_place_algorithm.BOUNDING_BOX_PLACE →
      get_total_cost costs placer_opts noc_cost = costs.bb_cost * costs.bb_cost_norm) ∧
    (placer_opts.noc = false → placer_opts.place_algorithm.is_timing_driven = true →
      get_total_cost costs placer_opts noc_cost
        = (1 - placer_opts.timing_tradeoff) * costs.bb_cost * costs.bb_cost_norm
          + placer_opts.timing_tradeoff * costs.timing_cost * costs.timing_cost_norm) ∧
    (placer_opts.noc = true →
      get_total_cost costs placer_opts noc_cost
        = get_total_cost costs
            { place_algorithm := placer_opts.place_algorithm
              timing_tradeoff := placer_opts.timing_tradeoff
              noc := false
              t := placer_opts.t } noc_cost + noc_cost) := by
  refine ⟨?_, ?_, ?_⟩
  · intro hnoc halg
    unfold get_total_cost
    simp only [hnoc, halg, if_true, Bool.false_eq_true, if_false]
  · intro hnoc halg
    have hne : placer_opts.place_algorithm ≠ e_place_algorithm.BOUNDING_BOX_PLACE := by
      intro e
      rw [e] at halg
      exact absurd halg (by decide)
    unfold get_total_cost
    simp only [hnoc, halg, hne, if_true, Bool.false_eq_true, if_false]
    ring
  · intro hnoc
    unfold get_total_cost
    simp only [hnoc, if_true, Bool.false_eq_true, if_false]

/-- The shape of the result of a `try_swap` that is not accepted. -/
theorem try_swap_not_accepted {σ : Type} (exp : ℚ → ℚ) (frand : σ → ℚ × σ)
    (nl : ClusteredNetlist) (grid : DeviceGrid) (fac : CostFac) (opts : SwapOpts)
    (inp : SwapInputs σ) (s : PlacerState) (costs : t_placer_costs)
    (hrej : (try_swap exp frand nl grid fac opts inp s costs).move_outcome
      ≠ e_move_result.ACCEPTED) :
    (try_swap exp frand nl grid fac opts inp s costs).state = s ∨
    (try_swap exp frand nl grid fac opts inp s costs).state
      = revert_move_blocks inp.moved_blocks
          (reset_move_nets
            (find_affected_nets_and_update_costs nl grid fac inp.moved_blocks
              (apply_move_blocks inp.moved_blocks s)).num_affected_nets
            (find_affected_nets_and_update_costs nl grid fac inp.moved_blocks
              (apply_move_blocks inp.moved_blocks s)).state) := by
  unfold try_swap at hrej ⊢
  cases hc : inp.create_move_outcome with
  | ABORT => left; rfl
  | VALID =>
    rw [hc] at hrej
    dsimp only at hrej ⊢
    generalize manual_override _ _ = mo at hrej ⊢
    by_cases h : mo = e_move_result.ACCEPTED
    · rw [if_pos h] at hrej
      exact absurd h hrej
    · rw [if_neg h]
      right; rfl

/-- The pin loop of `find_affected_nets_and_update_costs` writes none of the committed arrays. -/
theorem affected_fold_committed (nl : ClusteredNetlist) (grid : DeviceGrid)
    (todo : List (t_pl_moved_block × Nat)) : ∀ acc : PlacerState × Nat,
    (todo.foldl (fun a mp => affected_pin_step nl grid mp.1 a mp.2) acc).1.block_locs
      = acc.1.block_locs ∧
    (todo.foldl (fun a mp => affected_pin_step nl grid mp.1 a mp.2) acc).1.bb_coords
      = acc.1.bb_coords ∧
    (todo.foldl (fun a mp => affected_pin_step nl grid mp.1 a mp.2) acc).1.bb_num_on_edges
      = acc.1.bb_num_on_edges ∧
    (todo.foldl (fun a mp => affected_pin_step nl grid mp.1 a mp.2) acc).1.num_sink_pin_layer
      = acc.1.num_sink_pin_layer ∧
    (todo.foldl (fun a mp => affected_pin_step nl grid mp.1 a mp.2) acc).1.net_cost
      = acc.1.net_cost := by
  induction todo with
  | nil => intro acc; exact ⟨rfl, rfl, rfl, rfl, rfl⟩
  | cons mp rest ih =>
    intro acc
    rw [List.foldl_cons]
    obtain ⟨a1, a2, a3, a4, a5⟩ := ih (affected_pin_step nl grid mp.1 acc mp.2)
    have hstep : (affected_pin_step nl grid mp.1 acc mp.2).1.block_locs = acc.1.block_locs ∧
        (affected_pin_step nl grid mp.1 acc mp.2).1.bb_coords = acc.1.bb_coords ∧
        (affected_pin_step nl grid mp.1 acc mp.2).1.bb_num_on_edges = acc.1.bb_num_on_edges ∧
        (affected_pin_step nl grid mp.1 acc mp.2).1.num_sink_pin_layer
          = acc.1.num_sink_pin_layer ∧
        (affected_pin_step nl grid mp.1 acc mp.2).1.net_cost = acc.1.net_cost := by
      unfold affected_pin_step
      dsimp only
      split_ifs
      · exact ⟨rfl, rfl, rfl, rfl, rfl⟩
      · obtain ⟨u1, u2, u3, u4, u5, _, _⟩ := update_net_bb_frame nl grid
          (record_affected_net acc.1 (nl.pin_net mp.2) acc.2).1 (nl.pin_net mp.2) mp.1 mp.2
        obtain ⟨r1, r2, r3, r4, r5, _⟩ := record_affected_net_frame acc.1 (nl.pin_net mp.2) acc.2
        exact ⟨u1.trans r1, u2.trans r2, u3.trans r3, u4.trans r4, u5.trans r5⟩
    obtain ⟨b1, b2, b3, b4, b5⟩ := hstep
    exact ⟨a1.trans b1, a2.trans b2, a3.trans b3, a4.trans b4, a5.trans b5⟩

/-- Function `find_affected_nets_and_update_costs` writes none of the committed arrays. -/
theorem find_affected_committed (nl : ClusteredNetlist) (grid : DeviceGrid) (fac : CostFac)
    (moves : List t_pl_moved_block) (s : PlacerState) :
    (find_affected_nets_and_update_costs nl grid fac moves s).state.block_locs = s.block_locs ∧
    (find_affected_nets_and_update_costs nl grid fac moves s).state.bb_coords = s.bb_coords ∧
    (find_affected_nets_and_update_costs nl grid fac moves s).state.bb_num_on_edges
      = s.bb_num_on_edges ∧
    (find_affected_nets_and_update_costs nl grid fac moves s).state.num_sink_pin_layer
      = s.num_sink_pin_layer ∧
    (find_affected_nets_and_update_costs nl grid fac moves s).state.net_cost = s.net_cost := by
  obtain ⟨a1, a2, a3, a4, a5⟩ := affected_fold_committed nl grid (pin_seq nl moves) (s, 0)
  rw [← affected_blocks_foldl_eq] at a1 a2 a3 a4 a5
  unfold find_affected_nets_and_update_costs
  dsimp only
  obtain ⟨f1, f2, f3, f4, f5, _⟩ := proposed_cost_fold_frame nl fac
    (List.range (moves.foldl (affected_block_step nl grid) (s, 0)).2)
    ((moves.foldl (affected_block_step nl grid) (s, 0)).1, 0)
  exact ⟨f1.trans a1, f2.trans a2, f3.trans a3, f4.trans a4, f5.trans a5⟩

/-- Function `reset_move_nets` writes only the flags and the proposed costs; it resets those of
the listed nets and leaves those of the other nets alone. -/
theorem reset_move_nets_spec (s : PlacerState) (k : Nat) :
    (reset_move_nets k s).block_locs = s.block_locs ∧
    (reset_move_nets k s).bb_coords = s.bb_coords ∧
    (reset_move_nets k s).bb_num_on_edges = s.bb_num_on_edges ∧
    (reset_move_nets k s).num_sink_pin_layer = s.num_sink_pin_layer ∧
    (reset_move_nets k s).net_cost = s.net_cost ∧
    (reset_move_nets k s).ts_nets_to_update = s.ts_nets_to_update ∧
    ∀ n,
      ((∃ i, i < k ∧ s.ts_nets_to_update i = n) →
        (reset_move_nets k s).bb_updated_before n = BBFlag.NOT_UPDATED_YET ∧
        (reset_move_nets k s).proposed_net_cost n = -1) ∧
      ((¬ ∃ i, i < k ∧ s.ts_nets_to_update i = n) →
        (reset_move_nets k s).bb_updated_before n = s.bb_updated_before n ∧
        (reset_move_nets k s).proposed_net_cost n = s.proposed_net_cost n) := by
  induction k with
  | zero =>
    refine ⟨rfl, rfl, rfl, rfl, rfl, rfl, fun n => ⟨?_, fun _ => ⟨rfl, rfl⟩⟩⟩
    rintro ⟨i, hi, _⟩
    exact absurd hi (Nat.not_lt_zero _)
  | succ k ih =>
    obtain ⟨i1, i2, i3, i4, i5, i6, i7⟩ := ih
    have e : reset_move_nets (k + 1) s = reset_move_nets_step (reset_move_nets k s) k := by
      unfold reset_move_nets
      rw [List.range_succ, List.foldl_append]
      rfl
    rw [e]
    generalize reset_move_nets k s = t at i1 i2 i3 i4 i5 i6 i7 ⊢
    refine ⟨i1, i2, i3, i4, i5, i6, ?_⟩
    intro n
    obtain ⟨j1, j2⟩ := i7 n
    by_cases hk : s.ts_nets_to_update k = n
    · have hk2 : t.ts_nets_to_update k = n := by rw [i6]; exact hk
      refine ⟨fun _ => ?_, fun hx => absurd ⟨k, Nat.lt_succ_self _, hk⟩ hx⟩
      unfold reset_move_nets_step
      dsimp only
      rw [hk2]
      exact ⟨Function.update_same _ _ _, Function.update_same _ _ _⟩
    · have hne : n ≠ t.ts_nets_to_update k := by rw [i6]; exact fun e2 => hk e2.symm
      have hf : (reset_move_nets_step t k).bb_updated_before n = t.bb_updated_before n := by
        unfold reset_move_nets_step
        exact Function.update_noteq hne _ _
      have hp : (reset_move_nets_step t k).proposed_net_cost n = t.proposed_net_cost n := by
        unfold reset_move_nets_step
        exact Function.update_noteq hne _ _
      rw [hf, hp]
      have hiff : (∃ i, i < k + 1 ∧ s.ts_nets_to_update i = n)
          ↔ (∃ i, i < k ∧ s.ts_nets_to_update i = n) := by
        constructor
        · rintro ⟨i, hi, e2⟩
          have : i ≠ k := fun e3 => hk (e3 ▸ e2)
          exact ⟨i, by omega, e2⟩
        · rintro ⟨i, hi, e2⟩
          exact ⟨i, by omega, e2⟩
      rw [hiff]
      exact ⟨j1, j2⟩

/-- While the proposed cost of a net is negative after some steps of the pin loop, it is the
proposed cost the net had before them. -/
theorem affected_fold_untouched (nl : ClusteredNetlist) (grid : DeviceGrid) (n : Nat)
    (todo : List (t_pl_moved_block × Nat)) : ∀ acc : PlacerState × Nat,
    (todo.foldl (fun a mp => affected_pin_step nl grid mp.1 a mp.2) acc).1.proposed_net_cost n < 0 →
    (todo.foldl (fun a mp => affected_pin_step nl grid mp.1 a mp.2) acc).1.proposed_net_cost n
      = acc.1.proposed_net_cost n := by
  induction todo with
  | nil => intro acc _; rfl
  | cons mp rest ih =>
    intro acc hneg
    rw [List.foldl_cons] at hneg ⊢
    have h1 := ih _ hneg
    rw [h1] at hneg ⊢
    by_cases hor : nl.pin_net mp.2 ≠ n ∨ nl.net_is_ignored (nl.pin_net mp.2) = true
    · exact (affected_pin_step_flag_other nl grid mp.1 acc mp.2 n hor).2
    · have hn : nl.pin_net mp.2 = n := by
        by_contra e
        exact hor (Or.inl e)
      have hi : ¬ nl.net_is_ignored (nl.pin_net mp.2) = true := fun e => hor (Or.inr e)
      have hstep : affected_pin_step nl grid mp.1 acc mp.2
          = (update_net_bb nl grid (record_affected_net acc.1 (nl.pin_net mp.2) acc.2).1
              (nl.pin_net mp.2) mp.1 mp.2, (record_affected_net acc.1 (nl.pin_net mp.2) acc.2).2) := by
        unfold affected_pin_step
        simp only [hi, Bool.false_eq_true, if_false]
      rw [hstep] at hneg
      obtain ⟨_, _, _, _, _, u6, _⟩ := update_net_bb_frame nl grid
        (record_affected_net acc.1 (nl.pin_net mp.2) acc.2).1 (nl.pin_net mp.2) mp.1 mp.2
      obtain ⟨_, _, _, q4, _⟩ := record_affected_net_spec acc.1 (nl.pin_net mp.2) acc.2
      have hneg2 : (update_net_bb nl grid (record_affected_net acc.1 (nl.pin_net mp.2) acc.2).1
          (nl.pin_net mp.2) mp.1 mp.2).proposed_net_cost n < 0 := hneg
      rw [u6, ← hn] at hneg2
      exact absurd hneg2 (not_lt.2 q4)

/-- After the two loops of `find_affected_nets_and_update_costs`, started from a state in which
the net `n` has the flag `NOT_UPDATED_YET` and a negative proposed cost, the net is in the list
of affected nets, or it still has that flag and that proposed cost. -/
theorem find_affected_listed_or_untouched (nl : ClusteredNetlist) (grid : DeviceGrid)
    (fac : CostFac) (moves : List t_pl_moved_block) (s : PlacerState) (n : Nat)
    (hflag : s.bb_updated_before n = BBFlag.NOT_UPDATED_YET) (hneg : s.proposed_net_cost n < 0) :
    (∃ i, i < (find_affected_nets_and_update_costs nl grid fac moves s).num_affected_nets ∧
      (find_affected_nets_and_update_costs nl grid fac moves s).state.ts_nets_to_update i = n) ∨
    ((find_affected_nets_and_update_costs nl grid fac moves s).state.bb_updated_before n
        = BBFlag.NOT_UPDATED_YET ∧
      (find_affected_nets_and_update_costs nl grid fac moves s).state.proposed_net_cost n
        = s.proposed_net_cost n) := by
  have hinit : FlagInv (s, 0) n := ⟨fun _ => hflag, fun h => absurd hneg (not_lt.2 h)⟩
  have hloop := affected_fold_flagInv nl grid n (pin_seq nl moves) (s, 0) hinit
  have hunt := affected_fold_untouched nl grid n (pin_seq nl moves) (s, 0)
  rw [← affected_blocks_foldl_eq] at hloop hunt
  unfold find_affected_nets_and_update_costs
  dsimp only
  generalize moves.foldl (affected_block_step nl grid) (s, 0) = r1 at *
  obtain ⟨_, _, _, _, _, f6, _, _, _, f10⟩ :=
    proposed_cost_fold_frame nl fac (List.range r1.2) (r1.1, 0)
  have fo := proposed_cost_fold_other nl fac r1.1 0 r1.2 n
  generalize (List.range r1.2).foldl (proposed_cost_step nl fac) (r1.1, 0) = r2 at *
  simp only at f6 f10
  obtain ⟨g1, g2⟩ := hloop
  by_cases hin : ∃ i, i < r1.2 ∧ r1.1.ts_nets_to_update i = n
  · left
    rw [f10]
    exact hin
  · right
    have hneg1 : r1.1.proposed_net_cost n < 0 := by
      by_contra hc
      exact hin (g2 (not_lt.1 hc))
    rw [f6, fo hin]
    exact ⟨g1 hneg1, hunt hneg1⟩

/-- C13. The per-swap scratch is clean at swap boundaries: if before `try_swap` every net has
the flag `NOT_UPDATED_YET` and `proposed_net_cost < 0`, then after `try_swap` returns, whether
`ACCEPTED`, `REJECTED` or `ABORTED`, every net again has the flag `NOT_UPDATED_YET` and a
negative `proposed_net_cost`, which is `-1` or the negative value it had before. -/
theorem try_swap_scratch_clean {σ : Type} (exp : ℚ → ℚ) (frand : σ → ℚ × σ)
    (nl : ClusteredNetlist) (grid : DeviceGrid) (fac : CostFac) (opts : SwapOpts)
    (inp : SwapInputs σ) (s : PlacerState) (costs : t_placer_costs)
    (hempty : swap_scratch_empty nl s) :
    swap_scratch_empty nl (try_swap exp frand nl grid fac opts inp s costs).state ∧
    ∀ net_id, net_id < nl.num_nets →
      (try_swap exp frand nl grid fac opts inp s costs).state.proposed_net_cost net_id = -1 ∨
      (try_swap exp frand nl grid fac opts inp s costs).state.proposed_net_cost net_id
        = s.proposed_net_cost net_id := by
  have key : ∀ net_id, net_id < nl.num_nets →
      (try_swap exp frand nl grid fac opts inp s costs).state.bb_updated_before net_id
        = BBFlag.NOT_UPDATED_YET ∧
      ((try_swap exp frand nl grid fac opts inp s costs).state.proposed_net_cost net_id = -1 ∨
        (try_swap exp frand nl grid fac opts inp s costs).state.proposed_net_cost net_id
          = s.proposed_net_cost net_id) := by
    intro n hn
    obtain ⟨e1, e2⟩ := hempty n hn
    have hlist := find_affected_listed_or_untouched nl grid fac inp.moved_blocks
      (apply_move_blocks inp.moved_blocks s) n e1 e2
    by_cases hacc : (try_swap exp frand nl grid fac opts inp s costs).move_outcome
        = e_move_result.ACCEPTED
    · rw [(try_swap_accepted exp frand nl grid fac opts inp s costs hacc).1]
      generalize find_affected_nets_and_update_costs nl grid fac inp.moved_blocks
        (apply_move_blocks inp.moved_blocks s) = r at *
      obtain ⟨ua, ub⟩ := update_move_nets_flags nl grid r.state r.num_affected_nets n
      by_cases hin : ∃ i, i < r.num_affected_nets ∧ r.state.ts_nets_to_update i = n
      · obtain ⟨a, b⟩ := ua hin
        exact ⟨a, Or.inl b⟩
      · obtain ⟨a, b⟩ := ub hin
        rcases hlist with hl | ⟨h1, h2⟩
        · exact absurd hl hin
        · rw [a, b]
          exact ⟨h1, Or.inr h2⟩
    · rcases try_swap_not_accepted exp frand nl grid fac opts inp s costs hacc with e | e
      · rw [e]
        exact ⟨e1, Or.inr rfl⟩
      · rw [e]
        generalize find_affected_nets_and_update_costs nl grid fac inp.moved_blocks
          (apply_move_blocks inp.moved_blocks s) = r at *
        obtain ⟨_, _, _, _, _, _, hr⟩ := reset_move_nets_spec r.state r.num_affected_nets
        obtain ⟨ua, ub⟩ := hr n
        show (reset_move_nets r.num_affected_nets r.state).bb_updated_before n
            = BBFlag.NOT_UPDATED_YET ∧
          ((reset_move_nets r.num_affected_nets r.state).proposed_net_cost n = -1 ∨
            (reset_move_nets r.num_affected_nets r.state).proposed_net_cost n
              = s.proposed_net_cost n)
        by_cases hin : ∃ i, i < r.num_affected_nets ∧ r.state.ts_nets_to_update i = n
        · obtain ⟨a, b⟩ := ua hin
          exact ⟨a, Or.inl b⟩
        · obtain ⟨a, b⟩ := ub hin
          rcases hlist with hl | ⟨h1, h2⟩
          · exact absurd hl hin
          · rw [a, b]
            exact ⟨h1, Or.inr h2⟩
  refine ⟨fun n hn => ?_, fun n hn => (key n hn).2⟩
  obtain ⟨k1, k2⟩ := key n hn
  refine ⟨k1, ?_⟩
  rcases k2 with k | k
  · rw [k]; norm_num
  · rw [k]; exact (hempty n hn).2

/-- Witness of C13: the enlarging move is rejected and leaves the scratch clean. -/
theorem try_swap_scratch_clean_witness :
    swap_scratch_empty ex_nl ex_state ∧
    (try_swap ex_exp ex_frand ex_nl ex_grid ex_fac ex_opts ex_reject_inputs ex_state
      ex_costs).move_outcome = e_move_result.REJECTED ∧
    swap_scratch_empty ex_nl
      (try_swap ex_exp ex_frand ex_nl ex_grid ex_fac ex_opts ex_reject_inputs ex_state
        ex_costs).state :=
  ⟨ex_swap_scratch_empty, ex_try_swap_rejected,
    (try_swap_scratch_clean ex_exp ex_frand ex_nl ex_grid ex_fac ex_opts ex_reject_inputs
      ex_state ex_costs ex_swap_scratch_empty).1⟩

/-- C14. Revert identity on the BB cache: for every proposed move that `try_swap` does not
accept (rejected, or aborted), the committed `bb_coords`, `bb_num_on_edges`,
`num_sink_pin_layer` and `net_cost` of every net are the same after `try_swap` as before it;
probing writes only the `ts_*` scratch copies, the flags and `proposed_net_cost`. -/
theorem try_swap_rejected_keeps_bb_cache {σ : Type} (exp : ℚ → ℚ) (frand : σ → ℚ × σ)
    (nl : ClusteredNetlist) (grid : DeviceGrid) (fac : CostFac) (opts : SwapOpts)
    (inp : SwapInputs σ) (s : PlacerState) (costs : t_placer_costs)
    (hrej : (try_swap exp frand nl grid fac opts inp s costs).move_outcome
      ≠ e_move_result.ACCEPTED) :
    (try_swap exp frand nl grid fac opts inp s costs).state.bb_coords = s.bb_coords ∧
    (try_swap exp frand nl grid fac opts inp s costs).state.bb_num_on_edges
      = s.bb_num_on_edges ∧
    (try_swap exp frand nl grid fac opts inp s costs).state.num_sink_pin_layer
      = s.num_sink_pin_layer ∧
    (try_swap exp frand nl grid fac opts inp s costs).state.net_cost = s.net_cost := by
  rcases try_swap_not_accepted exp frand nl grid fac opts inp s costs hrej with e | e
  · rw [e]
    exact ⟨rfl, rfl, rfl, rfl⟩
  · rw [e]
    obtain ⟨_, f2, f3, f4, f5⟩ := find_affected_committed nl grid fac inp.moved_blocks
      (apply_move_blocks inp.moved_blocks s)
    obtain ⟨_, r2, r3, r4, r5, _⟩ := reset_move_nets_spec
      (find_affected_nets_and_update_costs nl grid fac inp.moved_blocks
        (apply_move_blocks inp.moved_blocks s)).state
      (find_affected_nets_and_update_costs nl grid fac inp.moved_blocks
        (apply_move_blocks inp.moved_blocks s)).num_affected_nets
    exact ⟨r2.trans f2, r3.trans f3, r4.trans f4, r5.trans f5⟩

/-- Witness of C14: the enlarging move is rejected and the committed cache is as before. -/
theorem try_swap_rejected_keeps_bb_cache_witness :
    (try_swap ex_exp ex_frand ex_nl ex_grid ex_fac ex_opts ex_reject_inputs ex_state
      ex_costs).move_outcome ≠ e_move_result.ACCEPTED ∧
    (try_swap ex_exp ex_frand ex_nl ex_grid ex_fac ex_opts ex_reject_inputs ex_state
      ex_costs).state.bb_coords = ex_state.bb_coords ∧
    (try_swap ex_exp ex_frand ex_nl ex_grid ex_fac ex_opts ex_reject_inputs ex_state
      ex_costs).state.net_cost = ex_state.net_cost :=
  ⟨by rw [ex_try_swap_rejected]; decide,
    (try_swap_rejected_keeps_bb_cache ex_exp ex_frand ex_nl ex_grid ex_fac ex_opts
      ex_reject_inputs ex_state ex_costs (by rw [ex_try_swap_rejected]; decide)).1,
    (try_swap_rejected_keeps_bb_cache ex_exp ex_frand ex_nl ex_grid ex_fac ex_opts
      ex_reject_inputs ex_state ex_costs (by rw [ex_try_swap_rejected]; decide)).2.2.2⟩

/-! ## The setup slack cost -/

/-- The first index below `n` at which `p` holds, as `List.find?` over `List.range n` finds
it. -/
theorem find_range_spec (p : Nat → Bool) (n : Nat) :
    (∀ i, (List.range n).find? p = some i → i < n ∧ p i = true ∧ ∀ j, j < i → p j = false) ∧
    ((List.range n).find? p = none → ∀ j, j < n → p j = false) := by
  induction n with
  | zero =>
    refine ⟨fun i h => ?_, fun _ j hj => absurd hj (Nat.not_lt_zero _)⟩
    simp at h
  | succ n ih =>
    obtain ⟨ih1, ih2⟩ := ih
    rw [List.range_succ, List.find?_append]
    cases hf : (List.range n).find? p with
    | some k =>
      refine ⟨fun i h => ?_, fun h => ?_⟩
      · simp only [Option.or] at h
        have hk : k = i := Option.some.inj h
        subst hk
        obtain ⟨a, b, c⟩ := ih1 k hf
        exact ⟨by omega, b, c⟩
      · simp at h
    | none =>
      have hnone := ih2 hf
      refine ⟨fun i h => ?_, fun h => ?_⟩
      · simp only [Option.or] at h
        by_cases hp : p n = true
        · simp only [List.find?_cons, hp, List.find?_nil] at h
          have hk : n = i := Option.some.inj h
          subst hk
          exact ⟨Nat.lt_succ_self _, hp, hnone⟩
        · simp [List.find?_cons, hp] at h
      · simp only [Option.or] at h
        intro j hj
        by_cases hp : p n = true
        · simp [List.find?_cons, hp] at h
        · by_cases hjn : j = n
          · subst hjn
            simpa using hp
          · exact hnone j (by omega)

/-- The slack cost on finite slacks: `setup_slack_cost_exact` is taken from the ascending
sorted permutations of the original and the proposed slacks and is `original[i] - proposed[i]`
at the least index `i` where the two sorted sequences differ, positive when the proposed slack
is smaller and negative when it is larger; when they do not differ anywhere, including when no
slack was modified, it is 1. It is never 0. -/
theorem setup_slack_cost_exact_spec (nl : ClusteredNetlist) (pin_net_index : Nat → Nat)
    (connection_setup_slack setup_slack : Nat → Nat → ℚ) (clb_pins_modified : List Nat) :
    let original := (clb_pins_modified.map (fun clb_pin =>
      connection_setup_slack (nl.pin_net clb_pin) (pin_net_index clb_pin))).insertionSort (· ≤ ·)
    let proposed := (clb_pins_modified.map (fun clb_pin =>
      setup_slack (nl.pin_net clb_pin) (pin_net_index clb_pin))).insertionSort (· ≤ ·)
    let result := setup_slack_cost_exact nl pin_net_index connection_setup_slack setup_slack
      clb_pins_modified
    (original.Sorted (· ≤ ·) ∧ original.Perm (clb_pins_modified.map (fun clb_pin =>
      connection_setup_slack (nl.pin_net clb_pin) (pin_net_index clb_pin)))) ∧
    (proposed.Sorted (· ≤ ·) ∧ proposed.Perm (clb_pins_modified.map (fun clb_pin =>
      setup_slack (nl.pin_net clb_pin) (pin_net_index clb_pin)))) ∧
    original.length = clb_pins_modified.length ∧ proposed.length = clb_pins_modified.length ∧
    (∀ i, i < original.length → original.getD i 0 ≠ proposed.getD i 0 →
      (∀ j, j < i → original.getD j 0 = proposed.getD j 0) →
      result = original.getD i 0 - proposed.getD i 0 ∧
      (proposed.getD i 0 < original.getD i 0 → 0 < result) ∧
      (original.getD i 0 < proposed.getD i 0 → result < 0)) ∧
    ((∀ j, j < original.length → original.getD j 0 = proposed.getD j 0) → result = 1) ∧
    (clb_pins_modified = [] → result = 1) ∧
    result ≠ 0 := by
  intro original proposed result
  have hspec := find_range_spec
    (fun idiff => decide (original.getD idiff 0 - proposed.getD idiff 0 ≠ 0)) original.length
  have hres : result = (match (List.range original.length).find?
      (fun idiff => decide (original.getD idiff 0 - proposed.getD idiff 0 ≠ 0)) with
    | some idiff => original.getD idiff 0 - proposed.getD idiff 0
    | none => 1) := rfl
  obtain ⟨hs1, hs2⟩ := hspec
  have hlen1 : original.length = clb_pins_modified.length := by
    show (List.insertionSort _ _).length = _
    rw [List.length_insertionSort, List.length_map]
  have hlen2 : proposed.length = clb_pins_modified.length := by
    show (List.insertionSort _ _).length = _
    rw [List.length_insertionSort, List.length_map]
  have hall : (∀ j, j < original.length → original.getD j 0 = proposed.getD j 0) →
      result = 1 := by
    intro hsame
    cases hf : (List.range original.length).find?
        (fun idiff => decide (original.getD idiff 0 - proposed.getD idiff 0 ≠ 0)) with
    | some k =>
      obtain ⟨a, b, _⟩ := hs1 k hf
      have hb : original.getD k 0 - proposed.getD k 0 ≠ 0 := by simpa using b
      exact absurd (sub_eq_zero.2 (hsame k a)) hb
    | none =>
      rw [hres, hf]
  refine ⟨⟨List.sorted_insertionSort _ _, List.perm_insertionSort _ _⟩,
    ⟨List.sorted_insertionSort _ _, List.perm_insertionSort _ _⟩, hlen1, hlen2, ?_, hall, ?_, ?_⟩
  · intro i hi hne hbefore
    have hval : result = original.getD i 0 - proposed.getD i 0 := by
      cases hf : (List.range original.length).find?
          (fun idiff => decide (original.getD idiff 0 - proposed.getD idiff 0 ≠ 0)) with
      | some k =>
        obtain ⟨a, b, c⟩ := hs1 k hf
        have hb : original.getD k 0 - proposed.getD k 0 ≠ 0 := by simpa using b
        have hki : k = i := by
          rcases Nat.lt_trichotomy k i with h | h | h
          · exact absurd (sub_eq_zero.2 (hbefore k h)) hb
          · exact h
          · have := c i h
            have hz : original.getD i 0 - proposed.getD i 0 = 0 := by simpa using this
            exact absurd (sub_eq_zero.1 hz) hne
        rw [hres, hf, hki]
      | none =>
        have := hs2 hf i hi
        have hz : original.getD i 0 - proposed.getD i 0 = 0 := by simpa using this
        exact absurd (sub_eq_zero.1 hz) hne
    refine ⟨hval, fun h => ?_, fun h => ?_⟩
    · rw [hval]; linarith
    · rw [hval]; linarith
  · intro hnil
    apply hall
    intro j hj
    rw [hlen1, hnil] at hj
    exact absurd hj (Nat.not_lt_zero _)
  · cases hf : (List.range original.length).find?
        (fun idiff => decide (original.getD idiff 0 - proposed.getD idiff 0 ≠ 0)) with
    | some k =>
      obtain ⟨_, b, _⟩ := hs1 k hf
      have hb : original.getD k 0 - proposed.getD k 0 ≠ 0 := by simpa using b
      rw [hres, hf]
      exact hb
    | none =>
      rw [hres, hf]
      norm_num

/-- Sorting finite floats is sorting their values. -/
theorem orderedInsert_finite (a : ℚ) (l : List ℚ) :
    List.orderedInsert (fun a b => c_float.lt b a = false) (c_float.finite a)
        (l.map c_float.finite)
      = (List.orderedInsert (· ≤ ·) a l).map c_float.finite := by
  induction l with
  | nil => rfl
  | cons b bs ih =>
    simp only [List.map_cons, List.orderedInsert]
    by_cases h : a ≤ b
    · have h2 : c_float.lt (c_float.finite b) (c_float.finite a) = false := by
        simp [c_float.lt, h]
      rw [if_pos h2, if_pos h]
      rfl
    · have h2 : ¬ c_float.lt (c_float.finite b) (c_float.finite a) = false := by
        simp [c_float.lt]
        exact not_le.1 h
      rw [if_neg h2, if_neg h, ih]
      rfl

theorem sort_floats_finite (l : List ℚ) :
    sort_floats (l.map c_float.finite) = (l.insertionSort (· ≤ ·)).map c_float.finite := by
  unfold sort_floats
  induction l with
  | nil => rfl
  | cons a as ih =>
    simp only [List.map_cons, List.insertionSort]
    rw [ih, orderedInsert_finite]

theorem getD_map_finite (l : List ℚ) (i : Nat) :
    (l.map c_float.finite).getD i (c_float.finite 0) = c_float.finite (l.getD i 0) := by
  induction l generalizing i with
  | nil => rfl
  | cons a as ih =>
    cases i with
    | zero => rfl
    | succ k => simp [ih k]

theorem any_is_nan_finite (l : List ℚ) : (l.map c_float.finite).any c_float.is_nan = false := by
  induction l with
  | nil => rfl
  | cons a as ih => simp [List.any_cons, c_float.is_nan, ih]

/-- On finite slacks `analyze_setup_slack_cost` returns, and its result is the finite number
that `setup_slack_cost_exact` computes. -/
theorem analyze_setup_slack_cost_finite (nl : ClusteredNetlist) (pin_net_index : Nat → Nat)
    (connection_setup_slack setup_slack : Nat → Nat → ℚ) (clb_pins_modified : List Nat) :
    analyze_setup_slack_cost nl pin_net_index
        (fun net ipin => c_float.finite (connection_setup_slack net ipin))
        (fun net ipin => c_float.finite (setup_slack net ipin)) clb_pins_modified
      = some (c_float.finite (setup_slack_cost_exact nl pin_net_index connection_setup_slack
          setup_slack clb_pins_modified)) := by
  unfold analyze_setup_slack_cost setup_slack_cost_exact
  have e1 : clb_pins_modified.map (fun clb_pin =>
        c_float.finite (connection_setup_slack (nl.pin_net clb_pin) (pin_net_index clb_pin)))
      = (clb_pins_modified.map (fun clb_pin =>
        connection_setup_slack (nl.pin_net clb_pin) (pin_net_index clb_pin))).map
          c_float.finite := by
    rw [List.map_map]; rfl
  have e2 : clb_pins_modified.map (fun clb_pin =>
        c_float.finite (setup_slack (nl.pin_net clb_pin) (pin_net_index clb_pin)))
      = (clb_pins_modified.map (fun clb_pin =>
        setup_slack (nl.pin_net clb_pin) (pin_net_index clb_pin))).map c_float.finite := by
    rw [List.map_map]; rfl
  dsimp only
  rw [e1, e2, any_is_nan_finite, any_is_nan_finite, sort_floats_finite, sort_floats_finite]
  simp only [Bool.or_self, Bool.false_eq_true, if_false, List.length_map, getD_map_finite,
    c_float.sub, c_float.ne_zero]
  split <;> rename_i hf <;> simp only [hf]

/-- Without a NaN among the collected slacks `analyze_setup_slack_cost` returns, and the
returned value is never the number 0: it is a difference that passed the test
`slack_diff != 0`, possibly an infinity or a NaN, or it is 1. -/
theorem analyze_setup_slack_cost_ne_zero (nl : ClusteredNetlist) (pin_net_index : Nat → Nat)
    (connection_setup_slack setup_slack : Nat → Nat → c_float) (clb_pins_modified : List Nat) :
    analyze_setup_slack_cost nl pin_net_index connection_setup_slack setup_slack
        clb_pins_modified ≠ some (c_float.finite 0) ∧
    ((∀ p ∈ clb_pins_modified,
        connection_setup_slack (nl.pin_net p) (pin_net_index p) ≠ c_float.nan ∧
        setup_slack (nl.pin_net p) (pin_net_index p) ≠ c_float.nan) →
      ∃ r, analyze_setup_slack_cost nl pin_net_index connection_setup_slack setup_slack
        clb_pins_modified = some r) := by
  constructor
  · unfold analyze_setup_slack_cost
    dsimp only
    split_ifs
    · simp
    · split
      · rename_i idiff hf
        have h := List.find?_some hf
        intro e
        rw [Option.some.injEq] at e
        rw [e] at h
        simp [c_float.ne_zero] at h
      · intro e
        rw [Option.some.injEq, c_float.finite.injEq] at e
        norm_num at e
  · intro hnn
    unfold analyze_setup_slack_cost
    dsimp only
    have h1 : (clb_pins_modified.map (fun clb_pin =>
        connection_setup_slack (nl.pin_net clb_pin) (pin_net_index clb_pin))).any
        c_float.is_nan = false := by
      rw [List.any_eq_false]
      intro x hx
      obtain ⟨p, hp, rfl⟩ := List.mem_map.1 hx
      have := (hnn p hp).1
      cases hc : connection_setup_slack (nl.pin_net p) (pin_net_index p) <;>
        simp [c_float.is_nan, hc] at this ⊢
    have h2 : (clb_pins_modified.map (fun clb_pin =>
        setup_slack (nl.pin_net clb_pin) (pin_net_index clb_pin))).any
        c_float.is_nan = false := by
      rw [List.any_eq_false]
      intro x hx
      obtain ⟨p, hp, rfl⟩ := List.mem_map.1 hx
      have := (hnn p hp).2
      cases hc : setup_slack (nl.pin_net p) (pin_net_index p) <;>
        simp [c_float.is_nan, hc] at this ⊢
    rw [h1, h2]
    simp only [Bool.or_self, Bool.false_eq_true, if_false]
    split
    · exact ⟨_, rfl⟩
    · exact ⟨_, rfl⟩

/-- C19: one pin with modified setup slack whose committed slack is `+inf`, the value with
which `connection_setup_slack` is allocated, and whose proposed slack is `+inf` too: the two
sorted sequences do not differ, but `inf - inf` is a NaN, the test `slack_diff != 0` holds for
it and `analyze_setup_slack_cost` returns the NaN instead of 1. The same happens behind equal
finite slacks (pins 1 and 2, sorted `2, +inf` on both sides); with equal finite slacks only
(pins 2 and 3) the result is 1. -/
theorem analyze_setup_slack_cost_equal_infinite :
    analyze_setup_slack_cost ex_nl (fun p => p) ex_inf_slack ex_inf_slack [1]
      = some c_float.nan ∧
    analyze_setup_slack_cost ex_nl (fun p => p) ex_mixed_slack ex_mixed_slack [1, 2]
      = some c_float.nan ∧
    analyze_setup_slack_cost ex_nl (fun p => p) ex_mixed_slack ex_mixed_slack [2, 3]
      = some (c_float.finite 1) := by
  refine ⟨by decide, ?_, ?_⟩
  · simp [analyze_setup_slack_cost, ex_mixed_slack, sort_floats, List.insertionSort,
      List.orderedInsert, c_float.lt, c_float.sub, c_float.ne_zero, c_float.is_nan, List.range,
      List.range.loop, List.find?, List.getD, ex_nl]
  · simp [analyze_setup_slack_cost, ex_mixed_slack, sort_floats, List.insertionSort,
      List.orderedInsert, c_float.lt, c_float.sub, c_float.ne_zero, c_float.is_nan, List.range,
      List.range.loop, List.find?, List.getD, ex_nl]

/-- An evaluation of `analyze_setup_slack_cost` on finite slacks: two modified pins with slacks
`5, 1` before and `1, 3` after the move; sorted, the sequences `1, 5` and `1, 3` first differ
at index 1 and the result is `5 - 3 = 2`. -/
theorem ex_analyze_setup_slack_cost :
    analyze_setup_slack_cost ex_nl (fun p => p)
      (fun _ ipin => c_float.finite (if ipin = 1 then 5 else 1))
      (fun _ ipin => c_float.finite (if ipin = 1 then 1 else 3))
      [1, 2] = some (c_float.finite 2) := by
  rw [analyze_setup_slack_cost_finite]
  norm_num [setup_slack_cost_exact, List.insertionSort, List.orderedInsert, List.range,
    List.range.loop, List.find?, List.getD]

/-! ## The timing cache: elementary facts -/

theorem td_set_same (m : Nat → Nat → Option ℚ) (net ipin : Nat) (v : Option ℚ) :
    td_set m net ipin v net ipin = v := by
  unfold td_set
  rw [Function.update_same, Function.update_same]

theorem td_set_other (m : Nat → Nat → Option ℚ) (net ipin : Nat) (v : Option ℚ) (n i : Nat)
    (h : n ≠ net ∨ i ≠ ipin) : td_set m net ipin v n i = m n i := by
  unfold td_set
  by_cases hn : n = net
  · subst hn
    rcases h with h | h
    · exact absurd rfl h
    · rw [Function.update_same, Function.update_noteq h]
  · rw [Function.update_noteq hn]

/-- The loop of `revert_td_cost` writes the sentinel into the shadow entries of the listed pins
and nothing else. -/
theorem revert_td_cost_fold (env : TimingEnv) (nl : ClusteredNetlist) (pins : List Nat) :
    ∀ st : TimingState,
    (pins.foldl (revert_td_cost_step env nl) st).connection_delay = st.connection_delay ∧
    (pins.foldl (revert_td_cost_step env nl) st).connection_timing_cost
      = st.connection_timing_cost ∧
    (pins.foldl (revert_td_cost_step env nl) st).affected_pins = st.affected_pins ∧
    (pins.foldl (revert_td_cost_step env nl) st).delta_timing_cost = st.delta_timing_cost ∧
    (∀ n i,
      ((pins.foldl (revert_td_cost_step env nl) st).proposed_connection_delay n i = INVALID_DELAY ∨
        (pins.foldl (revert_td_cost_step env nl) st).proposed_connection_delay n i
          = st.proposed_connection_delay n i) ∧
      ((pins.foldl (revert_td_cost_step env nl) st).proposed_connection_timing_cost n i
          = INVALID_DELAY ∨
        (pins.foldl (revert_td_cost_step env nl) st).proposed_connection_timing_cost n i
          = st.proposed_connection_timing_cost n i)) ∧
    (∀ pin ∈ pins,
      (pins.foldl (revert_td_cost_step env nl) st).proposed_connection_delay
          (nl.pin_net pin) (env.pin_net_index pin) = INVALID_DELAY ∧
      (pins.foldl (revert_td_cost_step env nl) st).proposed_connection_timing_cost
          (nl.pin_net pin) (env.pin_net_index pin) = INVALID_DELAY) := by
  induction pins with
  | nil =>
    intro st
    exact ⟨rfl, rfl, rfl, rfl, fun n i => ⟨Or.inr rfl, Or.inr rfl⟩,
      fun pin h => absurd h (List.not_mem_nil _)⟩
  | cons p rest ih =>
    intro st
    rw [List.foldl_cons]
    obtain ⟨a1, a2, a3, a4, a5, a6⟩ := ih (revert_td_cost_step env nl st p)
    have hstep : ∀ n i,
        ((revert_td_cost_step env nl st p).proposed_connection_delay n i = INVALID_DELAY ∨
          (revert_td_cost_step env nl st p).proposed_connection_delay n i
            = st.proposed_connection_delay n i) ∧
        ((revert_td_cost_step env nl st p).proposed_connection_timing_cost n i = INVALID_DELAY ∨
          (revert_td_cost_step env nl st p).proposed_connection_timing_cost n i
            = st.proposed_connection_timing_cost n i) := by
      intro n i
      unfold revert_td_cost_step
      dsimp only
      by_cases h : n ≠ nl.pin_net p ∨ i ≠ env.pin_net_index p
      · rw [td_set_other _ _ _ _ _ _ h, td_set_other _ _ _ _ _ _ h]
        exact ⟨Or.inr rfl, Or.inr rfl⟩
      · have hn : n = nl.pin_net p := by
          by_contra e
          exact h (Or.inl e)
        have hi : i = env.pin_net_index p := by
          by_contra e
          exact h (Or.inr e)
        subst hn hi
        rw [td_set_same, td_set_same]
        exact ⟨Or.inl rfl, Or.inl rfl⟩
    have hp : (revert_td_cost_step env nl st p).proposed_connection_delay
          (nl.pin_net p) (env.pin_net_index p) = INVALID_DELAY ∧
        (revert_td_cost_step env nl st p).proposed_connection_timing_cost
          (nl.pin_net p) (env.pin_net_index p) = INVALID_DELAY :=
      ⟨td_set_same _ _ _ _, td_set_same _ _ _ _⟩
    refine ⟨a1, a2, a3, a4, fun n i => ?_, fun pin hpin => ?_⟩
    · obtain ⟨b1, b2⟩ := a5 n i
      obtain ⟨c1, c2⟩ := hstep n i
      refine ⟨?_, ?_⟩
      · rcases b1 with b | b
        · exact Or.inl b
        · rw [b]; exact c1
      · rcases b2 with b | b
        · exact Or.inl b
        · rw [b]; exact c2
    · rcases List.mem_cons.1 hpin with e | e
      · subst e
        obtain ⟨b1, b2⟩ := a5 (nl.pin_net pin) (env.pin_net_index pin)
        refine ⟨?_, ?_⟩
        · rcases b1 with b | b
          · exact b
          · rw [b]; exact hp.1
        · rcases b2 with b | b
          · exact b
          · rw [b]; exact hp.2
      · exact a6 pin e

/-- The timing side of a `try_swap` of the criticality algorithm that is rejected. -/
theorem try_swap_td_rejected {σ : Type} (safe : Bool) (env : TimingEnv) (exp : ℚ → ℚ)
    (frand : σ → ℚ × σ) (nl : ClusteredNetlist) (grid : DeviceGrid) (fac : CostFac)
    (opts : SwapOpts) (inp : SwapInputs σ) (s : PlacerState) (costs : t_placer_costs)
    (st : TimingState)
    (halg : opts.place_algorithm = e_place_algorithm.CRITICALITY_TIMING_PLACE)
    (hrej : (try_swap exp frand nl grid fac opts inp s costs).move_outcome
      = e_move_result.REJECTED) :
    try_swap_td safe env exp frand nl grid fac opts inp s costs st
      = revert_td_cost safe env nl
          (find_affected_nets_and_update_td_costs env nl opts.place_algorithm
            (apply_move_blocks inp.moved_blocks s).block_locs inp.moved_blocks
            { st with delta_timing_cost := some 0 }) := by
  have hvalid : inp.create_move_outcome = e_create_move.VALID := by
    cases hc : inp.create_move_outcome with
    | VALID => rfl
    | ABORT =>
      unfold try_swap at hrej
      rw [hc] at hrej
      have habs : e_move_result.ABORTED = e_move_result.REJECTED := hrej
      cases habs
  unfold try_swap_td
  rw [hvalid]
  dsimp only
  rw [hrej, if_neg (by decide)]
  simp only [halg, if_true, if_neg (show e_place_algorithm.CRITICALITY_TIMING_PLACE
    ≠ e_place_algorithm.SLACK_TIMING_PLACE by decide)]

/-- C15, as amended. After `try_swap` rejects a move in `CRITICALITY_TIMING_PLACE` mode: in a
build with `VTR_ASSERT_SAFE_ENABLED`, `proposed_connection_delay` and
`proposed_connection_timing_cost` of every connection recorded in `affected_pins` hold the
invalid sentinel again; in a build without it `revert_td_cost` does nothing, and the timing
cache is as `find_affected_nets_and_update_costs` left it, the staged values included. -/
theorem try_swap_rejected_td_shadows {σ : Type} (safe : Bool) (env : TimingEnv) (exp : ℚ → ℚ)
    (frand : σ → ℚ × σ) (nl : ClusteredNetlist) (grid : DeviceGrid) (fac : CostFac)
    (opts : SwapOpts) (inp : SwapInputs σ) (s : PlacerState) (costs : t_placer_costs)
    (st : TimingState)
    (halg : opts.place_algorithm = e_place_algorithm.CRITICALITY_TIMING_PLACE)
    (hrej : (try_swap exp frand nl grid fac opts inp s costs).move_outcome
      = e_move_result.REJECTED) :
    (safe = true →
      ∀ pin ∈ (try_swap_td safe env exp frand nl grid fac opts inp s costs st).affected_pins,
        (try_swap_td safe env exp frand nl grid fac opts inp s costs st).proposed_connection_delay
            (nl.pin_net pin) (env.pin_net_index pin) = INVALID_DELAY ∧
        (try_swap_td safe env exp frand nl grid fac opts inp s costs
            st).proposed_connection_timing_cost
            (nl.pin_net pin) (env.pin_net_index pin) = INVALID_DELAY) ∧
    (safe = false →
      try_swap_td safe env exp frand nl grid fac opts inp s costs st
        = find_affected_nets_and_update_td_costs env nl opts.place_algorithm
            (apply_move_blocks inp.moved_blocks s).block_locs inp.moved_blocks
            { st with delta_timing_cost := some 0 }) := by
  rw [try_swap_td_rejected safe env exp frand nl grid fac opts inp s costs st halg hrej]
  refine ⟨fun hs => ?_, fun hs => ?_⟩
  · subst hs
    unfold revert_td_cost
    simp only [Bool.not_true, Bool.false_eq_true, if_false]
    obtain ⟨_, _, a3, _, _, a6⟩ := revert_td_cost_fold env nl
      (find_affected_nets_and_update_td_costs env nl opts.place_algorithm
        (apply_move_blocks inp.moved_blocks s).block_locs inp.moved_blocks
        { st with delta_timing_cost := some 0 }).affected_pins
      (find_affected_nets_and_update_td_costs env nl opts.place_algorithm
        (apply_move_blocks inp.moved_blocks s).block_locs inp.moved_blocks
        { st with delta_timing_cost := some 0 })
    intro pin hpin
    rw [a3] at hpin
    exact a6 pin hpin
  · subst hs
    unfold revert_td_cost
    simp only [Bool.not_false, if_true]

theorem ex_td_try_swap_rejected :
    (try_swap ex_exp ex_frand ex_nl ex_grid ex_fac ex_td_opts ex_td_inputs ex_state
      ex_td_costs).move_outcome = e_move_result.REJECTED := by
  have hb := ex_reject_bb_delta_c
  unfold try_swap
  simp only [ex_td_inputs] at hb ⊢
  rw [hb]
  norm_num [ex_td_opts, ex_td_costs, swap_delta_c, assess_swap, manual_override,
    e_place_algorithm.is_timing_driven]
  rw [if_neg (by decide)]

theorem ex_td_find_affected :
    (find_affected_nets_and_update_td_costs ex_env ex_nl
        e_place_algorithm.CRITICALITY_TIMING_PLACE
        (apply_move_blocks ex_reject_moves ex_state).block_locs ex_reject_moves
        { ex_td_state with delta_timing_cost := some 0 }).affected_pins = [4] ∧
    (find_affected_nets_and_update_td_costs ex_env ex_nl
        e_place_algorithm.CRITICALITY_TIMING_PLACE
        (apply_move_blocks ex_reject_moves ex_state).block_locs ex_reject_moves
        { ex_td_state with delta_timing_cost := some 0 }).proposed_connection_delay 0 4
      = some 5 := by
  constructor
  · decide
  · decide

/-- Witness of C15 as amended: the enlarging move is rejected under the criticality algorithm;
with `VTR_ASSERT_SAFE_ENABLED` the shadow entries of the recorded connections are invalid
again. -/
theorem try_swap_rejected_td_shadows_witness :
    ex_td_opts.place_algorithm = e_place_algorithm.CRITICALITY_TIMING_PLACE ∧
    (try_swap ex_exp ex_frand ex_nl ex_grid ex_fac ex_td_opts ex_td_inputs ex_state
      ex_td_costs).move_outcome = e_move_result.REJECTED ∧
    ∀ pin ∈ (try_swap_td true ex_env ex_exp ex_frand ex_nl ex_grid ex_fac ex_td_opts
        ex_td_inputs ex_state ex_td_costs ex_td_state).affected_pins,
      (try_swap_td true ex_env ex_exp ex_frand ex_nl ex_grid ex_fac ex_td_opts ex_td_inputs
          ex_state ex_td_costs ex_td_state).proposed_connection_delay
          (ex_nl.pin_net pin) (ex_env.pin_net_index pin) = INVALID_DELAY ∧
      (try_swap_td true ex_env ex_exp ex_frand ex_nl ex_grid ex_fac ex_td_opts ex_td_inputs
          ex_state ex_td_costs ex_td_state).proposed_connection_timing_cost
          (ex_nl.pin_net pin) (ex_env.pin_net_index pin) = INVALID_DELAY :=
  ⟨rfl, ex_td_try_swap_rejected,
    (try_swap_rejected_td_shadows true ex_env ex_exp ex_frand ex_nl ex_grid ex_fac ex_td_opts
      ex_td_inputs ex_state ex_td_costs ex_td_state rfl ex_td_try_swap_rejected).1 rfl⟩

/-- Counterexample to C15 as stated: in a build without `VTR_ASSERT_SAFE_ENABLED` the enlarging
move is rejected under the criticality algorithm, every shadow entry held the sentinel before
the swap, the connection of pin 4 is recorded in `affected_pins`, and after the swap its
`proposed_connection_delay` is the staged delay 5, not the sentinel. -/
theorem try_swap_rejected_td_shadows_counterexample :
    ex_td_opts.place_algorithm = e_place_algorithm.CRITICALITY_TIMING_PLACE ∧
    (try_swap ex_exp ex_frand ex_nl ex_grid ex_fac ex_td_opts ex_td_inputs ex_state
      ex_td_costs).move_outcome = e_move_result.REJECTED ∧
    (∀ net ipin, ex_td_state.proposed_connection_delay net ipin = INVALID_DELAY ∧
      ex_td_state.proposed_connection_timing_cost net ipin = INVALID_DELAY) ∧
    4 ∈ (try_swap_td false ex_env ex_exp ex_frand ex_nl ex_grid ex_fac ex_td_opts ex_td_inputs
      ex_state ex_td_costs ex_td_state).affected_pins ∧
    (try_swap_td false ex_env ex_exp ex_frand ex_nl ex_grid ex_fac ex_td_opts ex_td_inputs
        ex_state ex_td_costs ex_td_state).proposed_connection_delay
        (ex_nl.pin_net 4) (ex_env.pin_net_index 4) = some 5 ∧
    (try_swap_td false ex_env ex_exp ex_frand ex_nl ex_grid ex_fac ex_td_opts ex_td_inputs
        ex_state ex_td_costs ex_td_state).proposed_connection_delay
        (ex_nl.pin_net 4) (ex_env.pin_net_index 4) ≠ INVALID_DELAY := by
  have hshape := try_swap_td_rejected false ex_env ex_exp ex_frand ex_nl ex_grid ex_fac
    ex_td_opts ex_td_inputs ex_state ex_td_costs ex_td_state rfl ex_td_try_swap_rejected
  have hrev : ∀ st, revert_td_cost false ex_env ex_nl st = st := fun st => rfl
  rw [hrev] at hshape
  obtain ⟨h1, h2⟩ := ex_td_find_affected
  refine ⟨rfl, ex_td_try_swap_rejected, fun _ _ => ⟨rfl, rfl⟩, ?_, ?_, ?_⟩
  · rw [hshape]
    show 4 ∈ (find_affected_nets_and_update_td_costs ex_env ex_nl
        e_place_algorithm.CRITICALITY_TIMING_PLACE
        (apply_move_blocks ex_reject_moves ex_state).block_locs ex_reject_moves
        { ex_td_state with delta_timing_cost := some 0 }).affected_pins
    rw [h1]
    exact List.mem_singleton.2 rfl
  · rw [hshape]
    exact h2
  · rw [hshape]
    show (find_affected_nets_and_update_td_costs ex_env ex_nl
        e_place_algorithm.CRITICALITY_TIMING_PLACE
        (apply_move_blocks ex_reject_moves ex_state).block_locs ex_reject_moves
        { ex_td_state with delta_timing_cost := some 0 }).proposed_connection_delay 0 4
      ≠ INVALID_DELAY
    rw [h2]
    exact fun e => Option.noConfusion e

/-! ## The timing delta of one call of `update_td_delta_costs` -/

/-- Adding numbers with `nan_add` gives the number that is their sum. -/
theorem nan_add_foldl_some (l : List ℚ) : ∀ d : ℚ,
    (l.map some).foldl nan_add (some d) = some (d + l.sum) := by
  induction l with
  | nil => intro d; simp
  | cons x rest ih =>
    intro d
    rw [List.map_cons, List.foldl_cons, List.sum_cons]
    show (rest.map some).foldl nan_add (some (d + x)) = _
    rw [ih]
    congr 1
    ring

/-- One step of `update_td_connection`, by cases on whether the delay has changed. -/
theorem update_td_connection_cases (env : TimingEnv) (block_locs : Nat → t_pl_loc) (net : Nat)
    (st : TimingState) (ipin sink_pin : Nat) :
    (td_delay_changed env block_locs st.connection_delay net ipin = false ∧
      update_td_connection env block_locs net st ipin sink_pin = st) ∨
    (td_delay_changed env block_locs st.connection_delay net ipin = true ∧
      update_td_connection env block_locs net st ipin sink_pin
        = { st with
            proposed_connection_delay := td_set st.proposed_connection_delay net ipin
              (some (env.comp_td_single_connection_delay block_locs net ipin))
            proposed_connection_timing_cost :=
              td_set st.proposed_connection_timing_cost net ipin
                (some (env.criticality net ipin
                  * env.comp_td_single_connection_delay block_locs net ipin))
            delta_timing_cost := nan_add st.delta_timing_cost
              (td_cost_change env block_locs st.connection_timing_cost net ipin)
            affected_pins := st.affected_pins ++ [sink_pin] }) := by
  unfold update_td_connection td_delay_changed td_cost_change
  dsimp only
  by_cases h : nan_eq (some (env.comp_td_single_connection_delay block_locs net ipin))
      (st.connection_delay net ipin) = true
  · left
    rw [if_pos h, h]
    exact ⟨rfl, rfl⟩
  · right
    rw [if_neg h]
    have h2 : nan_eq (some (env.comp_td_single_connection_delay block_locs net ipin))
        (st.connection_delay net ipin) = false := by
      simpa using h
    rw [h2]
    exact ⟨rfl, rfl⟩

/-- A run of `update_td_connection` over a list of connections of one net: it appends the sink
pins of the connections whose delay has changed, adds their cost changes to the delta, stages
their delays and costs, and writes nothing else. -/
theorem update_td_connection_fold (env : TimingEnv) (block_locs : Nat → t_pl_loc) (net : Nat)
    (cs : List (Nat × Nat)) : ∀ st : TimingState,
    (cs.foldl (fun acc c => update_td_connection env block_locs net acc c.1 c.2)
        st).connection_delay = st.connection_delay ∧
    (cs.foldl (fun acc c => update_td_connection env block_locs net acc c.1 c.2)
        st).connection_timing_cost = st.connection_timing_cost ∧
    (cs.foldl (fun acc c => update_td_connection env block_locs net acc c.1 c.2)
        st).affected_pins
      = st.affected_pins ++ (cs.filter
          (fun c => td_delay_changed env block_locs st.connection_delay net c.1)).map Prod.snd ∧
    (cs.foldl (fun acc c => update_td_connection env block_locs net acc c.1 c.2)
        st).delta_timing_cost
      = ((cs.filter (fun c => td_delay_changed env block_locs st.connection_delay net c.1)).map
          (fun c => td_cost_change env block_locs st.connection_timing_cost net c.1)).foldl
          nan_add st.delta_timing_cost ∧
    (∀ n i, (¬ ∃ c ∈ cs.filter
          (fun c => td_delay_changed env block_locs st.connection_delay net c.1),
          n = net ∧ i = c.1) →
      (cs.foldl (fun acc c => update_td_connection env block_locs net acc c.1 c.2)
          st).proposed_connection_delay n i = st.proposed_connection_delay n i ∧
      (cs.foldl (fun acc c => update_td_connection env block_locs net acc c.1 c.2)
          st).proposed_connection_timing_cost n i = st.proposed_connection_timing_cost n i) ∧
    (∀ c ∈ cs.filter (fun c => td_delay_changed env block_locs st.connection_delay net c.1),
      (cs.foldl (fun acc c => update_td_connection env block_locs net acc c.1 c.2)
          st).proposed_connection_delay net c.1
        = some (env.comp_td_single_connection_delay block_locs net c.1) ∧
      (cs.foldl (fun acc c => update_td_connection env block_locs net acc c.1 c.2)
          st).proposed_connection_timing_cost net c.1
        = some (env.criticality net c.1
            * env.comp_td_single_connection_delay block_locs net c.1)) := by
  induction cs with
  | nil =>
    intro st
    refine ⟨rfl, rfl, ?_, rfl, fun _ _ _ => ⟨rfl, rfl⟩, fun c h => ?_⟩
    · simp
    · simp at h
  | cons c rest ih =>
    intro st
    rw [List.foldl_cons]
    obtain ⟨a1, a2, a3, a4, a5, a6⟩ :=
      ih (update_td_connection env block_locs net st c.1 c.2)
    rcases update_td_connection_cases env block_locs net st c.1 c.2 with ⟨hc, e⟩ | ⟨hc, e⟩
    · rw [e] at a1 a2 a3 a4 a5 a6 ⊢
      have hf : List.filter
          (fun c => td_delay_changed env block_locs st.connection_delay net c.1) (c :: rest)
          = List.filter
            (fun c => td_delay_changed env block_locs st.connection_delay net c.1) rest := by
        rw [List.filter_cons]
        simp only [hc, Bool.false_eq_true, if_false]
      rw [hf]
      exact ⟨a1, a2, a3, a4, a5, a6⟩
    · have e1 : (update_td_connection env block_locs net st c.1 c.2).connection_delay
          = st.connection_delay := by rw [e]
      have e2 : (update_td_connection env block_locs net st c.1 c.2).connection_timing_cost
          = st.connection_timing_cost := by rw [e]
      rw [e1] at a1 a3 a4 a5 a6
      rw [e2] at a2 a4
      have hf : List.filter
          (fun c => td_delay_changed env block_locs st.connection_delay net c.1) (c :: rest)
          = c :: List.filter
            (fun c => td_delay_changed env block_locs st.connection_delay net c.1) rest := by
        rw [List.filter_cons]
        simp only [hc, if_true]
      rw [hf]
      refine ⟨a1, a2, ?_, ?_, ?_, ?_⟩
      · rw [a3, e]
        simp only [List.map_cons, List.append_assoc, List.singleton_append]
      · rw [a4, e]
        simp only [List.map_cons, List.foldl_cons]
      · intro n i hni
        have hrest : ¬ ∃ c2 ∈ rest.filter
            (fun c => td_delay_changed env block_locs st.connection_delay net c.1),
            n = net ∧ i = c2.1 := by
          rintro ⟨c2, h1, h2⟩
          exact hni ⟨c2, List.mem_cons_of_mem _ h1, h2⟩
        obtain ⟨b1, b2⟩ := a5 n i hrest
        have hne : n ≠ net ∨ i ≠ c.1 := by
          by_contra hcon
          push_neg at hcon
          exact hni ⟨c, List.mem_cons_self _ _, hcon⟩
        rw [b1, b2, e]
        exact ⟨td_set_other _ _ _ _ _ _ hne, td_set_other _ _ _ _ _ _ hne⟩
      · intro c2 hc2
        rcases List.mem_cons.1 hc2 with h | h
        · subst h
          by_cases hin : ∃ c3 ∈ rest.filter
              (fun c => td_delay_changed env block_locs st.connection_delay net c.1),
              net = net ∧ c2.1 = c3.1
          · obtain ⟨c3, h3, _, h4⟩ := hin
            have h5 := a6 c3 h3
            rw [← h4] at h5
            exact h5
          · obtain ⟨b1, b2⟩ := a5 net c2.1 hin
            rw [b1, b2, e]
            exact ⟨td_set_same _ _ _ _, td_set_same _ _ _ _⟩
        · exact a6 c2 h

/-- Function `update_td_delta_costs` is a run of `update_td_connection` over the connections
that `td_candidates` lists. -/
theorem update_td_delta_costs_eq (env : TimingEnv) (nl : ClusteredNetlist)
    (block_locs : Nat → t_pl_loc) (moved_blocks : List t_pl_moved_block) (net pin : Nat)
    (st : TimingState) :
    update_td_delta_costs env nl block_locs moved_blocks net pin st
      = (td_candidates env nl moved_blocks net pin).foldl
          (fun acc c => update_td_connection env block_locs net acc c.1 c.2) st := by
  unfold update_td_delta_costs td_candidates
  by_cases hd : nl.pin_is_driver pin = true
  · rw [if_pos hd, if_pos hd, List.foldl_map]
  · rw [if_neg hd, if_neg hd]
    by_cases hm : (!driven_by_moved_block nl net moved_blocks) = true
    · rw [if_pos hm, if_pos hm]
      rfl
    · rw [if_neg hm, if_neg hm]
      rfl

/-- C16. Timing delta: each call of `update_td_delta_costs` appends to `affected_pins` the sink
pins of the recomputed connections whose delay differs from the committed `connection_delay`,
and increases `delta_timing_cost` by exactly the sum, over the connections it appends, of
`criticality(net, sink) * new_delay` minus the committed `connection_timing_cost`; the staged
`proposed_*` entries of the appended connections are the new delay and that product; a
connection whose recomputed delay equals the committed delay is not appended, contributes
nothing, and its `proposed_*` entries are not written; the committed arrays are not written. -/
theorem update_td_delta_costs_spec (env : TimingEnv) (nl : ClusteredNetlist)
    (block_locs : Nat → t_pl_loc) (moved_blocks : List t_pl_moved_block) (net pin : Nat)
    (st : TimingState) :
    ∃ appended : List (Nat × Nat),
      appended = (td_candidates env nl moved_blocks net pin).filter
        (fun c => td_delay_changed env block_locs st.connection_delay net c.1) ∧
      (update_td_delta_costs env nl block_locs moved_blocks net pin st).affected_pins
        = st.affected_pins ++ appended.map Prod.snd ∧
      (update_td_delta_costs env nl block_locs moved_blocks net pin st).delta_timing_cost
        = (appended.map
            (fun c => td_cost_change env block_locs st.connection_timing_cost net c.1)).foldl
            nan_add st.delta_timing_cost ∧
      (∀ d : ℚ, ∀ cost : Nat → ℚ, st.delta_timing_cost = some d →
        (∀ c ∈ appended, st.connection_timing_cost net c.1 = some (cost c.1)) →
        (update_td_delta_costs env nl block_locs moved_blocks net pin st).delta_timing_cost
          = some (d + (appended.map (fun c => env.criticality net c.1
              * env.comp_td_single_connection_delay block_locs net c.1 - cost c.1)).sum)) ∧
      (∀ c ∈ appended,
        (update_td_delta_costs env nl block_locs moved_blocks net pin
            st).proposed_connection_delay net c.1
          = some (env.comp_td_single_connection_delay block_locs net c.1) ∧
        (update_td_delta_costs env nl block_locs moved_blocks net pin
            st).proposed_connection_timing_cost net c.1
          = some (env.criticality net c.1
              * env.comp_td_single_connection_delay block_locs net c.1)) ∧
      (∀ c ∈ td_candidates env nl moved_blocks net pin,
        nan_eq (some (env.comp_td_single_connection_delay block_locs net c.1))
          (st.connection_delay net c.1) = true →
        c ∉ appended ∧
        (update_td_delta_costs env nl block_locs moved_blocks net pin
            st).proposed_connection_delay net c.1 = st.proposed_connection_delay net c.1 ∧
        (update_td_delta_costs env nl block_locs moved_blocks net pin
            st).proposed_connection_timing_cost net c.1
          = st.proposed_connection_timing_cost net c.1) ∧
      (∀ n i, (¬ ∃ c ∈ appended, n = net ∧ i = c.1) →
        (update_td_delta_costs env nl block_locs moved_blocks net pin
            st).proposed_connection_delay n i = st.proposed_connection_delay n i ∧
        (update_td_delta_costs env nl block_locs moved_blocks net pin
            st).proposed_connection_timing_cost n i = st.proposed_connection_timing_cost n i) ∧
      (update_td_delta_costs env nl block_locs moved_blocks net pin st).connection_delay
        = st.connection_delay ∧
      (update_td_delta_costs env nl block_locs moved_blocks net pin st).connection_timing_cost
        = st.connection_timing_cost := by
  refine ⟨_, rfl, ?_⟩
  rw [update_td_delta_costs_eq]
  obtain ⟨a1, a2, a3, a4, a5, a6⟩ := update_td_connection_fold env block_locs net
    (td_candidates env nl moved_blocks net pin) st
  refine ⟨a3, a4, ?_, a6, ?_, a5, a1, a2⟩
  · intro d cost hd hcost
    rw [a4, hd]
    have hmap : (List.filter
          (fun c => td_delay_changed env block_locs st.connection_delay net c.1)
          (td_candidates env nl moved_blocks net pin)).map
          (fun c => td_cost_change env block_locs st.connection_timing_cost net c.1)
        = ((List.filter
          (fun c => td_delay_changed env block_locs st.connection_delay net c.1)
          (td_candidates env nl moved_blocks net pin)).map
          (fun c => env.criticality net c.1
              * env.comp_td_single_connection_delay block_locs net c.1 - cost c.1)).map some := by
      rw [List.map_map]
      apply List.map_congr_left
      intro c hc
      unfold td_cost_change
      rw [hcost c hc]
      rfl
    rw [hmap, nan_add_foldl_some]
  · intro c _ heq
    have hno : ∀ c2 ∈ List.filter
        (fun c => td_delay_changed env block_locs st.connection_delay net c.1)
        (td_candidates env nl moved_blocks net pin), c.1 ≠ c2.1 := by
      intro c2 hmem e
      have h2 := (List.mem_filter.1 hmem).2
      unfold td_delay_changed at h2
      rw [← e, heq] at h2
      exact absurd h2 (by decide)
    refine ⟨fun hmem => hno c hmem rfl, ?_⟩
    apply a5
    rintro ⟨c2, hmem, _, e⟩
    exact hno c2 hmem e

/-! ## The timing part of the pin loop -/

/-- The two nested loops of the timing part visit the pins of `pin_seq` in order. -/
theorem td_blocks_foldl_eq (env : TimingEnv) (nl : ClusteredNetlist)
    (alg : e_place_algorithm) (block_locs : Nat → t_pl_loc) (moves : List t_pl_moved_block)
    (ms : List t_pl_moved_block) : ∀ st : TimingState,
    ms.foldl (fun acc mb => (nl.block_pins mb.block_num).foldl
        (affected_pin_step_td env nl alg block_locs moves) acc) st
      = ((pin_seq nl ms).map Prod.snd).foldl
          (affected_pin_step_td env nl alg block_locs moves) st := by
  induction ms with
  | nil => intro st; rfl
  | cons mb rest ih =>
    intro st
    rw [List.foldl_cons, map_snd_pin_seq_cons, List.foldl_append, ih]

/-- One visit of the timing part of the pin loop. -/
theorem affected_pin_step_td_spec (env : TimingEnv) (nl : ClusteredNetlist)
    (alg : e_place_algorithm) (block_locs : Nat → t_pl_loc) (moves : List t_pl_moved_block)
    (st : TimingState) (p : Nat) :
    (affected_pin_step_td env nl alg block_locs moves st p).connection_delay
      = st.connection_delay ∧
    (affected_pin_step_td env nl alg block_locs moves st p).connection_timing_cost
      = st.connection_timing_cost ∧
    (affected_pin_step_td env nl alg block_locs moves st p).affected_pins
      = st.affected_pins
        ++ (td_visit_appended env nl alg block_locs moves st.connection_delay p).map Prod.snd ∧
    (affected_pin_step_td env nl alg block_locs moves st p).delta_timing_cost
      = ((td_visit_appended env nl alg block_locs moves st.connection_delay p).map
          (fun c => td_cost_change env block_locs st.connection_timing_cost (nl.pin_net p)
            c.1)).foldl nan_add st.delta_timing_cost ∧
    (∀ n i, (¬ ∃ c ∈ td_visit_appended env nl alg block_locs moves st.connection_delay p,
          n = nl.pin_net p ∧ i = c.1) →
      (affected_pin_step_td env nl alg block_locs moves st p).proposed_connection_delay n i
        = st.proposed_connection_delay n i ∧
      (affected_pin_step_td env nl alg block_locs moves st p).proposed_connection_timing_cost n i
        = st.proposed_connection_timing_cost n i) ∧
    (∀ c ∈ td_visit_appended env nl alg block_locs moves st.connection_delay p,
      (affected_pin_step_td env nl alg block_locs moves st p).proposed_connection_delay
          (nl.pin_net p) c.1
        = some (env.comp_td_single_connection_delay block_locs (nl.pin_net p) c.1) ∧
      (affected_pin_step_td env nl alg block_locs moves st p).proposed_connection_timing_cost
          (nl.pin_net p) c.1
        = some (env.criticality (nl.pin_net p) c.1
            * env.comp_td_single_connection_delay block_locs (nl.pin_net p) c.1)) := by
  unfold affected_pin_step_td td_visit_appended
  dsimp only
  by_cases hi : nl.net_is_ignored (nl.pin_net p) = true
  · rw [if_pos hi, if_pos hi]
    refine ⟨rfl, rfl, ?_, rfl, fun _ _ _ => ⟨rfl, rfl⟩, fun c h => ?_⟩
    · simp
    · simp at h
  · rw [if_neg hi, if_neg hi]
    by_cases ht : alg.is_timing_driven = true
    · rw [if_pos ht, if_pos ht, update_td_delta_costs_eq]
      exact update_td_connection_fold env block_locs (nl.pin_net p)
        (td_candidates env nl moves (nl.pin_net p) p) st
    · rw [if_neg ht, if_neg ht]
      refine ⟨rfl, rfl, ?_, rfl, fun _ _ _ => ⟨rfl, rfl⟩, fun c h => ?_⟩
      · simp
      · simp at h

/-- The timing part of the pin loop over a list of visited pins: it appends the connections
whose delay has changed, visit by visit, adds their cost changes to the delta and stages their
new delays and costs. -/
theorem td_fold_spec (env : TimingEnv) (nl : ClusteredNetlist)
    (alg : e_place_algorithm) (block_locs : Nat → t_pl_loc) (moves : List t_pl_moved_block)
    (ps : List Nat) : ∀ st : TimingState,
    (ps.foldl (affected_pin_step_td env nl alg block_locs moves) st).connection_delay
      = st.connection_delay ∧
    (ps.foldl (affected_pin_step_td env nl alg block_locs moves) st).connection_timing_cost
      = st.connection_timing_cost ∧
    (ps.foldl (affected_pin_step_td env nl alg block_locs moves) st).affected_pins
      = st.affected_pins ++ ps.flatMap (fun p =>
          (td_visit_appended env nl alg block_locs moves st.connection_delay p).map Prod.snd) ∧
    (ps.foldl (affected_pin_step_td env nl alg block_locs moves) st).delta_timing_cost
      = (ps.flatMap (fun p =>
          (td_visit_appended env nl alg block_locs moves st.connection_delay p).map
            (fun c => td_cost_change env block_locs st.connection_timing_cost (nl.pin_net p)
              c.1))).foldl nan_add st.delta_timing_cost ∧
    (∀ n i,
      ((∃ p ∈ ps, ∃ c ∈ td_visit_appended env nl alg block_locs moves st.connection_delay p,
          n = nl.pin_net p ∧ i = c.1) →
        (ps.foldl (affected_pin_step_td env nl alg block_locs moves) st).proposed_connection_delay
            n i = some (env.comp_td_single_connection_delay block_locs n i) ∧
        (ps.foldl (affected_pin_step_td env nl alg block_locs moves)
            st).proposed_connection_timing_cost n i
          = some (env.criticality n i * env.comp_td_single_connection_delay block_locs n i)) ∧
      ((¬ ∃ p ∈ ps, ∃ c ∈ td_visit_appended env nl alg block_locs moves st.connection_delay p,
          n = nl.pin_net p ∧ i = c.1) →
        (ps.foldl (affected_pin_step_td env nl alg block_locs moves) st).proposed_connection_delay
            n i = st.proposed_connection_delay n i ∧
        (ps.foldl (affected_pin_step_td env nl alg block_locs moves)
            st).proposed_connection_timing_cost n i
          = st.proposed_connection_timing_cost n i)) := by
  induction ps with
  | nil =>
    intro st
    refine ⟨rfl, rfl, ?_, rfl, fun n i => ⟨?_, fun _ => ⟨rfl, rfl⟩⟩⟩
    · simp
    · rintro ⟨p, hp, _⟩
      exact absurd hp (List.not_mem_nil _)
  | cons p rest ih =>
    intro st
    rw [List.foldl_cons]
    obtain ⟨a1, a2, a3, a4, a5⟩ := ih (affected_pin_step_td env nl alg block_locs moves st p)
    obtain ⟨b1, b2, b3, b4, b5, b6⟩ :=
      affected_pin_step_td_spec env nl alg block_locs moves st p
    rw [b1] at a1 a3 a4 a5
    rw [b2] at a2 a4
    refine ⟨a1, a2, ?_, ?_, ?_⟩
    · rw [a3, b3, List.flatMap_cons, List.append_assoc]
    · rw [a4, b4, List.flatMap_cons, List.foldl_append]
    · intro n i
      obtain ⟨c1, c2⟩ := a5 n i
      by_cases hrest : ∃ q ∈ rest,
          ∃ c ∈ td_visit_appended env nl alg block_locs moves st.connection_delay q,
          n = nl.pin_net q ∧ i = c.1
      · refine ⟨fun _ => c1 hrest, fun hno => ?_⟩
        obtain ⟨q, hq, hc⟩ := hrest
        exact absurd ⟨q, List.mem_cons_of_mem _ hq, hc⟩ hno
      · obtain ⟨d1, d2⟩ := c2 hrest
        rw [d1, d2]
        refine ⟨fun hex => ?_, fun hno => ?_⟩
        · obtain ⟨q, hq, c, hc, hn, hi⟩ := hex
          rcases List.mem_cons.1 hq with e | e
          · subst e
            subst hn
            subst hi
            exact b6 c hc
          · exact absurd ⟨q, e, c, hc, hn, hi⟩ hrest
        · apply b5
          rintro ⟨c, hc, hn, hi⟩
          exact hno ⟨p, List.mem_cons_self _ _, c, hc, hn, hi⟩

/-! ## No connection is appended twice -/

/-- A pin of a list is the entry at one of its indices, read as `net_pin` reads it. -/
theorem mem_iff_getD (l : List Nat) (a : Nat) :
    a ∈ l ↔ ∃ j, j < l.length ∧ l.getD j 0 = a := by
  rw [List.mem_iff_getElem]
  constructor
  · rintro ⟨j, hj, e⟩
    exact ⟨j, hj, by rw [List.getD_eq_getElem _ _ hj]; exact e⟩
  · rintro ⟨j, hj, e⟩
    exact ⟨j, hj, by rw [List.getD_eq_getElem _ _ hj] at e; exact e⟩

/-- On a duplicate free list, reading at two indices of the list gives the same entry only
for the same index. -/
theorem getD_inj_of_nodup (l : List Nat) (hnd : l.Nodup) (i j : Nat) (hi : i < l.length)
    (hj : j < l.length) (e : l.getD i 0 = l.getD j 0) : i = j := by
  rw [List.getD_eq_getElem _ _ hi, List.getD_eq_getElem _ _ hj] at e
  exact (List.Nodup.getElem_inj_iff hnd).1 e

/-- What is known of a connection `(i, r)` that the visit of the pin `p` of a moved block
appends: the net is not ignored, the algorithm is timing driven, the delay has changed, `r` is
pin number `i >= 1` of the net of `p`, and either `p` is the driver of that net, or `r` is `p`
itself, a sink of a net that no moved block drives. -/
theorem td_visit_appended_mem (env : TimingEnv) (nl : ClusteredNetlist)
    (alg : e_place_algorithm) (block_locs : Nat → t_pl_loc) (moves : List t_pl_moved_block)
    (cd : Nat → Nat → Option ℚ) (hnl : netlist_consistent nl)
    (htd : netlist_td_consistent nl env) (blk p : Nat) (hblk : blk < nl.num_blocks)
    (hp : p ∈ nl.block_pins blk) (c : Nat × Nat)
    (hc : c ∈ td_visit_appended env nl alg block_locs moves cd p) :
    nl.net_is_ignored (nl.pin_net p) = false ∧ alg.is_timing_driven = true ∧
    td_delay_changed env block_locs cd (nl.pin_net p) c.1 = true ∧
    nl.pin_net p < nl.num_nets ∧ 1 ≤ c.1 ∧ c.1 < (nl.net_pins (nl.pin_net p)).length ∧
    nl.net_pin (nl.pin_net p) c.1 = c.2 ∧ nl.pin_net c.2 = nl.pin_net p ∧
    env.pin_net_index c.2 = c.1 ∧
    (p = nl.net_driver (nl.pin_net p) ∨
      (c.2 = p ∧ driven_by_moved_block nl (nl.pin_net p) moves = false)) := by
  obtain ⟨hnets, hblocks⟩ := hnl
  obtain ⟨hidx, hdrv⟩ := htd
  obtain ⟨_, hpin⟩ := hblocks blk hblk
  obtain ⟨hpb, hpn, hpm⟩ := hpin p hp
  obtain ⟨hnd, hnet⟩ := hnets (nl.pin_net p) hpn
  unfold td_visit_appended at hc
  by_cases hi : nl.net_is_ignored (nl.pin_net p) = true
  · rw [if_pos hi] at hc
    exact absurd hc (List.not_mem_nil _)
  rw [if_neg hi] at hc
  by_cases ht : alg.is_timing_driven = true
  swap
  · rw [if_neg ht] at hc
    exact absurd hc (List.not_mem_nil _)
  rw [if_pos ht] at hc
  obtain ⟨hcand, hch⟩ := List.mem_filter.1 hc
  have hi2 : nl.net_is_ignored (nl.pin_net p) = false := by simpa using hi
  unfold td_candidates at hcand
  by_cases hd : nl.pin_is_driver p = true
  · rw [if_pos hd] at hcand
    obtain ⟨j, hj, e⟩ := List.mem_map.1 hcand
    obtain ⟨hj1, hj2⟩ := List.mem_range'_1.1 hj
    have hlen : 1 ≤ (nl.net_pins (nl.pin_net p)).length := by
      unfold ClusteredNetlist.net_pins
      simp
    have hj3 : j < (nl.net_pins (nl.pin_net p)).length := by omega
    have e1 : c.1 = j := by rw [← e]
    have e2 : c.2 = nl.net_pin (nl.pin_net p) j := by rw [← e]
    have hmem : c.2 ∈ nl.net_pins (nl.pin_net p) := by
      rw [e2]
      exact (mem_iff_getD _ _).2 ⟨j, hj3, rfl⟩
    refine ⟨hi2, ht, hch, hpn, by omega, by omega, by rw [e1, e2], (hnet c.2 hmem).1, ?_,
      Or.inl ((hdrv blk hblk p hp).1 hd)⟩
    rw [e2, e1]
    exact hidx (nl.pin_net p) hpn j hj3
  · rw [if_neg hd] at hcand
    by_cases hm : (!driven_by_moved_block nl (nl.pin_net p) moves) = true
    swap
    · rw [if_neg hm] at hcand
      exact absurd hcand (List.not_mem_nil _)
    rw [if_pos hm] at hcand
    have e := List.mem_singleton.1 hcand
    have e1 : c.1 = env.pin_net_index p := by rw [e]
    have e2 : c.2 = p := by rw [e]
    obtain ⟨j, hj, hjp⟩ := (mem_iff_getD _ _).1 hpm
    have hjidx : env.pin_net_index p = j := by
      have := hidx (nl.pin_net p) hpn j hj
      unfold ClusteredNetlist.net_pin at this
      rw [hjp] at this
      exact this
    have hj0 : j ≠ 0 := by
      intro h0
      rw [h0] at hjp
      have hdr : p = nl.net_driver (nl.pin_net p) := by
        have h1 : (nl.net_pins (nl.pin_net p)).getD 0 0 = nl.net_driver (nl.pin_net p) := rfl
        rw [← h1]
        exact hjp.symm
      exact hd ((hdrv blk hblk p hp).2 hdr)
    have hm2 : driven_by_moved_block nl (nl.pin_net p) moves = false := by simpa using hm
    refine ⟨hi2, ht, hch, hpn, by omega, by omega, ?_, by rw [e2], by rw [e2, e1],
      Or.inr ⟨e2, hm2⟩⟩
    rw [e1, e2, hjidx]
    exact hjp

/-- The sink pins that one visit appends are distinct. -/
theorem td_visit_appended_nodup (env : TimingEnv) (nl : ClusteredNetlist)
    (alg : e_place_algorithm) (block_locs : Nat → t_pl_loc) (moves : List t_pl_moved_block)
    (cd : Nat → Nat → Option ℚ) (p : Nat) (hnd : (nl.net_pins (nl.pin_net p)).Nodup) :
    ((td_visit_appended env nl alg block_locs moves cd p).map Prod.snd).Nodup := by
  unfold td_visit_appended
  split_ifs
  · exact List.nodup_nil
  · apply List.Nodup.sublist (List.Sublist.map Prod.snd (List.filter_sublist _))
    unfold td_candidates
    split_ifs
    · rw [List.map_map]
      apply List.Nodup.map_on _ (List.nodup_range' 1 _)
      intro x hx y hy e
      obtain ⟨hx1, hx2⟩ := List.mem_range'_1.1 hx
      obtain ⟨hy1, hy2⟩ := List.mem_range'_1.1 hy
      have hlen : 1 ≤ (nl.net_pins (nl.pin_net p)).length := by
        unfold ClusteredNetlist.net_pins
        simp
      exact getD_inj_of_nodup _ hnd x y (by omega) (by omega) e
    · simp
    · exact List.nodup_nil
  · exact List.nodup_nil

/-- A visited pin is a pin of a moved block. -/
theorem mem_visited (nl : ClusteredNetlist) (moves : List t_pl_moved_block) (p : Nat)
    (hp : p ∈ (pin_seq nl moves).map Prod.snd) :
    ∃ mb ∈ moves, p ∈ nl.block_pins mb.block_num := by
  obtain ⟨mp, hmp, e⟩ := List.mem_map.1 hp
  obtain ⟨h1, h2⟩ := (mem_pin_seq nl moves mp).1 hmp
  exact ⟨mp.1, h1, by rw [← e]; exact h2⟩

/-- A pin of a moved block is visited. -/
theorem visited_of_mem (nl : ClusteredNetlist) (moves : List t_pl_moved_block)
    (mb : t_pl_moved_block) (p : Nat) (hmb : mb ∈ moves) (hp : p ∈ nl.block_pins mb.block_num) :
    p ∈ (pin_seq nl moves).map Prod.snd :=
  List.mem_map.2 ⟨(mb, p), (mem_pin_seq nl moves (mb, p)).2 ⟨hmb, hp⟩, rfl⟩

/-- The net of a driver pin on a moved block is driven by a moved block. -/
theorem driven_of_driver_visited (nl : ClusteredNetlist) (moves : List t_pl_moved_block)
    (mb : t_pl_moved_block) (p : Nat) (hmb : mb ∈ moves) (hpb : nl.pin_block p = mb.block_num)
    (hdr : p = nl.net_driver (nl.pin_net p)) :
    driven_by_moved_block nl (nl.pin_net p) moves = true := by
  unfold driven_by_moved_block
  rw [List.any_eq_true]
  refine ⟨mb, hmb, ?_⟩
  unfold ClusteredNetlist.net_driver_block
  rw [← hdr, hpb]
  simp

/-- The sink pins appended by the visits of the pins of distinct moved blocks are distinct. -/
theorem td_appended_nodup (env : TimingEnv) (nl : ClusteredNetlist)
    (alg : e_place_algorithm) (block_locs : Nat → t_pl_loc) (moves : List t_pl_moved_block)
    (cd : Nat → Nat → Option ℚ) (hnl : netlist_consistent nl)
    (htd : netlist_td_consistent nl env)
    (hdist : (moves.map (fun mb => mb.block_num)).Nodup)
    (hblk : ∀ mb ∈ moves, mb.block_num < nl.num_blocks) :
    (((pin_seq nl moves).map Prod.snd).flatMap (fun p =>
      (td_visit_appended env nl alg block_locs moves cd p).map Prod.snd)).Nodup := by
  have hV : ((pin_seq nl moves).map Prod.snd).Nodup := by
    apply nodup_pin_seq nl moves hdist
    intro mb hmb
    obtain ⟨h1, h2⟩ := hnl.2 mb.block_num (hblk mb hmb)
    exact ⟨h1, fun p hp => (h2 p hp).1⟩
  rw [List.nodup_flatMap]
  refine ⟨fun p hp => ?_, ?_⟩
  · obtain ⟨mb, hmb, hpm⟩ := mem_visited nl moves p hp
    have hpn := ((hnl.2 mb.block_num (hblk mb hmb)).2 p hpm).2.1
    exact td_visit_appended_nodup env nl alg block_locs moves cd p (hnl.1 _ hpn).1
  · apply List.Nodup.pairwise_of_forall_ne hV
    intro p hp q hq hpq
    show List.Disjoint _ _
    intro r hr1 hr2
    obtain ⟨mb1, hmb1, hpm1⟩ := mem_visited nl moves p hp
    obtain ⟨mb2, hmb2, hpm2⟩ := mem_visited nl moves q hq
    obtain ⟨c1, hc1, e1⟩ := List.mem_map.1 hr1
    obtain ⟨c2, hc2, e2⟩ := List.mem_map.1 hr2
    obtain ⟨_, _, _, _, _, _, _, n1, _, o1⟩ := td_visit_appended_mem env nl alg block_locs moves
      cd hnl htd mb1.block_num p (hblk mb1 hmb1) hpm1 c1 hc1
    obtain ⟨_, _, _, _, _, _, _, n2, _, o2⟩ := td_visit_appended_mem env nl alg block_locs moves
      cd hnl htd mb2.block_num q (hblk mb2 hmb2) hpm2 c2 hc2
    rw [e1] at n1 o1
    rw [e2] at n2 o2
    have hnet : nl.pin_net p = nl.pin_net q := by rw [← n1, ← n2]
    have hpb1 := ((hnl.2 mb1.block_num (hblk mb1 hmb1)).2 p hpm1).1
    have hpb2 := ((hnl.2 mb2.block_num (hblk mb2 hmb2)).2 q hpm2).1
    rcases o1 with d1 | ⟨s1, m1⟩
    · rcases o2 with d2 | ⟨s2, m2⟩
      · apply hpq
        rw [d1, d2, hnet]
      · have := driven_of_driver_visited nl moves mb1 p hmb1 hpb1 d1
        rw [hnet, m2] at this
        exact absurd this (by decide)
    · rcases o2 with d2 | ⟨s2, m2⟩
      · have := driven_of_driver_visited nl moves mb2 q hmb2 hpb2 d2
        rw [← hnet, m1] at this
        exact absurd this (by decide)
      · apply hpq
        rw [← s1, ← s2]

/-- The timing part of `find_affected_nets_and_update_costs` on a move of distinct blocks,
started with an empty list of affected pins: the list it leaves, the delta and the staged
entries. -/
theorem find_affected_td_spec (env : TimingEnv) (nl : ClusteredNetlist)
    (alg : e_place_algorithm) (block_locs : Nat → t_pl_loc) (moves : List t_pl_moved_block)
    (st : TimingState) (hnl : netlist_consistent nl) (htd : netlist_td_consistent nl env)
    (hdist : (moves.map (fun mb => mb.block_num)).Nodup)
    (hblk : ∀ mb ∈ moves, mb.block_num < nl.num_blocks) (hstart : st.affected_pins = []) :
    (find_affected_nets_and_update_td_costs env nl alg block_locs moves st).affected_pins.Nodup ∧
    (find_affected_nets_and_update_td_costs env nl alg block_locs moves st).delta_timing_cost
      = ((find_affected_nets_and_update_td_costs env nl alg block_locs moves
            st).affected_pins.map
          (fun pin => td_cost_change env block_locs st.connection_timing_cost (nl.pin_net pin)
            (env.pin_net_index pin))).foldl nan_add st.delta_timing_cost ∧
    (∀ pin ∈ (find_affected_nets_and_update_td_costs env nl alg block_locs moves
          st).affected_pins,
      nl.pin_net pin < nl.num_nets ∧ 1 ≤ env.pin_net_index pin ∧
      env.pin_net_index pin < (nl.net_pins (nl.pin_net pin)).length ∧
      nl.net_pin (nl.pin_net pin) (env.pin_net_index pin) = pin ∧
      td_delay_changed env block_locs st.connection_delay (nl.pin_net pin)
        (env.pin_net_index pin) = true ∧
      (find_affected_nets_and_update_td_costs env nl alg block_locs moves
          st).proposed_connection_delay (nl.pin_net pin) (env.pin_net_index pin)
        = some (env.comp_td_single_connection_delay block_locs (nl.pin_net pin)
            (env.pin_net_index pin)) ∧
      (find_affected_nets_and_update_td_costs env nl alg block_locs moves
          st).proposed_connection_timing_cost (nl.pin_net pin) (env.pin_net_index pin)
        = some (env.criticality (nl.pin_net pin) (env.pin_net_index pin)
            * env.comp_td_single_connection_delay block_locs (nl.pin_net pin)
                (env.pin_net_index pin))) ∧
    (find_affected_nets_and_update_td_costs env nl alg block_locs moves st).connection_delay
      = st.connection_delay ∧
    (find_affected_nets_and_update_td_costs env nl alg block_locs moves
        st).connection_timing_cost = st.connection_timing_cost := by
  unfold find_affected_nets_and_update_td_costs
  rw [td_blocks_foldl_eq]
  obtain ⟨a1, a2, a3, a4, a5⟩ := td_fold_spec env nl alg block_locs moves
    ((pin_seq nl moves).map Prod.snd) st
  have hmem : ∀ p ∈ (pin_seq nl moves).map Prod.snd,
      ∀ c ∈ td_visit_appended env nl alg block_locs moves st.connection_delay p,
      td_delay_changed env block_locs st.connection_delay (nl.pin_net p) c.1 = true ∧
      nl.pin_net p < nl.num_nets ∧ 1 ≤ c.1 ∧ c.1 < (nl.net_pins (nl.pin_net p)).length ∧
      nl.net_pin (nl.pin_net p) c.1 = c.2 ∧ nl.pin_net c.2 = nl.pin_net p ∧
      env.pin_net_index c.2 = c.1 := by
    intro p hp c hc
    obtain ⟨mb, hmb, hpm⟩ := mem_visited nl moves p hp
    obtain ⟨_, _, h3, h4, h5, h6, h7, h8, h9, _⟩ := td_visit_appended_mem env nl alg block_locs
      moves st.connection_delay hnl htd mb.block_num p (hblk mb hmb) hpm c hc
    exact ⟨h3, h4, h5, h6, h7, h8, h9⟩
  rw [hstart, List.nil_append] at a3
  refine ⟨?_, ?_, ?_, a1, a2⟩
  · rw [a3]
    exact td_appended_nodup env nl alg block_locs moves st.connection_delay hnl htd hdist hblk
  · rw [a4, a3, List.map_flatMap]
    congr 1
    apply List.flatMap_congr
    intro p hp
    rw [List.map_map]
    apply List.map_congr_left
    intro c hc
    obtain ⟨_, _, _, _, _, h8, h9⟩ := hmem p hp c hc
    show _ = td_cost_change env block_locs st.connection_timing_cost (nl.pin_net c.2)
      (env.pin_net_index c.2)
    rw [h8, h9]
  · intro pin hpin
    rw [a3] at hpin
    obtain ⟨p, hp, hin⟩ := List.mem_flatMap.1 hpin
    obtain ⟨c, hc, e⟩ := List.mem_map.1 hin
    obtain ⟨h3, h4, h5, h6, h7, h8, h9⟩ := hmem p hp c hc
    rw [e] at h7 h8 h9
    have hex : ∃ q ∈ (pin_seq nl moves).map Prod.snd,
        ∃ c2 ∈ td_visit_appended env nl alg block_locs moves st.connection_delay q,
        nl.pin_net pin = nl.pin_net q ∧ env.pin_net_index pin = c2.1 :=
      ⟨p, hp, c, hc, h8, h9⟩
    obtain ⟨v1, v2⟩ := (a5 (nl.pin_net pin) (env.pin_net_index pin)).1 hex
    rw [h8, h9]
    rw [h8, h9] at v1 v2
    exact ⟨h4, h5, h6, h7, h3, v1, v2⟩

/-- C17. No double counting: for every swap whose displaced blocks are pairwise distinct (on
a netlist with consistent tables, `affected_pins` being empty when the loops start), each
`(net, sink)` connection is appended to `affected_pins` at most once by
`find_affected_nets_and_update_costs`, and `timing_delta_c` is the sum of one cost change per
appended connection; in particular when both the driver block and a sink block of a net are
displaced, the visit of the sink pin does nothing and every sink connection of the net whose
delay has changed is in `affected_pins` exactly once, through the driver. -/
theorem find_affected_td_no_double_count (env : TimingEnv) (nl : ClusteredNetlist)
    (alg : e_place_algorithm) (block_locs : Nat → t_pl_loc) (moves : List t_pl_moved_block)
    (st : TimingState) (hnl : netlist_consistent nl) (htd : netlist_td_consistent nl env)
    (hdist : (moves.map (fun mb => mb.block_num)).Nodup)
    (hblk : ∀ mb ∈ moves, mb.block_num < nl.num_blocks) (hstart : st.affected_pins = []) :
    (find_affected_nets_and_update_td_costs env nl alg block_locs moves st).affected_pins.Nodup ∧
    (∀ pin ∈ (find_affected_nets_and_update_td_costs env nl alg block_locs moves
          st).affected_pins,
      nl.pin_net pin < nl.num_nets ∧ 1 ≤ env.pin_net_index pin ∧
      env.pin_net_index pin < (nl.net_pins (nl.pin_net pin)).length ∧
      nl.net_pin (nl.pin_net pin) (env.pin_net_index pin) = pin) ∧
    (find_affected_nets_and_update_td_costs env nl alg block_locs moves st).delta_timing_cost
      = ((find_affected_nets_and_update_td_costs env nl alg block_locs moves
            st).affected_pins.map
          (fun pin => td_cost_change env block_locs st.connection_timing_cost (nl.pin_net pin)
            (env.pin_net_index pin))).foldl nan_add st.delta_timing_cost ∧
    (∀ mb ∈ moves, ∀ pin ∈ nl.block_pins mb.block_num, nl.pin_is_driver pin = false →
      driven_by_moved_block nl (nl.pin_net pin) moves = true →
      ∀ st2, update_td_delta_costs env nl block_locs moves (nl.pin_net pin) pin st2 = st2) ∧
    (alg.is_timing_driven = true → ∀ net, net < nl.num_nets → nl.net_is_ignored net = false →
      driven_by_moved_block nl net moves = true →
      ∀ ipin, 1 ≤ ipin → ipin < (nl.net_pins net).length →
        td_delay_changed env block_locs st.connection_delay net ipin = true →
        (find_affected_nets_and_update_td_costs env nl alg block_locs moves
          st).affected_pins.count (nl.net_pin net ipin) = 1) := by
  obtain ⟨s1, s2, s3, _, _⟩ := find_affected_td_spec env nl alg block_locs moves st hnl htd
    hdist hblk hstart
  refine ⟨s1, fun pin hpin => ?_, s2, ?_, ?_⟩
  · obtain ⟨h1, h2, h3, h4, _⟩ := s3 pin hpin
    exact ⟨h1, h2, h3, h4⟩
  · intro mb _ pin _ hd hm st2
    unfold update_td_delta_costs
    rw [if_neg (by rw [hd]; exact Bool.false_ne_true), hm]
    rfl
  · intro ht net hnet hign hdrv ipin hi1 hi2 hch
    apply List.count_eq_one_of_mem s1
    unfold find_affected_nets_and_update_td_costs
    rw [td_blocks_foldl_eq]
    obtain ⟨_, _, a3, _, _⟩ := td_fold_spec env nl alg block_locs moves
      ((pin_seq nl moves).map Prod.snd) st
    rw [a3, hstart, List.nil_append, List.mem_flatMap]
    unfold driven_by_moved_block at hdrv
    rw [List.any_eq_true] at hdrv
    obtain ⟨mb, hmb, hb⟩ := hdrv
    have hb2 : nl.net_driver_block net = mb.block_num := by simpa using hb
    obtain ⟨_, hpins⟩ := hnl.1 net hnet
    have hdmem : nl.net_driver net ∈ nl.net_pins net := by
      unfold ClusteredNetlist.net_pins
      exact List.mem_cons_self _ _
    obtain ⟨g1, g2, _⟩ := hpins (nl.net_driver net) hdmem
    have hdb : nl.net_driver net ∈ nl.block_pins mb.block_num := by
      rw [← hb2]
      exact g2
    have hisdrv : nl.pin_is_driver (nl.net_driver net) = true := by
      apply (htd.2 mb.block_num (hblk mb hmb) (nl.net_driver net) hdb).2
      rw [g1]
    refine ⟨nl.net_driver net, visited_of_mem nl moves mb _ hmb hdb, ?_⟩
    apply List.mem_map.2
    refine ⟨(ipin, nl.net_pin net ipin), ?_, rfl⟩
    unfold td_visit_appended
    rw [g1, if_neg (by rw [hign]; exact Bool.false_ne_true), if_pos ht]
    apply List.mem_filter.2
    refine ⟨?_, hch⟩
    unfold td_candidates
    rw [if_pos hisdrv]
    apply List.mem_map.2
    exact ⟨ipin, List.mem_range'_1.2 ⟨hi1, by omega⟩, rfl⟩

theorem ex_netlist_td_consistent : netlist_td_consistent ex_nl ex_env := by
  unfold netlist_td_consistent; decide

/-- Witness of C17: the driver block 0 and the sink block 4 of the example net are displaced;
the connections of the sinks 1, 2, 3 and 5 are recorded once each, through the driver, and the
connection of sink 4, whose delay stays 4, is not recorded. -/
theorem find_affected_td_no_double_count_witness :
    netlist_consistent ex_nl ∧ netlist_td_consistent ex_nl ex_env ∧
    (ex_td_moves.map (fun mb => mb.block_num)).Nodup ∧
    (find_affected_nets_and_update_td_costs ex_env ex_nl
      e_place_algorithm.CRITICALITY_TIMING_PLACE
      (apply_move_blocks ex_td_moves ex_state).block_locs ex_td_moves
      ex_td_state).affected_pins = [1, 2, 3, 5] ∧
    (find_affected_nets_and_update_td_costs ex_env ex_nl
      e_place_algorithm.CRITICALITY_TIMING_PLACE
      (apply_move_blocks ex_td_moves ex_state).block_locs ex_td_moves
      ex_td_state).affected_pins.Nodup :=
  ⟨ex_netlist_consistent, ex_netlist_td_consistent, by decide, by decide,
    (find_affected_td_no_double_count ex_env ex_nl e_place_algorithm.CRITICALITY_TIMING_PLACE
      (apply_move_blocks ex_td_moves ex_state).block_locs ex_td_moves ex_td_state
      ex_netlist_consistent ex_netlist_td_consistent (by decide) (by decide) rfl).1⟩

/-! ## Committing the timing costs -/

/-- The loop of `commit_td_cost` over a list of pins: the entries of the other connections are
kept, and if the connections of the listed pins are distinct, each of them gets its staged
delay and cost and an invalid shadow. -/
theorem commit_td_cost_fold (env : TimingEnv) (nl : ClusteredNetlist) (pins : List Nat) :
    ∀ s : TimingState,
    (pins.foldl (commit_td_cost_step env nl) s).affected_pins = s.affected_pins ∧
    (pins.foldl (commit_td_cost_step env nl) s).delta_timing_cost = s.delta_timing_cost ∧
    (∀ n i, (¬ ∃ p ∈ pins, n = nl.pin_net p ∧ i = env.pin_net_index p) →
      (pins.foldl (commit_td_cost_step env nl) s).connection_delay n i
        = s.connection_delay n i ∧
      (pins.foldl (commit_td_cost_step env nl) s).connection_timing_cost n i
        = s.connection_timing_cost n i ∧
      (pins.foldl (commit_td_cost_step env nl) s).proposed_connection_delay n i
        = s.proposed_connection_delay n i ∧
      (pins.foldl (commit_td_cost_step env nl) s).proposed_connection_timing_cost n i
        = s.proposed_connection_timing_cost n i) ∧
    ((pins.map (fun p => (nl.pin_net p, env.pin_net_index p))).Nodup →
      ∀ p ∈ pins,
        (pins.foldl (commit_td_cost_step env nl) s).connection_delay
            (nl.pin_net p) (env.pin_net_index p)
          = s.proposed_connection_delay (nl.pin_net p) (env.pin_net_index p) ∧
        (pins.foldl (commit_td_cost_step env nl) s).connection_timing_cost
            (nl.pin_net p) (env.pin_net_index p)
          = s.proposed_connection_timing_cost (nl.pin_net p) (env.pin_net_index p) ∧
        (pins.foldl (commit_td_cost_step env nl) s).proposed_connection_delay
            (nl.pin_net p) (env.pin_net_index p) = INVALID_DELAY ∧
        (pins.foldl (commit_td_cost_step env nl) s).proposed_connection_timing_cost
            (nl.pin_net p) (env.pin_net_index p) = INVALID_DELAY) := by
  induction pins with
  | nil =>
    intro s
    exact ⟨rfl, rfl, fun _ _ _ => ⟨rfl, rfl, rfl, rfl⟩,
      fun _ p hp => absurd hp (List.not_mem_nil _)⟩
  | cons q rest ih =>
    intro s
    rw [List.foldl_cons]
    obtain ⟨a1, a2, a3, a4⟩ := ih (commit_td_cost_step env nl s q)
    have hother : ∀ n i, (n ≠ nl.pin_net q ∨ i ≠ env.pin_net_index q) →
        (commit_td_cost_step env nl s q).connection_delay n i = s.connection_delay n i ∧
        (commit_td_cost_step env nl s q).connection_timing_cost n i
          = s.connection_timing_cost n i ∧
        (commit_td_cost_step env nl s q).proposed_connection_delay n i
          = s.proposed_connection_delay n i ∧
        (commit_td_cost_step env nl s q).proposed_connection_timing_cost n i
          = s.proposed_connection_timing_cost n i := by
      intro n i h
      unfold commit_td_cost_step
      dsimp only
      exact ⟨td_set_other _ _ _ _ _ _ h, td_set_other _ _ _ _ _ _ h,
        td_set_other _ _ _ _ _ _ h, td_set_other _ _ _ _ _ _ h⟩
    have hself : (commit_td_cost_step env nl s q).connection_delay
          (nl.pin_net q) (env.pin_net_index q)
          = s.proposed_connection_delay (nl.pin_net q) (env.pin_net_index q) ∧
        (commit_td_cost_step env nl s q).connection_timing_cost
          (nl.pin_net q) (env.pin_net_index q)
          = s.proposed_connection_timing_cost (nl.pin_net q) (env.pin_net_index q) ∧
        (commit_td_cost_step env nl s q).proposed_connection_delay
          (nl.pin_net q) (env.pin_net_index q) = INVALID_DELAY ∧
        (commit_td_cost_step env nl s q).proposed_connection_timing_cost
          (nl.pin_net q) (env.pin_net_index q) = INVALID_DELAY := by
      unfold commit_td_cost_step
      dsimp only
      exact ⟨td_set_same _ _ _ _, td_set_same _ _ _ _, td_set_same _ _ _ _,
        td_set_same _ _ _ _⟩
    refine ⟨a1, a2, fun n i hno => ?_, fun hnd p hp => ?_⟩
    · have hrest : ¬ ∃ p ∈ rest, n = nl.pin_net p ∧ i = env.pin_net_index p := by
        rintro ⟨p, hp, e⟩
        exact hno ⟨p, List.mem_cons_of_mem _ hp, e⟩
      have hne : n ≠ nl.pin_net q ∨ i ≠ env.pin_net_index q := by
        by_contra hcon
        push_neg at hcon
        exact hno ⟨q, List.mem_cons_self _ _, hcon⟩
      obtain ⟨b1, b2, b3, b4⟩ := a3 n i hrest
      obtain ⟨c1, c2, c3, c4⟩ := hother n i hne
      exact ⟨b1.trans c1, b2.trans c2, b3.trans c3, b4.trans c4⟩
    · rw [List.map_cons, List.nodup_cons] at hnd
      obtain ⟨hq, hnd2⟩ := hnd
      rcases List.mem_cons.1 hp with e | e
      · subst e
        have hrest : ¬ ∃ p2 ∈ rest, nl.pin_net p = nl.pin_net p2 ∧
            env.pin_net_index p = env.pin_net_index p2 := by
          rintro ⟨p2, hp2, e1, e2⟩
          apply hq
          apply List.mem_map.2
          exact ⟨p2, hp2, by rw [e1, e2]⟩
        obtain ⟨b1, b2, b3, b4⟩ := a3 _ _ hrest
        obtain ⟨c1, c2, c3, c4⟩ := hself
        exact ⟨b1.trans c1, b2.trans c2, b3.trans c3, b4.trans c4⟩
      · obtain ⟨b1, b2, b3, b4⟩ := a4 hnd2 p e
        have hne : nl.pin_net p ≠ nl.pin_net q ∨ env.pin_net_index p ≠ env.pin_net_index q := by
          by_contra hcon
          push_neg at hcon
          apply hq
          apply List.mem_map.2
          exact ⟨p, e, by rw [hcon.1, hcon.2]⟩
        obtain ⟨_, _, c3, c4⟩ := hother _ _ hne
        exact ⟨b1.trans c3, b2.trans c4, b3, b4⟩

/-- The sum over a duplicate free list after the values at the entries of a duplicate free
sublist have been replaced. -/
theorem sum_map_replace {α : Type} [DecidableEq α] (l A : List α) (hl : l.Nodup)
    (hA : A.Nodup) (hsub : ∀ a ∈ A, a ∈ l) (v w new : α → ℚ)
    (h1 : ∀ c ∈ l, c ∉ A → w c = v c) (h2 : ∀ a ∈ A, w a = new a) :
    (l.map w).sum = (l.map v).sum + (A.map (fun a => new a - v a)).sum := by
  rw [← List.sum_toFinset _ hl, ← List.sum_toFinset _ hl, ← List.sum_toFinset _ hA]
  have hcongr : ∀ c ∈ l.toFinset, w c = v c + (if c ∈ A.toFinset then new c - v c else 0) := by
    intro c hc
    by_cases hcA : c ∈ A
    · rw [if_pos (List.mem_toFinset.2 hcA), h2 c hcA]
      ring
    · rw [if_neg (fun h => hcA (List.mem_toFinset.1 h)), h1 c (List.mem_toFinset.1 hc) hcA]
      ring
  rw [Finset.sum_congr rfl hcongr, Finset.sum_add_distrib, Finset.sum_ite_mem]
  have hinter : l.toFinset ∩ A.toFinset = A.toFinset := by
    apply Finset.inter_eq_right.2
    intro a ha
    exact List.mem_toFinset.2 (hsub a (List.mem_toFinset.1 ha))
  rw [hinter]

/-- The connections of the netlist are listed once each. -/
theorem td_connections_nodup (nl : ClusteredNetlist) : (td_connections nl).Nodup := by
  unfold td_connections
  rw [List.nodup_flatMap]
  refine ⟨fun net _ => ?_, ?_⟩
  · apply List.Nodup.map_on _ (List.nodup_range' 1 _)
    intro x _ y _ e
    exact (Prod.mk.inj e).2
  · apply List.Nodup.pairwise_of_forall_ne (List.nodup_range _)
    intro a _ b _ hab
    show List.Disjoint _ _
    intro c hc1 hc2
    obtain ⟨i, _, e1⟩ := List.mem_map.1 hc1
    obtain ⟨j, _, e2⟩ := List.mem_map.1 hc2
    apply hab
    have h1 : c.1 = a := by rw [← e1]
    have h2 : c.1 = b := by rw [← e2]
    rw [← h1, ← h2]

theorem mem_td_connections (nl : ClusteredNetlist) (net ipin : Nat) :
    (net, ipin) ∈ td_connections nl
      ↔ net < nl.num_nets ∧ 1 ≤ ipin ∧ ipin < (nl.net_pins net).length := by
  unfold td_connections
  rw [List.mem_flatMap]
  have hlen : 1 ≤ (nl.net_pins net).length := by
    unfold ClusteredNetlist.net_pins
    simp
  constructor
  · rintro ⟨n, hn, hmem⟩
    obtain ⟨i, hi, e⟩ := List.mem_map.1 hmem
    obtain ⟨e1, e2⟩ := Prod.mk.inj e
    subst e1 e2
    obtain ⟨h1, h2⟩ := List.mem_range'_1.1 hi
    exact ⟨List.mem_range.1 hn, h1, by omega⟩
  · rintro ⟨h1, h2, h3⟩
    exact ⟨net, List.mem_range.2 h1, List.mem_map.2 ⟨ipin, List.mem_range'_1.2 ⟨h2, by omega⟩, rfl⟩⟩

/-- The sum of a per-connection array whose entries on the connections of the netlist are the
numbers `v`. -/
theorem td_cost_sum_some (nl : ClusteredNetlist) (cost : Nat → Nat → Option ℚ)
    (v : Nat × Nat → ℚ) (h : ∀ c ∈ td_connections nl, cost c.1 c.2 = some (v c)) :
    td_cost_sum nl cost = some (((td_connections nl).map v).sum) := by
  unfold td_cost_sum
  have hmap : (td_connections nl).map (fun c => cost c.1 c.2)
      = ((td_connections nl).map v).map some := by
    rw [List.map_map]
    apply List.map_congr_left
    intro c hc
    exact h c hc
  rw [hmap, nan_add_foldl_some, zero_add]

/-- C18. Committing timing keeps cost = criticality * delay: if, before a swap of distinct
blocks (consistent netlist tables, `affected_pins` empty and `timing_delta_c = 0` at the
start), `connection_timing_cost[net][sink] = criticality(net, sink) *
connection_delay[net][sink]` holds for every connection, the criticalities being the same
throughout, then after the calls of `update_td_delta_costs` of the swap followed by
`commit_td_cost` the equation holds for every connection, the committed delay of each affected
connection is its recomputed delay, and the sum of `connection_timing_cost` over all
connections has changed by exactly `timing_delta_c`. -/
theorem commit_td_cost_keeps_invariant (env : TimingEnv) (nl : ClusteredNetlist)
    (alg : e_place_algorithm) (block_locs : Nat → t_pl_loc) (moves : List t_pl_moved_block)
    (st : TimingState) (hnl : netlist_consistent nl) (htd : netlist_td_consistent nl env)
    (hdist : (moves.map (fun mb => mb.block_num)).Nodup)
    (hblk : ∀ mb ∈ moves, mb.block_num < nl.num_blocks) (hstart : st.affected_pins = [])
    (hzero : st.delta_timing_cost = some 0)
    (hinv : ∀ net ipin, net < nl.num_nets → 1 ≤ ipin → ipin < (nl.net_pins net).length →
      ∃ d : ℚ, st.connection_delay net ipin = some d ∧
        st.connection_timing_cost net ipin = some (env.criticality net ipin * d)) :
    (∀ net ipin, net < nl.num_nets → 1 ≤ ipin → ipin < (nl.net_pins net).length →
      ∃ d : ℚ,
        (commit_td_cost env nl (find_affected_nets_and_update_td_costs env nl alg block_locs
          moves st)).connection_delay net ipin = some d ∧
        (commit_td_cost env nl (find_affected_nets_and_update_td_costs env nl alg block_locs
          moves st)).connection_timing_cost net ipin = some (env.criticality net ipin * d)) ∧
    (∀ pin ∈ (commit_td_cost env nl (find_affected_nets_and_update_td_costs env nl alg
        block_locs moves st)).affected_pins,
      (commit_td_cost env nl (find_affected_nets_and_update_td_costs env nl alg block_locs
          moves st)).connection_delay (nl.pin_net pin) (env.pin_net_index pin)
        = some (env.comp_td_single_connection_delay block_locs (nl.pin_net pin)
            (env.pin_net_index pin))) ∧
    (∃ before after timing_delta_c : ℚ,
      td_cost_sum nl st.connection_timing_cost = some before ∧
      td_cost_sum nl (commit_td_cost env nl (find_affected_nets_and_update_td_costs env nl alg
          block_locs moves st)).connection_timing_cost = some after ∧
      (commit_td_cost env nl (find_affected_nets_and_update_td_costs env nl alg block_locs
          moves st)).delta_timing_cost = some timing_delta_c ∧
      after - before = timing_delta_c) := by
  obtain ⟨s1, s2, s3, s4, s5⟩ := find_affected_td_spec env nl alg block_locs moves st hnl htd
    hdist hblk hstart
  unfold commit_td_cost
  generalize find_affected_nets_and_update_td_costs env nl alg block_locs moves st = st1 at *
  have hconn : (st1.affected_pins.map
      (fun p => (nl.pin_net p, env.pin_net_index p))).Nodup := by
    apply List.Nodup.map_on _ s1
    intro p hp q hq e
    obtain ⟨e1, e2⟩ := Prod.mk.inj e
    obtain ⟨_, _, _, hp4, _⟩ := s3 p hp
    obtain ⟨_, _, _, hq4, _⟩ := s3 q hq
    rw [← hp4, ← hq4, e1, e2]
  obtain ⟨b1, b2, b3, b4⟩ := commit_td_cost_fold env nl st1.affected_pins st1
  have b4 := b4 hconn
  generalize st1.affected_pins.foldl (commit_td_cost_step env nl) st1 = st2 at *
  have hinv2 : ∀ net ipin, net < nl.num_nets → 1 ≤ ipin → ipin < (nl.net_pins net).length →
      ∃ d : ℚ, st2.connection_delay net ipin = some d ∧
        st2.connection_timing_cost net ipin = some (env.criticality net ipin * d) := by
    intro n i hn hi1 hi2
    by_cases hex : ∃ p ∈ st1.affected_pins, n = nl.pin_net p ∧ i = env.pin_net_index p
    · obtain ⟨p, hp, e1, e2⟩ := hex
      obtain ⟨c1, c2, _, _⟩ := b4 p hp
      obtain ⟨_, _, _, _, _, v1, v2⟩ := s3 p hp
      rw [e1, e2]
      exact ⟨_, c1.trans v1, c2.trans v2⟩
    · obtain ⟨c1, c2, _, _⟩ := b3 n i hex
      rw [c1, c2, s4, s5]
      exact hinv n i hn hi1 hi2
  refine ⟨hinv2, fun pin hpin => ?_, ?_⟩
  · rw [b1] at hpin
    obtain ⟨c1, _, _, _⟩ := b4 pin hpin
    obtain ⟨_, _, _, _, _, v1, _⟩ := s3 pin hpin
    exact c1.trans v1
  · have hold : ∀ c ∈ td_connections nl, st.connection_timing_cost c.1 c.2
        = some ((st.connection_timing_cost c.1 c.2).getD 0) := by
      intro c hc
      obtain ⟨h1, h2, h3⟩ := (mem_td_connections nl c.1 c.2).1 hc
      obtain ⟨d, _, e⟩ := hinv c.1 c.2 h1 h2 h3
      rw [e]
      rfl
    have hnew : ∀ c ∈ td_connections nl, st2.connection_timing_cost c.1 c.2
        = some ((st2.connection_timing_cost c.1 c.2).getD 0) := by
      intro c hc
      obtain ⟨h1, h2, h3⟩ := (mem_td_connections nl c.1 c.2).1 hc
      obtain ⟨d, _, e⟩ := hinv2 c.1 c.2 h1 h2 h3
      rw [e]
      rfl
    have hmemc : ∀ p ∈ st1.affected_pins,
        (nl.pin_net p, env.pin_net_index p) ∈ td_connections nl := by
      intro p hp
      obtain ⟨h1, h2, h3, _⟩ := s3 p hp
      exact (mem_td_connections nl _ _).2 ⟨h1, h2, h3⟩
    have hdelta : st2.delta_timing_cost
        = some ((st1.affected_pins.map (fun p =>
            env.criticality (nl.pin_net p) (env.pin_net_index p)
              * env.comp_td_single_connection_delay block_locs (nl.pin_net p)
                  (env.pin_net_index p)
            - (st.connection_timing_cost (nl.pin_net p) (env.pin_net_index p)).getD 0)).sum) := by
      rw [b2, s2, hzero]
      have hmap : st1.affected_pins.map
            (fun pin => td_cost_change env block_locs st.connection_timing_cost (nl.pin_net pin)
              (env.pin_net_index pin))
          = (st1.affected_pins.map (fun p =>
              env.criticality (nl.pin_net p) (env.pin_net_index p)
                * env.comp_td_single_connection_delay block_locs (nl.pin_net p)
                    (env.pin_net_index p)
              - (st.connection_timing_cost (nl.pin_net p) (env.pin_net_index p)).getD 0)).map
              some := by
        rw [List.map_map]
        apply List.map_congr_left
        intro p hp
        unfold td_cost_change
        rw [hold _ (hmemc p hp)]
        rfl
      rw [hmap, nan_add_foldl_some, zero_add]
    refine ⟨_, _, _, td_cost_sum_some nl _ _ hold, td_cost_sum_some nl _ _ hnew, hdelta, ?_⟩
    have hrep := sum_map_replace (td_connections nl)
      (st1.affected_pins.map (fun p => (nl.pin_net p, env.pin_net_index p)))
      (td_connections_nodup nl) hconn
      (fun a ha => by
        obtain ⟨p, hp, e⟩ := List.mem_map.1 ha
        rw [← e]
        exact hmemc p hp)
      (fun c => (st.connection_timing_cost c.1 c.2).getD 0)
      (fun c => (st2.connection_timing_cost c.1 c.2).getD 0)
      (fun c => env.criticality c.1 c.2 * env.comp_td_single_connection_delay block_locs c.1 c.2)
      (fun c _ hcA => by
        have hno : ¬ ∃ p ∈ st1.affected_pins, c.1 = nl.pin_net p ∧ c.2 = env.pin_net_index p := by
          rintro ⟨p, hp, e1, e2⟩
          apply hcA
          apply List.mem_map.2
          exact ⟨p, hp, by rw [← e1, ← e2]⟩
        obtain ⟨_, c2, _, _⟩ := b3 c.1 c.2 hno
        show (st2.connection_timing_cost c.1 c.2).getD 0 = _
        rw [c2, s5])
      (fun a ha => by
        obtain ⟨p, hp, e⟩ := List.mem_map.1 ha
        obtain ⟨_, c2, _, _⟩ := b4 p hp
        obtain ⟨_, _, _, _, _, _, v2⟩ := s3 p hp
        rw [← e]
        show (st2.connection_timing_cost (nl.pin_net p) (env.pin_net_index p)).getD 0 = _
        rw [c2, v2]
        rfl)
    rw [hrep, List.map_map]
    simp only [Function.comp_def]
    ring

theorem ex_td_hinv : ∀ net ipin, net < ex_nl.num_nets → 1 ≤ ipin →
    ipin < (ex_nl.net_pins net).length →
    ∃ d : ℚ, ex_td_state.connection_delay net ipin = some d ∧
      ex_td_state.connection_timing_cost net ipin = some (ex_env.criticality net ipin * d) := by
  intro net ipin _ _ _
  refine ⟨ex_delay ex_block_locs net ipin, rfl, ?_⟩
  show some _ = some ((1 : ℚ) * _)
  rw [one_mul]

/-- Witness of C18: the example timing cache satisfies the hypotheses for the move of the
driver block 0 and the sink block 4, and the sum of the timing costs changes by the delta. -/
theorem commit_td_cost_keeps_invariant_witness :
    netlist_consistent ex_nl ∧ netlist_td_consistent ex_nl ex_env ∧
    (ex_td_moves.map (fun mb => mb.block_num)).Nodup ∧
    (∀ net ipin, net < ex_nl.num_nets → 1 ≤ ipin → ipin < (ex_nl.net_pins net).length →
      ∃ d : ℚ, ex_td_state.connection_delay net ipin = some d ∧
        ex_td_state.connection_timing_cost net ipin
          = some (ex_env.criticality net ipin * d)) ∧
    ∃ before after timing_delta_c : ℚ,
      td_cost_sum ex_nl ex_td_state.connection_timing_cost = some before ∧
      td_cost_sum ex_nl (commit_td_cost ex_env ex_nl
        (find_affected_nets_and_update_td_costs ex_env ex_nl
          e_place_algorithm.CRITICALITY_TIMING_PLACE
          (apply_move_blocks ex_td_moves ex_state).block_locs ex_td_moves
          ex_td_state)).connection_timing_cost = some after ∧
      (commit_td_cost ex_env ex_nl
        (find_affected_nets_and_update_td_costs ex_env ex_nl
          e_place_algorithm.CRITICALITY_TIMING_PLACE
          (apply_move_blocks ex_td_moves ex_state).block_locs ex_td_moves
          ex_td_state)).delta_timing_cost = some timing_delta_c ∧
      after - before = timing_delta_c :=
  ⟨ex_netlist_consistent, ex_netlist_td_consistent, by decide, ex_td_hinv,
    (commit_td_cost_keeps_invariant ex_env ex_nl e_place_algorithm.CRITICALITY_TIMING_PLACE
      (apply_move_blocks ex_td_moves ex_state).block_locs ex_td_moves ex_td_state
      ex_netlist_consistent ex_netlist_td_consistent (by decide) (by decide) rfl rfl
      ex_td_hinv).2.2⟩

/-! ## The per-layer sink counts: one pin -/

/-- The counts that `update_layer_counts` leaves on a device with several layers. -/
theorem update_layer_counts_spec (num_layers : Nat) (curr new_cnt : Nat → Int)
    (old_layer new_layer : Nat) (src_pin : Bool) (hL : 1 < num_layers) (l : Nat)
    (hl : l < num_layers) :
    update_layer_counts num_layers curr new_cnt old_layer new_layer src_pin l
      = if src_pin = true then curr l
        else if old_layer = new_layer then curr l
        else if l = new_layer then curr new_layer + 1
        else if l = old_layer then curr old_layer - 1
        else curr l := by
  unfold update_layer_counts
  rw [if_pos hL]
  cases src_pin with
  | true => simp [hl]
  | false =>
    simp only [Bool.not_false, if_true, Bool.false_eq_true, if_false]
    by_cases h : old_layer = new_layer
    · simp [h, hl]
    · simp only [ne_eq, h, not_false_eq_true, if_true, if_false]
      by_cases h1 : l = new_layer
      · subst h1
        simp
      · rw [Function.update_noteq h1]
        by_cases h2 : l = old_layer
        · subst h2
          simp [h1]
        · rw [Function.update_noteq h2]
          simp [h1, h2, hl]

/-- The number of pins on a layer after one pin of a duplicate free list has changed its
layer. -/
theorem filter_length_replace (pins : List Nat) (hnd : pins.Nodup) (f g : Nat → Nat) (p : Nat)
    (hp : p ∈ pins) (hfg : ∀ q ∈ pins, q ≠ p → f q = g q) (l : Nat) :
    ((pins.filter (fun q => decide (g q = l))).length : Int)
      = ((pins.filter (fun q => decide (f q = l))).length : Int)
        - (if f p = l then 1 else 0) + (if g p = l then 1 else 0) := by
  induction pins with
  | nil => exact absurd hp (List.not_mem_nil _)
  | cons a rest ih =>
    rw [List.nodup_cons] at hnd
    obtain ⟨ha, hrest⟩ := hnd
    by_cases hap : a = p
    · subst hap
      have hsame : rest.filter (fun q => decide (g q = l))
          = rest.filter (fun q => decide (f q = l)) := by
        apply List.filter_congr
        intro q hq
        have hne : q ≠ a := fun e => ha (e ▸ hq)
        rw [hfg q (List.mem_cons_of_mem _ hq) hne]
      rw [List.filter_cons, List.filter_cons, hsame]
      by_cases h1 : f a = l <;> by_cases h2 : g a = l <;> simp [h1, h2]
    · have hp2 : p ∈ rest := by
        rcases List.mem_cons.1 hp with e | e
        · exact absurd e.symm hap
        · exact e
      have ih2 := ih hrest hp2 (fun q hq hne => hfg q (List.mem_cons_of_mem _ hq) hne)
      have hfa : f a = g a := hfg a (List.mem_cons_self _ _) hap
      rw [List.filter_cons, List.filter_cons, hfa]
      by_cases h2 : g a = l
      · simp only [h2, decide_True, if_true, List.length_cons]
        push_cast
        rw [ih2]
        ring
      · simp only [h2, decide_False, Bool.false_eq_true, if_false]
        exact ih2

/-- The number of pins on a layer does not depend on the layer of a pin outside the list. -/
theorem filter_length_congr (pins : List Nat) (f g : Nat → Nat)
    (hfg : ∀ q ∈ pins, f q = g q) (l : Nat) :
    ((pins.filter (fun q => decide (g q = l))).length : Int)
      = ((pins.filter (fun q => decide (f q = l))).length : Int) := by
  have hsame : pins.filter (fun q => decide (g q = l))
      = pins.filter (fun q => decide (f q = l)) := by
    apply List.filter_congr
    intro q hq
    rw [hfg q hq]
  rw [hsame]

/-- The per-layer sink counts that `get_bb_from_scratch` returns, on the layers of the
device. -/
theorem scratch_layer_counts (nl : ClusteredNetlist) (grid : DeviceGrid) (L : Nat → t_pl_loc)
    (net_id : Nat) (cnt : Nat → Int) (l : Nat) (hl : l < grid.num_layers) :
    (get_bb_from_scratch nl grid L net_id cnt).num_sink_pin_layer l
      = sink_layer_count nl L net_id l := by
  unfold get_bb_from_scratch sink_layer_count
  dsimp only
  rw [scratch_fold_layers]
  unfold reset_layer_counts
  simp [hl]

/-- The two ways in which `update_bb` ends when the net was not got from scratch before, on
the per-layer sink counts. -/
theorem update_bb_layer_cases (nl : ClusteredNetlist) (grid : DeviceGrid) (s : PlacerState)
    (net_id : Nat) (pin_old_loc pin_new_loc : t_physical_tile_loc) (src_pin : Bool)
    (h : s.bb_updated_before net_id ≠ BBFlag.GOT_FROM_SCRATCH) :
    ((update_bb nl grid s net_id pin_old_loc pin_new_loc src_pin).bb_updated_before net_id
        = BBFlag.UPDATED_ONCE ∧
      (update_bb nl grid s net_id pin_old_loc pin_new_loc src_pin).ts_layer_sink_pin_count net_id
        = update_layer_counts grid.num_layers
            (if s.bb_updated_before net_id = BBFlag.NOT_UPDATED_YET then
              s.num_sink_pin_layer net_id else s.ts_layer_sink_pin_count net_id)
            (s.ts_layer_sink_pin_count net_id)
            pin_old_loc.layer_num pin_new_loc.layer_num src_pin) ∨
    ((update_bb nl grid s net_id pin_old_loc pin_new_loc src_pin).bb_updated_before net_id
        = BBFlag.GOT_FROM_SCRATCH ∧
      (update_bb nl grid s net_id pin_old_loc pin_new_loc src_pin).ts_layer_sink_pin_count net_id
        = (get_bb_from_scratch nl grid s.block_locs net_id
            (s.ts_layer_sink_pin_count net_id)).num_sink_pin_layer) := by
  unfold update_bb update_bb_from_scratch
  simp only [if_neg h]
  by_cases hN : s.bb_updated_before net_id = BBFlag.NOT_UPDATED_YET
  · simp only [hN, decide_True, if_true]
    cases hx : update_axis (axis_x (s.bb_coords net_id) (s.bb_num_on_edges net_id))
        (clip_coord pin_old_loc.x grid.width) (clip_coord pin_new_loc.x grid.width) with
    | none => right; simp
    | some ax =>
      cases hy : update_axis (axis_y (s.bb_coords net_id) (s.bb_num_on_edges net_id))
          (clip_coord pin_old_loc.y grid.height) (clip_coord pin_new_loc.y grid.height) with
      | none => right; simp
      | some ay => left; simp
  · have hU : s.bb_updated_before net_id = BBFlag.UPDATED_ONCE := by
      cases hf : s.bb_updated_before net_id with
      | NOT_UPDATED_YET => exact absurd hf hN
      | UPDATED_ONCE => rfl
      | GOT_FROM_SCRATCH => exact absurd hf h
    simp only [hN, decide_False, Bool.false_eq_true, if_false]
    cases hx : update_axis (axis_x (s.ts_bb_coord_new net_id) (s.ts_bb_edge_new net_id))
        (clip_coord pin_old_loc.x grid.width) (clip_coord pin_new_loc.x grid.width) with
    | none => right; simp
    | some ax =>
      cases hy : update_axis (axis_y (s.ts_bb_coord_new net_id) (s.ts_bb_edge_new net_id))
          (clip_coord pin_old_loc.y grid.height) (clip_coord pin_new_loc.y grid.height) with
      | none => right; simp
      | some ay => left; simp [hU]

/-- The staged layer of a pin other than the one just visited is as before the visit. -/
theorem staged_layer_append_of_ne (nl : ClusteredNetlist) (P P' : Nat → t_pl_loc)
    (D : List Nat) (p q : Nat) (h : q ≠ p) :
    staged_pin_layer nl P P' D q = staged_pin_layer nl P P' (D ++ [p]) q := by
  have e : q ∈ D ++ [p] ↔ q ∈ D := by simp [h]
  unfold staged_pin_layer
  simp only [e]

/-- The counts after the visit of one more pin of the net, as `update_layer_counts` forms
them from the counts before the visit. -/
theorem staged_count_step (nl : ClusteredNetlist) (grid : DeviceGrid) (P P' : Nat → t_pl_loc)
    (D : List Nat) (n p : Nat) (mb : t_pl_moved_block) (curr : Nat → Int)
    (hnd : (nl.net_pins n).Nodup) (hpin : p ∈ nl.net_pins n) (hpD : p ∉ D)
    (hold : mb.old_loc = P mb.block_num) (hnew : P' mb.block_num = mb.new_loc)
    (hblk : nl.pin_block p = mb.block_num)
    (hdrv : nl.pin_is_driver p = true ↔ p = nl.net_driver n)
    (hcurr : ∀ l, l < grid.num_layers → curr l = staged_layer_count nl P P' D n l)
    (l : Nat) (hl : l < grid.num_layers) :
    (if nl.pin_is_driver p = true then curr l
      else if mb.old_loc.layer = mb.new_loc.layer then curr l
      else if l = mb.new_loc.layer then curr mb.new_loc.layer + 1
      else if l = mb.old_loc.layer then curr mb.old_loc.layer - 1
      else curr l) = staged_layer_count nl P P' (D ++ [p]) n l := by
  have hfp : staged_pin_layer nl P P' D p = mb.old_loc.layer := by
    unfold staged_pin_layer net_pin_layer
    rw [if_neg hpD, hblk, hold]
  have hgp : staged_pin_layer nl P P' (D ++ [p]) p = mb.new_loc.layer := by
    unfold staged_pin_layer net_pin_layer
    rw [if_pos (List.mem_append_right _ (List.mem_singleton_self p)), hblk, hnew]
  have hnd2 : nl.net_driver n ∉ nl.net_sinks n ∧ (nl.net_sinks n).Nodup := by
    unfold ClusteredNetlist.net_pins at hnd
    exact List.nodup_cons.1 hnd
  unfold staged_layer_count
  by_cases hd : nl.pin_is_driver p = true
  · rw [if_pos hd, hcurr l hl]
    have hpd := hdrv.1 hd
    unfold staged_layer_count
    symm
    apply filter_length_congr
    intro q hq
    apply staged_layer_append_of_ne
    intro e
    rw [e, hpd] at hq
    exact hnd2.1 hq
  · rw [if_neg hd]
    have hps : p ∈ nl.net_sinks n := by
      unfold ClusteredNetlist.net_pins at hpin
      rcases List.mem_cons.1 hpin with e | e
      · exact absurd (hdrv.2 e) hd
      · exact e
    have hrep := filter_length_replace (nl.net_sinks n) hnd2.2
      (staged_pin_layer nl P P' D) (staged_pin_layer nl P P' (D ++ [p])) p hps
      (fun q _ hne => staged_layer_append_of_ne nl P P' D p q hne) l
    rw [hrep, hfp, hgp]
    have hcurr2 := hcurr
    unfold staged_layer_count at hcurr2
    by_cases h1 : mb.old_loc.layer = mb.new_loc.layer
    · rw [if_pos h1, hcurr2 l hl, h1]
      by_cases h2 : mb.new_loc.layer = l <;> simp [h2]
    · rw [if_neg h1]
      by_cases h2 : l = mb.new_loc.layer
      · subst h2
        rw [if_pos rfl, hcurr2 _ hl, if_neg h1, if_pos rfl]
        ring
      · rw [if_neg h2]
        by_cases h3 : l = mb.old_loc.layer
        · subst h3
          rw [if_pos rfl, hcurr2 _ hl, if_pos rfl, if_neg (fun e => h2 e.symm)]
          ring
        · rw [if_neg h3, hcurr2 l hl, if_neg (fun e => h3 e.symm), if_neg (fun e => h2 e.symm)]
          ring

/-- The invariant of a net on its layer counts is kept when the state changes only in entries
of other nets and the visited pin belongs to another net. -/
theorem layerInv_transfer (nl : ClusteredNetlist) (grid : DeviceGrid) (P P' : Nat → t_pl_loc)
    (cnt0 : Nat → Int) (D : List Nat) (acc acc' : PlacerState × Nat) (n p : Nat)
    (hpins : ∀ q ∈ nl.net_pins n, nl.pin_net q = n)
    (hp : nl.pin_net p ≠ n)
    (h : LayerInv nl grid P P' cnt0 D acc n)
    (f1 : acc'.1.block_locs = acc.1.block_locs)
    (f2 : acc'.1.num_sink_pin_layer n = acc.1.num_sink_pin_layer n)
    (f4 : acc'.1.proposed_net_cost n = acc.1.proposed_net_cost n)
    (f5 : acc'.1.bb_updated_before n = acc.1.bb_updated_before n)
    (f6 : acc'.1.ts_layer_sink_pin_count n = acc.1.ts_layer_sink_pin_count n)
    (f8 : acc.2 ≤ acc'.2)
    (f9 : ∀ i, i < acc.2 → acc'.1.ts_nets_to_update i = acc.1.ts_nets_to_update i)
    (f10 : ∀ i, acc.2 ≤ i → i < acc'.2 → acc'.1.ts_nets_to_update i ≠ n) :
    LayerInv nl grid P P' cnt0 (D ++ [p]) acc' n := by
  obtain ⟨h1, h2, h4, h5⟩ := h
  have hex : (∃ q ∈ D ++ [p], nl.pin_net q = n) ↔ (∃ q ∈ D, nl.pin_net q = n) := by
    constructor
    · rintro ⟨q, hq, e⟩
      rcases List.mem_append.1 hq with hq | hq
      · exact ⟨q, hq, e⟩
      · have : q = p := by simpa using hq
        subst this
        exact absurd e hp
    · rintro ⟨q, hq, e⟩
      exact ⟨q, List.mem_append_left _ hq, e⟩
  have hst : ∀ l, staged_layer_count nl P P' (D ++ [p]) n l
      = staged_layer_count nl P P' D n l := by
    intro l
    unfold staged_layer_count
    apply filter_length_congr
    intro q hq
    apply staged_layer_append_of_ne
    intro e
    subst e
    exact hp (hpins q (List.mem_cons_of_mem _ hq))
  refine ⟨by rw [f1, h1], by rw [f2, h2], ?_, ?_⟩
  · intro hx
    obtain ⟨⟨i, hi, hti⟩, g2, g3, g4⟩ := h4 (hex.1 hx)
    refine ⟨⟨i, lt_of_lt_of_le hi f8, by rw [f9 i hi, hti]⟩, by rw [f4]; exact g2, ?_, ?_⟩
    · intro hl
      rw [f5, f6]
      rcases g3 hl with ⟨gU, gB⟩ | ⟨gS, gB⟩
      · exact Or.inl ⟨gU, fun l hl2 => by rw [hst l]; exact gB l hl2⟩
      · exact Or.inr ⟨gS, gB⟩
    · intro hl
      rw [f5, f6]
      exact g4 hl
  · intro hx
    obtain ⟨g1, g2, g3⟩ := h5 (fun hh => hx (hex.2 hh))
    refine ⟨?_, by rw [f4]; exact g2, by rw [f5]; exact g3⟩
    intro i hi
    by_cases hlt : i < acc.2
    · rw [f9 i hlt]; exact g1 i hlt
    · exact f10 i (not_lt.1 hlt) hi

/-- The step of the pin loop on a pin of another net keeps the layer invariant of net `n`. -/
theorem affected_pin_step_other_layers (nl : ClusteredNetlist) (grid : DeviceGrid)
    (P P' : Nat → t_pl_loc) (cnt0 : Nat → Int) (D : List Nat) (acc : PlacerState × Nat)
    (n p : Nat) (mb : t_pl_moved_block)
    (hpins : ∀ q ∈ nl.net_pins n, nl.pin_net q = n)
    (hp : nl.pin_net p ≠ n)
    (h : LayerInv nl grid P P' cnt0 D acc n) :
    LayerInv nl grid P P' cnt0 (D ++ [p]) (affected_pin_step nl grid mb acc p) n := by
  unfold affected_pin_step
  by_cases hi : nl.net_is_ignored (nl.pin_net p) = true
  · simp only [hi, if_true]
    exact layerInv_transfer nl grid P P' cnt0 D acc acc n p hpins hp h rfl rfl rfl rfl rfl
      (le_refl _) (fun _ _ => rfl) (fun i h1 h2 => by omega)
  · simp only [hi, Bool.false_eq_true, if_false]
    have hne : n ≠ nl.pin_net p := fun e => hp e.symm
    obtain ⟨u1, _, _, u4, _, u6, u7⟩ := update_net_bb_frame nl grid
      (record_affected_net acc.1 (nl.pin_net p) acc.2).1 (nl.pin_net p) mb p
    obtain ⟨_, _, o3, o4⟩ := update_net_bb_other nl grid
      (record_affected_net acc.1 (nl.pin_net p) acc.2).1 (nl.pin_net p) mb p n hne
    obtain ⟨r1, _, _, r4, _, r6, _, _, r9⟩ :=
      record_affected_net_frame acc.1 (nl.pin_net p) acc.2
    obtain ⟨q1, q2, q3, _, q5, _, _⟩ := record_affected_net_spec acc.1 (nl.pin_net p) acc.2
    refine layerInv_transfer nl grid P P' cnt0 D acc _ n p hpins hp h ?_ ?_ ?_ ?_ ?_ ?_ ?_ ?_
    · show (update_net_bb nl grid _ _ mb p).block_locs = _
      rw [u1, r1]
    · show (update_net_bb nl grid _ _ mb p).num_sink_pin_layer n = _
      rw [u4, r4]
    · show (update_net_bb nl grid _ _ mb p).proposed_net_cost n = _
      rw [u6, q5 n hne]
    · show (update_net_bb nl grid _ _ mb p).bb_updated_before n = _
      rw [o4, r6]
    · show (update_net_bb nl grid _ _ mb p).ts_layer_sink_pin_count n = _
      rw [o3, r9]
    · exact q1
    · intro i hi2
      show (update_net_bb nl grid _ _ mb p).ts_nets_to_update i = _
      rw [u7, q2 i hi2]
    · intro i h1 h2
      show (update_net_bb nl grid _ _ mb p).ts_nets_to_update i ≠ n
      rw [u7, q3 i h1 h2]
      exact hp

/-- On a net with at least `SMALL_NET` sinks, `update_net_bb` is `update_bb` on the old and the
new location of the pin. -/
theorem update_net_bb_large_eq (nl : ClusteredNetlist) (grid : DeviceGrid) (s : PlacerState)
    (n p : Nat) (mb : t_pl_moved_block) (hl : SMALL_NET ≤ (nl.net_sinks n).length) :
    update_net_bb nl grid s n mb p = update_bb nl grid s n
      { x := mb.old_loc.x + nl.pin_width_offset mb.block_num (nl.tile_pin_index p)
        y := mb.old_loc.y + nl.pin_height_offset mb.block_num (nl.tile_pin_index p)
        layer_num := mb.old_loc.layer }
      { x := mb.new_loc.x + nl.pin_width_offset mb.block_num (nl.tile_pin_index p)
        y := mb.new_loc.y + nl.pin_height_offset mb.block_num (nl.tile_pin_index p)
        layer_num := mb.new_loc.layer } (nl.pin_is_driver p) := by
  have hnl : ¬ (nl.net_sinks n).length < SMALL_NET := not_lt.2 hl
  unfold update_net_bb
  rw [if_neg hnl]

/-- The layer counts after `update_net_bb` on a net with at least `SMALL_NET` sinks that was
not got from scratch before, on a device with several layers. -/
theorem update_net_bb_large_layers (nl : ClusteredNetlist) (grid : DeviceGrid)
    (s : PlacerState) (P P' : Nat → t_pl_loc) (D : List Nat) (n p : Nat)
    (mb : t_pl_moved_block) (hL : 1 < grid.num_layers)
    (hl : SMALL_NET ≤ (nl.net_sinks n).length)
    (h : s.bb_updated_before n ≠ BBFlag.GOT_FROM_SCRATCH)
    (hnd : (nl.net_pins n).Nodup) (hpin : p ∈ nl.net_pins n) (hpD : p ∉ D)
    (hold : mb.old_loc = P mb.block_num) (hnew : P' mb.block_num = mb.new_loc)
    (hblk : nl.pin_block p = mb.block_num)
    (hdrv : nl.pin_is_driver p = true ↔ p = nl.net_driver n)
    (hbl : s.block_locs = P')
    (hcurr : ∀ l, l < grid.num_layers →
      (if s.bb_updated_before n = BBFlag.NOT_UPDATED_YET then s.num_sink_pin_layer n
        else s.ts_layer_sink_pin_count n) l = staged_layer_count nl P P' D n l) :
    ((update_net_bb nl grid s n mb p).bb_updated_before n = BBFlag.UPDATED_ONCE ∧
      ∀ l, l < grid.num_layers →
        (update_net_bb nl grid s n mb p).ts_layer_sink_pin_count n l
          = staged_layer_count nl P P' (D ++ [p]) n l) ∨
    ((update_net_bb nl grid s n mb p).bb_updated_before n = BBFlag.GOT_FROM_SCRATCH ∧
      ∀ l, l < grid.num_layers →
        (update_net_bb nl grid s n mb p).ts_layer_sink_pin_count n l
          = sink_layer_count nl P' n l) := by
  rw [update_net_bb_large_eq nl grid s n p mb hl]
  rcases update_bb_layer_cases nl grid s n
      { x := mb.old_loc.x + nl.pin_width_offset mb.block_num (nl.tile_pin_index p)
        y := mb.old_loc.y + nl.pin_height_offset mb.block_num (nl.tile_pin_index p)
        layer_num := mb.old_loc.layer }
      { x := mb.new_loc.x + nl.pin_width_offset mb.block_num (nl.tile_pin_index p)
        y := mb.new_loc.y + nl.pin_height_offset mb.block_num (nl.tile_pin_index p)
        layer_num := mb.new_loc.layer } (nl.pin_is_driver p) h with ⟨a1, a2⟩ | ⟨a1, a2⟩
  · left
    refine ⟨a1, fun l hl2 => ?_⟩
    rw [a2, update_layer_counts_spec _ _ _ _ _ _ hL l hl2]
    exact staged_count_step nl grid P P' D n p mb _ hnd hpin hpD hold hnew hblk hdrv hcurr l hl2
  · right
    refine ⟨a1, fun l hl2 => ?_⟩
    rw [a2, hbl]
    exact scratch_layer_counts nl grid P' n _ l hl2

/-- The layer counts after `update_net_bb` on a net with fewer than `SMALL_NET` sinks. -/
theorem update_net_bb_small_layers (nl : ClusteredNetlist) (grid : DeviceGrid)
    (s : PlacerState) (n p : Nat) (mb : t_pl_moved_block)
    (hs : (nl.net_sinks n).length < SMALL_NET)
    (h : s.bb_updated_before n = BBFlag.NOT_UPDATED_YET) :
    (update_net_bb nl grid s n mb p).bb_updated_before n = BBFlag.NOT_UPDATED_YET ∧
    ∀ l, l < grid.num_layers →
      (update_net_bb nl grid s n mb p).ts_layer_sink_pin_count n l
        = sink_layer_count nl s.block_locs n l := by
  unfold update_net_bb
  rw [if_pos hs, if_pos h]
  refine ⟨h, fun l hl => ?_⟩
  dsimp only
  rw [Function.update_same, ← scratch_layers_eq_non_updateable]
  exact scratch_layer_counts nl grid s.block_locs n _ l hl

/-- The step of the pin loop on a pin of net `n` keeps the layer invariant of net `n`. -/
theorem affected_pin_step_own_layers (nl : ClusteredNetlist) (grid : DeviceGrid)
    (P P' : Nat → t_pl_loc) (cnt0 : Nat → Int) (D : List Nat) (acc : PlacerState × Nat)
    (n p : Nat) (mb : t_pl_moved_block) (hL : 1 < grid.num_layers)
    (hign : nl.net_is_ignored n = false)
    (hnd : (nl.net_pins n).Nodup)
    (hpins : ∀ q ∈ nl.net_pins n, nl.pin_net q = n)
    (hcommitted : ∀ l, l < grid.num_layers → cnt0 l = sink_layer_count nl P n l)
    (hold : mb.old_loc = P mb.block_num) (hnew : P' mb.block_num = mb.new_loc)
    (hblk : nl.pin_block p = mb.block_num) (hpin : p ∈ nl.net_pins n)
    (hdrv : nl.pin_is_driver p = true ↔ p = nl.net_driver n)
    (hpD : p ∉ D) (hn : nl.pin_net p = n)
    (h : LayerInv nl grid P P' cnt0 D acc n) :
    LayerInv nl grid P P' cnt0 (D ++ [p]) (affected_pin_step nl grid mb acc p) n := by
  have hstep : affected_pin_step nl grid mb acc p
      = (update_net_bb nl grid (record_affected_net acc.1 n acc.2).1 n mb p,
         (record_affected_net acc.1 n acc.2).2) := by
    unfold affected_pin_step
    simp only [hn, hign, Bool.false_eq_true, if_false]
  rw [hstep]
  generalize hr : record_affected_net acc.1 n acc.2 = r
  obtain ⟨h1, h2, h4, h5⟩ := h
  obtain ⟨u1, _, _, u4, _, u6, u7⟩ := update_net_bb_frame nl grid r.1 n mb p
  obtain ⟨r1, _, _, r4, _, r6, _, _, r9⟩ := record_affected_net_frame acc.1 n acc.2
  obtain ⟨q1, q2, q3, q4, _, q6, q7⟩ := record_affected_net_spec acc.1 n acc.2
  rw [hr] at r1 r4 r6 r9 q1 q2 q3 q4 q6 q7
  have hnow : ∃ q ∈ D ++ [p], nl.pin_net q = n :=
    ⟨p, List.mem_append_right _ (List.mem_singleton_self p), hn⟩
  have hbl : r.1.block_locs = P' := by rw [r1, h1]
  refine ⟨by rw [u1, r1, h1], by rw [u4, r4, h2], ?_, fun hx => absurd hnow hx⟩
  intro _
  refine ⟨?_, by rw [u6]; exact q4, ?_, ?_⟩
  · by_cases prev : ∃ q ∈ D, nl.pin_net q = n
    · obtain ⟨⟨i, hi, hti⟩, _⟩ := h4 prev
      exact ⟨i, lt_of_lt_of_le hi q1, by rw [u7, q2 i hi, hti]⟩
    · obtain ⟨_, g2, _⟩ := h5 prev
      have e := q6 g2
      exact ⟨acc.2, by rw [e]; exact Nat.lt_succ_self _,
        by rw [u7]; exact q3 acc.2 (le_refl _) (by rw [e]; exact Nat.lt_succ_self _)⟩
  · intro hl
    by_cases prev : ∃ q ∈ D, nl.pin_net q = n
    · rcases (h4 prev).2.2.1 hl with ⟨gU, gB⟩ | ⟨gS, gB⟩
      · have fU : r.1.bb_updated_before n = BBFlag.UPDATED_ONCE := by rw [r6]; exact gU
        have hne : r.1.bb_updated_before n ≠ BBFlag.GOT_FROM_SCRATCH := by
          rw [fU]; exact fun e => by cases e
        apply update_net_bb_large_layers nl grid r.1 P P' D n p mb hL hl hne hnd hpin hpD hold
          hnew hblk hdrv hbl
        intro l hl2
        rw [fU, if_neg (fun e => by cases e), r9]
        exact gB l hl2
      · have fS : r.1.bb_updated_before n = BBFlag.GOT_FROM_SCRATCH := by rw [r6]; exact gS
        rw [update_net_bb_large_scratch nl grid r.1 n p mb hl fS, r9]
        exact Or.inr ⟨fS, gB⟩
    · obtain ⟨_, _, g3⟩ := h5 prev
      have fN : r.1.bb_updated_before n = BBFlag.NOT_UPDATED_YET := by rw [r6]; exact g3
      have hne : r.1.bb_updated_before n ≠ BBFlag.GOT_FROM_SCRATCH := by
        rw [fN]; exact fun e => by cases e
      apply update_net_bb_large_layers nl grid r.1 P P' D n p mb hL hl hne hnd hpin hpD hold
        hnew hblk hdrv hbl
      intro l hl2
      rw [if_pos fN, r4, h2, hcommitted l hl2]
      unfold sink_layer_count staged_layer_count
      symm
      apply filter_length_congr
      intro q hq
      have hqD : q ∉ D := fun hqD => prev ⟨q, hqD, hpins q (List.mem_cons_of_mem _ hq)⟩
      unfold staged_pin_layer
      rw [if_neg hqD]
  · intro hs
    have fN : r.1.bb_updated_before n = BBFlag.NOT_UPDATED_YET := by
      rw [r6]
      by_cases prev : ∃ q ∈ D, nl.pin_net q = n
      · exact ((h4 prev).2.2.2 hs).1
      · exact (h5 prev).2.2
    obtain ⟨k1, k2⟩ := update_net_bb_small_layers nl grid r.1 n p mb hs fN
    rw [hbl] at k2
    exact ⟨k1, k2⟩

/-- The layer invariant of a net is kept by the pin loop. -/
theorem affected_fold_layerInv (nl : ClusteredNetlist) (grid : DeviceGrid)
    (P P' : Nat → t_pl_loc) (cnt0 : Nat → Int) (n : Nat) (hL : 1 < grid.num_layers)
    (hign : nl.net_is_ignored n = false)
    (hnd : (nl.net_pins n).Nodup)
    (hpins : ∀ q ∈ nl.net_pins n, nl.pin_net q = n)
    (hcommitted : ∀ l, l < grid.num_layers → cnt0 l = sink_layer_count nl P n l)
    (todo : List (t_pl_moved_block × Nat)) :
    ∀ (D : List Nat) (acc : PlacerState × Nat),
    (∀ mp ∈ todo, mp.1.old_loc = P mp.1.block_num ∧ P' mp.1.block_num = mp.1.new_loc ∧
      nl.pin_block mp.2 = mp.1.block_num ∧ mp.2 ∈ nl.net_pins (nl.pin_net mp.2) ∧
      (nl.pin_is_driver mp.2 = true ↔ mp.2 = nl.net_driver (nl.pin_net mp.2))) →
    (D ++ todo.map Prod.snd).Nodup →
    LayerInv nl grid P P' cnt0 D acc n →
    LayerInv nl grid P P' cnt0 (D ++ todo.map Prod.snd)
      (todo.foldl (fun a mp => affected_pin_step nl grid mp.1 a mp.2) acc) n := by
  induction todo with
  | nil => intro D acc _ _ h; simpa using h
  | cons mp rest ih =>
    intro D acc hall hnodup h
    obtain ⟨hold, hnew, hblk, hpin, hdrv⟩ := hall mp (List.mem_cons_self _ _)
    have hpD : mp.2 ∉ D := by
      intro hm
      have := List.nodup_append.1 hnodup
      exact this.2.2 hm (by simp)
    have hstep : LayerInv nl grid P P' cnt0 (D ++ [mp.2])
        (affected_pin_step nl grid mp.1 acc mp.2) n := by
      by_cases hn : nl.pin_net mp.2 = n
      · exact affected_pin_step_own_layers nl grid P P' cnt0 D acc n mp.2 mp.1 hL hign hnd
          hpins hcommitted hold hnew hblk (by rw [← hn]; exact hpin) (by rw [← hn]; exact hdrv)
          hpD hn h
      · exact affected_pin_step_other_layers nl grid P P' cnt0 D acc n mp.2 mp.1 hpins hn h
    have hnodup2 : ((D ++ [mp.2]) ++ rest.map Prod.snd).Nodup := by
      simpa using hnodup
    have := ih (D ++ [mp.2]) _ (fun x hx => hall x (List.mem_cons_of_mem _ hx)) hnodup2 hstep
    simpa using this

/-! ## The per-layer sink counts across an accepted swap -/

/-- After `k` rounds of the loop of `update_move_nets`, the nets among the first `k` entries of
the list hold their scratch layer counts on the layers of the device, the other nets their
previous counts. -/
theorem update_move_nets_layers (nl : ClusteredNetlist) (grid : DeviceGrid) (s : PlacerState)
    (k : Nat) :
    (update_move_nets nl grid k s).ts_layer_sink_pin_count = s.ts_layer_sink_pin_count ∧
    (update_move_nets nl grid k s).ts_nets_to_update = s.ts_nets_to_update ∧
    ∀ n,
      ((∃ i, i < k ∧ s.ts_nets_to_update i = n) →
        ∀ l, l < grid.num_layers →
          (update_move_nets nl grid k s).num_sink_pin_layer n l
            = s.ts_layer_sink_pin_count n l) ∧
      ((¬ ∃ i, i < k ∧ s.ts_nets_to_update i = n) →
        (update_move_nets nl grid k s).num_sink_pin_layer n = s.num_sink_pin_layer n) := by
  induction k with
  | zero =>
    refine ⟨rfl, rfl, fun n => ⟨?_, fun _ => rfl⟩⟩
    rintro ⟨i, hi, _⟩
    exact absurd hi (Nat.not_lt_zero _)
  | succ k ih =>
    obtain ⟨i1, i2, i3⟩ := ih
    have e : update_move_nets nl grid (k + 1) s
        = update_move_nets_step nl grid (update_move_nets nl grid k s) k := by
      unfold update_move_nets
      rw [List.range_succ, List.foldl_append]
      rfl
    rw [e]
    generalize update_move_nets nl grid k s = t at i1 i2 i3 ⊢
    refine ⟨i1, i2, ?_⟩
    intro n
    obtain ⟨j1, j2⟩ := i3 n
    by_cases hk : s.ts_nets_to_update k = n
    · have hk2 : t.ts_nets_to_update k = n := by rw [i2]; exact hk
      refine ⟨fun _ l hl => ?_, fun hx => absurd ⟨k, Nat.lt_succ_self _, hk⟩ hx⟩
      unfold update_move_nets_step
      dsimp only
      rw [hk2, Function.update_same, if_pos hl, i1]
    · have hne : n ≠ t.ts_nets_to_update k := by rw [i2]; exact fun e2 => hk e2.symm
      have hf : (update_move_nets_step nl grid t k).num_sink_pin_layer n
          = t.num_sink_pin_layer n := by
        unfold update_move_nets_step
        exact Function.update_noteq hne _ _
      rw [hf]
      have hiff : (∃ i, i < k + 1 ∧ s.ts_nets_to_update i = n)
          ↔ (∃ i, i < k ∧ s.ts_nets_to_update i = n) := by
        constructor
        · rintro ⟨i, hi, e2⟩
          have : i ≠ k := fun e3 => hk (e3 ▸ e2)
          exact ⟨i, by omega, e2⟩
        · rintro ⟨i, hi, e2⟩
          exact ⟨i, by omega, e2⟩
      rw [hiff]
      exact ⟨j1, j2⟩

/-- The state after the two loops of `find_affected_nets_and_update_costs` and the commit by
`update_move_nets`, on a device with several layers, started from a state with empty scratch
and right layer counts on the placement before the move, has right layer counts on the
proposed placement. -/
theorem commit_after_find_affected_layers (nl : ClusteredNetlist) (grid : DeviceGrid)
    (fac : CostFac) (moves : List t_pl_moved_block) (s : PlacerState)
    (hnl : netlist_consistent nl) (hdrv : netlist_drivers_consistent nl)
    (hmove : valid_move nl s moves) (hempty : swap_scratch_empty nl s)
    (hL : 1 < grid.num_layers) (hinv : layer_counts_valid nl grid s) :
    layer_counts_valid nl grid
      (update_move_nets nl grid
        (find_affected_nets_and_update_costs nl grid fac moves
          (apply_move_blocks moves s)).num_affected_nets
        (find_affected_nets_and_update_costs nl grid fac moves
          (apply_move_blocks moves s)).state) := by
  intro n hn hign
  obtain ⟨hnets, hblocks⟩ := hnl
  obtain ⟨hmnd, hmv⟩ := hmove
  obtain ⟨hnd, hnpins⟩ := hnets n hn
  have hinvn := hinv n hn hign
  generalize hP : s.block_locs = P at *
  have hQdef : (apply_move_blocks moves s).block_locs
      = moves.foldl (fun locs mb => Function.update locs mb.block_num mb.new_loc) P := by
    unfold apply_move_blocks
    rw [hP]
  generalize hP' : (apply_move_blocks moves s).block_locs = P' at *
  have hQmem : ∀ mb ∈ moves, P' mb.block_num = mb.new_loc := by
    intro mb hmb
    rw [hQdef]
    exact foldl_update_mem moves (fun m => m.new_loc) P mb hmnd hmb
  have hQnot : ∀ b, b ∉ moves.map (fun mb => mb.block_num) → P' b = P b := by
    intro b hb
    rw [hQdef]
    exact foldl_update_not_mem moves (fun m => m.new_loc) P b hb
  have hall : ∀ mp ∈ pin_seq nl moves, mp.1.old_loc = P mp.1.block_num ∧
      P' mp.1.block_num = mp.1.new_loc ∧ nl.pin_block mp.2 = mp.1.block_num ∧
      mp.2 ∈ nl.net_pins (nl.pin_net mp.2) ∧
      (nl.pin_is_driver mp.2 = true ↔ mp.2 = nl.net_driver (nl.pin_net mp.2)) := by
    intro mp hmp
    obtain ⟨h1, h2⟩ := (mem_pin_seq nl moves mp).1 hmp
    obtain ⟨hb, ho⟩ := hmv mp.1 h1
    obtain ⟨_, hbp⟩ := hblocks mp.1.block_num hb
    exact ⟨ho, hQmem mp.1 h1, (hbp mp.2 h2).1, (hbp mp.2 h2).2.2,
      hdrv mp.1.block_num hb mp.2 h2⟩
  have hseqnd : ((pin_seq nl moves).map Prod.snd).Nodup :=
    nodup_pin_seq nl moves hmnd (fun mb hmb =>
      ⟨(hblocks mb.block_num (hmv mb hmb).1).1,
       fun p hp => ((hblocks mb.block_num (hmv mb hmb).1).2 p hp).1⟩)
  have hunmoved : ∀ q ∈ nl.net_pins n, q ∉ (pin_seq nl moves).map Prod.snd →
      P' (nl.pin_block q) = P (nl.pin_block q) := by
    intro q hq hqD
    apply hQnot
    intro hb
    obtain ⟨mb, hmb, e⟩ := List.mem_map.1 hb
    apply hqD
    refine List.mem_map.2 ⟨(mb, q), (mem_pin_seq nl moves (mb, q)).2 ⟨hmb, ?_⟩, rfl⟩
    show q ∈ nl.block_pins mb.block_num
    rw [e]
    exact (hnpins q hq).2.1
  have hinit : LayerInv nl grid P P' (s.num_sink_pin_layer n) []
      (apply_move_blocks moves s, 0) n := by
    refine ⟨hP', rfl, ?_, ?_⟩
    · rintro ⟨p, hp, _⟩
      exact absurd hp (List.not_mem_nil _)
    · intro _
      exact ⟨fun i hi => absurd hi (Nat.not_lt_zero _), (hempty n hn).2, (hempty n hn).1⟩
  have hloop := affected_fold_layerInv nl grid P P' (s.num_sink_pin_layer n) n hL hign
    hnd (fun q hq => (hnpins q hq).1) hinvn (pin_seq nl moves) []
    (apply_move_blocks moves s, 0) hall (by simpa using hseqnd) hinit
  rw [List.nil_append, ← affected_blocks_foldl_eq] at hloop
  unfold find_affected_nets_and_update_costs
  dsimp only
  generalize hr1 : moves.foldl (affected_block_step nl grid) (apply_move_blocks moves s, 0)
    = r1 at *
  obtain ⟨f1, _, _, f4, _, _, _, _, f9, f10⟩ :=
    proposed_cost_fold_frame nl fac (List.range r1.2) (r1.1, 0)
  generalize ((List.range r1.2).foldl (proposed_cost_step nl fac) (r1.1, 0)).1 = t at *
  simp only at f1 f4 f9 f10
  obtain ⟨u1, _, _, _, _⟩ := update_move_nets_fold nl grid t r1.2
  obtain ⟨_, _, u5⟩ := update_move_nets_layers nl grid t r1.2
  obtain ⟨g1, g2, g4, g5⟩ := hloop
  obtain ⟨ua, ub⟩ := u5 n
  have hbl : (update_move_nets nl grid r1.2 t).block_locs = P' := by rw [u1, f1, g1]
  rw [hbl]
  intro l hl
  by_cases haff : ∃ p ∈ (pin_seq nl moves).map Prod.snd, nl.pin_net p = n
  · obtain ⟨⟨i, hi, hti⟩, _, k3, k4⟩ := g4 haff
    rw [ua ⟨i, hi, by rw [f10]; exact hti⟩ l hl, f9]
    by_cases hlarge : SMALL_NET ≤ (nl.net_sinks n).length
    · rcases k3 hlarge with ⟨_, hb⟩ | ⟨_, hb⟩
      · rw [hb l hl]
        unfold staged_layer_count sink_layer_count
        apply filter_length_congr
        intro q hq
        unfold staged_pin_layer
        by_cases hqD : q ∈ (pin_seq nl moves).map Prod.snd
        · rw [if_pos hqD]
        · rw [if_neg hqD]
          unfold net_pin_layer
          rw [hunmoved q (List.mem_cons_of_mem _ hq) hqD]
      · exact hb l hl
    · exact (k4 (not_le.1 hlarge)).2 l hl
  · obtain ⟨k1, _, _⟩ := g5 haff
    have hnot : ¬ ∃ i, i < r1.2 ∧ t.ts_nets_to_update i = n := by
      rintro ⟨i, hi, e⟩
      rw [f10] at e
      exact k1 i hi e
    rw [ub hnot, f4, g2, hinvn l hl]
    unfold sink_layer_count
    apply filter_length_congr
    intro q hq
    unfold net_pin_layer
    apply congrArg
    apply hunmoved q (List.mem_cons_of_mem _ hq)
    intro hqD
    exact haff ⟨q, hqD, (hnpins q (List.mem_cons_of_mem _ hq)).1⟩

/-- The number of pins on a layer under a second assignment of layers: the number under the
first one, less the pins that left the layer, plus the pins that arrived on it. -/
theorem filter_length_delta (pins : List Nat) (f g : Nat → Nat) (l : Nat) :
    ((pins.filter (fun q => decide (g q = l))).length : Int)
      = ((pins.filter (fun q => decide (f q = l))).length : Int)
        - ((pins.filter (fun q => decide (f q = l ∧ g q ≠ l))).length : Int)
        + ((pins.filter (fun q => decide (g q = l ∧ f q ≠ l))).length : Int) := by
  induction pins with
  | nil => simp
  | cons a rest ih =>
    simp only [List.filter_cons]
    by_cases h1 : f a = l <;> by_cases h2 : g a = l <;>
      simp only [h1, h2, ne_eq, not_true_eq_false, not_false_eq_true, and_true, and_false,
        and_self, decide_True, decide_False, if_true, Bool.false_eq_true, if_false,
        List.length_cons] <;> push_cast <;> rw [ih] <;> ring

/-- The numbers of pins on the layers of the device add up to the number of pins, when every
pin is on a layer of the device. -/
theorem sum_filter_length (pins : List Nat) (g : Nat → Nat) (L : Nat)
    (h : ∀ p ∈ pins, g p < L) :
    ∑ l in Finset.range L, ((pins.filter (fun q => decide (g q = l))).length : Int)
      = (pins.length : Int) := by
  induction pins with
  | nil => simp
  | cons a rest ih =>
    have hrest := ih (fun p hp => h p (List.mem_cons_of_mem _ hp))
    have ha : g a < L := h a (List.mem_cons_self _ _)
    have hstep : ∀ l ∈ Finset.range L,
        (((a :: rest).filter (fun q => decide (g q = l))).length : Int)
          = ((rest.filter (fun q => decide (g q = l))).length : Int)
            + (if g a = l then 1 else 0) := by
      intro l _
      rw [List.filter_cons]
      by_cases h1 : g a = l
      · simp [h1]
      · simp [h1]
    rw [Finset.sum_congr rfl hstep, Finset.sum_add_distrib, hrest, Finset.sum_ite_eq,
      if_pos (Finset.mem_range.2 ha), List.length_cons]
    push_cast
    ring

/-- C20, as amended. Per-layer sink counts stay consistent on devices with more than one
layer: in cube-BB mode, if the committed `num_sink_pin_layer` of every non-ignored net counts
its sinks per layer before the swap (consistent netlist tables, a valid move, an empty
scratch), then after an accepted swap it does so on the new placement; the counts of every net
equal the counts before the swap less, per layer, the sinks that left the layer, plus the
sinks that arrived on it; and they sum to the number of sinks of the net when every sink is
on a layer of the device. -/
theorem try_swap_accepted_keeps_layer_counts {σ : Type} (exp : ℚ → ℚ) (frand : σ → ℚ × σ)
    (nl : ClusteredNetlist) (grid : DeviceGrid) (fac : CostFac) (opts : SwapOpts)
    (inp : SwapInputs σ) (s : PlacerState) (costs : t_placer_costs)
    (hnl : netlist_consistent nl) (hdrv : netlist_drivers_consistent nl)
    (hmove : valid_move nl s inp.moved_blocks) (hempty : swap_scratch_empty nl s)
    (hL : 1 < grid.num_layers) (hinv : layer_counts_valid nl grid s)
    (hacc : (try_swap exp frand nl grid fac opts inp s costs).move_outcome
      = e_move_result.ACCEPTED) :
    layer_counts_valid nl grid (try_swap exp frand nl grid fac opts inp s costs).state ∧
    (∀ net_id, net_id < nl.num_nets → nl.net_is_ignored net_id = false →
      ∀ layer, layer < grid.num_layers →
        (try_swap exp frand nl grid fac opts inp s costs).state.num_sink_pin_layer net_id layer
          = s.num_sink_pin_layer net_id layer
            - (((nl.net_sinks net_id).filter (fun p =>
                decide (net_pin_layer nl s.block_locs p = layer ∧
                  net_pin_layer nl
                    (try_swap exp frand nl grid fac opts inp s costs).state.block_locs p
                    ≠ layer))).length : Int)
            + (((nl.net_sinks net_id).filter (fun p =>
                decide (net_pin_layer nl
                    (try_swap exp frand nl grid fac opts inp s costs).state.block_locs p
                    = layer ∧
                  net_pin_layer nl s.block_locs p ≠ layer))).length : Int)) ∧
    (∀ net_id, net_id < nl.num_nets → nl.net_is_ignored net_id = false →
      (∀ p ∈ nl.net_sinks net_id,
        net_pin_layer nl (try_swap exp frand nl grid fac opts inp s costs).state.block_locs p
          < grid.num_layers) →
      ∑ layer in Finset.range grid.num_layers,
        (try_swap exp frand nl grid fac opts inp s costs).state.num_sink_pin_layer net_id layer
        = ((nl.net_sinks net_id).length : Int)) := by
  have hvalid : layer_counts_valid nl grid
      (try_swap exp frand nl grid fac opts inp s costs).state := by
    rw [(try_swap_accepted exp frand nl grid fac opts inp s costs hacc).1]
    exact commit_after_find_affected_layers nl grid fac inp.moved_blocks s hnl hdrv hmove hempty
      hL hinv
  refine ⟨hvalid, ?_, ?_⟩
  · intro n hn hign l hl
    rw [hvalid n hn hign l hl, hinv n hn hign l hl]
    unfold sink_layer_count
    exact filter_length_delta _ _ _ l
  · intro n hn hign hlay
    have hcongr : ∀ l ∈ Finset.range grid.num_layers,
        (try_swap exp frand nl grid fac opts inp s costs).state.num_sink_pin_layer n l
          = (((nl.net_sinks n).filter (fun p => decide (net_pin_layer nl
              (try_swap exp frand nl grid fac opts inp s costs).state.block_locs p
              = l))).length : Int) := by
      intro l hl
      exact hvalid n hn hign l (Finset.mem_range.1 hl)
    rw [Finset.sum_congr rfl hcongr]
    exact sum_filter_length _ _ _ hlay

theorem ex_netlist_drivers_consistent : netlist_drivers_consistent ex_nl := by
  unfold netlist_drivers_consistent; decide

theorem ex_layer_first_loop :
    ((ex_layer_moves.foldl (affected_block_step ex_nl ex_grid2)
        (apply_move_blocks ex_layer_moves ex_state, 0)).2 = 1) ∧
    ((ex_layer_moves.foldl (affected_block_step ex_nl ex_grid2)
        (apply_move_blocks ex_layer_moves ex_state, 0)).1.ts_nets_to_update 0 = 0) ∧
    ((ex_layer_moves.foldl (affected_block_step ex_nl ex_grid2)
        (apply_move_blocks ex_layer_moves ex_state, 0)).1.ts_bb_coord_new 0
      = { xmin := 3, xmax := 7, ymin := 1, ymax := 1 }) := by
  decide

theorem ex_layer_valid_move : valid_move ex_nl ex_state ex_layer_moves := by
  unfold valid_move; decide

theorem ex_layer_bb_delta_c :
    (find_affected_nets_and_update_costs ex_nl ex_grid2 ex_fac ex_layer_moves
      (apply_move_blocks ex_layer_moves ex_state)).bb_delta_c = 0 := by
  obtain ⟨h1, h2, h3⟩ := ex_layer_first_loop
  have hn := find_affected_net_cost ex_nl ex_grid2 ex_fac ex_layer_moves ex_state
    ex_netlist_consistent ex_layer_valid_move
  unfold find_affected_nets_and_update_costs at hn ⊢
  dsimp only at hn ⊢
  obtain ⟨_, _, _, _, f5, _⟩ := proposed_cost_fold_frame ex_nl ex_fac
    (List.range (ex_layer_moves.foldl (affected_block_step ex_nl ex_grid2)
      (apply_move_blocks ex_layer_moves ex_state, 0)).2)
    ((ex_layer_moves.foldl (affected_block_step ex_nl ex_grid2)
      (apply_move_blocks ex_layer_moves ex_state, 0)).1, 0)
  rw [f5] at hn
  simp only at hn
  rw [(proposed_cost_fold_delta ex_nl ex_fac _ 0 _).1, h1, Finset.sum_range_one, h2, h3, hn]
  have hp : (ex_nl.net_pins 0).length = 6 := by decide
  unfold get_net_cost
  rw [hp, ex_crossing]
  norm_num [ex_state, ex_fac]

theorem ex_layer_try_swap_accepted :
    (try_swap ex_exp ex_frand ex_nl ex_grid2 ex_fac ex_opts ex_layer_inputs ex_state
      ex_costs).move_outcome = e_move_result.ACCEPTED := by
  have hb := ex_layer_bb_delta_c
  unfold try_swap
  simp only [ex_layer_inputs] at hb ⊢
  rw [hb]
  norm_num [ex_opts, ex_costs, swap_delta_c, assess_swap, manual_override,
    e_place_algorithm.is_timing_driven]

theorem ex_layer_counts_valid2 : layer_counts_valid ex_nl ex_grid2 ex_state := by
  unfold layer_counts_valid; decide

/-- Witness of C20 as amended: on the example grid with two layers the move of block 4 to
layer 1 is accepted; the counts of net 0 go from `5, 0` to `4, 1`. -/
theorem try_swap_accepted_keeps_layer_counts_witness :
    netlist_consistent ex_nl ∧ netlist_drivers_consistent ex_nl ∧
    valid_move ex_nl ex_state ex_layer_inputs.moved_blocks ∧ swap_scratch_empty ex_nl ex_state ∧
    1 < ex_grid2.num_layers ∧ layer_counts_valid ex_nl ex_grid2 ex_state ∧
    (try_swap ex_exp ex_frand ex_nl ex_grid2 ex_fac ex_opts ex_layer_inputs ex_state
      ex_costs).move_outcome = e_move_result.ACCEPTED ∧
    layer_counts_valid ex_nl ex_grid2
      (try_swap ex_exp ex_frand ex_nl ex_grid2 ex_fac ex_opts ex_layer_inputs ex_state
        ex_costs).state :=
  ⟨ex_netlist_consistent, ex_netlist_drivers_consistent, ex_layer_valid_move,
    ex_swap_scratch_empty, by decide, ex_layer_counts_valid2, ex_layer_try_swap_accepted,
    (try_swap_accepted_keeps_layer_counts ex_exp ex_frand ex_nl ex_grid2 ex_fac ex_opts
      ex_layer_inputs ex_state ex_costs ex_netlist_consistent ex_netlist_drivers_consistent
      ex_layer_valid_move ex_swap_scratch_empty (by decide) ex_layer_counts_valid2
      ex_layer_try_swap_accepted).1⟩

/-- The counts of the example net after the accepted move of block 4 to layer 1. -/
theorem ex_layer_counts_after :
    (try_swap ex_exp ex_frand ex_nl ex_grid2 ex_fac ex_opts ex_layer_inputs ex_state
      ex_costs).state.num_sink_pin_layer 0 0 = 4 ∧
    (try_swap ex_exp ex_frand ex_nl ex_grid2 ex_fac ex_opts ex_layer_inputs ex_state
      ex_costs).state.num_sink_pin_layer 0 1 = 1 := by
  rw [(try_swap_accepted ex_exp ex_frand ex_nl ex_grid2 ex_fac ex_opts ex_layer_inputs ex_state
    ex_costs ex_layer_try_swap_accepted).1]
  decide

theorem ex_single_first_loop :
    (((ex_moves.take 1).foldl (affected_block_step ex_nl ex_grid)
        (apply_move_blocks (ex_moves.take 1) ex_state, 0)).2 = 1) ∧
    (((ex_moves.take 1).foldl (affected_block_step ex_nl ex_grid)
        (apply_move_blocks (ex_moves.take 1) ex_state, 0)).1.ts_nets_to_update 0 = 0) ∧
    (((ex_moves.take 1).foldl (affected_block_step ex_nl ex_grid)
        (apply_move_blocks (ex_moves.take 1) ex_state, 0)).1.ts_bb_coord_new 0
      = { xmin := 3, xmax := 7, ymin := 1, ymax := 1 }) := by
  decide

theorem ex_single_valid_move : valid_move ex_nl ex_state (ex_moves.take 1) := by
  unfold valid_move; decide

theorem ex_single_bb_delta_c :
    (find_affected_nets_and_update_costs ex_nl ex_grid ex_fac (ex_moves.take 1)
      (apply_move_blocks (ex_moves.take 1) ex_state)).bb_delta_c = 0 := by
  obtain ⟨h1, h2, h3⟩ := ex_single_first_loop
  have hn := find_affected_net_cost ex_nl ex_grid ex_fac (ex_moves.take 1) ex_state
    ex_netlist_consistent ex_single_valid_move
  unfold find_affected_nets_and_update_costs at hn ⊢
  dsimp only at hn ⊢
  obtain ⟨_, _, _, _, f5, _⟩ := proposed_cost_fold_frame ex_nl ex_fac
    (List.range ((ex_moves.take 1).foldl (affected_block_step ex_nl ex_grid)
      (apply_move_blocks (ex_moves.take 1) ex_state, 0)).2)
    (((ex_moves.take 1).foldl (affected_block_step ex_nl ex_grid)
      (apply_move_blocks (ex_moves.take 1) ex_state, 0)).1, 0)
  rw [f5] at hn
  simp only at hn
  rw [(proposed_cost_fold_delta ex_nl ex_fac _ 0 _).1, h1, Finset.sum_range_one, h2, h3, hn]
  have hp : (ex_nl.net_pins 0).length = 6 := by decide
  unfold get_net_cost
  rw [hp, ex_crossing]
  norm_num [ex_state, ex_fac]

theorem ex_single_try_swap_accepted :
    (try_swap ex_exp ex_frand ex_nl ex_grid ex_fac ex_opts ex_single_inputs ex_state
      ex_costs).move_outcome = e_move_result.ACCEPTED := by
  have hb := ex_single_bb_delta_c
  unfold try_swap
  simp only [ex_single_inputs] at hb ⊢
  rw [hb]
  norm_num [ex_opts, ex_costs, swap_delta_c, assess_swap, manual_override,
    e_place_algorithm.is_timing_driven]

/-- Counterexample to C20 as stated: on the example grid, which has a single layer, the move of
block 4 from `x = 7` to `x = 4` is accepted; the counts were right before the swap (5 sinks on
layer 0), no pin changed its layer, and yet the committed count of net 0 on layer 0 after the
swap is the scratch value -1: `update_bb` leaves the scratch row alone on a single layer and
`update_move_nets` copies it all the same. -/
theorem try_swap_accepted_keeps_layer_counts_counterexample :
    ex_grid.num_layers = 1 ∧
    netlist_consistent ex_nl ∧ netlist_drivers_consistent ex_nl ∧
    valid_move ex_nl ex_state ex_single_inputs.moved_blocks ∧ swap_scratch_empty ex_nl ex_state ∧
    layer_counts_valid ex_nl ex_grid ex_state ∧
    (try_swap ex_exp ex_frand ex_nl ex_grid ex_fac ex_opts ex_single_inputs ex_state
      ex_costs).move_outcome = e_move_result.ACCEPTED ∧
    (∀ p ∈ ex_nl.net_sinks 0,
      net_pin_layer ex_nl (try_swap ex_exp ex_frand ex_nl ex_grid ex_fac ex_opts
        ex_single_inputs ex_state ex_costs).state.block_locs p
        = net_pin_layer ex_nl ex_state.block_locs p) ∧
    ex_state.num_sink_pin_layer 0 0 = 5 ∧ ((ex_nl.net_sinks 0).length : Int) = 5 ∧
    (try_swap ex_exp ex_frand ex_nl ex_grid ex_fac ex_opts ex_single_inputs ex_state
      ex_costs).state.num_sink_pin_layer 0 0 = -1 ∧
    ¬ layer_counts_valid ex_nl ex_grid
      (try_swap ex_exp ex_frand ex_nl ex_grid ex_fac ex_opts ex_single_inputs ex_state
        ex_costs).state := by
  have hshape := (try_swap_accepted ex_exp ex_frand ex_nl ex_grid ex_fac ex_opts
    ex_single_inputs ex_state ex_costs ex_single_try_swap_accepted).1
  have hcnt : (try_swap ex_exp ex_frand ex_nl ex_grid ex_fac ex_opts ex_single_inputs ex_state
      ex_costs).state.num_sink_pin_layer 0 0 = -1 := by
    rw [hshape]
    decide
  have hlay : ∀ p ∈ ex_nl.net_sinks 0,
      net_pin_layer ex_nl (try_swap ex_exp ex_frand ex_nl ex_grid ex_fac ex_opts
        ex_single_inputs ex_state ex_costs).state.block_locs p
        = net_pin_layer ex_nl ex_state.block_locs p := by
    rw [hshape]
    decide
  refine ⟨rfl, ex_netlist_consistent, ex_netlist_drivers_consistent, ex_single_valid_move,
    ex_swap_scratch_empty, by unfold layer_counts_valid; decide, ex_single_try_swap_accepted,
    hlay, rfl, by decide, hcnt, ?_⟩
  intro hv
  have h0 := hv 0 (by decide) rfl 0 (by decide)
  rw [hcnt] at h0
  unfold sink_layer_count at h0
  have hnonneg : (0 : Int) ≤ (((ex_nl.net_sinks 0).filter
      (fun p => decide (net_pin_layer ex_nl (try_swap ex_exp ex_frand ex_nl ex_grid ex_fac
        ex_opts ex_single_inputs ex_state ex_costs).state.block_locs p = 0))).length : Int) :=
    Int.natCast_nonneg _
  omega

/-! ## The per-layer from-scratch box -/

theorem layer_scratch_fold_ax (nl : ClusteredNetlist) (grid : DeviceGrid) (L : Nat → t_pl_loc)
    (sinks : List Nat) (l : Nat) : ∀ v : LayerScratchVars,
    (sinks.foldl (layer_scratch_sink_step nl grid L) v).ax l
      = ((sinks.filter (fun p => decide (net_pin_layer nl L p = l))).map
          (clipped_pin_x nl grid L)).foldl scratch_axis_step (v.ax l) := by
  induction sinks with
  | nil => intro v; rfl
  | cons p ps ih =>
    intro v
    simp only [List.foldl_cons]
    rw [ih]
    by_cases h : net_pin_layer nl L p = l
    · have hf : List.filter (fun p => decide (net_pin_layer nl L p = l)) (p :: ps)
          = p :: List.filter (fun p => decide (net_pin_layer nl L p = l)) ps := by
        rw [List.filter_cons]; simp only [h, decide_True, if_true]
      rw [hf, List.map_cons, List.foldl_cons]
      have h1 : (layer_scratch_sink_step nl grid L v p).ax l
          = scratch_axis_step (v.ax l) (clipped_pin_x nl grid L p) := by
        unfold net_pin_layer at h
        simp only [layer_scratch_sink_step, h, Function.update_same]
        rfl
      rw [h1]
    · have hf : List.filter (fun p => decide (net_pin_layer nl L p = l)) (p :: ps)
          = List.filter (fun p => decide (net_pin_layer nl L p = l)) ps := by
        rw [List.filter_cons]; simp only [h, decide_False, Bool.false_eq_true, if_false]
      rw [hf]
      have h1 : (layer_scratch_sink_step nl grid L v p).ax l = v.ax l := by
        unfold net_pin_layer at h
        have h2 : l ≠ (L (nl.pin_block p)).layer := fun e => h e.symm
        simp only [layer_scratch_sink_step, Function.update_noteq h2]
      rw [h1]

theorem layer_scratch_fold_ay (nl : ClusteredNetlist) (grid : DeviceGrid) (L : Nat → t_pl_loc)
    (sinks : List Nat) (l : Nat) : ∀ v : LayerScratchVars,
    (sinks.foldl (layer_scratch_sink_step nl grid L) v).ay l
      = ((sinks.filter (fun p => decide (net_pin_layer nl L p = l))).map
          (clipped_pin_y nl grid L)).foldl scratch_axis_step (v.ay l) := by
  induction sinks with
  | nil => intro v; rfl
  | cons p ps ih =>
    intro v
    simp only [List.foldl_cons]
    rw [ih]
    by_cases h : net_pin_layer nl L p = l
    · have hf : List.filter (fun p => decide (net_pin_layer nl L p = l)) (p :: ps)
          = p :: List.filter (fun p => decide (net_pin_layer nl L p = l)) ps := by
        rw [List.filter_cons]; simp only [h, decide_True, if_true]
      rw [hf, List.map_cons, List.foldl_cons]
      have h1 : (layer_scratch_sink_step nl grid L v p).ay l
          = scratch_axis_step (v.ay l) (clipped_pin_y nl grid L p) := by
        unfold net_pin_layer at h
        simp only [layer_scratch_sink_step, h, Function.update_same]
        rfl
      rw [h1]
    · have hf : List.filter (fun p => decide (net_pin_layer nl L p = l)) (p :: ps)
          = List.filter (fun p => decide (net_pin_layer nl L p = l)) ps := by
        rw [List.filter_cons]; simp only [h, decide_False, Bool.false_eq_true, if_false]
      rw [hf]
      have h1 : (layer_scratch_sink_step nl grid L v p).ay l = v.ay l := by
        unfold net_pin_layer at h
        have h2 : l ≠ (L (nl.pin_block p)).layer := fun e => h e.symm
        simp only [layer_scratch_sink_step, Function.update_noteq h2]
      rw [h1]

theorem layer_scratch_fold_layers (nl : ClusteredNetlist) (grid : DeviceGrid)
    (L : Nat → t_pl_loc) (sinks : List Nat) (l : Nat) : ∀ v : LayerScratchVars,
    (sinks.foldl (layer_scratch_sink_step nl grid L) v).num_sink_pin_layer l
      = v.num_sink_pin_layer l
        + ((sinks.filter (fun p => decide (net_pin_layer nl L p = l))).length : Int) := by
  induction sinks with
  | nil => intro v; simp
  | cons p ps ih =>
    intro v
    simp only [List.foldl_cons]
    rw [ih]
    simp only [layer_scratch_sink_step, incr_layer_count, List.filter_cons, net_pin_layer]
    by_cases h : (L (nl.pin_block p)).layer = l
    · subst h
      simp
      ring
    · have h2 : l ≠ (L (nl.pin_block p)).layer := fun e => h e.symm
      simp [h, Function.update_noteq h2]

/-- On every layer of the device the box of `get_layer_bb_from_scratch` describes the driver
and the sinks of that layer, carries the number of the layer, and comes with the number of
sinks of the layer. -/
theorem layer_scratch_box2Is (nl : ClusteredNetlist) (grid : DeviceGrid) (L : Nat → t_pl_loc)
    (net_id : Nat) (e c : Nat → t_2D_bb) (k : Nat → Int) (l : Nat) (hl : l < grid.num_layers) :
    Box2Is (clipped_pin_x nl grid L) (clipped_pin_y nl grid L) (layer_pins nl L net_id l)
      ((get_layer_bb_from_scratch nl grid L net_id e c k).coords l)
      ((get_layer_bb_from_scratch nl grid L net_id e c k).num_on_edges l) ∧
    ((get_layer_bb_from_scratch nl grid L net_id e c k).coords l).layer_num = (l : Int) ∧
    ((get_layer_bb_from_scratch nl grid L net_id e c k).num_on_edges l).layer_num = (l : Int) ∧
    (get_layer_bb_from_scratch nl grid L net_id e c k).layer_pin_sink_count l
      = sink_layer_count nl L net_id l := by
  have hx := isAxisBB_scratch (clipped_pin_x nl grid L (nl.net_driver net_id))
    (((nl.net_sinks net_id).filter (fun p => decide (net_pin_layer nl L p = l))).map
      (clipped_pin_x nl grid L))
  have hy := isAxisBB_scratch (clipped_pin_y nl grid L (nl.net_driver net_id))
    (((nl.net_sinks net_id).filter (fun p => decide (net_pin_layer nl L p = l))).map
      (clipped_pin_y nl grid L))
  refine ⟨⟨?_, ?_⟩, ?_, ?_, ?_⟩
  · simp only [get_layer_bb_from_scratch, if_pos hl, axis2_x, layer_scratch_fold_ax,
      layer_pins, List.map_cons]
    exact hx
  · simp only [get_layer_bb_from_scratch, if_pos hl, axis2_y, layer_scratch_fold_ay,
      layer_pins, List.map_cons]
    exact hy
  · simp only [get_layer_bb_from_scratch, if_pos hl]
  · simp only [get_layer_bb_from_scratch, if_pos hl]
  · simp only [get_layer_bb_from_scratch, if_pos hl, layer_scratch_fold_layers,
      sink_layer_count, zero_add]

theorem box2Is_unique {fx fy : Nat → Int} {pins : List Nat} {c e c2 e2 : t_2D_bb}
    (h1 : Box2Is fx fy pins c e) (h2 : Box2Is fx fy pins c2 e2)
    (hc : c.layer_num = c2.layer_num) (he : e.layer_num = e2.layer_num) :
    c = c2 ∧ e = e2 := by
  have hx := isAxisBB_unique h1.1 h2.1
  have hy := isAxisBB_unique h1.2 h2.2
  obtain ⟨a1, a2, a3, a4, a5⟩ := c
  obtain ⟨b1, b2, b3, b4, b5⟩ := e
  obtain ⟨c1, c2, c3, c4, c5⟩ := c2
  obtain ⟨d1, d2, d3, d4, d5⟩ := e2
  simp only [axis2_x, axis2_y, AxisBB.mk.injEq] at hx hy
  simp only at hc he
  obtain ⟨x1, x2, x3, x4⟩ := hx
  obtain ⟨y1, y2, y3, y4⟩ := hy
  subst x1 x2 x3 x4 y1 y2 y3 y4 hc he
  exact ⟨rfl, rfl⟩

theorem box2Is_congr {fx fy gx gy : Nat → Int} {pins : List Nat} {c e : t_2D_bb}
    (h : ∀ q ∈ pins, fx q = gx q ∧ fy q = gy q) (hb : Box2Is fx fy pins c e) :
    Box2Is gx gy pins c e := by
  have hx : pins.map gx = pins.map fx :=
    List.map_congr_left (fun q hq => ((h q hq).1).symm)
  have hy : pins.map gy = pins.map fy :=
    List.map_congr_left (fun q hq => ((h q hq).2).symm)
  unfold Box2Is
  rw [hx, hy]
  exact hb

/-! ## The per-layer incremental update on one layer -/

/-- When the box being written is a copy of the current box, one axis of
`update_bb_same_layer` is one axis of `update_bb`. -/
theorem same_layer_axis_eq (curr : AxisBB) (pin_old pin_new : Int) :
    same_layer_axis curr curr pin_old pin_new = update_axis curr pin_old pin_new := by
  obtain ⟨lo, hi, le, he⟩ := curr
  unfold same_layer_axis update_axis update_bb_edge update_lo_fields update_hi_fields
  by_cases h1 : pin_new < pin_old
  · simp only [h1, if_true]
    by_cases h2 : pin_old = hi
    · by_cases h3 : he = 1
      · simp [h2, h3]
      · by_cases h4 : pin_new < lo
        · simp [h2, h3, h4]
        · by_cases h5 : pin_new = lo
          · simp [h2, h3, h5]
          · simp [h2, h3, h4, h5]
    · by_cases h4 : pin_new < lo
      · simp [h2, h4]
      · by_cases h5 : pin_new = lo
        · simp [h2, h5]
        · simp [h2, h4, h5]
  · simp only [h1, if_false]
    by_cases h1b : pin_new > pin_old
    · simp only [h1b, if_true]
      by_cases h2 : pin_old = lo
      · by_cases h3 : le = 1
        · simp [h2, h3]
        · by_cases h4 : pin_new > hi
          · simp [h2, h3, h4]
          · by_cases h5 : pin_new = hi
            · simp [h2, h3, h5]
            · simp [h2, h3, h4, h5]
      · by_cases h4 : pin_new > hi
        · simp [h2, h4]
        · by_cases h5 : pin_new = hi
          · simp [h2, h5]
          · simp [h2, h4, h5]
    · simp [h1b]


theorem write_axis_x_frame (s : LayerPlacerState) (net_id l : Nat) (a : AxisBB) :
    (write_axis_x s net_id l a).toPlacerState = s.toPlacerState := rfl

theorem write_axis_y_frame (s : LayerPlacerState) (net_id l : Nat) (a : AxisBB) :
    (write_axis_y s net_id l a).toPlacerState = s.toPlacerState := rfl

/-- The two ways in which `update_bb_same_layer` ends when the scratch arrays of the net hold a
copy of the current boxes. -/
theorem update_bb_same_layer_cases (nl : ClusteredNetlist) (grid : DeviceGrid)
    (s : LayerPlacerState) (net_id : Nat) (o n : t_physical_tile_loc)
    (ce cc : Nat → t_2D_bb) (hE : s.layer_ts_bb_edge_new net_id = ce)
    (hC : s.layer_ts_bb_coord_new net_id = cc) :
    (∃ ax ay,
      update_axis (axis2_x (cc o.layer_num) (ce o.layer_num)) o.x n.x = some ax ∧
      update_axis (axis2_y (cc o.layer_num) (ce o.layer_num)) o.y n.y = some ay ∧
      (update_bb_same_layer nl grid s net_id o n ce cc).layer_ts_bb_coord_new net_id
        = Function.update cc o.layer_num
            { xmin := ax.lo, xmax := ax.hi, ymin := ay.lo, ymax := ay.hi
              layer_num := (cc o.layer_num).layer_num } ∧
      (update_bb_same_layer nl grid s net_id o n ce cc).layer_ts_bb_edge_new net_id
        = Function.update ce o.layer_num
            { xmin := ax.lo_edge, xmax := ax.hi_edge, ymin := ay.lo_edge, ymax := ay.hi_edge
              layer_num := (ce o.layer_num).layer_num } ∧
      (update_bb_same_layer nl grid s net_id o n ce cc).toPlacerState = s.toPlacerState) ∨
    (∃ e c k,
      (update_bb_same_layer nl grid s net_id o n ce cc).layer_ts_bb_coord_new net_id
        = (get_layer_bb_from_scratch nl grid s.block_locs net_id e c k).coords ∧
      (update_bb_same_layer nl grid s net_id o n ce cc).layer_ts_bb_edge_new net_id
        = (get_layer_bb_from_scratch nl grid s.block_locs net_id e c k).num_on_edges ∧
      (update_bb_same_layer nl grid s net_id o n ce cc).ts_layer_sink_pin_count net_id
        = (get_layer_bb_from_scratch nl grid s.block_locs net_id e c k).layer_pin_sink_count ∧
      (update_bb_same_layer nl grid s net_id o n ce cc).bb_updated_before net_id
        = BBFlag.GOT_FROM_SCRATCH) := by
  subst hE hC
  unfold update_bb_same_layer
  simp only [same_layer_axis_eq]
  cases hx : update_axis (axis2_x (s.layer_ts_bb_coord_new net_id o.layer_num)
      (s.layer_ts_bb_edge_new net_id o.layer_num)) o.x n.x with
  | none =>
    right
    exact ⟨s.layer_ts_bb_edge_new net_id, s.layer_ts_bb_coord_new net_id,
      s.ts_layer_sink_pin_count net_id, by simp [update_bb_edge_from_scratch],
      by simp [update_bb_edge_from_scratch], by simp [update_bb_edge_from_scratch],
      by simp [update_bb_edge_from_scratch]⟩
  | some ax =>
    have hy0 : axis2_y ((write_axis_x s net_id o.layer_num ax).layer_ts_bb_coord_new net_id
          o.layer_num)
        ((write_axis_x s net_id o.layer_num ax).layer_ts_bb_edge_new net_id o.layer_num)
        = axis2_y (s.layer_ts_bb_coord_new net_id o.layer_num)
            (s.layer_ts_bb_edge_new net_id o.layer_num) := by
      simp [write_axis_x, axis2_y]
    simp only [hy0, same_layer_axis_eq]
    cases hy : update_axis (axis2_y (s.layer_ts_bb_coord_new net_id o.layer_num)
        (s.layer_ts_bb_edge_new net_id o.layer_num)) o.y n.y with
    | none =>
      right
      exact ⟨(write_axis_x s net_id o.layer_num ax).layer_ts_bb_edge_new net_id,
        (write_axis_x s net_id o.layer_num ax).layer_ts_bb_coord_new net_id,
        s.ts_layer_sink_pin_count net_id,
        by simp [update_bb_edge_from_scratch, write_axis_x],
        by simp [update_bb_edge_from_scratch, write_axis_x],
        by simp [update_bb_edge_from_scratch, write_axis_x],
        by simp [update_bb_edge_from_scratch, write_axis_x]⟩
    | some ay =>
      left
      refine ⟨ax, ay, rfl, rfl, ?_, ?_, rfl⟩
      · simp [write_axis_y, write_axis_x]
      · simp [write_axis_y, write_axis_x]


theorem layer_pins_congr (nl : ClusteredNetlist) (P Q : Nat → t_pl_loc) (net_id l : Nat)
    (h : ∀ q ∈ nl.net_sinks net_id, net_pin_layer nl P q = net_pin_layer nl Q q) :
    layer_pins nl P net_id l = layer_pins nl Q net_id l := by
  unfold layer_pins
  congr 1
  apply List.filter_congr
  intro q hq
  rw [h q hq]

theorem sink_layer_count_congr (nl : ClusteredNetlist) (P Q : Nat → t_pl_loc) (net_id l : Nat)
    (h : ∀ q ∈ nl.net_sinks net_id, net_pin_layer nl P q = net_pin_layer nl Q q) :
    sink_layer_count nl P net_id l = sink_layer_count nl Q net_id l := by
  unfold sink_layer_count
  congr 2
  apply List.filter_congr
  intro q hq
  rw [h q hq]

theorem layer_pins_nodup (nl : ClusteredNetlist) (P : Nat → t_pl_loc) (net_id l : Nat)
    (hnd : (nl.net_pins net_id).Nodup) : (layer_pins nl P net_id l).Nodup := by
  unfold ClusteredNetlist.net_pins at hnd
  unfold layer_pins
  rw [List.nodup_cons] at hnd ⊢
  exact ⟨fun hm => hnd.1 (List.mem_filter.1 hm).1, hnd.2.filter _⟩

theorem layer_pins_subset (nl : ClusteredNetlist) (P : Nat → t_pl_loc) (net_id l q : Nat)
    (hq : q ∈ layer_pins nl P net_id l) : q ∈ nl.net_pins net_id := by
  unfold layer_pins at hq
  unfold ClusteredNetlist.net_pins
  rcases List.mem_cons.1 hq with h | h
  · exact List.mem_cons.2 (Or.inl h)
  · exact List.mem_cons.2 (Or.inr (List.mem_filter.1 h).1)

/-- A per-layer pair that describes the driver and the sinks of a layer under a placement and
carries the number of the layer is the pair that `get_layer_bb_from_scratch` computes. -/
theorem layer_scratch_eq_of_box2Is (nl : ClusteredNetlist) (grid : DeviceGrid)
    (L : Nat → t_pl_loc) (net_id : Nat) (e c : Nat → t_2D_bb) (k : Nat → Int) (l : Nat)
    (hl : l < grid.num_layers) {cb eb : t_2D_bb}
    (h : Box2Is (clipped_pin_x nl grid L) (clipped_pin_y nl grid L) (layer_pins nl L net_id l)
      cb eb) (hc : cb.layer_num = (l : Int)) (he : eb.layer_num = (l : Int)) :
    cb = (get_layer_bb_from_scratch nl grid L net_id e c k).coords l ∧
    eb = (get_layer_bb_from_scratch nl grid L net_id e c k).num_on_edges l := by
  obtain ⟨h1, h2, h3, _⟩ := layer_scratch_box2Is nl grid L net_id e c k l hl
  exact box2Is_unique h h1 (hc.trans h2.symm) (he.trans h3.symm)

/-- With the flag `NOT_UPDATED_YET` and a pin that stays on its layer, `update_layer_bb` is
`update_bb_same_layer` on a state whose scratch arrays hold a copy of the cached boxes and the
cached sink counts. -/
theorem update_layer_bb_not_yet_same_layer (nl : ClusteredNetlist) (grid : DeviceGrid)
    (s : LayerPlacerState) (net_id : Nat) (o n : t_physical_tile_loc) (out : Bool)
    (hflag : s.bb_updated_before net_id = BBFlag.NOT_UPDATED_YET)
    (hl : o.layer_num = n.layer_num) :
    ∃ s2 : LayerPlacerState,
      s2.layer_ts_bb_edge_new net_id = s.layer_bb_num_on_edges net_id ∧
      s2.layer_ts_bb_coord_new net_id = s.layer_bb_coords net_id ∧
      s2.ts_layer_sink_pin_count net_id
        = update_bb_pin_sink_count grid.num_layers
            { x := clip_coord o.x grid.width, y := clip_coord o.y grid.height
              layer_num := o.layer_num }
            { x := clip_coord n.x grid.width, y := clip_coord n.y grid.height
              layer_num := n.layer_num }
            (s.num_sink_pin_layer net_id) (s.ts_layer_sink_pin_count net_id) out ∧
      s2.block_locs = s.block_locs ∧
      (update_layer_bb nl grid s net_id o n out).layer_ts_bb_coord_new
        = (update_bb_same_layer nl grid s2 net_id
            { x := clip_coord o.x grid.width, y := clip_coord o.y grid.height
              layer_num := o.layer_num }
            { x := clip_coord n.x grid.width, y := clip_coord n.y grid.height
              layer_num := n.layer_num }
            (s.layer_bb_num_on_edges net_id) (s.layer_bb_coords net_id)).layer_ts_bb_coord_new ∧
      (update_layer_bb nl grid s net_id o n out).layer_ts_bb_edge_new
        = (update_bb_same_layer nl grid s2 net_id
            { x := clip_coord o.x grid.width, y := clip_coord o.y grid.height
              layer_num := o.layer_num }
            { x := clip_coord n.x grid.width, y := clip_coord n.y grid.height
              layer_num := n.layer_num }
            (s.layer_bb_num_on_edges net_id) (s.layer_bb_coords net_id)).layer_ts_bb_edge_new ∧
      (update_layer_bb nl grid s net_id o n out).ts_layer_sink_pin_count
        = (update_bb_same_layer nl grid s2 net_id
            { x := clip_coord o.x grid.width, y := clip_coord o.y grid.height
              layer_num := o.layer_num }
            { x := clip_coord n.x grid.width, y := clip_coord n.y grid.height
              layer_num := n.layer_num }
            (s.layer_bb_num_on_edges net_id) (s.layer_bb_coords net_id)).ts_layer_sink_pin_count
      := by
  have hne : s.bb_updated_before net_id ≠ BBFlag.GOT_FROM_SCRATCH := by
    rw [hflag]; exact fun e => by cases e
  have hl2 : (o.layer_num = n.layer_num) = True := eq_true hl
  refine ⟨{ s with
      bb_updated_before := Function.update s.bb_updated_before net_id BBFlag.UPDATED_ONCE
      ts_layer_sink_pin_count := Function.update s.ts_layer_sink_pin_count net_id
        (update_bb_pin_sink_count grid.num_layers
          { x := clip_coord o.x grid.width, y := clip_coord o.y grid.height
            layer_num := o.layer_num }
          { x := clip_coord n.x grid.width, y := clip_coord n.y grid.height
            layer_num := n.layer_num }
          (s.num_sink_pin_layer net_id) (s.ts_layer_sink_pin_count net_id) out)
      layer_ts_bb_edge_new :=
        Function.update s.layer_ts_bb_edge_new net_id (s.layer_bb_num_on_edges net_id)
      layer_ts_bb_coord_new :=
        Function.update s.layer_ts_bb_coord_new net_id (s.layer_bb_coords net_id) },
    by simp, by simp, by simp, rfl, ?_, ?_, ?_⟩
  · unfold update_layer_bb
    simp only [if_neg hne, hflag, reduceCtorEq, decide_True, if_true, ne_eq, hl2, not_true_eq_false,
      if_false]
    split_ifs <;> rfl
  · unfold update_layer_bb
    simp only [if_neg hne, hflag, reduceCtorEq, decide_True, if_true, ne_eq, hl2, not_true_eq_false,
      if_false]
    split_ifs <;> rfl
  · unfold update_layer_bb
    simp only [if_neg hne, hflag, reduceCtorEq, decide_True, if_true, ne_eq, hl2, not_true_eq_false,
      if_false]
    split_ifs <;> rfl


theorem update_bb_pin_sink_count_same_layer (num_layers : Nat) (o n : t_physical_tile_loc)
    (curr new_cnt : Nat → Int) (hl : o.layer_num = n.layer_num) (l : Nat)
    (h : l < num_layers) :
    update_bb_pin_sink_count num_layers o n curr new_cnt false l = curr l := by
  unfold update_bb_pin_sink_count
  rw [hl]
  simp only [Bool.not_false, if_true]
  by_cases e : l = n.layer_num
  · subst e
    simp [h]
  · simp [Function.update_noteq e, h]

/-- C21. Per-layer incremental update, sink moving within its layer: if the per-layer cache of
a net (coordinates, edge counts and sink counts of every layer of the device) is what
`get_layer_bb_from_scratch` computes on the placement `P`, the flag of the net is
`NOT_UPDATED_YET`, and the placement in force differs from `P` on the net only in the `(x, y)`
position of one sink `pin`, which stays on its layer, then after `update_layer_bb` with the old
and the new position of that sink the scratch coordinates, edge counts and sink counts of every
layer of the device are what `get_layer_bb_from_scratch` computes on the placement in force. -/
theorem update_layer_bb_sink_within_layer (nl : ClusteredNetlist) (grid : DeviceGrid)
    (s : LayerPlacerState) (P : Nat → t_pl_loc) (net_id pin : Nat)
    (e0 c0 e1 c1 : Nat → t_2D_bb) (k0 k1 : Nat → Int)
    (hmem : pin ∈ nl.net_sinks net_id) (hnd : (nl.net_pins net_id).Nodup)
    (hothers : ∀ q ∈ nl.net_pins net_id, q ≠ pin →
      net_pin_x nl P q = net_pin_x nl s.block_locs q ∧
      net_pin_y nl P q = net_pin_y nl s.block_locs q ∧
      net_pin_layer nl P q = net_pin_layer nl s.block_locs q)
    (hlayer : net_pin_layer nl P pin = net_pin_layer nl s.block_locs pin)
    (hcache : ∀ l, l < grid.num_layers →
      s.layer_bb_coords net_id l
        = (get_layer_bb_from_scratch nl grid P net_id e0 c0 k0).coords l ∧
      s.layer_bb_num_on_edges net_id l
        = (get_layer_bb_from_scratch nl grid P net_id e0 c0 k0).num_on_edges l ∧
      s.num_sink_pin_layer net_id l
        = (get_layer_bb_from_scratch nl grid P net_id e0 c0 k0).layer_pin_sink_count l)
    (hflag : s.bb_updated_before net_id = BBFlag.NOT_UPDATED_YET) :
    ∀ l, l < grid.num_layers →
      (update_layer_bb nl grid s net_id
          { x := net_pin_x nl P pin, y := net_pin_y nl P pin,
            layer_num := net_pin_layer nl P pin }
          { x := net_pin_x nl s.block_locs pin, y := net_pin_y nl s.block_locs pin,
            layer_num := net_pin_layer nl s.block_locs pin } false).layer_ts_bb_coord_new
          net_id l
        = (get_layer_bb_from_scratch nl grid s.block_locs net_id e1 c1 k1).coords l ∧
      (update_layer_bb nl grid s net_id
          { x := net_pin_x nl P pin, y := net_pin_y nl P pin,
            layer_num := net_pin_layer nl P pin }
          { x := net_pin_x nl s.block_locs pin, y := net_pin_y nl s.block_locs pin,
            layer_num := net_pin_layer nl s.block_locs pin } false).layer_ts_bb_edge_new
          net_id l
        = (get_layer_bb_from_scratch nl grid s.block_locs net_id e1 c1 k1).num_on_edges l ∧
      (update_layer_bb nl grid s net_id
          { x := net_pin_x nl P pin, y := net_pin_y nl P pin,
            layer_num := net_pin_layer nl P pin }
          { x := net_pin_x nl s.block_locs pin, y := net_pin_y nl s.block_locs pin,
            layer_num := net_pin_layer nl s.block_locs pin } false).ts_layer_sink_pin_count
          net_id l
        = (get_layer_bb_from_scratch nl grid s.block_locs net_id e1 c1 k1).layer_pin_sink_count
            l := by
  intro l hl
  -- the layers of all sinks are the same under both placements
  have hpin_ne_driver : nl.net_driver net_id ≠ pin := by
    intro e
    unfold ClusteredNetlist.net_pins at hnd
    rw [e] at hnd
    exact (List.nodup_cons.1 hnd).1 hmem
  have hlayers : ∀ q ∈ nl.net_sinks net_id,
      net_pin_layer nl P q = net_pin_layer nl s.block_locs q := by
    intro q hq
    by_cases e : q = pin
    · rw [e]; exact hlayer
    · exact (hothers q (List.mem_cons.2 (Or.inr hq)) e).2.2
  have hpins : ∀ m, layer_pins nl P net_id m = layer_pins nl s.block_locs net_id m :=
    fun m => layer_pins_congr nl P s.block_locs net_id m hlayers
  have hcounts : ∀ m, sink_layer_count nl P net_id m = sink_layer_count nl s.block_locs net_id m :=
    fun m => sink_layer_count_congr nl P s.block_locs net_id m hlayers
  obtain ⟨s2, hE, hC, hK, hB, r1, r2, r3⟩ := update_layer_bb_not_yet_same_layer nl grid s net_id
    { x := net_pin_x nl P pin, y := net_pin_y nl P pin, layer_num := net_pin_layer nl P pin }
    { x := net_pin_x nl s.block_locs pin, y := net_pin_y nl s.block_locs pin,
      layer_num := net_pin_layer nl s.block_locs pin } false hflag hlayer
  dsimp only at r1 r2 r3 hK
  rw [r1, r2, r3, ← and_assoc]
  rcases update_bb_same_layer_cases nl grid s2 net_id
    { x := clip_coord (net_pin_x nl P pin) grid.width,
      y := clip_coord (net_pin_y nl P pin) grid.height, layer_num := net_pin_layer nl P pin }
    { x := clip_coord (net_pin_x nl s.block_locs pin) grid.width,
      y := clip_coord (net_pin_y nl s.block_locs pin) grid.height,
      layer_num := net_pin_layer nl s.block_locs pin }
    (s.layer_bb_num_on_edges net_id) (s.layer_bb_coords net_id) hE hC with
    ⟨ax, ay, hx, hy, q1, q2, q3⟩ | ⟨e, c, k, q1, q2, q3, _⟩
  · -- the incremental branch
    have hcnt : (update_bb_same_layer nl grid s2 net_id
        { x := clip_coord (net_pin_x nl P pin) grid.width,
          y := clip_coord (net_pin_y nl P pin) grid.height, layer_num := net_pin_layer nl P pin }
        { x := clip_coord (net_pin_x nl s.block_locs pin) grid.width,
          y := clip_coord (net_pin_y nl s.block_locs pin) grid.height,
          layer_num := net_pin_layer nl s.block_locs pin }
        (s.layer_bb_num_on_edges net_id) (s.layer_bb_coords net_id)).ts_layer_sink_pin_count
        = s2.ts_layer_sink_pin_count := by
      have := congrArg PlacerState.ts_layer_sink_pin_count q3
      exact this
    obtain ⟨b1, b2, b3, b4⟩ := layer_scratch_box2Is nl grid P net_id e0 c0 k0 l hl
    obtain ⟨d1, d2, d3, d4⟩ := layer_scratch_box2Is nl grid s.block_locs net_id e1 c1 k1 l hl
    obtain ⟨a1, a2, a3⟩ := hcache l hl
    dsimp only at hx hy
    refine ⟨?_, ?_⟩
    · -- coordinates and edge counts
      rw [q1, q2]
      apply layer_scratch_eq_of_box2Is nl grid s.block_locs net_id e1 c1 k1 l hl
      rotate_left
      · by_cases hll : l = net_pin_layer nl P pin
        · subst hll
          simp only [Function.update_same, a1]; exact b2
        · have hll2 : l ≠ net_pin_layer nl P pin := hll
          simp only [Function.update_noteq hll2, a1]; exact b2
      · by_cases hll : l = net_pin_layer nl P pin
        · subst hll
          simp only [Function.update_same, a2]; exact b3
        · have hll2 : l ≠ net_pin_layer nl P pin := hll
          simp only [Function.update_noteq hll2, a2]; exact b3
      by_cases hll : l = net_pin_layer nl P pin
      · -- the layer of the moved sink
        subst hll
        simp only [Function.update_same]
        rw [a1, a2] at hx hy
        have hpm : pin ∈ layer_pins nl P net_id (net_pin_layer nl P pin) := by
          unfold layer_pins
          exact List.mem_cons.2 (Or.inr (List.mem_filter.2 ⟨hmem, by simp⟩))
        have hpnd := layer_pins_nodup nl P net_id (net_pin_layer nl P pin) hnd
        have hfgx : ∀ q ∈ layer_pins nl P net_id (net_pin_layer nl P pin), q ≠ pin →
            clipped_pin_x nl grid P q = clipped_pin_x nl grid s.block_locs q := by
          intro q hq hqne
          unfold clipped_pin_x
          rw [(hothers q (layer_pins_subset nl P net_id _ q hq) hqne).1]
        have hfgy : ∀ q ∈ layer_pins nl P net_id (net_pin_layer nl P pin), q ≠ pin →
            clipped_pin_y nl grid P q = clipped_pin_y nl grid s.block_locs q := by
          intro q hq hqne
          unfold clipped_pin_y
          rw [(hothers q (layer_pins_subset nl P net_id _ q hq) hqne).2.1]
        have hX := isAxisBB_replace hpm hpnd hfgx b1.1 hx
        have hY := isAxisBB_replace hpm hpnd hfgy b1.2 hy
        rw [hpins] at hX hY
        refine ⟨?_, ?_⟩
        · simpa [axis2_x] using hX
        · simpa [axis2_y] using hY
      · -- another layer
        have hll2 : l ≠ net_pin_layer nl P pin := hll
        simp only [Function.update_noteq hll2]
        rw [a1, a2]
        rw [← hpins]
        apply box2Is_congr _ b1
        intro q hq
        have hqne : q ≠ pin := by
          intro e
          rw [e] at hq
          unfold layer_pins at hq
          rcases List.mem_cons.1 hq with h | h
          · exact hpin_ne_driver h.symm
          · have := (List.mem_filter.1 h).2
            simp only [decide_eq_true_eq] at this
            exact hll this.symm
        have h3 := hothers q (layer_pins_subset nl P net_id _ q hq) hqne
        unfold clipped_pin_x clipped_pin_y
        rw [h3.1, h3.2.1]
        exact ⟨rfl, rfl⟩
    · -- sink counts
      rw [hcnt, hK, update_bb_pin_sink_count_same_layer _ _ _ _ _ hlayer l hl, a3, b4, d4,
        hcounts]
  · -- the branch that recomputes the net from scratch
    rw [q1, q2, q3, hB]
    obtain ⟨b1, b2, b3, b4⟩ := layer_scratch_box2Is nl grid s.block_locs net_id e c k l hl
    obtain ⟨d1, d2, d3, d4⟩ := layer_scratch_box2Is nl grid s.block_locs net_id e1 c1 k1 l hl
    exact ⟨box2Is_unique b1 d1 (b2.trans d2.symm) (b3.trans d3.symm), b4.trans d4.symm⟩


theorem ex_layer_cache_valid (P Q : Nat → t_pl_loc) (l : Nat) :
    (ex_layer_state P Q).layer_bb_coords 0 l
      = (get_layer_bb_from_scratch ex_nl ex_grid2 P 0 (fun _ => ex_zero_2D_bb)
          (fun _ => ex_zero_2D_bb) (fun _ => 0)).coords l ∧
    (ex_layer_state P Q).layer_bb_num_on_edges 0 l
      = (get_layer_bb_from_scratch ex_nl ex_grid2 P 0 (fun _ => ex_zero_2D_bb)
          (fun _ => ex_zero_2D_bb) (fun _ => 0)).num_on_edges l ∧
    (ex_layer_state P Q).num_sink_pin_layer 0 l
      = (get_layer_bb_from_scratch ex_nl ex_grid2 P 0 (fun _ => ex_zero_2D_bb)
          (fun _ => ex_zero_2D_bb) (fun _ => 0)).layer_pin_sink_count l :=
  ⟨rfl, rfl, rfl⟩

/-- C22, the code at a failing input. Net 0 of the example has all its six pins on layer 0 at
`y = 1`, so that the box of layer 0 has `ymin = ymax = 1` with six pins on either edge, and the
cache is the one `get_layer_bb_from_scratch` computes. The sink of block 4 moves from
`(7, 1)` on layer 0 to `(4, 1)` on layer 1. `update_layer_bb` keeps the net incremental and
leaves six pins on the `ymin` edge of layer 0 (it lowers only the `ymax` count, to five), while
`get_layer_bb_from_scratch` on the new placement counts five pins on either edge. -/
theorem update_layer_bb_layer_changed_degenerate :
    (ex_layer_state ex_block_locs ex_locs_layer_changed).bb_updated_before 0
      = BBFlag.NOT_UPDATED_YET ∧
    (ex_layer_state ex_block_locs ex_locs_layer_changed).layer_bb_coords 0 0
      = { xmin := 3, xmax := 7, ymin := 1, ymax := 1, layer_num := 0 } ∧
    (ex_layer_state ex_block_locs ex_locs_layer_changed).layer_bb_num_on_edges 0 0
      = { xmin := 2, xmax := 2, ymin := 6, ymax := 6, layer_num := 0 } ∧
    (update_layer_bb ex_nl ex_grid2 (ex_layer_state ex_block_locs ex_locs_layer_changed) 0
        { x := net_pin_x ex_nl ex_block_locs 4, y := net_pin_y ex_nl ex_block_locs 4,
          layer_num := net_pin_layer ex_nl ex_block_locs 4 }
        { x := net_pin_x ex_nl ex_locs_layer_changed 4,
          y := net_pin_y ex_nl ex_locs_layer_changed 4,
          layer_num := net_pin_layer ex_nl ex_locs_layer_changed 4 }
        false).bb_updated_before 0 = BBFlag.UPDATED_ONCE ∧
    (update_layer_bb ex_nl ex_grid2 (ex_layer_state ex_block_locs ex_locs_layer_changed) 0
        { x := net_pin_x ex_nl ex_block_locs 4, y := net_pin_y ex_nl ex_block_locs 4,
          layer_num := net_pin_layer ex_nl ex_block_locs 4 }
        { x := net_pin_x ex_nl ex_locs_layer_changed 4,
          y := net_pin_y ex_nl ex_locs_layer_changed 4,
          layer_num := net_pin_layer ex_nl ex_locs_layer_changed 4 }
        false).layer_ts_bb_edge_new 0 0
      = { xmin := 2, xmax := 1, ymin := 6, ymax := 5, layer_num := 0 } ∧
    (get_layer_bb_from_scratch ex_nl ex_grid2 ex_locs_layer_changed 0 (fun _ => ex_zero_2D_bb)
        (fun _ => ex_zero_2D_bb) (fun _ => 0)).num_on_edges 0
      = { xmin := 2, xmax := 1, ymin := 5, ymax := 5, layer_num := 0 } := by
  decide

/-- C23, the code at a failing input. Net 0 of the example has its driver at `(4, 4)` and two
sinks at `(3, 3)` and `(5, 5)` on layer 0 and three sinks at `(6, 6)`, `(7, 7)` and `(8, 8)` on
layer 1; the cache is the one `get_layer_bb_from_scratch` computes, in which the box of layer 1
starts at the driver: `x` and `y` from 4 to 8. The driver moves to `(5, 4)` on layer 0.
`update_layer_bb` keeps the net incremental, updates the box of layer 0 and leaves the box of
layer 1 as it was, while `get_layer_bb_from_scratch` on the new placement gives layer 1 the box
with `xmin = 5`. -/
theorem update_layer_bb_driver_moved_other_layer :
    (ex_layer_state ex_two_layer_locs ex_locs_driver_moved).bb_updated_before 0
      = BBFlag.NOT_UPDATED_YET ∧
    (ex_layer_state ex_two_layer_locs ex_locs_driver_moved).layer_bb_coords 0 1
      = { xmin := 4, xmax := 8, ymin := 4, ymax := 8, layer_num := 1 } ∧
    (update_layer_bb ex_nl ex_grid2 (ex_layer_state ex_two_layer_locs ex_locs_driver_moved) 0
        { x := net_pin_x ex_nl ex_two_layer_locs 0, y := net_pin_y ex_nl ex_two_layer_locs 0,
          layer_num := net_pin_layer ex_nl ex_two_layer_locs 0 }
        { x := net_pin_x ex_nl ex_locs_driver_moved 0,
          y := net_pin_y ex_nl ex_locs_driver_moved 0,
          layer_num := net_pin_layer ex_nl ex_locs_driver_moved 0 }
        true).bb_updated_before 0 = BBFlag.UPDATED_ONCE ∧
    (update_layer_bb ex_nl ex_grid2 (ex_layer_state ex_two_layer_locs ex_locs_driver_moved) 0
        { x := net_pin_x ex_nl ex_two_layer_locs 0, y := net_pin_y ex_nl ex_two_layer_locs 0,
          layer_num := net_pin_layer ex_nl ex_two_layer_locs 0 }
        { x := net_pin_x ex_nl ex_locs_driver_moved 0,
          y := net_pin_y ex_nl ex_locs_driver_moved 0,
          layer_num := net_pin_layer ex_nl ex_locs_driver_moved 0 }
        true).layer_ts_bb_coord_new 0 0
      = { xmin := 3, xmax := 5, ymin := 3, ymax := 5, layer_num := 0 } ∧
    (update_layer_bb ex_nl ex_grid2 (ex_layer_state ex_two_layer_locs ex_locs_driver_moved) 0
        { x := net_pin_x ex_nl ex_two_layer_locs 0, y := net_pin_y ex_nl ex_two_layer_locs 0,
          layer_num := net_pin_layer ex_nl ex_two_layer_locs 0 }
        { x := net_pin_x ex_nl ex_locs_driver_moved 0,
          y := net_pin_y ex_nl ex_locs_driver_moved 0,
          layer_num := net_pin_layer ex_nl ex_locs_driver_moved 0 }
        true).layer_ts_bb_coord_new 0 1
      = { xmin := 4, xmax := 8, ymin := 4, ymax := 8, layer_num := 1 } ∧
    (get_layer_bb_from_scratch ex_nl ex_grid2 ex_locs_driver_moved 0 (fun _ => ex_zero_2D_bb)
        (fun _ => ex_zero_2D_bb) (fun _ => 0)).coords 1
      = { xmin := 5, xmax := 8, ymin := 4, ymax := 8, layer_num := 1 } := by
  decide

/-- The sink of block 4 of the example moves from `x = 7` to `x = 4` on layer 0 of the
two-layer grid: the scratch of both layers is what `get_layer_bb_from_scratch` computes. -/
theorem update_layer_bb_sink_within_layer_witness :
    ((update_layer_bb ex_nl ex_grid2 (ex_layer_state ex_block_locs ex_locs_same_layer) 0
          { x := net_pin_x ex_nl ex_block_locs 4, y := net_pin_y ex_nl ex_block_locs 4,
            layer_num := net_pin_layer ex_nl ex_block_locs 4 }
          { x := net_pin_x ex_nl (ex_layer_state ex_block_locs ex_locs_same_layer).block_locs 4,
            y := net_pin_y ex_nl (ex_layer_state ex_block_locs ex_locs_same_layer).block_locs 4,
            layer_num :=
              net_pin_layer ex_nl (ex_layer_state ex_block_locs ex_locs_same_layer).block_locs 4 }
          false).layer_ts_bb_coord_new 0 0
        = (get_layer_bb_from_scratch ex_nl ex_grid2
            (ex_layer_state ex_block_locs ex_locs_same_layer).block_locs 0
            (fun _ => ex_zero_2D_bb) (fun _ => ex_zero_2D_bb) (fun _ => 0)).coords 0 ∧
      (update_layer_bb ex_nl ex_grid2 (ex_layer_state ex_block_locs ex_locs_same_layer) 0
          { x := net_pin_x ex_nl ex_block_locs 4, y := net_pin_y ex_nl ex_block_locs 4,
            layer_num := net_pin_layer ex_nl ex_block_locs 4 }
          { x := net_pin_x ex_nl (ex_layer_state ex_block_locs ex_locs_same_layer).block_locs 4,
            y := net_pin_y ex_nl (ex_layer_state ex_block_locs ex_locs_same_layer).block_locs 4,
            layer_num :=
              net_pin_layer ex_nl (ex_layer_state ex_block_locs ex_locs_same_layer).block_locs 4 }
          false).layer_ts_bb_edge_new 0 0
        = (get_layer_bb_from_scratch ex_nl ex_grid2
            (ex_layer_state ex_block_locs ex_locs_same_layer).block_locs 0
            (fun _ => ex_zero_2D_bb) (fun _ => ex_zero_2D_bb) (fun _ => 0)).num_on_edges 0 ∧
      (update_layer_bb ex_nl ex_grid2 (ex_layer_state ex_block_locs ex_locs_same_layer) 0
          { x := net_pin_x ex_nl ex_block_locs 4, y := net_pin_y ex_nl ex_block_locs 4,
            layer_num := net_pin_layer ex_nl ex_block_locs 4 }
          { x := net_pin_x ex_nl (ex_layer_state ex_block_locs ex_locs_same_layer).block_locs 4,
            y := net_pin_y ex_nl (ex_layer_state ex_block_locs ex_locs_same_layer).block_locs 4,
            layer_num :=
              net_pin_layer ex_nl (ex_layer_state ex_block_locs ex_locs_same_layer).block_locs 4 }
          false).ts_layer_sink_pin_count 0 0
        = (get_layer_bb_from_scratch ex_nl ex_grid2
            (ex_layer_state ex_block_locs ex_locs_same_layer).block_locs 0
            (fun _ => ex_zero_2D_bb) (fun _ => ex_zero_2D_bb)
            (fun _ => 0)).layer_pin_sink_count 0) :=
  update_layer_bb_sink_within_layer ex_nl ex_grid2
    (ex_layer_state ex_block_locs ex_locs_same_layer) ex_block_locs 0 4
    (fun _ => ex_zero_2D_bb) (fun _ => ex_zero_2D_bb) (fun _ => ex_zero_2D_bb)
    (fun _ => ex_zero_2D_bb) (fun _ => 0) (fun _ => 0) (by decide) (by decide) (by decide)
    (by decide) (fun l _ => ex_layer_cache_valid ex_block_locs ex_locs_same_layer l)
    (by decide) 0 (by decide)

/-! ## The bounding-box mode -/

/-- Counterexample to C24 as stated: on the two-layer grid with `AUTO_BB`, when
`inter_layer_connections_limited_to_opin` is true of the RR graph, `is_cube_bb` returns false
(per-layer BB), although `inter_layer_connections_limited_to_opin(rr_graph)` is not false. -/
theorem is_cube_bb_auto_counterexample :
    1 < ex_grid2.num_layers ∧
    is_cube_bb ex_grid2 (fun _ : Unit => true) e_place_bounding_box_mode.AUTO_BB ()
      = some false ∧
    ¬ ((fun _ : Unit => true) () = false) := by
  decide

/-- C24 (amended). Bounding-box mode Auto: on a device with more than one layer and
`place_bounding_box_mode = AUTO_BB`, `is_cube_bb` returns false (per-layer BB) exactly if
`inter_layer_connections_limited_to_opin(rr_graph)` is true, and returns true (cube BB) exactly
if it is false. -/
theorem is_cube_bb_auto {RRGraphView : Type} (grid : DeviceGrid)
    (inter_layer_connections_limited_to_opin : RRGraphView → Bool) (rr_graph : RRGraphView)
    (h : 1 < grid.num_layers) :
    (is_cube_bb grid inter_layer_connections_limited_to_opin
        e_place_bounding_box_mode.AUTO_BB rr_graph = some false
      ↔ inter_layer_connections_limited_to_opin rr_graph = true) ∧
    (is_cube_bb grid inter_layer_connections_limited_to_opin
        e_place_bounding_box_mode.AUTO_BB rr_graph = some true
      ↔ inter_layer_connections_limited_to_opin rr_graph = false) := by
  have h1 : ¬ ((grid.num_layers : Int) = 1) := by omega
  have h2 : (grid.num_layers : Int) > 1 := by omega
  unfold is_cube_bb
  simp only [if_neg h1, if_pos h2]
  cases inter_layer_connections_limited_to_opin rr_graph <;> simp

/-- On the two-layer grid an RR graph whose inter-layer connections all start at output pins
gives per-layer BB. -/
theorem is_cube_bb_auto_witness :
    (is_cube_bb ex_grid2 (fun _ : Unit => true) e_place_bounding_box_mode.AUTO_BB ()
        = some false
      ↔ (fun _ : Unit => true) () = true) ∧
    (is_cube_bb ex_grid2 (fun _ : Unit => true) e_place_bounding_box_mode.AUTO_BB ()
        = some true
      ↔ (fun _ : Unit => true) () = false) :=
  is_cube_bb_auto ex_grid2 (fun _ : Unit => true) () (by decide)

/-- C25. Single-layer normalization: for every `place_bounding_box_mode` and every RR graph,
`is_cube_bb` returns true when the device grid has exactly one layer; with more than one layer
`CUBE_BB` gives true and `PER_LAYER_BB` gives false. -/
theorem is_cube_bb_single_layer {RRGraphView : Type} (grid : DeviceGrid)
    (inter_layer_connections_limited_to_opin : RRGraphView → Bool)
    (place_bb_mode : e_place_bounding_box_mode) (rr_graph : RRGraphView) :
    (grid.num_layers = 1 →
      is_cube_bb grid inter_layer_connections_limited_to_opin place_bb_mode rr_graph
        = some true) ∧
    (1 < grid.num_layers →
      is_cube_bb grid inter_layer_connections_limited_to_opin
          e_place_bounding_box_mode.CUBE_BB rr_graph = some true ∧
      is_cube_bb grid inter_layer_connections_limited_to_opin
          e_place_bounding_box_mode.PER_LAYER_BB rr_graph = some false) := by
  constructor
  · intro h
    unfold is_cube_bb
    simp [h]
  · intro h
    have h1 : ¬ ((grid.num_layers : Int) = 1) := by omega
    have h2 : (grid.num_layers : Int) > 1 := by omega
    unfold is_cube_bb
    simp [h1, h2]

/-! ## The reward of a move -/

/-- C26. Reward: for every `delta_c`, `calculate_reward_and_process_outcome` hands the move
generator the reward `-delta_c` when the reward function in force (the function-static
`reward_fun` after the call) is `BASIC`, and `max(-delta_c, 0)`, which is never negative, when
it is `NON_PENALIZING_BASIC` or `RUNTIME_AWARE`. The reward function in force is the static one
when it is set, and `string_to_reward(place_reward_fun)` otherwise. -/
theorem calculate_reward_spec (string_to_reward : String → e_reward_function)
    (to_float : ℚ → ℚ) (place_reward_fun : String) (move_outcome_stats : MoveOutcomeStats)
    (delta_c timing_bb_factor : ℚ) (reward_fun : Option e_reward_function) :
    ((calculate_reward_and_process_outcome string_to_reward to_float place_reward_fun
          move_outcome_stats delta_c timing_bb_factor reward_fun).1
        = some e_reward_function.BASIC →
      (calculate_reward_and_process_outcome string_to_reward to_float place_reward_fun
          move_outcome_stats delta_c timing_bb_factor reward_fun).2
        = some (-delta_c, e_reward_function.BASIC)) ∧
    ((calculate_reward_and_process_outcome string_to_reward to_float place_reward_fun
          move_outcome_stats delta_c timing_bb_factor reward_fun).1
        = some e_reward_function.NON_PENALIZING_BASIC →
      (calculate_reward_and_process_outcome string_to_reward to_float place_reward_fun
          move_outcome_stats delta_c timing_bb_factor reward_fun).2
        = some (max (-delta_c) 0, e_reward_function.NON_PENALIZING_BASIC)) ∧
    ((calculate_reward_and_process_outcome string_to_reward to_float place_reward_fun
          move_outcome_stats delta_c timing_bb_factor reward_fun).1
        = some e_reward_function.RUNTIME_AWARE →
      (calculate_reward_and_process_outcome string_to_reward to_float place_reward_fun
          move_outcome_stats delta_c timing_bb_factor reward_fun).2
        = some (max (-delta_c) 0, e_reward_function.RUNTIME_AWARE)) ∧
    0 ≤ max (-delta_c) 0 ∧
    (calculate_reward_and_process_outcome string_to_reward to_float place_reward_fun
          move_outcome_stats delta_c timing_bb_factor reward_fun).1
      = some (match reward_fun with
          | some r => r
          | none => string_to_reward place_reward_fun) := by
  have hmax : delta_c < 0 → max (-delta_c) 0 = -delta_c := fun h =>
    max_eq_left (by linarith)
  have hmax2 : ¬ delta_c < 0 → max (-delta_c) 0 = 0 := fun h =>
    max_eq_right (by linarith)
  refine ⟨?_, ?_, ?_, le_max_right _ _, rfl⟩
  · intro h
    simp only [calculate_reward_and_process_outcome, Option.some.injEq] at h ⊢
    rw [h]
    simp
  · intro h
    simp only [calculate_reward_and_process_outcome, Option.some.injEq] at h ⊢
    rw [h]
    by_cases hd : delta_c < 0
    · simp [hd, hmax hd]
    · simp [hd, hmax2 hd]
  · intro h
    simp only [calculate_reward_and_process_outcome, Option.some.injEq] at h ⊢
    rw [h]
    by_cases hd : delta_c < 0
    · simp [hd, hmax hd]
    · simp [hd, hmax2 hd]

/-! ## The periodic recomputation of the costs -/

/-- Started with the counter at zero, the loop calls `recompute_costs_from_scratch` in the
iterations whose move number `inner_iter + 1` is a multiple of 500001, and the counter is the
number of moves since the last call. -/
theorem placement_inner_loop_spec (move_lim : Nat) :
    placement_inner_loop move_lim 0
      = ((List.range move_lim).filter (fun i => decide ((i + 1) % 500001 = 0)),
         ((move_lim % 500001 : Nat) : Int)) := by
  unfold placement_inner_loop
  induction move_lim with
  | zero => rfl
  | succ n ih =>
    rw [List.range_succ, List.foldl_append, ih, List.filter_append]
    simp only [List.foldl_cons, List.foldl_nil, inner_loop_recompute_step,
      MAX_MOVES_BEFORE_RECOMPUTE]
    by_cases h : (n + 1) % 500001 = 0
    · have h1 : ((n % 500001 : Nat) : Int) + 1 > 500000 := by omega
      have hf : List.filter (fun i => decide ((i + 1) % 500001 = 0)) [n] = [n] := by
        rw [List.filter_cons]; simp [h]
      simp only [h1, if_true, hf, h]
      rfl
    · have h1 : ¬ (((n % 500001 : Nat) : Int) + 1 > 500000) := by omega
      have hf : List.filter (fun i => decide ((i + 1) % 500001 = 0)) [n] = [] := by
        rw [List.filter_cons]; simp [h]
      simp only [h1, if_false, hf, List.append_nil, Bool.false_eq_true]
      congr 1
      omega

/-- Counterexample to C27 as stated: started with the counter at zero, a loop of 500,000 moves
does not call `recompute_costs_from_scratch` at all, in particular not in the iteration of the
500,000th move, and leaves the counter at 500000; the call comes in the iteration of the next
move. -/
theorem placement_inner_loop_counterexample :
    placement_inner_loop 500000 0 = ([], 500000) ∧
    placement_inner_loop 500001 0 = ([500000], 0) := by
  have h0 : (List.range 500000).filter (fun i => decide ((i + 1) % 500001 = 0)) = [] := by
    rw [List.filter_eq_nil_iff]
    intro i hi
    have := List.mem_range.1 hi
    simp only [decide_eq_true_eq]
    omega
  constructor
  · rw [placement_inner_loop_spec, h0]
    rfl
  · rw [placement_inner_loop_spec, List.range_succ, List.filter_append, h0]
    rfl

/-- C27 (amended). Periodic guard cadence: starting from `moves_since_cost_recompute = 0`,
`placement_inner_loop` calls `recompute_costs_from_scratch` in the iteration of every
500,001st move, that is when the incremented counter first exceeds
`MAX_MOVES_BEFORE_RECOMPUTE = 500000`, and then resets the counter to 0: at the end of a loop
of `move_lim` moves the calls were made in the iterations `inner_iter` with `inner_iter + 1` a
multiple of 500001, and the counter is the number of moves since the last call. -/
theorem placement_inner_loop_cadence (move_lim : Nat) :
    (∀ inner_iter, inner_iter ∈ (placement_inner_loop move_lim 0).1
      ↔ inner_iter < move_lim ∧ (inner_iter + 1) % 500001 = 0) ∧
    (placement_inner_loop move_lim 0).2 = ((move_lim % 500001 : Nat) : Int) ∧
    (∀ m : Int, (inner_loop_recompute_step m).1 = true ↔ m + 1 > MAX_MOVES_BEFORE_RECOMPUTE) ∧
    (∀ m : Int, (inner_loop_recompute_step m).1 = true → (inner_loop_recompute_step m).2 = 0) ∧
    MAX_MOVES_BEFORE_RECOMPUTE = 500000 := by
  rw [placement_inner_loop_spec]
  refine ⟨?_, rfl, ?_, ?_, rfl⟩
  · intro i
    simp only [List.mem_filter, List.mem_range, decide_eq_true_eq]
  · intro m
    unfold inner_loop_recompute_step
    by_cases h : m + 1 > MAX_MOVES_BEFORE_RECOMPUTE
    · simp [h]
    · simp [h]
  · intro m
    unfold inner_loop_recompute_step
    by_cases h : m + 1 > MAX_MOVES_BEFORE_RECOMPUTE
    · simp [h]
    · simp [h]

/-! ## Error counters as sums -/

/-- A loop that adds a number of errors that depends on the element only ends with the start
value plus the sum of these numbers. -/
theorem foldl_add_nat {α : Type} (g : α → Nat) (f : Int → α → Int)
    (hf : ∀ e x, f e x = e + (g x : Int)) (l : List α) :
    ∀ e0 : Int, l.foldl f e0 = e0 + (((l.map g).sum : Nat) : Int) := by
  induction l with
  | nil => intro e0; simp
  | cons x xs ih =>
    intro e0
    simp only [List.foldl_cons, List.map_cons, List.sum_cons]
    rw [ih, hf]
    push_cast
    ring

theorem foldl_flatMap_eq {α β γ : Type} (f : γ → β → γ) (g : α → List β) (l : List α) :
    ∀ c : γ, (l.flatMap g).foldl f c = l.foldl (fun c a => (g a).foldl f c) c := by
  induction l with
  | nil => intro c; rfl
  | cons a as ih =>
    intro c
    rw [List.flatMap_cons, List.foldl_append, ih]
    rfl

/-! ## The macro audit -/

theorem check_macro_member_step_eq (grid_blocks : GridBlocks) (block_locs : Nat → t_pl_loc)
    (head_iblk : Nat) (error : Int) (member : t_pl_macro_member) :
    check_macro_member_step grid_blocks block_locs head_iblk error member
      = error + (macro_member_errors grid_blocks block_locs head_iblk member : Int) := by
  unfold check_macro_member_step macro_member_errors
  by_cases h1 : (block_locs member.blk_index).pos = (block_locs head_iblk).add member.offset
  · by_cases h2 : grid_blocks.block_at_location ((block_locs head_iblk).add member.offset)
        = ClusterBlockId.blk member.blk_index
    · simp [h1, h2]
    · simp [h1, h2]
  · by_cases h2 : grid_blocks.block_at_location ((block_locs head_iblk).add member.offset)
        = ClusterBlockId.blk member.blk_index
    · simp [h1, h2]
    · simp [h1, h2]
      ring

/-- The number of errors of the macro audit is the sum over the macros and their members. -/
theorem check_macro_placement_consistency_eq (pl_macros : List t_pl_macro)
    (grid_blocks : GridBlocks) (block_locs : Nat → t_pl_loc) :
    check_macro_placement_consistency pl_macros grid_blocks block_locs
      = (((pl_macros.map (fun m =>
          (m.members.map (macro_member_errors grid_blocks block_locs (macro_head m))).sum)).sum
          : Nat) : Int) := by
  unfold check_macro_placement_consistency
  rw [foldl_add_nat (fun m : t_pl_macro =>
      (m.members.map (macro_member_errors grid_blocks block_locs (macro_head m))).sum)]
  · simp
  · intro e m
    exact foldl_add_nat (macro_member_errors grid_blocks block_locs (macro_head m)) _
      (fun e x => check_macro_member_step_eq grid_blocks block_locs _ e x) m.members e

/-- C30. Macro audit: `check_macro_placement_consistency` returns 0 if and only if, for every
macro and every member of it, `block_locs[member].loc` equals `block_locs[head].loc + offset`
and the inverse grid map at that position holds the member, where head is the first member of
the macro. -/
theorem check_macro_placement_consistency_zero_iff (pl_macros : List t_pl_macro)
    (grid_blocks : GridBlocks) (block_locs : Nat → t_pl_loc) :
    check_macro_placement_consistency pl_macros grid_blocks block_locs = 0 ↔
      ∀ mac ∈ pl_macros, ∀ member ∈ mac.members,
        (block_locs member.blk_index).pos
          = (block_locs (macro_head mac)).add member.offset ∧
        grid_blocks.block_at_location ((block_locs (macro_head mac)).add member.offset)
          = ClusterBlockId.blk member.blk_index := by
  rw [check_macro_placement_consistency_eq]
  have hm : ∀ (h : Nat) (member : t_pl_macro_member),
      macro_member_errors grid_blocks block_locs h member = 0 ↔
        ((block_locs member.blk_index).pos = (block_locs h).add member.offset ∧
          grid_blocks.block_at_location ((block_locs h).add member.offset)
            = ClusterBlockId.blk member.blk_index) := by
    intro h member
    unfold macro_member_errors
    by_cases h1 : (block_locs member.blk_index).pos = (block_locs h).add member.offset
    · by_cases h2 : grid_blocks.block_at_location ((block_locs h).add member.offset)
          = ClusterBlockId.blk member.blk_index
      · simp [h1, h2]
      · simp [h1, h2]
    · by_cases h2 : grid_blocks.block_at_location ((block_locs h).add member.offset)
          = ClusterBlockId.blk member.blk_index
      · simp [h1, h2]
      · simp [h1, h2]
  rw [Int.natCast_eq_zero, List.sum_eq_zero_iff, List.forall_mem_map]
  constructor
  · intro h m hmem member hmember
    have h1 := h m hmem
    rw [List.sum_eq_zero_iff, List.forall_mem_map] at h1
    exact (hm _ member).1 (h1 member hmember)
  · intro h m hmem
    rw [List.sum_eq_zero_iff, List.forall_mem_map]
    intro member hmember
    exact (hm _ member).2 (h m hmem member hmember)


/-! ## The block audit -/

theorem check_sub_tile_step_spec (tt : TileTypes) (grid_blocks : GridBlocks)
    (block_locs : Nat → t_pl_loc) (layer_num i j : Nat) (acc : BlockCheckVars × Int) (k : Nat) :
    (check_sub_tile_step tt grid_blocks block_locs layer_num i j acc k).1.error
      = acc.1.error + (sub_tile_errors tt grid_blocks block_locs layer_num i j k : Int) ∧
    (check_sub_tile_step tt grid_blocks block_locs layer_num i j acc k).2
      = acc.2 + (if sub_tile_occupied grid_blocks layer_num i j k then 1 else 0) ∧
    ∀ b, (check_sub_tile_step tt grid_blocks block_locs layer_num i j acc k).1.bdone b
      = acc.1.bdone b + (if grid_blocks.block_at_location
          { x := i, y := j, sub_tile := k, layer := layer_num } = ClusterBlockId.blk b
          then 1 else 0) := by
  unfold check_sub_tile_step sub_tile_errors sub_tile_occupied
  cases hb : grid_blocks.block_at_location
      { x := i, y := j, sub_tile := k, layer := layer_num } with
  | EMPTY_BLOCK_ID => simp
  | INVALID_BLOCK_ID => simp
  | blk bnum =>
    refine ⟨?_, ?_, ?_⟩
    · simp only
      split_ifs <;> first | (simp; done) | (simp; ring)
    · simp
    · intro b
      simp only [ClusterBlockId.blk.injEq]
      by_cases e : bnum = b
      · subst e
        simp
      · have e2 : b ≠ bnum := fun h => e h.symm
        simp [e, Function.update_noteq e2]

theorem check_sub_tile_fold (tt : TileTypes) (grid_blocks : GridBlocks)
    (block_locs : Nat → t_pl_loc) (layer_num i j : Nat) (ks : List Nat) :
    ∀ acc : BlockCheckVars × Int,
    (ks.foldl (check_sub_tile_step tt grid_blocks block_locs layer_num i j) acc).1.error
      = acc.1.error
        + (((ks.map (sub_tile_errors tt grid_blocks block_locs layer_num i j)).sum : Nat) : Int) ∧
    (ks.foldl (check_sub_tile_step tt grid_blocks block_locs layer_num i j) acc).2
      = acc.2 + (((ks.filter (sub_tile_occupied grid_blocks layer_num i j)).length : Nat) : Int) ∧
    ∀ b, (ks.foldl (check_sub_tile_step tt grid_blocks block_locs layer_num i j) acc).1.bdone b
      = acc.1.bdone b + (((ks.filter (fun k : Nat => decide (grid_blocks.block_at_location
          { x := i, y := j, sub_tile := (k : Int), layer := layer_num }
            = ClusterBlockId.blk b))).length
          : Nat) : Int) := by
  induction ks with
  | nil => intro acc; simp
  | cons k ks ih =>
    intro acc
    obtain ⟨s1, s2, s3⟩ := check_sub_tile_step_spec tt grid_blocks block_locs layer_num i j acc k
    obtain ⟨i1, i2, i3⟩ := ih (check_sub_tile_step tt grid_blocks block_locs layer_num i j acc k)
    simp only [List.foldl_cons]
    refine ⟨?_, ?_, ?_⟩
    · rw [i1, s1, List.map_cons, List.sum_cons]
      push_cast
      ring
    · rw [i2, s2, List.filter_cons]
      by_cases h : sub_tile_occupied grid_blocks layer_num i j k = true
      · simp [h]; ring
      · simp [h]
    · intro b
      rw [i3 b, s3 b, List.filter_cons]
      by_cases h : grid_blocks.block_at_location
          { x := i, y := j, sub_tile := k, layer := layer_num } = ClusterBlockId.blk b
      · simp [h]; ring
      · simp [h]

theorem check_tile_step_spec (tt : TileTypes) (grid_blocks : GridBlocks)
    (block_locs : Nat → t_pl_loc) (layer_num i j : Nat) (acc : BlockCheckVars) :
    (check_tile_step tt grid_blocks block_locs layer_num i j acc).error
      = acc.error + (tile_errors tt grid_blocks block_locs layer_num i j : Int) ∧
    ∀ b, (check_tile_step tt grid_blocks block_locs layer_num i j acc).bdone b
      = acc.bdone b + (tile_occurrences tt grid_blocks layer_num i j b : Int) := by
  unfold check_tile_step tile_errors tile_occurrences occupied_sub_tiles tile_sub_tiles
  simp only
  obtain ⟨f1, f2, f3⟩ := check_sub_tile_fold tt grid_blocks block_locs layer_num i j
    (List.range (tt.capacity
      (tt.get_physical_type { x := i, y := j, layer_num := layer_num })).toNat)
    ({ acc with error :=
        if grid_blocks.get_usage { x := i, y := j, layer_num := layer_num }
            > tt.capacity (tt.get_physical_type { x := i, y := j, layer_num := layer_num })
        then acc.error + 1 else acc.error }, 0)
  refine ⟨?_, ?_⟩
  · rw [f1, f2]
    simp only [zero_add]
    split_ifs <;> push_cast <;> ring
  · intro b
    rw [f3 b]

/-- The three nested loops of the block audit visit the tiles of `grid_tiles`. -/
theorem check_tiles_nested_eq (grid : DeviceGrid) (tt : TileTypes) (grid_blocks : GridBlocks)
    (block_locs : Nat → t_pl_loc) (init : BlockCheckVars) :
    (List.range grid.num_layers).foldl
      (fun acc layer_num => (List.range grid.width).foldl
        (fun acc i => (List.range grid.height).foldl
          (fun acc j => check_tile_step tt grid_blocks block_locs layer_num i j acc) acc) acc)
      init
    = (grid_tiles grid).foldl
        (fun acc t => check_tile_step tt grid_blocks block_locs t.1 t.2.1 t.2.2 acc) init := by
  unfold grid_tiles
  rw [foldl_flatMap_eq]
  congr 1
  funext acc layer_num
  rw [foldl_flatMap_eq]
  congr 1
  funext acc i
  rw [List.foldl_map]

theorem check_tiles_fold (tt : TileTypes) (grid_blocks : GridBlocks)
    (block_locs : Nat → t_pl_loc) (tiles : List (Nat × Nat × Nat)) :
    ∀ acc : BlockCheckVars,
    (tiles.foldl (fun acc t => check_tile_step tt grid_blocks block_locs t.1 t.2.1 t.2.2 acc)
        acc).error
      = acc.error + (((tiles.map (fun t =>
          tile_errors tt grid_blocks block_locs t.1 t.2.1 t.2.2)).sum : Nat) : Int) ∧
    ∀ b, (tiles.foldl (fun acc t => check_tile_step tt grid_blocks block_locs t.1 t.2.1 t.2.2 acc)
        acc).bdone b
      = acc.bdone b + (((tiles.map (fun t =>
          tile_occurrences tt grid_blocks t.1 t.2.1 t.2.2 b)).sum : Nat) : Int) := by
  induction tiles with
  | nil => intro acc; simp
  | cons t ts ih =>
    intro acc
    obtain ⟨s1, s2⟩ := check_tile_step_spec tt grid_blocks block_locs t.1 t.2.1 t.2.2 acc
    obtain ⟨i1, i2⟩ := ih (check_tile_step tt grid_blocks block_locs t.1 t.2.1 t.2.2 acc)
    simp only [List.foldl_cons]
    refine ⟨?_, ?_⟩
    · rw [i1, s1, List.map_cons, List.sum_cons]
      push_cast
      ring
    · intro b
      rw [i2 b, s2 b, List.map_cons, List.sum_cons]
      push_cast
      ring

/-- The number of errors of the block audit is the sum of the errors at the tiles and of one
error for every block that the grid does not hold exactly once. -/
theorem check_block_placement_consistency_eq (nl : ClusteredNetlist) (grid : DeviceGrid)
    (tt : TileTypes) (grid_blocks : GridBlocks) (block_locs : Nat → t_pl_loc) :
    check_block_placement_consistency nl grid tt grid_blocks block_locs
      = ((((grid_tiles grid).map (fun t =>
            tile_errors tt grid_blocks block_locs t.1 t.2.1 t.2.2)).sum
          + ((List.range nl.num_blocks).map (fun b =>
              if grid_occurrences grid tt grid_blocks b ≠ 1 then 1 else 0)).sum : Nat) : Int)
    := by
  unfold check_block_placement_consistency
  simp only
  rw [check_tiles_nested_eq]
  obtain ⟨h1, h2⟩ := check_tiles_fold tt grid_blocks block_locs (grid_tiles grid)
    { error := 0, bdone := fun _ => 0 }
  rw [foldl_add_nat (fun b => if grid_occurrences grid tt grid_blocks b ≠ 1 then 1 else 0)]
  · rw [h1]
    push_cast
    ring
  · intro e b
    rw [h2 b]
    unfold grid_occurrences
    simp only [zero_add]
    by_cases hb : ((grid_tiles grid).map (fun t =>
        tile_occurrences tt grid_blocks t.1 t.2.1 t.2.2 b)).sum = 1
    · simp [hb]
    · have hb2 : ¬ ((((grid_tiles grid).map (fun t =>
          tile_occurrences tt grid_blocks t.1 t.2.1 t.2.2 b)).sum : Nat) : Int) = 1 := by
        intro h
        apply hb
        exact_mod_cast h
      rw [if_pos hb2, if_pos hb]
      push_cast
      ring


theorem mem_grid_tiles (grid : DeviceGrid) (layer_num i j : Nat) :
    (layer_num, i, j) ∈ grid_tiles grid
      ↔ layer_num < grid.num_layers ∧ i < grid.width ∧ j < grid.height := by
  unfold grid_tiles
  simp only [List.mem_flatMap, List.mem_map, List.mem_range, Prod.mk.injEq]
  constructor
  · rintro ⟨l, hl, a, ha, b, hb, e1, e2, e3⟩
    subst e1 e2 e3
    exact ⟨hl, ha, hb⟩
  · rintro ⟨hl, ha, hb⟩
    exact ⟨layer_num, hl, i, ha, j, hb, rfl, rfl, rfl⟩

/-- What it means that the block audit counts no error at a tile. -/
theorem tile_errors_eq_zero (tt : TileTypes) (grid_blocks : GridBlocks)
    (block_locs : Nat → t_pl_loc) (layer_num i j : Nat)
    (h : tile_errors tt grid_blocks block_locs layer_num i j = 0) :
    grid_blocks.get_usage { x := i, y := j, layer_num := layer_num }
      ≤ tt.capacity (tt.get_physical_type { x := i, y := j, layer_num := layer_num }) ∧
    (∀ k ∈ tile_sub_tiles tt layer_num i j,
      sub_tile_errors tt grid_blocks block_locs layer_num i j k = 0) ∧
    grid_blocks.get_usage { x := i, y := j, layer_num := layer_num }
      = (occupied_sub_tiles tt grid_blocks layer_num i j : Int) := by
  unfold tile_errors at h
  have h1 := (Nat.add_eq_zero_iff.1 h).1
  have h3 := (Nat.add_eq_zero_iff.1 h).2
  have h2 := (Nat.add_eq_zero_iff.1 h1).2
  have h0 := (Nat.add_eq_zero_iff.1 h1).1
  refine ⟨?_, ?_, ?_⟩
  · by_contra hc
    rw [if_pos (not_le.1 hc)] at h0
    exact absurd h0 (by decide)
  · rw [List.sum_eq_zero_iff, List.forall_mem_map] at h2
    exact h2
  · by_contra hc
    rw [if_pos (fun e => hc e.symm)] at h3
    exact absurd h3 (by decide)

/-- What it means that the block audit counts no error at a sub-tile that holds a block. -/
theorem sub_tile_errors_eq_zero (tt : TileTypes) (grid_blocks : GridBlocks)
    (block_locs : Nat → t_pl_loc) (layer_num i j k b : Nat)
    (hb : grid_blocks.block_at_location
      { x := i, y := j, sub_tile := k, layer := layer_num } = ClusterBlockId.blk b)
    (h : sub_tile_errors tt grid_blocks block_locs layer_num i j k = 0) :
    tt.physical_tile_type b = tt.get_physical_type { x := i, y := j, layer_num := layer_num } ∧
    (block_locs b).x = (i : Int) ∧ (block_locs b).y = (j : Int) ∧
    (block_locs b).layer = layer_num ∧
    tt.is_sub_tile_compatible (tt.get_physical_type { x := i, y := j, layer_num := layer_num })
      (tt.block_type b) (block_locs b).sub_tile = true := by
  unfold sub_tile_errors at h
  rw [hb] at h
  simp only at h
  have h1 := (Nat.add_eq_zero_iff.1 h).1
  have h2 := (Nat.add_eq_zero_iff.1 h).2
  have a1 : tt.physical_tile_type b
      = tt.get_physical_type { x := i, y := j, layer_num := layer_num } := by
    by_contra hc
    rw [if_pos hc] at h1
    exact absurd h1 (by decide)
  have a2 : ¬ ((block_locs b).x ≠ (i : Int) ∨ (block_locs b).y ≠ (j : Int)
      ∨ (block_locs b).layer ≠ layer_num
      ∨ (!tt.is_sub_tile_compatible
          (tt.get_physical_type { x := i, y := j, layer_num := layer_num })
          (tt.block_type b) (block_locs b).sub_tile) = true) := by
    intro hc
    rw [if_pos hc] at h2
    exact absurd h2 (by decide)
  simp only [not_or, ne_eq, not_not, Bool.not_eq_true', Bool.not_eq_false] at a2
  exact ⟨a1, a2.1, a2.2.1, a2.2.2.1, a2.2.2.2⟩

/-- Counterexample to C29 as stated: the grid holds block 0 in sub-tile 0 and block 1 in
sub-tile 1 of the tile `(3, 1)`, the stored locations of the two blocks have the sub-tiles
exchanged, both sub-tiles are compatible with the blocks, and
`check_block_placement_consistency` returns 0; still the inverse grid map at
`block_locs[0].loc`, taken with its sub-tile, holds block 1 and not block 0. -/
theorem check_block_placement_consistency_counterexample :
    check_block_placement_consistency ex_nl ex_grid ex_tile_types ex_grid_blocks
      ex_audit_swapped_locs = 0 ∧
    ex_grid_blocks.block_at_location (ex_audit_swapped_locs 0).pos = ClusterBlockId.blk 1 ∧
    ex_grid_blocks.block_at_location (ex_audit_swapped_locs 0).pos ≠ ClusterBlockId.blk 0 := by
  decide

/-- C29 (amended). Block/grid audit: if `check_block_placement_consistency` returns 0, then
every block `b` occurs exactly once in the grid, and it occurs in a sub-tile `k` of the tile at
the `x`, `y` and layer of `block_locs[b].loc`, a tile of the type of the block whose sub-tile
`block_locs[b].loc.sub_tile` is compatible with the block (the audit does not compare
`block_locs[b].loc.sub_tile` with `k`); and the usage counter of every tile equals its number
of occupied sub-tiles and does not exceed the capacity. -/
theorem check_block_placement_consistency_sound (nl : ClusteredNetlist) (grid : DeviceGrid)
    (tt : TileTypes) (grid_blocks : GridBlocks) (block_locs : Nat → t_pl_loc)
    (h : check_block_placement_consistency nl grid tt grid_blocks block_locs = 0) :
    (∀ b, b < nl.num_blocks →
      grid_occurrences grid tt grid_blocks b = 1 ∧
      ∃ layer_num i j k,
        layer_num < grid.num_layers ∧ i < grid.width ∧ j < grid.height ∧
        k ∈ tile_sub_tiles tt layer_num i j ∧
        (block_locs b).x = (i : Int) ∧ (block_locs b).y = (j : Int) ∧
        (block_locs b).layer = layer_num ∧
        grid_blocks.block_at_location { x := i, y := j, sub_tile := k, layer := layer_num }
          = ClusterBlockId.blk b ∧
        tt.physical_tile_type b
          = tt.get_physical_type { x := i, y := j, layer_num := layer_num } ∧
        tt.is_sub_tile_compatible
          (tt.get_physical_type { x := i, y := j, layer_num := layer_num })
          (tt.block_type b) (block_locs b).sub_tile = true) ∧
    (∀ layer_num i j, layer_num < grid.num_layers → i < grid.width → j < grid.height →
      grid_blocks.get_usage { x := i, y := j, layer_num := layer_num }
        = (occupied_sub_tiles tt grid_blocks layer_num i j : Int) ∧
      grid_blocks.get_usage { x := i, y := j, layer_num := layer_num }
        ≤ tt.capacity (tt.get_physical_type { x := i, y := j, layer_num := layer_num })) := by
  rw [check_block_placement_consistency_eq, Int.natCast_eq_zero, Nat.add_eq_zero_iff,
    List.sum_eq_zero_iff, List.sum_eq_zero_iff, List.forall_mem_map, List.forall_mem_map] at h
  obtain ⟨hT, hB⟩ := h
  have htile : ∀ layer_num i j, layer_num < grid.num_layers → i < grid.width →
      j < grid.height → tile_errors tt grid_blocks block_locs layer_num i j = 0 := by
    intro layer_num i j h1 h2 h3
    exact hT (layer_num, i, j) ((mem_grid_tiles grid layer_num i j).2 ⟨h1, h2, h3⟩)
  refine ⟨?_, ?_⟩
  · intro b hb
    have hocc : grid_occurrences grid tt grid_blocks b = 1 := by
      have := hB b (List.mem_range.2 hb)
      by_contra hc
      rw [if_pos hc] at this
      exact absurd this (by decide)
    refine ⟨hocc, ?_⟩
    have hne : ((grid_tiles grid).map (fun t =>
        tile_occurrences tt grid_blocks t.1 t.2.1 t.2.2 b)).sum ≠ 0 := by
      unfold grid_occurrences at hocc
      rw [hocc]
      decide
    rw [Ne, List.sum_eq_zero_iff, List.forall_mem_map] at hne
    push_neg at hne
    obtain ⟨⟨layer_num, i, j⟩, ht, hto⟩ := hne
    obtain ⟨h1, h2, h3⟩ := (mem_grid_tiles grid layer_num i j).1 ht
    simp only at hto
    unfold tile_occurrences at hto
    obtain ⟨k, hk⟩ := List.exists_mem_of_length_pos (Nat.pos_of_ne_zero hto)
    obtain ⟨hk1, hk2⟩ := List.mem_filter.1 hk
    simp only [decide_eq_true_eq] at hk2
    obtain ⟨_, hsub, _⟩ := tile_errors_eq_zero tt grid_blocks block_locs layer_num i j
      (htile layer_num i j h1 h2 h3)
    obtain ⟨a1, a2, a3, a4, a5⟩ := sub_tile_errors_eq_zero tt grid_blocks block_locs
      layer_num i j k b hk2 (hsub k hk1)
    exact ⟨layer_num, i, j, k, h1, h2, h3, hk1, a2, a3, a4, hk2, a1, a5⟩
  · intro layer_num i j h1 h2 h3
    obtain ⟨c1, _, c3⟩ := tile_errors_eq_zero tt grid_blocks block_locs layer_num i j
      (htile layer_num i j h1 h2 h3)
    exact ⟨c3, c1⟩

/-- The audit of the example placement finds no error; block 1 is held once, in sub-tile 1 of
the tile `(3, 1)`. -/
theorem check_block_placement_consistency_sound_witness :
    grid_occurrences ex_grid ex_tile_types ex_grid_blocks 1 = 1 ∧
    ∃ layer_num i j k,
      layer_num < ex_grid.num_layers ∧ i < ex_grid.width ∧ j < ex_grid.height ∧
      k ∈ tile_sub_tiles ex_tile_types layer_num i j ∧
      (ex_audit_locs 1).x = (i : Int) ∧ (ex_audit_locs 1).y = (j : Int) ∧
      (ex_audit_locs 1).layer = layer_num ∧
      ex_grid_blocks.block_at_location { x := i, y := j, sub_tile := k, layer := layer_num }
        = ClusterBlockId.blk 1 ∧
      ex_tile_types.physical_tile_type 1
        = ex_tile_types.get_physical_type { x := i, y := j, layer_num := layer_num } ∧
      ex_tile_types.is_sub_tile_compatible
        (ex_tile_types.get_physical_type { x := i, y := j, layer_num := layer_num })
        (ex_tile_types.block_type 1) (ex_audit_locs 1).sub_tile = true :=
  (check_block_placement_consistency_sound ex_nl ex_grid ex_tile_types ex_grid_blocks
    ex_audit_locs (by decide)).1 1 (by decide)



/-! ## The cost audit does not read `net_cost` -/

/-- A step of `comp_bb_cost` leaves states that agree on the placement, the boxes and the sink
counts in agreement, with the same cost: the previous `net_cost` is not read. -/
theorem comp_bb_cost_step_net_cost (nl : ClusteredNetlist) (grid : DeviceGrid) (fac : CostFac)
    (method : e_cost_methods) (a b : PlacerState × ℚ) (net_id : Nat)
    (h : a.1.block_locs = b.1.block_locs ∧ a.1.bb_coords = b.1.bb_coords ∧
      a.1.num_sink_pin_layer = b.1.num_sink_pin_layer ∧ a.2 = b.2) :
    (comp_bb_cost_step nl grid fac method a net_id).1.block_locs
        = (comp_bb_cost_step nl grid fac method b net_id).1.block_locs ∧
    (comp_bb_cost_step nl grid fac method a net_id).1.bb_coords
        = (comp_bb_cost_step nl grid fac method b net_id).1.bb_coords ∧
    (comp_bb_cost_step nl grid fac method a net_id).1.num_sink_pin_layer
        = (comp_bb_cost_step nl grid fac method b net_id).1.num_sink_pin_layer ∧
    (comp_bb_cost_step nl grid fac method a net_id).2
        = (comp_bb_cost_step nl grid fac method b net_id).2 := by
  obtain ⟨h1, h2, h3, h4⟩ := h
  unfold comp_bb_cost_step
  by_cases hi : nl.net_is_ignored net_id = true
  · simp only [hi, Bool.not_true, Bool.false_eq_true, if_false]
    exact ⟨h1, h2, h3, h4⟩
  · have hi2 : nl.net_is_ignored net_id = false := by simpa using hi
    simp only [hi2, Bool.not_false, if_true]
    by_cases hs : (nl.net_sinks net_id).length ≥ SMALL_NET ∧ method = e_cost_methods.NORMAL
    · simp only [hs, and_self, if_true, Function.update_same]
      rw [h1, h2, h3, h4]
      exact ⟨rfl, rfl, rfl, rfl⟩
    · simp only [hs, if_false, Function.update_same]
      rw [h1, h2, h3, h4]
      exact ⟨rfl, rfl, rfl, rfl⟩

theorem comp_bb_cost_foldl_net_cost (nl : ClusteredNetlist) (grid : DeviceGrid) (fac : CostFac)
    (method : e_cost_methods) (nets : List Nat) : ∀ (a b : PlacerState × ℚ),
    (a.1.block_locs = b.1.block_locs ∧ a.1.bb_coords = b.1.bb_coords ∧
      a.1.num_sink_pin_layer = b.1.num_sink_pin_layer ∧ a.2 = b.2) →
    (nets.foldl (comp_bb_cost_step nl grid fac method) a).2
      = (nets.foldl (comp_bb_cost_step nl grid fac method) b).2 := by
  induction nets with
  | nil => intro a b h; exact h.2.2.2
  | cons n ns ih =>
    intro a b h
    simp only [List.foldl_cons]
    exact ih _ _ (comp_bb_cost_step_net_cost nl grid fac method a b n h)

theorem comp_layer_bb_cost_step_net_cost (nl : ClusteredNetlist) (grid : DeviceGrid)
    (fac : CostFac) (method : e_cost_methods) (a b : LayerPlacerState × ℚ) (net_id : Nat)
    (h : a.1.block_locs = b.1.block_locs ∧ a.1.layer_bb_coords = b.1.layer_bb_coords ∧
      a.1.layer_bb_num_on_edges = b.1.layer_bb_num_on_edges ∧
      a.1.num_sink_pin_layer = b.1.num_sink_pin_layer ∧ a.2 = b.2) :
    (comp_layer_bb_cost_step nl grid fac method a net_id).1.block_locs
        = (comp_layer_bb_cost_step nl grid fac method b net_id).1.block_locs ∧
    (comp_layer_bb_cost_step nl grid fac method a net_id).1.layer_bb_coords
        = (comp_layer_bb_cost_step nl grid fac method b net_id).1.layer_bb_coords ∧
    (comp_layer_bb_cost_step nl grid fac method a net_id).1.layer_bb_num_on_edges
        = (comp_layer_bb_cost_step nl grid fac method b net_id).1.layer_bb_num_on_edges ∧
    (comp_layer_bb_cost_step nl grid fac method a net_id).1.num_sink_pin_layer
        = (comp_layer_bb_cost_step nl grid fac method b net_id).1.num_sink_pin_layer ∧
    (comp_layer_bb_cost_step nl grid fac method a net_id).2
        = (comp_layer_bb_cost_step nl grid fac method b net_id).2 := by
  obtain ⟨h1, h2, h3, h4, h5⟩ := h
  unfold comp_layer_bb_cost_step
  by_cases hi : nl.net_is_ignored net_id = true
  · simp only [hi, Bool.not_true, Bool.false_eq_true, if_false]
    exact ⟨h1, h2, h3, h4, h5⟩
  · have hi2 : nl.net_is_ignored net_id = false := by simpa using hi
    simp only [hi2, Bool.not_false, if_true]
    by_cases hs : (nl.net_sinks net_id).length ≥ SMALL_NET ∧ method = e_cost_methods.NORMAL
    · simp only [hs, and_self, if_true, Function.update_same]
      rw [h1, h2, h3, h4, h5]
      exact ⟨rfl, rfl, rfl, rfl, rfl⟩
    · simp only [hs, if_false, Function.update_same]
      rw [h1, h2, h3, h4, h5]
      exact ⟨rfl, rfl, rfl, rfl, rfl⟩

theorem comp_layer_bb_cost_foldl_net_cost (nl : ClusteredNetlist) (grid : DeviceGrid)
    (fac : CostFac) (method : e_cost_methods) (nets : List Nat) :
    ∀ (a b : LayerPlacerState × ℚ),
    (a.1.block_locs = b.1.block_locs ∧ a.1.layer_bb_coords = b.1.layer_bb_coords ∧
      a.1.layer_bb_num_on_edges = b.1.layer_bb_num_on_edges ∧
      a.1.num_sink_pin_layer = b.1.num_sink_pin_layer ∧ a.2 = b.2) →
    (nets.foldl (comp_layer_bb_cost_step nl grid fac method) a).2
      = (nets.foldl (comp_layer_bb_cost_step nl grid fac method) b).2 := by
  induction nets with
  | nil => intro a b h; exact h.2.2.2.2
  | cons n ns ih =>
    intro a b h
    simp only [List.foldl_cons]
    exact ih _ _ (comp_layer_bb_cost_step_net_cost nl grid fac method a b n h)

/-- The number of errors that `check_place` counts does not depend on the content of
`net_cost`: the cost audit recomputes every net cost that it adds up. -/
theorem check_place_error_net_cost (env : CheckPlaceEnv) (costs : t_placer_costs)
    (s : LayerPlacerState) (f : Nat → ℚ) :
    check_place_error env costs { s with net_cost := f } = check_place_error env costs s := by
  have hc : check_placement_costs env.nl env.grid env.fac env.cube_bb env.place_algorithm
      env.timing_cost_check costs { s with net_cost := f }
      = check_placement_costs env.nl env.grid env.fac env.cube_bb env.place_algorithm
          env.timing_cost_check costs s := by
    unfold check_placement_costs
    have h1 : (comp_bb_cost env.nl env.grid env.fac e_cost_methods.CHECK
          ({ s with net_cost := f } : LayerPlacerState).toPlacerState).2
        = (comp_bb_cost env.nl env.grid env.fac e_cost_methods.CHECK s.toPlacerState).2 :=
      comp_bb_cost_foldl_net_cost env.nl env.grid env.fac e_cost_methods.CHECK _ _ _
        ⟨rfl, rfl, rfl, rfl⟩
    have h2 : (comp_layer_bb_cost env.nl env.grid env.fac e_cost_methods.CHECK
          ({ s with net_cost := f } : LayerPlacerState)).2
        = (comp_layer_bb_cost env.nl env.grid env.fac e_cost_methods.CHECK s).2 :=
      comp_layer_bb_cost_foldl_net_cost env.nl env.grid env.fac e_cost_methods.CHECK _ _ _
        ⟨rfl, rfl, rfl, rfl, rfl⟩
    rw [h1, h2]
  unfold check_place_error
  rw [hc]

theorem check_place_net_cost (env : CheckPlaceEnv) (costs : t_placer_costs)
    (s : LayerPlacerState) (f : Nat → ℚ) :
    check_place env costs { s with net_cost := f } = check_place env costs s := by
  unfold check_place
  rw [check_place_error_net_cost]


/-! ## What the cost audit detects -/

theorem check_placement_consistency_nonneg (nl : ClusteredNetlist) (grid : DeviceGrid)
    (tt : TileTypes) (grid_blocks : GridBlocks) (pl_macros : List t_pl_macro)
    (block_locs : Nat → t_pl_loc) :
    0 ≤ check_placement_consistency nl grid tt grid_blocks pl_macros block_locs := by
  unfold check_placement_consistency
  rw [check_block_placement_consistency_eq, check_macro_placement_consistency_eq]
  exact add_nonneg (Int.natCast_nonneg _) (Int.natCast_nonneg _)

theorem check_placement_costs_nonneg (nl : ClusteredNetlist) (grid : DeviceGrid) (fac : CostFac)
    (cube_bb : Bool) (place_algorithm : e_place_algorithm) (timing_cost_check : ℚ)
    (costs : t_placer_costs) (s : LayerPlacerState) :
    0 ≤ check_placement_costs nl grid fac cube_bb place_algorithm timing_cost_check costs s := by
  unfold check_placement_costs
  simp only
  split_ifs <;> decide

/-- If the cost audit finds no error for a positive `bb_cost`, it finds one after `bb_cost` is
changed by more than two per cent in either direction, here by the factor `r`. -/
theorem check_placement_costs_bb_cost_off (nl : ClusteredNetlist) (grid : DeviceGrid)
    (fac : CostFac) (cube_bb : Bool) (place_algorithm : e_place_algorithm)
    (timing_cost_check : ℚ) (costs : t_placer_costs) (s : LayerPlacerState) (r : ℚ)
    (hr : r = 1.05 ∨ r = 0.95)
    (h : check_placement_costs nl grid fac cube_bb place_algorithm timing_cost_check costs s = 0)
    (hpos : 0 < costs.bb_cost) :
    0 < check_placement_costs nl grid fac cube_bb place_algorithm timing_cost_check
      { costs with bb_cost := costs.bb_cost * r } s := by
  unfold check_placement_costs at h ⊢
  simp only at h ⊢
  generalize (if cube_bb = true then
      (comp_bb_cost nl grid fac e_cost_methods.CHECK s.toPlacerState).2
    else (comp_layer_bb_cost nl grid fac e_cost_methods.CHECK s).2) = c at h ⊢
  have h1 : ¬ (|c - costs.bb_cost| > costs.bb_cost * ERROR_TOL) := by
    intro hc
    rw [if_pos hc] at h
    split_ifs at h <;> exact absurd h (by decide)
  have h2 : |c - costs.bb_cost * r| > costs.bb_cost * r * ERROR_TOL := by
    have h3 := abs_le.1 (not_lt.1 h1)
    unfold ERROR_TOL at h3 ⊢
    rw [gt_iff_lt, lt_abs]
    rcases hr with e | e
    · right
      rw [e]
      nlinarith [h3.1, h3.2]
    · left
      rw [e]
      nlinarith [h3.1, h3.2]
  rw [if_pos h2]
  split_ifs <;> decide

/-- If `check_place` succeeds for a positive `bb_cost`, it ends in an error after `bb_cost` is
changed by the factor `r`. -/
theorem check_place_bb_cost_off (env : CheckPlaceEnv) (costs : t_placer_costs)
    (s : LayerPlacerState) (r : ℚ) (hr : r = 1.05 ∨ r = 0.95)
    (h : check_place env costs s = Except.ok ()) (hpos : 0 < costs.bb_cost) :
    ∃ n, n ≠ 0 ∧ check_place env { costs with bb_cost := costs.bb_cost * r } s
      = Except.error n := by
  have h0 : check_place_error env costs s = 0 := by
    by_contra hc
    unfold check_place at h
    rw [if_neg hc] at h
    cases h
  have hcons := check_placement_consistency_nonneg env.nl env.grid env.tt env.grid_blocks
    env.pl_macros s.block_locs
  have hcost := check_placement_costs_nonneg env.nl env.grid env.fac env.cube_bb
    env.place_algorithm env.timing_cost_check costs s
  have hfp : (0 : Int) ≤ (env.check_placement_floorplanning : Int) := Int.natCast_nonneg _
  have hnoc : (0 : Int) ≤ (env.check_noc_placement_costs costs : Int) := Int.natCast_nonneg _
  have hc0 : check_placement_costs env.nl env.grid env.fac env.cube_bb env.place_algorithm
      env.timing_cost_check costs s = 0 := by
    unfold check_place_error at h0
    simp only at h0
    split_ifs at h0 <;> omega
  have hnew := check_placement_costs_bb_cost_off env.nl env.grid env.fac env.cube_bb
    env.place_algorithm env.timing_cost_check costs s r hr hc0 hpos
  have hnoc2 : (0 : Int) ≤ (env.check_noc_placement_costs
      { costs with bb_cost := costs.bb_cost * r } : Int) := Int.natCast_nonneg _
  have hne : check_place_error env { costs with bb_cost := costs.bb_cost * r } s ≠ 0 := by
    unfold check_place_error
    simp only
    split_ifs <;> omega
  refine ⟨check_place_error env { costs with bb_cost := costs.bb_cost * r } s, hne, ?_⟩
  unfold check_place
  rw [if_neg hne]

/-! ## `check_place` on the example placement -/

theorem ex_comp_bb_cost_check :
    (comp_bb_cost ex_nl ex_grid ex_fac e_cost_methods.CHECK ex_audit_state.toPlacerState).2
      = 7.3236 := by
  have hr : List.range ex_nl.num_nets = [0] := by decide
  have hb : (get_non_updateable_bb ex_nl ex_grid ex_audit_state.block_locs 0
      (ex_audit_state.num_sink_pin_layer 0)).1
      = { xmin := 3, xmax := 7, ymin := 1, ymax := 1 } := by decide
  have hp : (ex_nl.net_pins 0).length = 6 := by decide
  have hi : ex_nl.net_is_ignored 0 = false := rfl
  unfold comp_bb_cost
  rw [hr]
  simp only [List.foldl_cons, List.foldl_nil, comp_bb_cost_step, hi, Bool.not_false, if_true,
    reduceCtorEq, and_false, if_false, Function.update_same, hb]
  unfold get_net_cost
  rw [hp, ex_crossing]
  norm_num [ex_fac]

theorem ex_check_place_ok : check_place ex_check_env ex_costs ex_audit_state = Except.ok () := by
  have h1 : check_placement_consistency ex_nl ex_grid ex_tile_types ex_grid_blocks ex_pl_macros
      ex_audit_state.block_locs = 0 := by decide
  have h2 : check_placement_costs ex_nl ex_grid ex_fac true
      e_place_algorithm.BOUNDING_BOX_PLACE 0 ex_costs ex_audit_state = 0 := by
    unfold check_placement_costs
    simp only [if_true, ex_comp_bb_cost_check, e_place_algorithm.is_timing_driven]
    norm_num [ex_costs, ERROR_TOL]
  have h0 : check_place_error ex_check_env ex_costs ex_audit_state = 0 := by
    unfold check_place_error
    simp only [ex_check_env, h1, h2]
    decide
  unfold check_place
  rw [if_pos h0]

/-- Counterexample to C28 as stated: `check_place` succeeds on the example placement, and it
still succeeds after the cost of net 0 has been changed by `+5%`, from 7.3236 to 7.68978, with
the placement and `costs.bb_cost` unchanged. -/
theorem check_place_corrupted_net_cost_counterexample :
    check_place ex_check_env ex_costs ex_audit_state = Except.ok () ∧
    ex_audit_state.net_cost 0 = 7.3236 ∧
    ex_corrupted_state.net_cost 0 = 7.68978 ∧
    ex_corrupted_state.block_locs = ex_audit_state.block_locs ∧
    check_place ex_check_env ex_costs ex_corrupted_state = Except.ok () := by
  refine ⟨ex_check_place_ok, ?_, ?_, rfl, ?_⟩
  · norm_num [ex_audit_state, ex_state]
  · norm_num [ex_corrupted_state, ex_audit_state, ex_state]
  · unfold ex_corrupted_state
    rw [check_place_net_cost]
    exact ex_check_place_ok

/-- C28 (amended). For every state in which `check_place` succeeds, changing a single
`net_cost` entry by `+5%` or `-5%` (placement and `costs.bb_cost` unchanged) does not make
`check_place` report an error: the cost audit recomputes every net cost from the block
locations and compares only their sum with `costs.bb_cost`. What the audit detects is a wrong
`costs.bb_cost`: if `costs.bb_cost` is positive, changing it by `+5%` or `-5%` makes
`check_place` report an error. -/
theorem check_place_corrupted_net_cost (env : CheckPlaceEnv) (costs : t_placer_costs)
    (s : LayerPlacerState) (net_id : Nat) (h : check_place env costs s = Except.ok ()) :
    check_place env costs
        { s with net_cost := Function.update s.net_cost net_id (s.net_cost net_id * 1.05) }
      = Except.ok () ∧
    check_place env costs
        { s with net_cost := Function.update s.net_cost net_id (s.net_cost net_id * 0.95) }
      = Except.ok () ∧
    (0 < costs.bb_cost →
      (∃ n, n ≠ 0 ∧
        check_place env { costs with bb_cost := costs.bb_cost * 1.05 } s = Except.error n) ∧
      (∃ n, n ≠ 0 ∧
        check_place env { costs with bb_cost := costs.bb_cost * 0.95 } s = Except.error n)) := by
  refine ⟨?_, ?_, ?_⟩
  · rw [check_place_net_cost]; exact h
  · rw [check_place_net_cost]; exact h
  · intro hpos
    exact ⟨check_place_bb_cost_off env costs s 1.05 (Or.inl rfl) h hpos,
      check_place_bb_cost_off env costs s 0.95 (Or.inr rfl) h hpos⟩

/-- On the example placement `check_place` succeeds, and it succeeds with the cost of net 0
changed by five per cent in either direction. -/
theorem check_place_corrupted_net_cost_witness :
    check_place ex_check_env ex_costs
        { ex_audit_state with
          net_cost := Function.update ex_audit_state.net_cost 0
            (ex_audit_state.net_cost 0 * 1.05) }
      = Except.ok () ∧
    check_place ex_check_env ex_costs
        { ex_audit_state with
          net_cost := Function.update ex_audit_state.net_cost 0
            (ex_audit_state.net_cost 0 * 0.95) }
      = Except.ok () :=
  ⟨(check_place_corrupted_net_cost ex_check_env ex_costs ex_audit_state 0 ex_check_place_ok).1,
   (check_place_corrupted_net_cost ex_check_env ex_costs ex_audit_state 0
      ex_check_place_ok).2.1⟩

/-! ## The periodic placement save -/

/-- Inside the guard of the periodic save, the test divides by zero exactly when the quotient
`move_lim / placement_saves_per_temperature` is zero, that is when there are more saves per
temperature than moves. -/
theorem placement_save_test_none_iff (move_lim saves inner_iter : Int)
    (hm : 0 ≤ move_lim) (hs : 1 ≤ saves) (hi : 0 < inner_iter) :
    placement_save_test move_lim saves inner_iter = none ↔ move_lim < saves := by
  unfold placement_save_test int_div int_mod
  have hs0 : saves ≠ 0 := by omega
  rw [if_pos (show saves ≥ 1 from hs), if_pos (show inner_iter > 0 from hi), if_neg hs0]
  simp only [Option.some_bind]
  have hq : Int.tdiv move_lim saves = move_lim / saves :=
    Int.tdiv_eq_ediv hm (by omega)
  rw [hq]
  by_cases hlt : move_lim < saves
  · rw [if_pos (Int.ediv_eq_zero_of_lt hm hlt)]
    simp [hlt]
  · have h1 : 1 ≤ move_lim / saves :=
      Int.le_ediv_of_mul_le (by omega) (by omega)
    rw [if_neg (by omega)]
    simp [hlt]

/-- C38: with `move_lim = 2` and `placement_saves_per_temperature = 3` the guard of the periodic
save lets the iteration `inner_iter = 1` through, the quotient `2 / 3` is zero and the remainder
`(1 + 1) % 0` is a division by zero; the loop of two moves so reaches a division by zero. -/
theorem placement_save_test_divides_by_zero :
    int_div 2 3 = some 0 ∧
    placement_save_test 2 3 1 = none ∧
    placement_inner_loop_saves 2 3 = none := by
  decide

/-! ## The simulation buffer -/

/-- Reading the slot that `set_bits` has just written gives the two low bits of the value. -/
theorem get_bits_set_bits_same (b : atomic_buffer) (index value : Nat) :
    (b.set_bits index value).get_bits index = value % 4 := by
  have h : index % BUFFER_SIZE % 4 < 4 := Nat.mod_lt _ (by decide)
  have hc : index % BUFFER_SIZE % 4 = 0 ∨ index % BUFFER_SIZE % 4 = 1 ∨
      index % BUFFER_SIZE % 4 = 2 ∨ index % BUFFER_SIZE % 4 = 3 := by omega
  rcases hc with h0 | h0 | h0 | h0 <;>
    simp [atomic_buffer.get_bits, atomic_buffer.set_bits, h0]

/-- The conversion to `int32_t` keeps a value of the `int32_t` range. -/
theorem to_int32_of_range (v : Int) (hlo : -(2 ^ 31) ≤ v) (hhi : v < 2 ^ 31) :
    to_int32 v = v := by
  unfold to_int32
  omega

/-- The two low bits survive the conversion of a value to `uint8_t`. -/
theorem to_uint8_mod_four (v : Int) : ((to_uint8 v % 4 : Nat) : Int) = v % 4 := by
  unfold to_uint8
  omega

/-- With the lock free, `update_value` returns and is `lock_free_update_value` on the members
`bits` and `cycle`. -/
theorem update_value_unlocked (b : atomic_buffer) (value_in cycle_in : Int)
    (hl : b.lock = false) :
    b.update_value value_in cycle_in
      = some (if cycle_in > b.cycle then
          { bits := (b.set_bits (to_uint8 cycle_in) (to_uint8 value_in)).bits
            lock := false
            cycle := to_int32 cycle_in }
        else b) := by
  obtain ⟨bits, lock, cycle⟩ := b
  simp only at hl
  subst hl
  unfold atomic_buffer.update_value atomic_buffer.lock_it atomic_buffer.unlock_it
    atomic_buffer.lock_free_update_value atomic_buffer.lock_free_update_cycle
  simp only [Bool.false_eq_true, if_false, Option.map_some']
  split_ifs
  · unfold atomic_buffer.set_bits
    simp only
    split <;> rfl
  · rfl

/-- With the lock free, `get_cycle` and `get_value` return and leave the buffer as it is. -/
theorem get_unlocked (b : atomic_buffer) (hl : b.lock = false) :
    b.get_cycle = some (b.cycle, b) ∧
    ∀ c, b.get_value c = some ((b.get_bits (to_uint8 c) : Int), b) := by
  obtain ⟨bits, lock, cycle⟩ := b
  simp only at hl
  subst hl
  exact ⟨rfl, fun _ => rfl⟩

/-- A sequence of `update_value` calls with cycles of the `int32_t` range, started with the lock
free, returns with the lock free and a cycle that is not lower. -/
theorem update_values_monotone (calls : List (Int × Int)) :
    ∀ b : atomic_buffer, b.lock = false →
      (∀ c ∈ calls, -(2 ^ 31) ≤ c.2 ∧ c.2 < 2 ^ 31) →
      ∃ b1, b.update_values calls = some b1 ∧ b1.lock = false ∧ b.cycle ≤ b1.cycle := by
  induction calls with
  | nil => intro b hl _; exact ⟨b, rfl, hl, le_refl _⟩
  | cons c cs ih =>
    intro b hl hr
    have hc := hr c (List.mem_cons_self _ _)
    unfold atomic_buffer.update_values
    rw [update_value_unlocked b c.1 c.2 hl]
    simp only [Option.some_bind]
    by_cases hgt : c.2 > b.cycle
    · rw [if_pos hgt]
      obtain ⟨b1, e1, l1, m1⟩ := ih
        { bits := (b.set_bits (to_uint8 c.2) (to_uint8 c.1)).bits, lock := false,
          cycle := to_int32 c.2 } rfl
        (fun d hd => hr d (List.mem_cons_of_mem _ hd))
      refine ⟨b1, e1, l1, ?_⟩
      simp only [to_int32_of_range c.2 hc.1 hc.2] at m1
      omega
    · rw [if_neg hgt]
      exact ih b hl (fun d hd => hr d (List.mem_cons_of_mem _ hd))

/-- C32: for a cycle of the `int32_t` range, `lock_free_update_cycle` stores the cycle whatever
the current cycle is, `lock_free_get_cycle` then returns it, and the stored values, the lock and
every `lock_free_get_value` are as before. -/
theorem lock_free_update_cycle_overwrites (b : atomic_buffer) (cycle_in : Int)
    (hlo : -(2 ^ 31) ≤ cycle_in) (hhi : cycle_in < 2 ^ 31) :
    (b.lock_free_update_cycle cycle_in).cycle = cycle_in ∧
    (b.lock_free_update_cycle cycle_in).lock_free_get_cycle = cycle_in ∧
    (b.lock_free_update_cycle cycle_in).bits = b.bits ∧
    (b.lock_free_update_cycle cycle_in).lock = b.lock ∧
    ∀ c, (b.lock_free_update_cycle cycle_in).lock_free_get_value c
      = b.lock_free_get_value c := by
  have h := to_int32_of_range cycle_in hlo hhi
  exact ⟨h, h, rfl, rfl, fun _ => rfl⟩

/-- Witness of C32: a buffer at cycle 5 is set back to cycle 2. -/
theorem lock_free_update_cycle_overwrites_witness :
    (2 : Int) < ((atomic_buffer.construct 0).lock_free_update_cycle 5).cycle ∧
    (((atomic_buffer.construct 0).lock_free_update_cycle 5).lock_free_update_cycle 2).cycle
      = 2 ∧
    (((atomic_buffer.construct 0).lock_free_update_cycle 5).lock_free_update_cycle
      2).lock_free_get_cycle = 2 ∧
    (((atomic_buffer.construct 0).lock_free_update_cycle 5).lock_free_update_cycle 2).bits
      = ((atomic_buffer.construct 0).lock_free_update_cycle 5).bits ∧
    (((atomic_buffer.construct 0).lock_free_update_cycle 5).lock_free_update_cycle 2).lock
      = ((atomic_buffer.construct 0).lock_free_update_cycle 5).lock ∧
    ∀ c, (((atomic_buffer.construct 0).lock_free_update_cycle 5).lock_free_update_cycle
        2).lock_free_get_value c
      = ((atomic_buffer.construct 0).lock_free_update_cycle 5).lock_free_get_value c :=
  ⟨by decide,
   lock_free_update_cycle_overwrites ((atomic_buffer.construct 0).lock_free_update_cycle 5) 2
     (by decide) (by decide)⟩

/-- C39: started with the lock free, every sequence of `update_value` calls with cycles of the
`int32_t` range returns, and `get_cycle` after it is not lower than before it; a call with
`cycle_in` at most the current cycle leaves the buffer as it is; a call with a higher
`cycle_in` of the `int32_t` range makes `get_cycle` return `cycle_in` and `get_value(cycle_in)`
return the two low bits of `value_in`. -/
theorem update_value_cycle_monotone :
    (∀ (b : atomic_buffer) (calls : List (Int × Int)), b.lock = false →
      (∀ c ∈ calls, -(2 ^ 31) ≤ c.2 ∧ c.2 < 2 ^ 31) →
      ∃ b1 c0 c1, b.update_values calls = some b1 ∧ b.get_cycle = some (c0, b) ∧
        b1.get_cycle = some (c1, b1) ∧ c0 ≤ c1) ∧
    (∀ (b : atomic_buffer) (value_in cycle_in : Int), b.lock = false →
      cycle_in ≤ b.cycle → b.update_value value_in cycle_in = some b) ∧
    (∀ (b : atomic_buffer) (value_in cycle_in : Int), b.lock = false →
      -(2 ^ 31) ≤ cycle_in → cycle_in < 2 ^ 31 → b.cycle < cycle_in →
      ∃ b1, b.update_value value_in cycle_in = some b1 ∧
        b1.get_cycle = some (cycle_in, b1) ∧
        b1.get_value cycle_in = some (value_in % 4, b1)) := by
  refine ⟨?_, ?_, ?_⟩
  · intro b calls hl hr
    obtain ⟨b1, e1, l1, m1⟩ := update_values_monotone calls b hl hr
    exact ⟨b1, b.cycle, b1.cycle, e1, (get_unlocked b hl).1, (get_unlocked b1 l1).1, m1⟩
  · intro b value_in cycle_in hl hle
    rw [update_value_unlocked b value_in cycle_in hl, if_neg (by omega)]
  · intro b value_in cycle_in hl hlo hhi hgt
    rw [update_value_unlocked b value_in cycle_in hl, if_pos hgt]
    refine ⟨_, rfl, ?_, ?_⟩
    · rw [(get_unlocked _ rfl).1, to_int32_of_range cycle_in hlo hhi]
    · rw [(get_unlocked _ rfl).2]
      have h := get_bits_set_bits_same b (to_uint8 cycle_in) (to_uint8 value_in)
      have h2 : atomic_buffer.get_bits
          { bits := (b.set_bits (to_uint8 cycle_in) (to_uint8 value_in)).bits, lock := false,
            cycle := to_int32 cycle_in } (to_uint8 cycle_in)
          = (b.set_bits (to_uint8 cycle_in) (to_uint8 value_in)).get_bits (to_uint8 cycle_in) :=
        rfl
      rw [h2, h, to_uint8_mod_four]

/-- An example run for C39: from a fresh buffer the calls `update_value(1, 3)`,
`update_value(0, 2)` and `update_value(-1, 7)` leave the cycle at 7, the value 1 at cycle 3 and
the value 3 (the two low bits of -1) at cycle 7. -/
theorem ex_update_values :
    (((atomic_buffer.construct 0).update_values [(1, 3), (0, 2), (-1, 7)]).bind
      fun b => b.get_cycle.map Prod.fst) = some 7 ∧
    (((atomic_buffer.construct 0).update_values [(1, 3), (0, 2), (-1, 7)]).bind
      fun b => (b.get_value 3).map Prod.fst) = some 1 ∧
    (((atomic_buffer.construct 0).update_values [(1, 3), (0, 2), (-1, 7)]).bind
      fun b => (b.get_value 2).map Prod.fst) = some 0 ∧
    (((atomic_buffer.construct 0).update_values [(1, 3), (0, 2), (-1, 7)]).bind
      fun b => (b.get_value 7).map Prod.fst) = some 3 := by
  decide

/-- C40: cycle -1 and cycle 3 use the same slot, since the index is converted to `uint8_t`
(255) before it is reduced modulo `BUFFER_SIZE`: a fresh buffer holds 0 for cycle -1, and after
`update_value(1, 3)` the call `get_value(-1)` returns 1. In the same way the cycles 252 and 256
share slot 0: the 1 written for cycle 252 is read as 0 after `update_value(0, 256)`. -/
theorem atomic_buffer_slot_collision :
    to_uint8 (-1) % BUFFER_SIZE = to_uint8 3 % BUFFER_SIZE ∧
    ((atomic_buffer.construct 0).get_value (-1)).map Prod.fst = some 0 ∧
    (((atomic_buffer.construct 0).update_value 1 3).bind
      fun b => (b.get_value (-1)).map Prod.fst) = some 1 ∧
    to_uint8 252 % BUFFER_SIZE = to_uint8 256 % BUFFER_SIZE ∧
    (((atomic_buffer.construct 0).update_value 1 252).bind
      fun b => (b.get_value 252).map Prod.fst) = some 1 ∧
    (((atomic_buffer.construct 0).update_values [(1, 252), (0, 256)]).bind
      fun b => (b.get_value 252).map Prod.fst) = some 0 := by
  decide

/-! ## The quench -/

/-- C36: at temperature zero, without a manual move, in `BOUNDING_BOX_PLACE` or
`CRITICALITY_TIMING_PLACE` mode, `try_swap` does not raise `costs.cost`: an accepted move has
`delta_c <= 0` and adds it to the cost, and a move that is not accepted (rejected or aborted)
leaves `cost`, `bb_cost` and `timing_cost` as they are. -/
theorem try_swap_quench_never_worsens {σ : Type} (exp : ℚ → ℚ) (frand : σ → ℚ × σ)
    (nl : ClusteredNetlist) (grid : DeviceGrid) (fac : CostFac) (opts : SwapOpts)
    (inp : SwapInputs σ) (s : PlacerState) (costs : t_placer_costs)
    (ht : opts.t = 0) (hman : inp.manual_move_outcome = none)
    (halg : opts.place_algorithm = e_place_algorithm.BOUNDING_BOX_PLACE ∨
      opts.place_algorithm = e_place_algorithm.CRITICALITY_TIMING_PLACE) :
    (try_swap exp frand nl grid fac opts inp s costs).costs.cost ≤ costs.cost ∧
    ((try_swap exp frand nl grid fac opts inp s costs).move_outcome = e_move_result.ACCEPTED →
      swap_delta_c opts costs (try_swap exp frand nl grid fac opts inp s costs).bb_delta_c
          (if opts.place_algorithm.is_timing_driven then inp.timing_delta_c else 0)
          inp.setup_slack_cost inp.noc_delta_cost ≤ 0 ∧
      (try_swap exp frand nl grid fac opts inp s costs).costs.cost
        = costs.cost
          + swap_delta_c opts costs (try_swap exp frand nl grid fac opts inp s costs).bb_delta_c
              (if opts.place_algorithm.is_timing_driven then inp.timing_delta_c else 0)
              inp.setup_slack_cost inp.noc_delta_cost) ∧
    ((try_swap exp frand nl grid fac opts inp s costs).move_outcome ≠ e_move_result.ACCEPTED →
      (try_swap exp frand nl grid fac opts inp s costs).costs.cost = costs.cost ∧
      (try_swap exp frand nl grid fac opts inp s costs).costs.bb_cost = costs.bb_cost ∧
      (try_swap exp frand nl grid fac opts inp s costs).costs.timing_cost
        = costs.timing_cost) := by
  have hns : opts.place_algorithm ≠ e_place_algorithm.SLACK_TIMING_PLACE := by
    rcases halg with h | h <;> rw [h] <;> decide
  unfold try_swap
  cases hc : inp.create_move_outcome with
  | ABORT => simp
  | VALID =>
    dsimp only
    rw [hman, ht]
    simp only [manual_override, assess_swap]
    generalize (if opts.place_algorithm.is_timing_driven then inp.timing_delta_c else 0) = T
    by_cases hle : swap_delta_c opts costs
        (find_affected_nets_and_update_costs nl grid fac inp.moved_blocks
          (apply_move_blocks inp.moved_blocks s)).bb_delta_c
        T inp.setup_slack_cost inp.noc_delta_cost ≤ 0
    · simp only [if_pos hle, if_true]
      refine ⟨?_, fun _ => ⟨hle, ?_⟩, fun h => absurd rfl h⟩
      · split_ifs <;> simp only <;> linarith
      · split_ifs <;> rfl
    · simp only [if_neg hle, if_true, reduceCtorEq, if_false, if_neg hns]
      simp

/-- Witness of C36: the enlarging move of the example at temperature zero. -/
theorem try_swap_quench_never_worsens_witness :
    ex_opts.t = 0 ∧ ex_reject_inputs.manual_move_outcome = none ∧
    ex_opts.place_algorithm = e_place_algorithm.BOUNDING_BOX_PLACE ∧
    (try_swap ex_exp ex_frand ex_nl ex_grid ex_fac ex_opts ex_reject_inputs ex_state
      ex_costs).costs.cost ≤ ex_costs.cost :=
  ⟨rfl, rfl, rfl,
    (try_swap_quench_never_worsens ex_exp ex_frand ex_nl ex_grid ex_fac ex_opts ex_reject_inputs
      ex_state ex_costs rfl rfl (Or.inl rfl)).1⟩

/-! ## The per-layer cost of a net on one layer -/

/-- Layers without sinks are skipped by the loop of `get_net_layer_cost`. -/
theorem layer_cost_fold_skip (fac : CostFac) (bbptr : Nat → t_2D_bb) (cnt : Nat → Int)
    (l : List Nat) (h : ∀ x ∈ l, cnt x = 0) (q : ℚ) :
    l.foldl
      (fun ncost layer_num =>
        if cnt layer_num = 0 then ncost
        else
          let crossing := wirelength_crossing_count (size_t_of_int (cnt layer_num + 1))
          let b := bbptr layer_num
          let ncost1 := ncost + ((b.xmax - b.xmin + 1 : Int) : ℚ) * crossing
            * fac.chanx_place_cost_fac (size_t_of_int b.ymax) (size_t_of_int (b.ymin - 1))
          ncost1 + ((b.ymax - b.ymin + 1 : Int) : ℚ) * crossing
            * fac.chany_place_cost_fac (size_t_of_int b.xmax) (size_t_of_int (b.xmin - 1)))
      q = q := by
  induction l generalizing q with
  | nil => rfl
  | cons x xs ih =>
    rw [List.foldl_cons, if_pos (h x (List.mem_cons_self _ _))]
    exact ih (fun y hy => h y (List.mem_cons_of_mem _ hy)) q

/-- C37: for a net with at least one sink whose sinks are all on layer `L`, with the per-layer
sink counts of the placement and the per-layer box of `L` equal to the cube box,
`get_net_layer_cost` equals `get_net_cost`. -/
theorem get_net_layer_cost_single_layer (nl : ClusteredNetlist) (grid : DeviceGrid)
    (fac : CostFac) (block_locs : Nat → t_pl_loc) (net_id L : Nat) (bbptr : Nat → t_2D_bb)
    (layer_pin_sink_count : Nat → Int) (bb : t_bb)
    (hsinks : 1 ≤ (nl.net_sinks net_id).length)
    (hsize : (nl.net_sinks net_id).length < 2 ^ 31)
    (hL : L < grid.num_layers)
    (hlayer : ∀ p ∈ nl.net_sinks net_id, net_pin_layer nl block_locs p = L)
    (hcnt : ∀ l, l < grid.num_layers →
      layer_pin_sink_count l = sink_layer_count nl block_locs net_id l)
    (hbox : (bbptr L).xmin = bb.xmin ∧ (bbptr L).xmax = bb.xmax ∧
      (bbptr L).ymin = bb.ymin ∧ (bbptr L).ymax = bb.ymax) :
    get_net_layer_cost grid fac bbptr layer_pin_sink_count
      = get_net_cost nl fac net_id bb := by
  obtain ⟨b1, b2, b3, b4⟩ := hbox
  have hcL : layer_pin_sink_count L = ((nl.net_sinks net_id).length : Int) := by
    rw [hcnt L hL]
    unfold sink_layer_count
    congr 2
    rw [List.filter_eq_self]
    intro p hp
    simp [hlayer p hp]
  have hc0 : ∀ l, l < grid.num_layers → l ≠ L → layer_pin_sink_count l = 0 := by
    intro l hl hne
    rw [hcnt l hl]
    unfold sink_layer_count
    have : (nl.net_sinks net_id).filter
        (fun p => decide (net_pin_layer nl block_locs p = l)) = [] := by
      rw [List.filter_eq_nil_iff]
      intro p hp
      simp only [decide_eq_true_eq]
      rw [hlayer p hp]
      exact fun e => hne e.symm
    rw [this]
    rfl
  obtain ⟨k, hk⟩ : ∃ k, grid.num_layers = (L + 1) + k := ⟨grid.num_layers - (L + 1), by omega⟩
  unfold get_net_layer_cost
  rw [hk, List.range_add, List.range_succ, List.foldl_append, List.foldl_append,
    layer_cost_fold_skip fac bbptr layer_pin_sink_count (List.range L)
      (fun x hx => hc0 x (by have := List.mem_range.1 hx; omega)
        (by have := List.mem_range.1 hx; omega)),
    layer_cost_fold_skip fac bbptr layer_pin_sink_count _
      (fun x hx => by
        obtain ⟨i, hi, e⟩ := List.mem_map.1 hx
        have := List.mem_range.1 hi
        exact hc0 x (by omega) (by omega))]
  rw [List.foldl_cons, List.foldl_nil, if_neg (by rw [hcL]; omega)]
  have hsz : size_t_of_int (layer_pin_sink_count L + 1) = (nl.net_pins net_id).length := by
    rw [hcL, size_t_of_int_of_nonneg _ (by omega) (by omega)]
    unfold ClusteredNetlist.net_pins
    rw [List.length_cons]
    omega
  unfold get_net_cost
  simp only [hsz, b1, b2, b3, b4, zero_add]

/-- Witness of C37: the example net with its five sinks on layer 0 of the two-layer grid. -/
theorem get_net_layer_cost_single_layer_witness :
    1 ≤ (ex_nl.net_sinks 0).length ∧
    (∀ p ∈ ex_nl.net_sinks 0, net_pin_layer ex_nl ex_block_locs p = 0) ∧
    get_net_layer_cost ex_grid2 ex_fac ex_single_layer_boxes ex_single_layer_counts
      = get_net_cost ex_nl ex_fac 0 { xmin := 3, xmax := 7, ymin := 1, ymax := 1 } :=
  ⟨by decide, by decide,
    get_net_layer_cost_single_layer ex_nl ex_grid2 ex_fac ex_block_locs 0 0
      ex_single_layer_boxes ex_single_layer_counts { xmin := 3, xmax := 7, ymin := 1, ymax := 1 }
      (by decide) (by decide) (by decide) (by decide) (by decide) (by decide)⟩

/-! ## The order of the flags within a swap -/

/-- After `update_bb` the flag of the net is `UPDATED_ONCE` or `GOT_FROM_SCRATCH`. -/
theorem update_bb_flag_after (nl : ClusteredNetlist) (grid : DeviceGrid) (s : PlacerState)
    (net_id : Nat) (pin_old_loc pin_new_loc : t_physical_tile_loc) (src_pin : Bool) :
    (update_bb nl grid s net_id pin_old_loc pin_new_loc src_pin).bb_updated_before net_id
        = BBFlag.UPDATED_ONCE ∨
    (update_bb nl grid s net_id pin_old_loc pin_new_loc src_pin).bb_updated_before net_id
        = BBFlag.GOT_FROM_SCRATCH := by
  by_cases h : s.bb_updated_before net_id = BBFlag.GOT_FROM_SCRATCH
  · right
    rw [update_bb_got_from_scratch nl grid s net_id _ _ _ h]
    exact h
  · rcases update_bb_cases nl grid s net_id pin_old_loc pin_new_loc src_pin h with
      ⟨_, _, _, _, _, _, e⟩ | ⟨_, _, e⟩
    · exact Or.inl e
    · exact Or.inr e

/-- A call of `update_bb` does not move the flag of any net backwards. -/
theorem update_bb_rank_le (nl : ClusteredNetlist) (grid : DeviceGrid) (s : PlacerState)
    (net_id : Nat) (pin_old_loc pin_new_loc : t_physical_tile_loc) (src_pin : Bool) (m : Nat) :
    (s.bb_updated_before m).rank
      ≤ ((update_bb nl grid s net_id pin_old_loc pin_new_loc src_pin).bb_updated_before
          m).rank := by
  by_cases hm : m = net_id
  · subst hm
    by_cases h : s.bb_updated_before m = BBFlag.GOT_FROM_SCRATCH
    · rw [update_bb_got_from_scratch nl grid s m _ _ _ h]
    · rcases update_bb_cases nl grid s m pin_old_loc pin_new_loc src_pin h with
        ⟨_, _, _, _, _, _, e⟩ | ⟨_, _, e⟩
      · rw [e]
        cases hf : s.bb_updated_before m with
        | NOT_UPDATED_YET => decide
        | UPDATED_ONCE => decide
        | GOT_FROM_SCRATCH => exact absurd hf h
      · rw [e]
        cases s.bb_updated_before m <;> decide
  · rw [(update_bb_other nl grid s net_id _ _ _ m hm).2.2.2]

/-- A step of the pin loop does not move the flag of any net backwards. -/
theorem affected_pin_step_rank_le (nl : ClusteredNetlist) (grid : DeviceGrid)
    (mb : t_pl_moved_block) (acc : PlacerState × Nat) (p m : Nat) :
    (acc.1.bb_updated_before m).rank
      ≤ ((affected_pin_step nl grid mb acc p).1.bb_updated_before m).rank := by
  unfold affected_pin_step
  dsimp only
  split_ifs with hi
  · exact le_refl _
  · obtain ⟨_, _, _, _, _, r6, _⟩ := record_affected_net_frame acc.1 (nl.pin_net p) acc.2
    show _ ≤ ((update_net_bb nl grid (record_affected_net acc.1 (nl.pin_net p) acc.2).1
      (nl.pin_net p) mb p).bb_updated_before m).rank
    rw [← r6]
    generalize (record_affected_net acc.1 (nl.pin_net p) acc.2).1 = s1
    unfold update_net_bb
    split_ifs
    · exact le_refl _
    · exact le_refl _
    · exact update_bb_rank_le nl grid s1 _ _ _ _ m

/-- The pin loop does not move the flag of any net backwards. -/
theorem affected_fold_rank_le (nl : ClusteredNetlist) (grid : DeviceGrid) (m : Nat)
    (todo : List (t_pl_moved_block × Nat)) : ∀ acc : PlacerState × Nat,
    (acc.1.bb_updated_before m).rank
      ≤ ((todo.foldl (fun a mp => affected_pin_step nl grid mp.1 a mp.2)
          acc).1.bb_updated_before m).rank := by
  induction todo with
  | nil => intro acc; exact le_refl _
  | cons mp rest ih =>
    intro acc
    rw [List.foldl_cons]
    exact le_trans (affected_pin_step_rank_le nl grid mp.1 acc mp.2 m) (ih _)

/-- C35: a call of `update_bb` moves no flag backwards in the order `NOT_UPDATED_YET`,
`UPDATED_ONCE`, `GOT_FROM_SCRATCH`, leaves the flag of its net at `UPDATED_ONCE` or
`GOT_FROM_SCRATCH`, and changes nothing when the flag is `GOT_FROM_SCRATCH`; the same order
holds over every stretch of the pin loop of a swap and over the whole of
`find_affected_nets_and_update_costs`. -/
theorem update_bb_flag_state_machine :
    (∀ (nl : ClusteredNetlist) (grid : DeviceGrid) (s : PlacerState) (net_id : Nat)
      (pin_old_loc pin_new_loc : t_physical_tile_loc) (src_pin : Bool),
      (∀ m, (s.bb_updated_before m).rank
        ≤ ((update_bb nl grid s net_id pin_old_loc pin_new_loc src_pin).bb_updated_before
            m).rank) ∧
      ((update_bb nl grid s net_id pin_old_loc pin_new_loc src_pin).bb_updated_before net_id
          = BBFlag.UPDATED_ONCE ∨
        (update_bb nl grid s net_id pin_old_loc pin_new_loc src_pin).bb_updated_before net_id
          = BBFlag.GOT_FROM_SCRATCH) ∧
      (s.bb_updated_before net_id = BBFlag.GOT_FROM_SCRATCH →
        (update_bb nl grid s net_id pin_old_loc pin_new_loc src_pin).bb_updated_before
          = s.bb_updated_before ∧
        (update_bb nl grid s net_id pin_old_loc pin_new_loc src_pin).ts_bb_coord_new
          = s.ts_bb_coord_new ∧
        (update_bb nl grid s net_id pin_old_loc pin_new_loc src_pin).ts_bb_edge_new
          = s.ts_bb_edge_new ∧
        (update_bb nl grid s net_id pin_old_loc pin_new_loc src_pin).ts_layer_sink_pin_count
          = s.ts_layer_sink_pin_count ∧
        update_bb nl grid s net_id pin_old_loc pin_new_loc src_pin = s)) ∧
    (∀ (nl : ClusteredNetlist) (grid : DeviceGrid) (todo : List (t_pl_moved_block × Nat))
      (acc : PlacerState × Nat) (m : Nat),
      (acc.1.bb_updated_before m).rank
        ≤ ((todo.foldl (fun a mp => affected_pin_step nl grid mp.1 a mp.2)
            acc).1.bb_updated_before m).rank) ∧
    (∀ (nl : ClusteredNetlist) (grid : DeviceGrid) (fac : CostFac)
      (moved_blocks : List t_pl_moved_block) (s : PlacerState) (m : Nat),
      (s.bb_updated_before m).rank
        ≤ ((find_affected_nets_and_update_costs nl grid fac moved_blocks
            s).state.bb_updated_before m).rank) := by
  refine ⟨?_, ?_, ?_⟩
  · intro nl grid s net_id po pn sp
    refine ⟨fun m => update_bb_rank_le nl grid s net_id po pn sp m,
      update_bb_flag_after nl grid s net_id po pn sp, fun h => ?_⟩
    rw [update_bb_got_from_scratch nl grid s net_id po pn sp h]
    exact ⟨rfl, rfl, rfl, rfl, rfl⟩
  · intro nl grid todo acc m
    exact affected_fold_rank_le nl grid m todo acc
  · intro nl grid fac moves s m
    have h := affected_fold_rank_le nl grid m (pin_seq nl moves) (s, 0)
    rw [← affected_blocks_foldl_eq] at h
    unfold find_affected_nets_and_update_costs
    dsimp only
    obtain ⟨_, _, _, _, _, f6, _⟩ := proposed_cost_fold_frame nl fac
      (List.range (moves.foldl (affected_block_step nl grid) (s, 0)).2)
      ((moves.foldl (affected_block_step nl grid) (s, 0)).1, 0)
    rw [f6]
    exact h

/-- The flags of the example through the pin loop of the collapsing-extremum move: the net
starts at `NOT_UPDATED_YET`, is at `UPDATED_ONCE` after the pin of block 4 and at
`GOT_FROM_SCRATCH` after the pin of block 5. -/
theorem ex_flag_sequence :
    (apply_move_blocks ex_moves ex_state).bb_updated_before 0 = BBFlag.NOT_UPDATED_YET ∧
    (((pin_seq ex_nl ex_moves).take 1).foldl
        (fun a mp => affected_pin_step ex_nl ex_grid mp.1 a mp.2)
        (apply_move_blocks ex_moves ex_state, 0)).1.bb_updated_before 0
      = BBFlag.UPDATED_ONCE ∧
    ((pin_seq ex_nl ex_moves).foldl
        (fun a mp => affected_pin_step ex_nl ex_grid mp.1 a mp.2)
        (apply_move_blocks ex_moves ex_state, 0)).1.bb_updated_before 0
      = BBFlag.GOT_FROM_SCRATCH := by
  decide

/-! ## The bounds of the cost lookups -/

/-- A clipped coordinate lies in `1..dim - 2` when the dimension is at least 3. -/
theorem clip_coord_range (v : Int) (dim : Nat) (h : 3 ≤ dim) :
    1 ≤ clip_coord v dim ∧ clip_coord v dim ≤ (dim : Int) - 2 := by
  unfold clip_coord
  omega

/-- The box of `get_non_updateable_bb` lies in the inner grid. -/
theorem get_non_updateable_bb_in_grid (nl : ClusteredNetlist) (grid : DeviceGrid)
    (L : Nat → t_pl_loc) (net_id : Nat) (cnt : Nat → Int)
    (hW : 3 ≤ grid.width) (hH : 3 ≤ grid.height) :
    bb_in_grid grid (get_non_updateable_bb nl grid L net_id cnt).1 := by
  unfold get_non_updateable_bb bb_in_grid
  dsimp only
  rw [hull_fold_hx, hull_fold_hy]
  dsimp only
  obtain ⟨_, x2, x3, _⟩ := hull_scratch_spec
    (pin_x nl L (nl.net_driver_block net_id) (nl.net_driver_tile_pin_index net_id))
    ((nl.net_sinks net_id).map (net_pin_x nl L))
  obtain ⟨_, y2, y3, _⟩ := hull_scratch_spec
    (pin_y nl L (nl.net_driver_block net_id) (nl.net_driver_tile_pin_index net_id))
    ((nl.net_sinks net_id).map (net_pin_y nl L))
  exact ⟨(clip_coord_range _ _ hW).1, clip_coord_mono (x2 _ x3) _, (clip_coord_range _ _ hW).2,
    (clip_coord_range _ _ hH).1, clip_coord_mono (y2 _ y3) _, (clip_coord_range _ _ hH).2⟩

/-- The box of `get_bb_from_scratch` lies in the inner grid. -/
theorem get_bb_from_scratch_in_grid (nl : ClusteredNetlist) (grid : DeviceGrid)
    (L : Nat → t_pl_loc) (net_id : Nat) (cnt : Nat → Int)
    (hW : 3 ≤ grid.width) (hH : 3 ≤ grid.height) :
    bb_in_grid grid (get_bb_from_scratch nl grid L net_id cnt).coords := by
  rw [scratch_coords_eq_non_updateable nl grid L net_id cnt cnt]
  exact get_non_updateable_bb_in_grid nl grid L net_id cnt hW hH

/-- The incremental update of one axis keeps the extrema ordered and inside the range of the
old extrema and the new coordinate. -/
theorem update_axis_in_range (curr a : AxisBB) (pin_old pin_new D : Int)
    (h1 : 1 ≤ curr.lo) (h2 : curr.lo ≤ curr.hi) (h3 : curr.hi ≤ D)
    (hn1 : 1 ≤ pin_new) (hn2 : pin_new ≤ D)
    (hu : update_axis curr pin_old pin_new = some a) :
    1 ≤ a.lo ∧ a.lo ≤ a.hi ∧ a.hi ≤ D := by
  unfold update_axis update_lo_fields update_hi_fields at hu
  split_ifs at hu <;> cases hu <;> (try dsimp only) <;> omega

/-- The box that `update_bb` leaves lies in the inner grid when the box it starts from does:
the committed box for the flag `NOT_UPDATED_YET`, the scratch box otherwise. -/
theorem update_bb_in_grid (nl : ClusteredNetlist) (grid : DeviceGrid) (s : PlacerState)
    (net_id : Nat) (pin_old_loc pin_new_loc : t_physical_tile_loc) (src_pin : Bool)
    (hW : 3 ≤ grid.width) (hH : 3 ≤ grid.height)
    (hN : s.bb_updated_before net_id = BBFlag.NOT_UPDATED_YET →
      bb_in_grid grid (s.bb_coords net_id))
    (hU : s.bb_updated_before net_id ≠ BBFlag.NOT_UPDATED_YET →
      bb_in_grid grid (s.ts_bb_coord_new net_id)) :
    bb_in_grid grid
      ((update_bb nl grid s net_id pin_old_loc pin_new_loc src_pin).ts_bb_coord_new net_id) := by
  by_cases h : s.bb_updated_before net_id = BBFlag.GOT_FROM_SCRATCH
  · rw [update_bb_got_from_scratch nl grid s net_id _ _ _ h]
    exact hU (by rw [h]; decide)
  · rcases update_bb_cases nl grid s net_id pin_old_loc pin_new_loc src_pin h with
      ⟨ax, ay, ex, ey, ec, _, _⟩ | ⟨ec, _, _⟩
    · rw [ec]
      have hcurr : bb_in_grid grid (update_bb_curr s net_id).1 := by
        unfold update_bb_curr
        split_ifs with hf
        · exact hN hf
        · exact hU hf
      obtain ⟨c1, c2, c3, c4, c5, c6⟩ := hcurr
      have rx := update_axis_in_range _ ax _ _ ((grid.width : Int) - 2) c1 c2 c3
        (clip_coord_range pin_new_loc.x _ hW).1 (clip_coord_range pin_new_loc.x _ hW).2 ex
      have ry := update_axis_in_range _ ay _ _ ((grid.height : Int) - 2) c4 c5 c6
        (clip_coord_range pin_new_loc.y _ hH).1 (clip_coord_range pin_new_loc.y _ hH).2 ey
      exact ⟨rx.1, rx.2.1, rx.2.2, ry.1, ry.2.1, ry.2.2⟩
    · rw [ec]
      exact get_bb_from_scratch_in_grid nl grid s.block_locs net_id _ hW hH

/-- The indices with which `get_net_cost` reads the two matrices for a box in the inner grid:
the conversion to `size_t` does not wrap and `low <= high < dim`. -/
theorem bb_in_grid_lookup (grid : DeviceGrid) (b : t_bb)
    (hW : (grid.width : Int) < 2 ^ 31) (hH : (grid.height : Int) < 2 ^ 31)
    (h : bb_in_grid grid b) :
    ((size_t_of_int (b.ymin - 1) : Nat) : Int) = b.ymin - 1 ∧
    ((size_t_of_int b.ymax : Nat) : Int) = b.ymax ∧
    size_t_of_int (b.ymin - 1) ≤ size_t_of_int b.ymax ∧
    size_t_of_int b.ymax < grid.height ∧
    ((size_t_of_int (b.xmin - 1) : Nat) : Int) = b.xmin - 1 ∧
    ((size_t_of_int b.xmax : Nat) : Int) = b.xmax ∧
    size_t_of_int (b.xmin - 1) ≤ size_t_of_int b.xmax ∧
    size_t_of_int b.xmax < grid.width := by
  obtain ⟨c1, c2, c3, c4, c5, c6⟩ := h
  rw [size_t_of_int_of_nonneg (b.ymin - 1) (by omega) (by omega),
    size_t_of_int_of_nonneg b.ymax (by omega) (by omega),
    size_t_of_int_of_nonneg (b.xmin - 1) (by omega) (by omega),
    size_t_of_int_of_nonneg b.xmax (by omega) (by omega)]
  omega

/-! ## Net costs and the negative sentinel -/

/-- Every entry of the crossing-count table is positive. -/
theorem cross_count_pos : ∀ x ∈ cross_count, (0 : ℚ) < x := by
  unfold cross_count
  simp only [List.mem_cons, List.mem_singleton, forall_eq_or_imp, forall_eq, List.not_mem_nil,
    false_imp_iff, implies_true, and_true]
  norm_num

/-- The crossing count is never negative. -/
theorem wirelength_crossing_count_nonneg (fanout : Nat) :
    0 ≤ wirelength_crossing_count fanout := by
  unfold wirelength_crossing_count
  split_ifs
  · have : (0 : ℚ) ≤ ((fanout - 50 : Nat) : ℚ) := Nat.cast_nonneg _
    linarith
  · by_cases hlt : (fanout + 2 ^ 64 - 1) % 2 ^ 64 < cross_count.length
    · rw [List.getD_eq_getElem _ _ hlt]
      exact le_of_lt (cross_count_pos _ (List.getElem_mem _))
    · rw [List.getD_eq_default _ _ (not_lt.1 hlt)]

/-- The crossing count of a net with at least one pin is positive. -/
theorem wirelength_crossing_count_pos (fanout : Nat) (h : 1 ≤ fanout) :
    0 < wirelength_crossing_count fanout := by
  unfold wirelength_crossing_count
  split_ifs with h50
  · have : (0 : ℚ) ≤ ((fanout - 50 : Nat) : ℚ) := Nat.cast_nonneg _
    linarith
  · have hidx : (fanout + 2 ^ 64 - 1) % 2 ^ 64 = fanout - 1 := by omega
    have hlt : fanout - 1 < cross_count.length := by rw [cross_count_length]; omega
    rw [hidx, List.getD_eq_getElem _ _ hlt]
    exact cross_count_pos _ (List.getElem_mem _)

/-- With non-negative channel widths and a power function that is positive on positive bases,
the entries of the lower triangle of a channel factor matrix are positive. -/
theorem channel_factor_pos (pow : ℚ → ℚ → ℚ) (hpow : ∀ b e : ℚ, 0 < b → 0 < pow b e)
    (e : ℚ) (n : Nat) (w : Nat → Int) (m : Nat → Nat → ℚ) (high low : Nat)
    (hw : ∀ i, 0 ≤ w i) (h1 : low ≤ high) (h2 : high < n) :
    0 < invert_chan_sums pow e n (load_chan_sums n w m) high low := by
  rw [channel_factor_entry pow e n w m high low h1 h2]
  apply hpow
  apply div_pos
  · have : (low : ℚ) ≤ (high : ℚ) := Nat.cast_le.2 h1
    linarith
  · split_ifs with hz
    · norm_num
    · exact lt_of_le_of_ne (Finset.sum_nonneg (fun i _ => Int.cast_nonneg.2 (hw i)))
        (Ne.symm hz)

/-- One term `(max - min + 1) * crossing * factor` of a net cost is positive. -/
theorem cost_term_pos (lo hi : Int) (c f : ℚ) (h : lo ≤ hi) (hc : 0 < c) (hf : 0 < f) :
    0 < ((hi - lo + 1 : Int) : ℚ) * c * f := by
  have : (0 : ℚ) < ((hi - lo + 1 : Int) : ℚ) := Int.cast_pos.2 (by omega)
  exact mul_pos (mul_pos this hc) hf

/-- The cost of a net whose box lies in the inner grid is positive. -/
theorem get_net_cost_pos (pow : ℚ → ℚ → ℚ) (hpow : ∀ b e : ℚ, 0 < b → 0 < pow b e)
    (grid : DeviceGrid) (chan_width : t_chan_width) (place_cost_exp : ℚ) (fac0 : CostFac)
    (nl : ClusteredNetlist) (net_id : Nat) (b : t_bb)
    (hcw : chan_width_nonneg chan_width)
    (hW : (grid.width : Int) < 2 ^ 31) (hH : (grid.height : Int) < 2 ^ 31)
    (hb : bb_in_grid grid b) :
    0 < get_net_cost nl
      (alloc_and_load_for_fast_cost_update pow grid chan_width place_cost_exp fac0) net_id b := by
  obtain ⟨_, _, l3, l4, _, _, l7, l8⟩ := bb_in_grid_lookup grid b hW hH hb
  obtain ⟨_, c2, _, _, c5, _⟩ := hb
  have hlen : 1 ≤ (nl.net_pins net_id).length := by
    unfold ClusteredNetlist.net_pins
    rw [List.length_cons]
    omega
  have hc := wirelength_crossing_count_pos _ hlen
  unfold get_net_cost alloc_and_load_for_fast_cost_update
  dsimp only
  exact add_pos
    (cost_term_pos _ _ _ _ c2 hc
      (channel_factor_pos pow hpow _ _ _ _ _ _ (fun i => (hcw i).1) l3 l4))
    (cost_term_pos _ _ _ _ c5 hc
      (channel_factor_pos pow hpow _ _ _ _ _ _ (fun i => (hcw i).2) l7 l8))

/-- The per-layer cost of a net whose per-layer boxes lie in the inner grid is not negative. -/
theorem get_net_layer_cost_nonneg (pow : ℚ → ℚ → ℚ) (hpow : ∀ b e : ℚ, 0 < b → 0 < pow b e)
    (grid : DeviceGrid) (chan_width : t_chan_width) (place_cost_exp : ℚ) (fac0 : CostFac)
    (bbptr : Nat → t_2D_bb) (layer_pin_sink_count : Nat → Int)
    (hcw : chan_width_nonneg chan_width)
    (hW : (grid.width : Int) < 2 ^ 31) (hH : (grid.height : Int) < 2 ^ 31)
    (hb : ∀ l, l < grid.num_layers → layer_bb_in_grid grid (bbptr l)) :
    0 ≤ get_net_layer_cost grid
      (alloc_and_load_for_fast_cost_update pow grid chan_width place_cost_exp fac0) bbptr
      layer_pin_sink_count := by
  unfold get_net_layer_cost
  have key : ∀ (l : List Nat) (q : ℚ), (∀ x ∈ l, x < grid.num_layers) → 0 ≤ q →
      0 ≤ l.foldl
        (fun ncost layer_num =>
          if layer_pin_sink_count layer_num = 0 then ncost
          else
            let crossing :=
              wirelength_crossing_count (size_t_of_int (layer_pin_sink_count layer_num + 1))
            let b := bbptr layer_num
            let ncost1 := ncost + ((b.xmax - b.xmin + 1 : Int) : ℚ) * crossing
              * (alloc_and_load_for_fast_cost_update pow grid chan_width place_cost_exp
                  fac0).chanx_place_cost_fac (size_t_of_int b.ymax) (size_t_of_int (b.ymin - 1))
            ncost1 + ((b.ymax - b.ymin + 1 : Int) : ℚ) * crossing
              * (alloc_and_load_for_fast_cost_update pow grid chan_width place_cost_exp
                  fac0).chany_place_cost_fac (size_t_of_int b.xmax) (size_t_of_int (b.xmin - 1)))
        q := by
    intro l
    induction l with
    | nil => intro q _ hq; exact hq
    | cons x xs ih =>
      intro q hl hq
      rw [List.foldl_cons]
      apply ih _ (fun y hy => hl y (List.mem_cons_of_mem _ hy))
      split_ifs
      · exact hq
      · obtain ⟨c1, c2, c3, c4, c5, c6⟩ := hb x (hl x (List.mem_cons_self _ _))
        have hbb : bb_in_grid grid
            { xmin := (bbptr x).xmin, xmax := (bbptr x).xmax, ymin := (bbptr x).ymin,
              ymax := (bbptr x).ymax } := ⟨c1, c2, c3, c4, c5, c6⟩
        obtain ⟨_, _, l3, l4, _, _, l7, l8⟩ := bb_in_grid_lookup grid _ hW hH hbb
        dsimp only at l3 l4 l7 l8 ⊢
        have hc := wirelength_crossing_count_nonneg
          (size_t_of_int (layer_pin_sink_count x + 1))
        have fx := channel_factor_pos pow hpow place_cost_exp grid.height chan_width.x_list
          fac0.chanx_place_cost_fac _ _ (fun i => (hcw i).1) l3 l4
        have fy := channel_factor_pos pow hpow place_cost_exp grid.width chan_width.y_list
          fac0.chany_place_cost_fac _ _ (fun i => (hcw i).2) l7 l8
        have wx : (0 : ℚ) ≤ (((bbptr x).xmax - (bbptr x).xmin + 1 : Int) : ℚ) :=
          Int.cast_nonneg.2 (by omega)
        have wy : (0 : ℚ) ≤ (((bbptr x).ymax - (bbptr x).ymin + 1 : Int) : ℚ) :=
          Int.cast_nonneg.2 (by omega)
        unfold alloc_and_load_for_fast_cost_update
        dsimp only
        have t1 := mul_nonneg (mul_nonneg wx hc) (le_of_lt fx)
        have t2 := mul_nonneg (mul_nonneg wy hc) (le_of_lt fy)
        linarith
  exact key _ 0 (fun x hx => List.mem_range.1 hx) (le_refl _)

/-- A step of the pin loop keeps the invariant `GridInv` of every net. -/
theorem affected_pin_step_gridInv (nl : ClusteredNetlist) (grid : DeviceGrid)
    (hW : 3 ≤ grid.width) (hH : 3 ≤ grid.height)
    (mb : t_pl_moved_block) (acc : PlacerState × Nat) (p n : Nat) (h : GridInv grid acc n) :
    GridInv grid (affected_pin_step nl grid mb acc p) n := by
  by_cases hi : nl.net_is_ignored (nl.pin_net p) = true
  · have hstep : affected_pin_step nl grid mb acc p = acc := by
      unfold affected_pin_step
      simp only [hi, if_true]
    rw [hstep]
    exact h
  · have hstep : affected_pin_step nl grid mb acc p
        = (update_net_bb nl grid (record_affected_net acc.1 (nl.pin_net p) acc.2).1
            (nl.pin_net p) mb p, (record_affected_net acc.1 (nl.pin_net p) acc.2).2) := by
      unfold affected_pin_step
      simp only [hi, Bool.false_eq_true, if_false]
    obtain ⟨_, u2, _, _, _, u6, _⟩ := update_net_bb_frame nl grid
      (record_affected_net acc.1 (nl.pin_net p) acc.2).1 (nl.pin_net p) mb p
    obtain ⟨_, r2, _, _, _, r6, r7, _, _⟩ := record_affected_net_frame acc.1 (nl.pin_net p) acc.2
    obtain ⟨_, _, _, q4, q5, _, _⟩ := record_affected_net_spec acc.1 (nl.pin_net p) acc.2
    obtain ⟨g1, g2, g3⟩ := h
    by_cases hn : nl.pin_net p = n
    · rw [hstep]
      subst hn
      refine ⟨?_, ?_, fun _ => ?_⟩
      · show bb_in_grid grid ((update_net_bb nl grid _ _ mb p).bb_coords _)
        rw [u2, r2]
        exact g1
      · intro hneg
        have hneg2 : (update_net_bb nl grid (record_affected_net acc.1 (nl.pin_net p) acc.2).1
            (nl.pin_net p) mb p).proposed_net_cost (nl.pin_net p) < 0 := hneg
        rw [u6] at hneg2
        exact absurd hneg2 (not_lt.2 q4)
      · show bb_in_grid grid
          ((update_net_bb nl grid (record_affected_net acc.1 (nl.pin_net p) acc.2).1
            (nl.pin_net p) mb p).ts_bb_coord_new (nl.pin_net p))
        have hU : (record_affected_net acc.1 (nl.pin_net p) acc.2).1.bb_updated_before
              (nl.pin_net p) ≠ BBFlag.NOT_UPDATED_YET →
            bb_in_grid grid ((record_affected_net acc.1 (nl.pin_net p)
              acc.2).1.ts_bb_coord_new (nl.pin_net p)) := by
          intro hf
          rw [r7]
          apply g3
          by_contra hc
          apply hf
          rw [r6]
          exact g2 (not_le.1 hc)
        have hN : (record_affected_net acc.1 (nl.pin_net p) acc.2).1.bb_updated_before
              (nl.pin_net p) = BBFlag.NOT_UPDATED_YET →
            bb_in_grid grid ((record_affected_net acc.1 (nl.pin_net p)
              acc.2).1.bb_coords (nl.pin_net p)) := by
          intro _
          rw [r2]
          exact g1
        generalize (record_affected_net acc.1 (nl.pin_net p) acc.2).1 = s1 at hU hN ⊢
        unfold update_net_bb
        split_ifs with hs hf
        · dsimp only
          rw [Function.update_same]
          exact get_non_updateable_bb_in_grid nl grid _ _ _ hW hH
        · exact hU hf
        · exact update_bb_in_grid nl grid s1 _ _ _ _ hW hH hN hU
    · obtain ⟨o1, o2⟩ := affected_pin_step_flag_other nl grid mb acc p n (Or.inl hn)
      have hne : n ≠ nl.pin_net p := fun e => hn e.symm
      obtain ⟨t1, _, _, _⟩ := update_net_bb_other nl grid
        (record_affected_net acc.1 (nl.pin_net p) acc.2).1 (nl.pin_net p) mb p n hne
      have hts : (affected_pin_step nl grid mb acc p).1.ts_bb_coord_new n
          = acc.1.ts_bb_coord_new n := by
        rw [hstep]
        show (update_net_bb nl grid _ _ mb p).ts_bb_coord_new n = _
        rw [t1, r7]
      have hbb : (affected_pin_step nl grid mb acc p).1.bb_coords n = acc.1.bb_coords n := by
        rw [hstep]
        show (update_net_bb nl grid _ _ mb p).bb_coords n = _
        rw [u2, r2]
      unfold GridInv
      rw [o1, o2, hts, hbb]
      exact ⟨g1, g2, g3⟩

/-- The pin loop keeps the invariant `GridInv` of every net. -/
theorem affected_fold_gridInv (nl : ClusteredNetlist) (grid : DeviceGrid)
    (hW : 3 ≤ grid.width) (hH : 3 ≤ grid.height) (n : Nat)
    (todo : List (t_pl_moved_block × Nat)) : ∀ acc : PlacerState × Nat, GridInv grid acc n →
    GridInv grid (todo.foldl (fun a mp => affected_pin_step nl grid mp.1 a mp.2) acc) n := by
  induction todo with
  | nil => intro acc h; exact h
  | cons mp rest ih =>
    intro acc h
    rw [List.foldl_cons]
    exact ih _ (affected_pin_step_gridInv nl grid hW hH mp.1 acc mp.2 n h)

/-- While the list invariant and the flag invariant hold, a net has a negative
`proposed_net_cost` exactly when it is not in the list of affected nets. -/
theorem sentinel_iff_not_recorded (nl : ClusteredNetlist) (acc : PlacerState × Nat) (n : Nat)
    (hl : AffectedListInv nl acc) (hf : FlagInv acc n) :
    acc.1.proposed_net_cost n < 0 ↔ ¬ net_recorded acc n := by
  unfold net_recorded
  constructor
  · rintro hneg ⟨i, hi, e⟩
    have := (hl.1 i hi).1
    rw [e] at this
    exact absurd hneg (not_lt.2 this)
  · intro hnot
    by_contra hc
    exact hnot (hf.2 (not_lt.1 hc))

/-- The pins that the loop of a valid move visits belong to nets of the netlist. -/
theorem pin_seq_nets (nl : ClusteredNetlist) (s : PlacerState) (moves : List t_pl_moved_block)
    (hnl : netlist_consistent nl) (hmove : valid_move nl s moves) :
    ∀ mp ∈ pin_seq nl moves, nl.pin_net mp.2 < nl.num_nets := by
  intro mp hmp
  obtain ⟨h1, h2⟩ := (mem_pin_seq nl moves mp).1 hmp
  obtain ⟨hb, _⟩ := hmove.2 mp.1 h1
  exact ((hnl.2 mp.1.block_num hb).2 mp.2 h2).2.1

/-- C33: with non-negative channel widths, a power function that is positive on positive
bases and grid dimensions in the `int` range, `get_net_cost` of a box in the inner grid is
positive and `get_net_layer_cost` of per-layer boxes in the inner grid is not negative; hence
during a swap that starts with an empty scratch and committed boxes in the inner grid, after
every stretch of the pin loop and after the whole of `find_affected_nets_and_update_costs`, a
net of the netlist has a negative `proposed_net_cost` exactly when `record_affected_net` has
not put it into the list of affected nets. -/
theorem net_cost_sentinel_unambiguous :
    (∀ (pow : ℚ → ℚ → ℚ) (grid : DeviceGrid) (chan_width : t_chan_width)
      (place_cost_exp : ℚ) (fac0 : CostFac) (nl : ClusteredNetlist) (net_id : Nat) (b : t_bb),
      (∀ b e : ℚ, 0 < b → 0 < pow b e) → chan_width_nonneg chan_width →
      (grid.width : Int) < 2 ^ 31 → (grid.height : Int) < 2 ^ 31 → bb_in_grid grid b →
      0 < get_net_cost nl
        (alloc_and_load_for_fast_cost_update pow grid chan_width place_cost_exp fac0)
        net_id b) ∧
    (∀ (pow : ℚ → ℚ → ℚ) (grid : DeviceGrid) (chan_width : t_chan_width)
      (place_cost_exp : ℚ) (fac0 : CostFac) (bbptr : Nat → t_2D_bb)
      (layer_pin_sink_count : Nat → Int),
      (∀ b e : ℚ, 0 < b → 0 < pow b e) → chan_width_nonneg chan_width →
      (grid.width : Int) < 2 ^ 31 → (grid.height : Int) < 2 ^ 31 →
      (∀ l, l < grid.num_layers → layer_bb_in_grid grid (bbptr l)) →
      0 ≤ get_net_layer_cost grid
        (alloc_and_load_for_fast_cost_update pow grid chan_width place_cost_exp fac0) bbptr
        layer_pin_sink_count) ∧
    (∀ (pow : ℚ → ℚ → ℚ) (grid : DeviceGrid) (chan_width : t_chan_width)
      (place_cost_exp : ℚ) (fac0 : CostFac) (nl : ClusteredNetlist)
      (moves : List t_pl_moved_block) (s : PlacerState),
      (∀ b e : ℚ, 0 < b → 0 < pow b e) → chan_width_nonneg chan_width →
      3 ≤ grid.width → 3 ≤ grid.height →
      (grid.width : Int) < 2 ^ 31 → (grid.height : Int) < 2 ^ 31 →
      netlist_consistent nl → valid_move nl s moves → swap_scratch_empty nl s →
      (∀ n, n < nl.num_nets → bb_in_grid grid (s.bb_coords n)) →
      (∀ todo, todo <+: pin_seq nl moves → ∀ n, n < nl.num_nets →
        ((todo.foldl (fun a mp => affected_pin_step nl grid mp.1 a mp.2)
            (apply_move_blocks moves s, 0)).1.proposed_net_cost n < 0 ↔
          ¬ net_recorded (todo.foldl (fun a mp => affected_pin_step nl grid mp.1 a mp.2)
            (apply_move_blocks moves s, 0)) n)) ∧
      (∀ n, n < nl.num_nets →
        ((find_affected_nets_and_update_costs nl grid
            (alloc_and_load_for_fast_cost_update pow grid chan_width place_cost_exp fac0)
            moves (apply_move_blocks moves s)).state.proposed_net_cost n < 0 ↔
          ¬ net_recorded
            ((find_affected_nets_and_update_costs nl grid
                (alloc_and_load_for_fast_cost_update pow grid chan_width place_cost_exp fac0)
                moves (apply_move_blocks moves s)).state,
              (find_affected_nets_and_update_costs nl grid
                (alloc_and_load_for_fast_cost_update pow grid chan_width place_cost_exp fac0)
                moves (apply_move_blocks moves s)).num_affected_nets) n))) := by
  refine ⟨?_, ?_, ?_⟩
  · intro pow grid cw e fac0 nl net_id b hpow hcw hW hH hb
    exact get_net_cost_pos pow hpow grid cw e fac0 nl net_id b hcw hW hH hb
  · intro pow grid cw e fac0 bbptr cnt hpow hcw hW hH hb
    exact get_net_layer_cost_nonneg pow hpow grid cw e fac0 bbptr cnt hcw hW hH hb
  · intro pow grid cw pe fac0 nl moves s hpow hcw hW3 hH3 hW hH hnl hmove hempty hbox
    have hall := pin_seq_nets nl s moves hnl hmove
    have hl0 : AffectedListInv nl (apply_move_blocks moves s, 0) :=
      ⟨fun i hi => absurd hi (Nat.not_lt_zero _), fun i _ hi => absurd hi (Nat.not_lt_zero _)⟩
    have hf0 : ∀ n, n < nl.num_nets → FlagInv (apply_move_blocks moves s, 0) n :=
      fun n hn => ⟨fun _ => (hempty n hn).1, fun h => absurd (hempty n hn).2 (not_lt.2 h)⟩
    have hg0 : ∀ n, n < nl.num_nets → GridInv grid (apply_move_blocks moves s, 0) n :=
      fun n hn => ⟨hbox n hn, fun _ => (hempty n hn).1,
        fun h => absurd (hempty n hn).2 (not_lt.2 h)⟩
    have hpre : ∀ todo, todo <+: pin_seq nl moves → ∀ n, n < nl.num_nets →
        ((todo.foldl (fun a mp => affected_pin_step nl grid mp.1 a mp.2)
            (apply_move_blocks moves s, 0)).1.proposed_net_cost n < 0 ↔
          ¬ net_recorded (todo.foldl (fun a mp => affected_pin_step nl grid mp.1 a mp.2)
            (apply_move_blocks moves s, 0)) n) := by
      intro todo hp n hn
      exact sentinel_iff_not_recorded nl _ n
        (affected_fold_listInv nl grid todo _ (fun mp hmp => hall mp (hp.subset hmp)) hl0).1
        (affected_fold_flagInv nl grid n todo _ (hf0 n hn))
    refine ⟨hpre, ?_⟩
    intro n hn
    have h1 := hpre (pin_seq nl moves) (List.prefix_refl _) n hn
    have hl1 := (affected_fold_listInv nl grid (pin_seq nl moves) _ hall hl0).1
    have hg1 : ∀ m, m < nl.num_nets → GridInv grid
        ((pin_seq nl moves).foldl (fun a mp => affected_pin_step nl grid mp.1 a mp.2)
          (apply_move_blocks moves s, 0)) m :=
      fun m hm => affected_fold_gridInv nl grid hW3 hH3 m (pin_seq nl moves) _ (hg0 m hm)
    rw [← affected_blocks_foldl_eq] at h1 hl1 hg1
    unfold find_affected_nets_and_update_costs
    dsimp only
    generalize moves.foldl (affected_block_step nl grid) (apply_move_blocks moves s, 0)
      = r1 at h1 hl1 hg1 ⊢
    obtain ⟨_, _, _, _, _, _, _, _, _, f10⟩ := proposed_cost_fold_frame nl
      (alloc_and_load_for_fast_cost_update pow grid cw pe fac0) (List.range r1.2) (r1.1, 0)
    obtain ⟨_, d2⟩ := proposed_cost_fold_delta nl
      (alloc_and_load_for_fast_cost_update pow grid cw pe fac0) r1.1 0 r1.2
    have fo := proposed_cost_fold_other nl
      (alloc_and_load_for_fast_cost_update pow grid cw pe fac0) r1.1 0 r1.2 n
    generalize (List.range r1.2).foldl (proposed_cost_step nl
      (alloc_and_load_for_fast_cost_update pow grid cw pe fac0)) (r1.1, 0) = r2 at f10 d2 fo ⊢
    simp only at f10
    unfold net_recorded at h1 ⊢
    dsimp only
    rw [f10]
    by_cases hin : ∃ i, i < r1.2 ∧ r1.1.ts_nets_to_update i = n
    · obtain ⟨i, hi, e⟩ := hin
      have hpos : 0 < r2.1.proposed_net_cost n := by
        have := d2 i hi
        rw [e] at this
        rw [this]
        apply get_net_cost_pos pow hpow grid cw pe fac0 nl n _ hcw hW hH
        apply (hg1 n hn).2.2
        have := (hl1.1 i hi).1
        rw [e] at this
        exact this
      constructor
      · intro hneg
        exact absurd hneg (not_lt.2 (le_of_lt hpos))
      · intro hnot
        exact absurd ⟨i, hi, e⟩ hnot
    · rw [fo hin]
      exact h1

/-- An example for C33: on the example grid with the example channel widths and the square as
power function, the committed box of the example net costs `6 * 1.2206` (positive), and after
the pin loop and the cost loop of the collapsing-extremum move the only net has a positive
proposed cost and is in the list of affected nets. -/
theorem ex_net_cost_positive :
    0 < get_net_cost ex_nl
      (alloc_and_load_for_fast_cost_update ex_pow ex_grid ex_chan_width 2 ex_fac) 0
      { xmin := 3, xmax := 7, ymin := 1, ymax := 1 } ∧
    net_recorded
      ((find_affected_nets_and_update_costs ex_nl ex_grid ex_fac ex_moves
          (apply_move_blocks ex_moves ex_state)).state,
        (find_affected_nets_and_update_costs ex_nl ex_grid ex_fac ex_moves
          (apply_move_blocks ex_moves ex_state)).num_affected_nets) 0 := by
  constructor
  · apply get_net_cost_pos ex_pow (fun b e hb => mul_pos hb hb) ex_grid ex_chan_width 2 ex_fac
      ex_nl 0
    · intro i
      unfold ex_chan_width
      dsimp only
      constructor
      · split_ifs <;> norm_num
      · norm_num
    · decide
    · decide
    · unfold bb_in_grid; decide
  · refine ⟨0, ?_, ?_⟩
    · show 0 < (ex_moves.foldl (affected_block_step ex_nl ex_grid)
        (apply_move_blocks ex_moves ex_state, 0)).2
      rw [ex_first_loop.1]
      decide
    · obtain ⟨_, _, _, _, _, _, _, _, _, f10⟩ := proposed_cost_fold_frame ex_nl ex_fac
        (List.range (ex_moves.foldl (affected_block_step ex_nl ex_grid)
          (apply_move_blocks ex_moves ex_state, 0)).2)
        ((ex_moves.foldl (affected_block_step ex_nl ex_grid)
          (apply_move_blocks ex_moves ex_state, 0)).1, 0)
      unfold find_affected_nets_and_update_costs
      dsimp only
      rw [f10]
      decide

/-! ## The exchange of two blocks -/

/-- The placement after the exchange of `A` and `B`: the two blocks have each other's location
and every other block keeps its own. -/
theorem exchange_block_locs (s : PlacerState) (A B : Nat) (hAB : A ≠ B) :
    (apply_move_blocks (exchange_moves s.block_locs A B) s).block_locs A = s.block_locs B ∧
    (apply_move_blocks (exchange_moves s.block_locs A B) s).block_locs B = s.block_locs A ∧
    ∀ b, b ≠ A → b ≠ B →
      (apply_move_blocks (exchange_moves s.block_locs A B) s).block_locs b = s.block_locs b := by
  unfold apply_move_blocks exchange_moves
  simp only [List.foldl_cons, List.foldl_nil]
  refine ⟨?_, ?_, ?_⟩
  · rw [Function.update_noteq hAB, Function.update_same]
  · rw [Function.update_same]
  · intro b hA hB
    rw [Function.update_noteq hB, Function.update_noteq hA]

/-- The x coordinates of the pins of a net between `A` and `B` are those of the two blocks. -/
theorem net_between_map_x (nl : ClusteredNetlist) (P : Nat → t_pl_loc) (A B n : Nat)
    (h : net_between nl A B n) (v : Int) :
    v ∈ (nl.net_pins n).map (net_pin_x nl P) ↔ (v = (P A).x ∨ v = (P B).x) := by
  obtain ⟨_, hall, ⟨qa, hqa, ea⟩, ⟨qb, hqb, eb⟩, hoff⟩ := h
  have hval : ∀ q ∈ nl.net_pins n, net_pin_x nl P q = (P (nl.pin_block q)).x := by
    intro q hq
    unfold net_pin_x pin_x
    rw [(hoff q hq).1]
    omega
  constructor
  · intro hv
    obtain ⟨q, hq, e⟩ := List.mem_map.1 hv
    rw [hval q hq] at e
    rcases hall q hq with hb | hb
    · left; rw [← e, hb]
    · right; rw [← e, hb]
  · rintro (e | e)
    · exact List.mem_map.2 ⟨qa, hqa, by rw [hval qa hqa, ea, e]⟩
    · exact List.mem_map.2 ⟨qb, hqb, by rw [hval qb hqb, eb, e]⟩

/-- The y coordinates of the pins of a net between `A` and `B` are those of the two blocks. -/
theorem net_between_map_y (nl : ClusteredNetlist) (P : Nat → t_pl_loc) (A B n : Nat)
    (h : net_between nl A B n) (v : Int) :
    v ∈ (nl.net_pins n).map (net_pin_y nl P) ↔ (v = (P A).y ∨ v = (P B).y) := by
  obtain ⟨_, hall, ⟨qa, hqa, ea⟩, ⟨qb, hqb, eb⟩, hoff⟩ := h
  have hval : ∀ q ∈ nl.net_pins n, net_pin_y nl P q = (P (nl.pin_block q)).y := by
    intro q hq
    unfold net_pin_y pin_y
    rw [(hoff q hq).2]
    omega
  constructor
  · intro hv
    obtain ⟨q, hq, e⟩ := List.mem_map.1 hv
    rw [hval q hq] at e
    rcases hall q hq with hb | hb
    · left; rw [← e, hb]
    · right; rw [← e, hb]
  · rintro (e | e)
    · exact List.mem_map.2 ⟨qa, hqa, by rw [hval qa hqa, ea, e]⟩
    · exact List.mem_map.2 ⟨qb, hqb, by rw [hval qb hqb, eb, e]⟩

/-- The hull of a list of coordinates depends only on the set of its values. -/
theorem hull_eq_of_same_values (d1 d2 : Int) (l1 l2 : List Int)
    (h : ∀ v, v ∈ d1 :: l1 ↔ v ∈ d2 :: l2) :
    l1.foldl hull_axis_step (d1, d1) = l2.foldl hull_axis_step (d2, d2) := by
  obtain ⟨a1, a2, a3, a4⟩ := hull_scratch_spec d1 l1
  obtain ⟨b1, b2, b3, b4⟩ := hull_scratch_spec d2 l2
  apply Prod.ext
  · exact le_antisymm (a2 _ ((h _).2 b1)) (b2 _ ((h _).1 a1))
  · exact le_antisymm (b4 _ ((h _).1 a3)) (a4 _ ((h _).2 b3))

/-- The box of `get_non_updateable_bb` depends only on the sets of the pin coordinates. -/
theorem get_non_updateable_bb_same_values (nl : ClusteredNetlist) (grid : DeviceGrid)
    (P Q : Nat → t_pl_loc) (n : Nat) (c c' : Nat → Int)
    (hx : ∀ v, v ∈ (nl.net_pins n).map (net_pin_x nl P)
      ↔ v ∈ (nl.net_pins n).map (net_pin_x nl Q))
    (hy : ∀ v, v ∈ (nl.net_pins n).map (net_pin_y nl P)
      ↔ v ∈ (nl.net_pins n).map (net_pin_y nl Q)) :
    (get_non_updateable_bb nl grid P n c).1 = (get_non_updateable_bb nl grid Q n c').1 := by
  unfold get_non_updateable_bb
  dsimp only
  rw [hull_fold_hx, hull_fold_hy, hull_fold_hx, hull_fold_hy]
  dsimp only
  have ex := hull_eq_of_same_values
    (pin_x nl P (nl.net_driver_block n) (nl.net_driver_tile_pin_index n))
    (pin_x nl Q (nl.net_driver_block n) (nl.net_driver_tile_pin_index n))
    ((nl.net_sinks n).map (net_pin_x nl P)) ((nl.net_sinks n).map (net_pin_x nl Q)) hx
  have ey := hull_eq_of_same_values
    (pin_y nl P (nl.net_driver_block n) (nl.net_driver_tile_pin_index n))
    (pin_y nl Q (nl.net_driver_block n) (nl.net_driver_tile_pin_index n))
    ((nl.net_sinks n).map (net_pin_y nl P)) ((nl.net_sinks n).map (net_pin_y nl Q)) hy
  rw [ex, ey]

/-- The exchange of `A` and `B` leaves the box of `get_non_updateable_bb` of a net between
them as it is. -/
theorem get_non_updateable_bb_exchange (nl : ClusteredNetlist) (grid : DeviceGrid)
    (s : PlacerState) (A B n : Nat) (c c' : Nat → Int) (hAB : A ≠ B)
    (h : net_between nl A B n) :
    (get_non_updateable_bb nl grid
        (apply_move_blocks (exchange_moves s.block_locs A B) s).block_locs n c).1
      = (get_non_updateable_bb nl grid s.block_locs n c').1 := by
  obtain ⟨eA, eB, _⟩ := exchange_block_locs s A B hAB
  apply get_non_updateable_bb_same_values
  · intro v
    rw [net_between_map_x nl _ A B n h, net_between_map_x nl _ A B n h, eA, eB]
    exact or_comm
  · intro v
    rw [net_between_map_y nl _ A B n h, net_between_map_y nl _ A B n h, eA, eB]
    exact or_comm

/-- When `A` and `B` are on the same layer, the exchange also leaves the per-layer sink counts
that `get_non_updateable_bb` writes for a net between them as they are. -/
theorem get_non_updateable_bb_exchange_layers (nl : ClusteredNetlist) (grid : DeviceGrid)
    (s : PlacerState) (A B n : Nat) (c : Nat → Int) (hAB : A ≠ B)
    (hlayer : (s.block_locs A).layer = (s.block_locs B).layer)
    (h : net_between nl A B n) :
    (get_non_updateable_bb nl grid
        (apply_move_blocks (exchange_moves s.block_locs A B) s).block_locs n c).2
      = (get_non_updateable_bb nl grid s.block_locs n c).2 := by
  obtain ⟨eA, eB, _⟩ := exchange_block_locs s A B hAB
  obtain ⟨_, hall, _, _, _⟩ := h
  unfold get_non_updateable_bb
  dsimp only
  funext l
  rw [hull_fold_layers, hull_fold_layers]
  congr 3
  apply List.filter_congr
  intro q hq
  have hq2 : q ∈ nl.net_pins n := List.mem_cons_of_mem _ hq
  unfold net_pin_layer
  rcases hall q hq2 with hb | hb
  · rw [hb, eA, hlayer]
  · rw [hb, eB, hlayer]

/-- After `find_affected_nets_and_update_costs` on a valid move from an empty scratch, every
listed net is a non-ignored net of the netlist with a pin on a moved block, the scratch box of
a listed net with fewer than `SMALL_NET` sinks is the box of `get_non_updateable_bb` on the
proposed placement, its proposed cost is `get_net_cost` of the scratch box, and `bb_delta_c`
is the sum of the differences to the committed net costs. -/
theorem find_affected_listed_small (nl : ClusteredNetlist) (grid : DeviceGrid) (fac : CostFac)
    (moves : List t_pl_moved_block) (s : PlacerState)
    (hnl : netlist_consistent nl) (hmove : valid_move nl s moves)
    (hempty : swap_scratch_empty nl s) (hinv : bb_cache_valid nl grid s) :
    (∀ i, i < (find_affected_nets_and_update_costs nl grid fac moves
          (apply_move_blocks moves s)).num_affected_nets →
      ∃ n, (find_affected_nets_and_update_costs nl grid fac moves
          (apply_move_blocks moves s)).state.ts_nets_to_update i = n ∧
        n < nl.num_nets ∧ nl.net_is_ignored n = false ∧
        (∃ mb ∈ moves, ∃ p ∈ nl.block_pins mb.block_num, nl.pin_net p = n) ∧
        ((nl.net_sinks n).length < SMALL_NET → ∀ c,
          (find_affected_nets_and_update_costs nl grid fac moves
            (apply_move_blocks moves s)).state.ts_bb_coord_new n
            = (get_non_updateable_bb nl grid (apply_move_blocks moves s).block_locs n c).1) ∧
        (find_affected_nets_and_update_costs nl grid fac moves
            (apply_move_blocks moves s)).state.proposed_net_cost n
          = get_net_cost nl fac n
              ((find_affected_nets_and_update_costs nl grid fac moves
                (apply_move_blocks moves s)).state.ts_bb_coord_new n)) ∧
    (find_affected_nets_and_update_costs nl grid fac moves
        (apply_move_blocks moves s)).bb_delta_c
      = ∑ i in Finset.range (find_affected_nets_and_update_costs nl grid fac moves
          (apply_move_blocks moves s)).num_affected_nets,
          (get_net_cost nl fac
              ((find_affected_nets_and_update_costs nl grid fac moves
                (apply_move_blocks moves s)).state.ts_nets_to_update i)
              ((find_affected_nets_and_update_costs nl grid fac moves
                (apply_move_blocks moves s)).state.ts_bb_coord_new
                ((find_affected_nets_and_update_costs nl grid fac moves
                  (apply_move_blocks moves s)).state.ts_nets_to_update i))
            - s.net_cost ((find_affected_nets_and_update_costs nl grid fac moves
                (apply_move_blocks moves s)).state.ts_nets_to_update i)) := by
  obtain ⟨hnets, hblocks⟩ := hnl
  obtain ⟨hmnd, hmv⟩ := hmove
  generalize hP : s.block_locs = P at *
  have hQdef : (apply_move_blocks moves s).block_locs
      = moves.foldl (fun locs mb => Function.update locs mb.block_num mb.new_loc) P := by
    unfold apply_move_blocks
    rw [hP]
  generalize hP' : (apply_move_blocks moves s).block_locs = P' at *
  have hQmem : ∀ mb ∈ moves, P' mb.block_num = mb.new_loc := by
    intro mb hmb
    rw [hQdef]
    exact foldl_update_mem moves (fun m => m.new_loc) P mb hmnd hmb
  have hall : ∀ mp ∈ pin_seq nl moves, mp.1.old_loc = P mp.1.block_num ∧
      P' mp.1.block_num = mp.1.new_loc ∧ nl.pin_block mp.2 = mp.1.block_num ∧
      mp.2 ∈ nl.net_pins (nl.pin_net mp.2) := by
    intro mp hmp
    obtain ⟨h1, h2⟩ := (mem_pin_seq nl moves mp).1 hmp
    obtain ⟨hb, ho⟩ := hmv mp.1 h1
    obtain ⟨_, hbp⟩ := hblocks mp.1.block_num hb
    exact ⟨ho, hQmem mp.1 h1, (hbp mp.2 h2).1, (hbp mp.2 h2).2.2⟩
  have hallnets : ∀ mp ∈ pin_seq nl moves, nl.pin_net mp.2 < nl.num_nets := by
    intro mp hmp
    obtain ⟨h1, h2⟩ := (mem_pin_seq nl moves mp).1 hmp
    obtain ⟨hb, _⟩ := hmv mp.1 h1
    exact ((hblocks mp.1.block_num hb).2 mp.2 h2).2.1
  have hseqnd : ((pin_seq nl moves).map Prod.snd).Nodup :=
    nodup_pin_seq nl moves hmnd (fun mb hmb =>
      ⟨(hblocks mb.block_num (hmv mb hmb).1).1,
       fun p hp => ((hblocks mb.block_num (hmv mb hmb).1).2 p hp).1⟩)
  have hl0 : AffectedListInv nl (apply_move_blocks moves s, 0) :=
    ⟨fun i hi => absurd hi (Nat.not_lt_zero _), fun i _ hi => absurd hi (Nat.not_lt_zero _)⟩
  obtain ⟨hl1, hnc⟩ := affected_fold_listInv nl grid (pin_seq nl moves)
    (apply_move_blocks moves s, 0) hallnets hl0
  have hloop : ∀ n, n < nl.num_nets → nl.net_is_ignored n = false →
      NetInv nl grid P P' (s.bb_coords n) (s.bb_num_on_edges n)
        ((pin_seq nl moves).map Prod.snd)
        ((pin_seq nl moves).foldl (fun a mp => affected_pin_step nl grid mp.1 a mp.2)
          (apply_move_blocks moves s, 0)) n := by
    intro n hn hign
    obtain ⟨hnd, hnpins⟩ := hnets n hn
    have hcommitted : SMALL_NET ≤ (nl.net_sinks n).length →
        BoxIs (clipped_pin_x nl grid P) (clipped_pin_y nl grid P) (nl.net_pins n)
          (s.bb_coords n, s.bb_num_on_edges n) := by
      intro hl
      obtain ⟨e1, e2⟩ := (hinv n hn hign).1 hl
      rw [hP] at e1 e2
      rw [e1, e2]
      exact scratch_boxIs nl grid P n _
    have hinit : NetInv nl grid P P' (s.bb_coords n) (s.bb_num_on_edges n) []
        (apply_move_blocks moves s, 0) n := by
      refine ⟨hP', rfl, rfl, ?_, ?_⟩
      · rintro ⟨p, hp, _⟩
        exact absurd hp (List.not_mem_nil _)
      · intro _
        exact ⟨fun i hi => absurd hi (Nat.not_lt_zero _), (hempty n hn).2, (hempty n hn).1⟩
    have h := affected_fold_netInv nl grid P P' (s.bb_coords n) (s.bb_num_on_edges n) n hign
      hnd (fun q hq => (hnpins q hq).1) hcommitted (pin_seq nl moves) []
      (apply_move_blocks moves s, 0) hall (by simpa using hseqnd) hinit
    rw [List.nil_append] at h
    exact h
  rw [← affected_blocks_foldl_eq] at hl1 hnc hloop
  unfold find_affected_nets_and_update_costs
  dsimp only
  generalize moves.foldl (affected_block_step nl grid) (apply_move_blocks moves s, 0)
    = r1 at hl1 hnc hloop ⊢
  obtain ⟨_, _, _, _, _, _, f7, _, _, f10⟩ :=
    proposed_cost_fold_frame nl fac (List.range r1.2) (r1.1, 0)
  obtain ⟨d1, d2⟩ := proposed_cost_fold_delta nl fac r1.1 0 r1.2
  generalize (List.range r1.2).foldl (proposed_cost_step nl fac) (r1.1, 0) = r2 at f7 f10 d1 d2 ⊢
  simp only at f7 f10 hnc
  have hnc2 : r1.1.net_cost = s.net_cost := hnc
  constructor
  · intro i hi
    obtain ⟨_, hlt, hign⟩ := hl1.1 i hi
    refine ⟨r1.1.ts_nets_to_update i, by rw [f10], hlt, hign, ?_, ?_, ?_⟩
    · obtain ⟨_, _, _, _, g5⟩ := hloop _ hlt hign
      by_contra hno
      have hnoD : ¬ ∃ p ∈ (pin_seq nl moves).map Prod.snd,
          nl.pin_net p = r1.1.ts_nets_to_update i := by
        rintro ⟨p, hp, e⟩
        obtain ⟨mp, hmp, rfl⟩ := List.mem_map.1 hp
        obtain ⟨h1, h2⟩ := (mem_pin_seq nl moves mp).1 hmp
        exact hno ⟨mp.1, h1, mp.2, h2, e⟩
      exact (g5 hnoD).1 i hi rfl
    · intro hs c
      obtain ⟨_, _, _, g4, g5⟩ := hloop _ hlt hign
      have haff : ∃ p ∈ (pin_seq nl moves).map Prod.snd,
          nl.pin_net p = r1.1.ts_nets_to_update i := by
        by_contra hno
        exact (g5 hno).1 i hi rfl
      obtain ⟨_, _, _, k4⟩ := g4 haff
      rw [f7]
      exact (k4 hs).2 c
    · have := d2 i hi
      rw [f7]
      exact this
  · rw [d1, zero_add]
    apply Finset.sum_congr rfl
    intro i _
    rw [f10, f7, hnc2]

/-- C31: in the exchange of two blocks `A` and `B`, the box that `get_non_updateable_bb`
computes for a net between them is the same on the proposed placement as on the old one; if
the BB cache and the net costs are those of the old placement and every affected net is a net
between `A` and `B`, then every affected net has `proposed_net_cost = net_cost`,
`bb_delta_c = 0`, and in `BOUNDING_BOX_PLACE` mode (no NoC term, no manual move) `try_swap`
accepts the move whatever the temperature `opts.t` is, with `costs.cost` unchanged. The
per-layer sink counts that `get_non_updateable_bb` also writes are unchanged as well when `A`
and `B` are on the same layer. -/
theorem exchange_keeps_boxes {σ : Type} (exp : ℚ → ℚ) (frand : σ → ℚ × σ)
    (nl : ClusteredNetlist) (grid : DeviceGrid) (fac : CostFac) (opts : SwapOpts)
    (inp : SwapInputs σ) (s : PlacerState) (costs : t_placer_costs) (A B : Nat)
    (hAB : A ≠ B) (hnl : netlist_consistent nl)
    (hmove : valid_move nl s (exchange_moves s.block_locs A B))
    (hempty : swap_scratch_empty nl s) (hinv : bb_cache_valid nl grid s)
    (hcost : net_costs_valid nl fac s)
    (haff : ∀ p ∈ nl.block_pins A ++ nl.block_pins B,
      nl.net_is_ignored (nl.pin_net p) = false → net_between nl A B (nl.pin_net p))
    (hvalid : inp.create_move_outcome = e_create_move.VALID)
    (hmoves : inp.moved_blocks = exchange_moves s.block_locs A B)
    (halg : opts.place_algorithm = e_place_algorithm.BOUNDING_BOX_PLACE)
    (hnoc : opts.noc = false) (hman : inp.manual_move_outcome = none) :
    (∀ n c c', net_between nl A B n →
      (get_non_updateable_bb nl grid
          (apply_move_blocks (exchange_moves s.block_locs A B) s).block_locs n c).1
        = (get_non_updateable_bb nl grid s.block_locs n c').1) ∧
    (∀ i, i < (find_affected_nets_and_update_costs nl grid fac
          (exchange_moves s.block_locs A B)
          (apply_move_blocks (exchange_moves s.block_locs A B) s)).num_affected_nets →
      (find_affected_nets_and_update_costs nl grid fac (exchange_moves s.block_locs A B)
          (apply_move_blocks (exchange_moves s.block_locs A B) s)).state.proposed_net_cost
          ((find_affected_nets_and_update_costs nl grid fac (exchange_moves s.block_locs A B)
            (apply_move_blocks (exchange_moves s.block_locs A B) s)).state.ts_nets_to_update i)
        = s.net_cost
          ((find_affected_nets_and_update_costs nl grid fac (exchange_moves s.block_locs A B)
            (apply_move_blocks (exchange_moves s.block_locs A B) s)).state.ts_nets_to_update
            i)) ∧
    (find_affected_nets_and_update_costs nl grid fac (exchange_moves s.block_locs A B)
        (apply_move_blocks (exchange_moves s.block_locs A B) s)).bb_delta_c = 0 ∧
    (try_swap exp frand nl grid fac opts inp s costs).move_outcome = e_move_result.ACCEPTED ∧
    (try_swap exp frand nl grid fac opts inp s costs).bb_delta_c = 0 ∧
    (try_swap exp frand nl grid fac opts inp s costs).costs.cost = costs.cost ∧
    ((s.block_locs A).layer = (s.block_locs B).layer → ∀ n c, net_between nl A B n →
      (get_non_updateable_bb nl grid
          (apply_move_blocks (exchange_moves s.block_locs A B) s).block_locs n c).2
        = (get_non_updateable_bb nl grid s.block_locs n c).2) := by
  have hbox : ∀ n c c', net_between nl A B n →
      (get_non_updateable_bb nl grid
          (apply_move_blocks (exchange_moves s.block_locs A B) s).block_locs n c).1
        = (get_non_updateable_bb nl grid s.block_locs n c').1 :=
    fun n c c' h => get_non_updateable_bb_exchange nl grid s A B n c c' hAB h
  obtain ⟨hlist, hdelta⟩ := find_affected_listed_small nl grid fac
    (exchange_moves s.block_locs A B) s hnl hmove hempty hinv
  have hsame : ∀ i, i < (find_affected_nets_and_update_costs nl grid fac
        (exchange_moves s.block_locs A B)
        (apply_move_blocks (exchange_moves s.block_locs A B) s)).num_affected_nets →
      get_net_cost nl fac
        ((find_affected_nets_and_update_costs nl grid fac (exchange_moves s.block_locs A B)
          (apply_move_blocks (exchange_moves s.block_locs A B) s)).state.ts_nets_to_update i)
        ((find_affected_nets_and_update_costs nl grid fac (exchange_moves s.block_locs A B)
          (apply_move_blocks (exchange_moves s.block_locs A B) s)).state.ts_bb_coord_new
          ((find_affected_nets_and_update_costs nl grid fac (exchange_moves s.block_locs A B)
            (apply_move_blocks (exchange_moves s.block_locs A B) s)).state.ts_nets_to_update
            i))
        = s.net_cost
          ((find_affected_nets_and_update_costs nl grid fac (exchange_moves s.block_locs A B)
            (apply_move_blocks (exchange_moves s.block_locs A B) s)).state.ts_nets_to_update
            i) := by
    intro i hi
    obtain ⟨n, e, hn, hign, ⟨mb, hmb, p, hp, hpn⟩, hsmall, _⟩ := hlist i hi
    rw [e]
    have hbetween : net_between nl A B n := by
      rw [← hpn]
      apply haff p
      · unfold exchange_moves at hmb
        simp only [List.mem_cons, List.mem_singleton, List.not_mem_nil, or_false] at hmb
        rcases hmb with rfl | rfl
        · exact List.mem_append_left _ hp
        · exact List.mem_append_right _ hp
      · rw [hpn]
        exact hign
    rw [hsmall hbetween.1 (s.num_sink_pin_layer n),
      hbox n _ (s.num_sink_pin_layer n) hbetween,
      ← (hinv n hn hign).2 hbetween.1, hcost n hn hign]
  have hzero : (find_affected_nets_and_update_costs nl grid fac
      (exchange_moves s.block_locs A B)
      (apply_move_blocks (exchange_moves s.block_locs A B) s)).bb_delta_c = 0 := by
    rw [hdelta]
    apply Finset.sum_eq_zero
    intro i hi
    rw [hsame i (Finset.mem_range.1 hi), sub_self]
  refine ⟨hbox, ?_, hzero, ?_⟩
  rotate_left
  · have hlay : (s.block_locs A).layer = (s.block_locs B).layer → ∀ n c,
        net_between nl A B n →
        (get_non_updateable_bb nl grid
            (apply_move_blocks (exchange_moves s.block_locs A B) s).block_locs n c).2
          = (get_non_updateable_bb nl grid s.block_locs n c).2 :=
      fun hl n c h => get_non_updateable_bb_exchange_layers nl grid s A B n c hAB hl h
    unfold try_swap
    rw [hvalid]
    dsimp only
    rw [hmoves, hzero, hman]
    simp only [swap_delta_c, halg, hnoc, assess_swap, manual_override,
      e_place_algorithm.is_timing_driven]
    simp
    exact hlay
  · intro i hi
    obtain ⟨n, e, _, _, _, _, hp⟩ := hlist i hi
    have h2 := hsame i hi
    rw [e] at h2 ⊢
    rw [hp, h2]

theorem ex_pair_netlist_consistent : netlist_consistent ex_pair_nl := by
  unfold netlist_consistent; decide

theorem ex_pair_valid_move :
    valid_move ex_pair_nl ex_pair_state (exchange_moves ex_pair_state.block_locs 0 1) := by
  unfold valid_move; decide

theorem ex_pair_bb_cache_valid : bb_cache_valid ex_pair_nl ex_grid ex_pair_state := by
  unfold bb_cache_valid; decide

theorem ex_pair_swap_scratch_empty : swap_scratch_empty ex_pair_nl ex_pair_state := by
  intro n _
  exact ⟨rfl, by norm_num [ex_pair_state]⟩

theorem ex_pair_net_costs_valid : net_costs_valid ex_pair_nl ex_fac ex_pair_state :=
  fun _ _ _ => rfl

theorem ex_pair_nets_between :
    ∀ p ∈ ex_pair_nl.block_pins 0 ++ ex_pair_nl.block_pins 1,
      ex_pair_nl.net_is_ignored (ex_pair_nl.pin_net p) = false →
      net_between ex_pair_nl 0 1 (ex_pair_nl.pin_net p) := by
  unfold net_between; decide

/-- Witness of C31: the exchange of the two blocks of the pair example at temperature 5. -/
theorem exchange_keeps_boxes_witness :
    (0 : Nat) ≠ 1 ∧ netlist_consistent ex_pair_nl ∧
    valid_move ex_pair_nl ex_pair_state (exchange_moves ex_pair_state.block_locs 0 1) ∧
    net_between ex_pair_nl 0 1 0 ∧ net_between ex_pair_nl 0 1 1 ∧
    ex_pair_opts.t = 5 ∧
    (find_affected_nets_and_update_costs ex_pair_nl ex_grid ex_fac
        (exchange_moves ex_pair_state.block_locs 0 1)
        (apply_move_blocks (exchange_moves ex_pair_state.block_locs 0 1)
          ex_pair_state)).bb_delta_c = 0 ∧
    (try_swap ex_exp ex_frand ex_pair_nl ex_grid ex_fac ex_pair_opts ex_pair_inputs
      ex_pair_state ex_costs).move_outcome = e_move_result.ACCEPTED :=
  ⟨by decide, ex_pair_netlist_consistent, ex_pair_valid_move,
    by unfold net_between; decide, by unfold net_between; decide, rfl,
    (exchange_keeps_boxes ex_exp ex_frand ex_pair_nl ex_grid ex_fac ex_pair_opts ex_pair_inputs
      ex_pair_state ex_costs 0 1 (by decide) ex_pair_netlist_consistent ex_pair_valid_move
      ex_pair_swap_scratch_empty ex_pair_bb_cache_valid ex_pair_net_costs_valid
      ex_pair_nets_between rfl rfl rfl rfl rfl).2.2.1,
    (exchange_keeps_boxes ex_exp ex_frand ex_pair_nl ex_grid ex_fac ex_pair_opts ex_pair_inputs
      ex_pair_state ex_costs 0 1 (by decide) ex_pair_netlist_consistent ex_pair_valid_move
      ex_pair_swap_scratch_empty ex_pair_bb_cache_valid ex_pair_net_costs_valid
      ex_pair_nets_between rfl rfl rfl rfl rfl).2.2.2.1⟩

/-- The exchange of the pair example evaluated: both nets are listed, the scratch box of each
is the committed box, and the placement has the two blocks exchanged. -/
theorem ex_pair_first_loop :
    ((exchange_moves ex_pair_locs 0 1).foldl (affected_block_step ex_pair_nl ex_grid)
        (apply_move_blocks (exchange_moves ex_pair_locs 0 1) ex_pair_state, 0)).2 = 2 ∧
    ((exchange_moves ex_pair_locs 0 1).foldl (affected_block_step ex_pair_nl ex_grid)
        (apply_move_blocks (exchange_moves ex_pair_locs 0 1) ex_pair_state,
          0)).1.ts_bb_coord_new 0 = { xmin := 2, xmax := 5, ymin := 3, ymax := 6 } ∧
    ((exchange_moves ex_pair_locs 0 1).foldl (affected_block_step ex_pair_nl ex_grid)
        (apply_move_blocks (exchange_moves ex_pair_locs 0 1) ex_pair_state,
          0)).1.ts_bb_coord_new 1 = { xmin := 2, xmax := 5, ymin := 3, ymax := 6 } ∧
    (apply_move_blocks (exchange_moves ex_pair_locs 0 1) ex_pair_state).block_locs 0
      = ex_loc 5 6 ∧
    (apply_move_blocks (exchange_moves ex_pair_locs 0 1) ex_pair_state).block_locs 1
      = ex_loc 2 3 := by
  decide

/-! ## The bounds of the cost lookups, stated -/

/-- C34: on a grid with `W >= 3` and `H >= 3` the boxes of `get_non_updateable_bb` and
`get_bb_from_scratch` lie in the inner grid, and so does the box that `update_bb` leaves when
the box it starts from does; for a box in the inner grid (dimensions in the `int` range) the
indices `[ymax][ymin - 1]` and `[xmax][xmin - 1]` do not wrap, satisfy
`0 <= low <= high < H` (resp. `W`) and read an entry that
`alloc_and_load_for_fast_cost_update` has written, whatever the matrices held before; and for
a fanout of 1..50 the crossing-count table is read at `fanout - 1 <= 49`, for a larger fanout
it is not read. Within a swap the premise on `update_bb` always holds: the pin loop keeps the
invariant `GridInv`, by which the committed box and the scratch box of every recorded net lie
in the inner grid. -/
theorem cost_lookups_in_bounds :
    (∀ (nl : ClusteredNetlist) (grid : DeviceGrid) (L : Nat → t_pl_loc) (net_id : Nat)
      (cnt : Nat → Int), 3 ≤ grid.width → 3 ≤ grid.height →
      bb_in_grid grid (get_non_updateable_bb nl grid L net_id cnt).1 ∧
      bb_in_grid grid (get_bb_from_scratch nl grid L net_id cnt).coords) ∧
    (∀ (nl : ClusteredNetlist) (grid : DeviceGrid) (s : PlacerState) (net_id : Nat)
      (pin_old_loc pin_new_loc : t_physical_tile_loc) (src_pin : Bool),
      3 ≤ grid.width → 3 ≤ grid.height →
      (s.bb_updated_before net_id = BBFlag.NOT_UPDATED_YET →
        bb_in_grid grid (s.bb_coords net_id)) →
      (s.bb_updated_before net_id ≠ BBFlag.NOT_UPDATED_YET →
        bb_in_grid grid (s.ts_bb_coord_new net_id)) →
      bb_in_grid grid
        ((update_bb nl grid s net_id pin_old_loc pin_new_loc src_pin).ts_bb_coord_new
          net_id)) ∧
    (∀ (grid : DeviceGrid) (b : t_bb), (grid.width : Int) < 2 ^ 31 →
      (grid.height : Int) < 2 ^ 31 → bb_in_grid grid b →
      (((size_t_of_int (b.ymin - 1) : Nat) : Int) = b.ymin - 1 ∧
        ((size_t_of_int b.ymax : Nat) : Int) = b.ymax ∧
        size_t_of_int (b.ymin - 1) ≤ size_t_of_int b.ymax ∧
        size_t_of_int b.ymax < grid.height ∧
        ((size_t_of_int (b.xmin - 1) : Nat) : Int) = b.xmin - 1 ∧
        ((size_t_of_int b.xmax : Nat) : Int) = b.xmax ∧
        size_t_of_int (b.xmin - 1) ≤ size_t_of_int b.xmax ∧
        size_t_of_int b.xmax < grid.width) ∧
      ∀ (pow : ℚ → ℚ → ℚ) (chan_width : t_chan_width) (place_cost_exp : ℚ)
        (fac0 fac1 : CostFac),
        (alloc_and_load_for_fast_cost_update pow grid chan_width place_cost_exp
            fac0).chanx_place_cost_fac (size_t_of_int b.ymax) (size_t_of_int (b.ymin - 1))
          = (alloc_and_load_for_fast_cost_update pow grid chan_width place_cost_exp
            fac1).chanx_place_cost_fac (size_t_of_int b.ymax) (size_t_of_int (b.ymin - 1)) ∧
        (alloc_and_load_for_fast_cost_update pow grid chan_width place_cost_exp
            fac0).chany_place_cost_fac (size_t_of_int b.xmax) (size_t_of_int (b.xmin - 1))
          = (alloc_and_load_for_fast_cost_update pow grid chan_width place_cost_exp
            fac1).chany_place_cost_fac (size_t_of_int b.xmax) (size_t_of_int (b.xmin - 1))) ∧
    (∀ (nl : ClusteredNetlist) (net_id : Nat),
      1 ≤ (nl.net_pins net_id).length ∧
      ((nl.net_pins net_id).length ≤ 50 →
        ((nl.net_pins net_id).length + 2 ^ 64 - 1) % 2 ^ 64 = (nl.net_pins net_id).length - 1 ∧
        (nl.net_pins net_id).length - 1 ≤ 49 ∧
        cross_count.get? ((nl.net_pins net_id).length - 1)
          = some (wirelength_crossing_count (nl.net_pins net_id).length)) ∧
      (50 < (nl.net_pins net_id).length →
        wirelength_crossing_count (nl.net_pins net_id).length
          = 2.7933 + 0.02616 * ((((nl.net_pins net_id).length - 50 : Nat)) : ℚ))) ∧
    (∀ (nl : ClusteredNetlist) (grid : DeviceGrid) (todo : List (t_pl_moved_block × Nat))
      (acc : PlacerState × Nat) (n : Nat), 3 ≤ grid.width → 3 ≤ grid.height →
      GridInv grid acc n →
      GridInv grid (todo.foldl (fun a mp => affected_pin_step nl grid mp.1 a mp.2) acc) n) := by
  refine ⟨?_, ?_, ?_, ?_, fun nl grid todo acc n hW hH h =>
    affected_fold_gridInv nl grid hW hH n todo acc h⟩
  · intro nl grid L net_id cnt hW hH
    exact ⟨get_non_updateable_bb_in_grid nl grid L net_id cnt hW hH,
      get_bb_from_scratch_in_grid nl grid L net_id cnt hW hH⟩
  · intro nl grid s net_id po pn sp hW hH hN hU
    exact update_bb_in_grid nl grid s net_id po pn sp hW hH hN hU
  · intro grid b hW hH hb
    have hl := bb_in_grid_lookup grid b hW hH hb
    refine ⟨hl, ?_⟩
    obtain ⟨_, _, l3, l4, _, _, l7, l8⟩ := hl
    intro pow cw e fac0 fac1
    unfold alloc_and_load_for_fast_cost_update
    dsimp only
    rw [channel_factor_entry pow e grid.height cw.x_list _ _ _ l3 l4,
      channel_factor_entry pow e grid.height cw.x_list _ _ _ l3 l4,
      channel_factor_entry pow e grid.width cw.y_list _ _ _ l7 l8,
      channel_factor_entry pow e grid.width cw.y_list _ _ _ l7 l8]
    exact ⟨rfl, rfl⟩
  · intro nl net_id
    have hlen : 1 ≤ (nl.net_pins net_id).length := by
      unfold ClusteredNetlist.net_pins
      rw [List.length_cons]
      omega
    refine ⟨hlen, ?_, ?_⟩
    · intro h50
      generalize (nl.net_pins net_id).length = n at hlen h50
      have hidx : (n + 2 ^ 64 - 1) % 2 ^ 64 = n - 1 := by omega
      have hlt : n - 1 < cross_count.length := by rw [cross_count_length]; omega
      refine ⟨hidx, by omega, ?_⟩
      unfold wirelength_crossing_count
      rw [if_neg (by omega), hidx, List.getD_eq_getElem _ _ hlt, List.get?_eq_getElem?,
        List.getElem?_eq_getElem hlt]
    · intro h50
      unfold wirelength_crossing_count
      rw [if_pos h50]

end Place
